import Mathlib

/-!
# microui (actondev fork): a shallow embedding of `src/src/microui/microui.cpp`

Conventions of the embedding.

* `mu_Id` (`unsigned`) is a `Nat`; the one place where unsigned arithmetic wraps, the
  FNV-1a step of `hash`, reduces modulo `2^32` explicitly.
* `int` is `Int` (signed overflow is undefined behaviour in the source, so no wrapping is
  modelled); bit masks (`opt`, mouse buttons, keys, event types) are `Nat`.
* `std::vector` is a `List` whose last element is `back()`; `push_back` appends.
* `expect(..)` failing calls `abort()`: every operation that can reach a failing `expect`
  returns an `Option`, and `none` is the fatal error.
* A `mu_Container *` is the index of the record in `ctx.containers`; `nullptr` is `none`.
* Calls into the drawing backend (`vgir_*`) change nothing in `mu_Context`; the drawing
  helpers are kept for the `expect`s they can reach and return `Option Unit`.
-/

namespace Microui

/-! ## Constants of `microui.hpp` -/

def MU_ROOTLIST_SIZE : Nat := 32
def MU_CONTAINERSTACK_SIZE : Nat := 32
def MU_CLIPSTACK_SIZE : Nat := 32
def MU_IDSTACK_SIZE : Nat := 32
def MU_LAYOUTSTACK_SIZE : Nat := 16
def MU_CONTAINERPOOL_SIZE : Nat := 48
def MU_TREENODEPOOL_SIZE : Nat := 48
def MU_MAX_WIDTHS : Nat := 16

def MU_CLIP_PART : Nat := 1
def MU_CLIP_ALL : Nat := 2

def MU_ICON_CLOSE : Int := 1
def MU_ICON_RESIZE : Int := 2
def MU_ICON_CHECK : Int := 3
def MU_ICON_COLLAPSED : Int := 4
def MU_ICON_EXPANDED : Int := 5
def MU_ICON_MAX : Int := 6

def MU_RES_ACTIVE : Nat := 1
def MU_RES_SUBMIT : Nat := 2
def MU_RES_CHANGE : Nat := 4

def MU_OPT_ALIGNCENTER : Nat := 1
def MU_OPT_ALIGNRIGHT : Nat := 2
def MU_OPT_NOINTERACT : Nat := 4
def MU_OPT_NOFRAME : Nat := 8
def MU_OPT_NORESIZE : Nat := 16
def MU_OPT_NOSCROLL : Nat := 32
def MU_OPT_NOCLOSE : Nat := 64
def MU_OPT_NOTITLE : Nat := 128
def MU_OPT_HOLDFOCUS : Nat := 256
def MU_OPT_AUTOSIZE : Nat := 512
def MU_OPT_POPUP : Nat := 1024
def MU_OPT_CLOSED : Nat := 2048
def MU_OPT_EXPANDED : Nat := 4096
def MU_OPT_FIXED_SIZE : Nat := 8192

def MU_MOUSE_LEFT : Nat := 1
def MU_MOUSE_RIGHT : Nat := 2
def MU_MOUSE_MIDDLE : Nat := 4

def MU_KEY_SHIFT : Nat := 1
def MU_KEY_CTRL : Nat := 2
def MU_KEY_ALT : Nat := 4
def MU_KEY_BACKSPACE : Nat := 8
def MU_KEY_RETURN : Nat := 16
def MU_KEY_TAB : Nat := 32

/-- Modelled from the spec: the enumerators of `mu_EventType`, whose declaration is in a
header that is not under src/; the source only uses them as bit masks (`a | b`,
`handler.type & event.type`), so they are distinct single bits. -/
def MOUSEMOVE : Nat := 1
/-- Modelled from the spec: see `MOUSEMOVE`. -/
def MOUSEDOWN : Nat := 2
/-- Modelled from the spec: see `MOUSEMOVE`. -/
def MOUSEUP : Nat := 4
/-- Modelled from the spec: see `MOUSEMOVE`. -/
def KEYDOWN : Nat := 8
/-- Modelled from the spec: see `MOUSEMOVE`. -/
def KEYUP : Nat := 16
/-- Modelled from the spec: see `MOUSEMOVE`. -/
def KEYPRESS : Nat := 32

/-- The test `x & m` of the source, for bit masks. -/
def has_flag (x m : Nat) : Bool := (x &&& m) != 0

/-- The value `x & ~m` of the source on 32-bit masks (`~m` is `m` xor `0xffffffff`). -/
def clear_flag (x m : Nat) : Nat := x &&& (4294967295 ^^^ m)

/-- The macro `mu_min`. -/
def mu_min (a b : Int) : Int := if a < b then a else b

/-- The macro `mu_max`. -/
def mu_max (a b : Int) : Int := if a > b then a else b

/-- The macro `mu_clamp(x, a, b)`, which is `mu_min(b, mu_max(a, x))`. -/
def mu_clamp (x a b : Int) : Int := mu_min b (mu_max a x)

/-! ## Data model -/

/-- One `unsigned char` of a hashed payload. -/
abbrev uchar : Type := Fin 256

structure mu_Vec2 where
  x : Int
  y : Int
deriving DecidableEq, Repr, Inhabited

structure mu_Rect where
  x : Int
  y : Int
  w : Int
  h : Int
deriving DecidableEq, Repr, Inhabited

/-- Modelled from the spec: the type `mu_Box` of `style->padding`, whose declaration is
not under src/; the source reads its fields `left`, `right`, `top` and `bottom`. -/
structure mu_Box where
  left : Int
  top : Int
  right : Int
  bottom : Int
deriving DecidableEq, Repr, Inhabited

structure mu_PoolItem where
  id : Nat
  last_update : Int
deriving DecidableEq, Repr, Inhabited

structure mu_Layout where
  body : mu_Rect
  next : mu_Rect
  position : mu_Vec2
  size : mu_Vec2
  max : mu_Vec2
  widths : List Int
  items : Int
  item_index : Int
  next_row : Int
  next_type : Int
  next_size : Option mu_Vec2
  indent : Int
deriving DecidableEq, Repr, Inhabited

/-- The record `mu_Container`; `id` is the field the code of `microui.cpp` writes in
`get_container`. The two backend jump markers are not modelled. -/
structure mu_Container where
  rect : mu_Rect
  body : mu_Rect
  content_size : mu_Vec2
  scroll : mu_Vec2
  zindex : Int
  open_ : Int
  id : Nat
deriving DecidableEq, Repr, Inhabited

/-- The fields of `mu_Style` that the engine computes with, in the shape `default_style`
of `microui.cpp` gives them (`padding` is a box, `margin` a vector). -/
structure mu_Style where
  font : Int
  font_size : Int
  icon_font : Int
  icon_font_size : Int
  size : mu_Vec2
  padding : mu_Box
  margin : mu_Vec2
  indent : Int
  title_height : Int
  footer_height : Int
  scrollbar_size : Int
  thumb_size : Int
  border_alpha : Nat
deriving DecidableEq, Repr, Inhabited

/-- Payload of an event, the union of `struct Event`. -/
inductive mu_EventData where
  | key (key : Nat)
  | mousebutton (button : Nat)
  | mousemove (x y dx dy : Int)
deriving DecidableEq, Repr, Inhabited

structure mu_Event where
  type : Nat
  data : mu_EventData
deriving DecidableEq, Repr, Inhabited

/-- A registered handler; the callback is a function of the event that reports whether it
handled it. -/
structure EventHandlerWrapper where
  container_id : Nat
  type : Nat
  fn : mu_Event → Bool

structure mu_Context where
  text_width : Option (Int → Int → List uchar → Int)
  text_height : Option (Int → Int → Int)
  style : mu_Style
  hover : Nat
  focus : Nat
  last_focus : Nat
  should_focus_next : Bool
  prev_id : Nat
  cur_id : Nat
  last_rect : mu_Rect
  last_zindex : Int
  updated_focus : Bool
  frame : Int
  hover_root : Option Nat
  next_hover_root : Option Nat
  scroll_target : Option Nat
  root_list : List Nat
  container_stack : List Nat
  clip_stack : List mu_Rect
  id_stack : List Nat
  layout_stack : List mu_Layout
  hovered_container_stack : List Nat
  focus_stack : List Nat
  events : List mu_Event
  event_handlers : List EventHandlerWrapper
  global_event_handlers : List EventHandlerWrapper
  container_pool : List mu_PoolItem
  containers : List mu_Container
  treenode_pool : List mu_PoolItem
  mouse_pos : mu_Vec2
  last_mouse_pos : mu_Vec2
  mouse_delta : mu_Vec2
  scroll_delta : mu_Vec2
  mouse_down : Nat
  mouse_pressed : Nat
  key_down : Nat
  key_pressed : Nat
  input_text : List uchar

def mu_vec2 (x y : Int) : mu_Vec2 := { x := x, y := y }

def mu_rect (x y w h : Int) : mu_Rect := { x := x, y := y, w := w, h := h }

def unclipped_rect : mu_Rect := mu_rect 0 0 16777216 16777216

def default_style : mu_Style :=
  { font := -1
    font_size := 12
    icon_font := -1
    icon_font_size := 12
    size := mu_vec2 68 44
    padding := { left := 0, top := 0, right := 0, bottom := 0 }
    margin := mu_vec2 10 10
    indent := 24
    title_height := 24
    footer_height := 20
    scrollbar_size := 12
    thumb_size := 8
    border_alpha := 255 }

/-- Storage that reads as zero: every member of `mu_Context` is zero, null or empty, and
the two pools and `containers` have their declared sizes. The style is given as the default
style; the constructor overwrites it. -/
def zeroed_storage : mu_Context :=
  { text_width := none
    text_height := none
    style := default_style
    hover := 0
    focus := 0
    last_focus := 0
    should_focus_next := false
    prev_id := 0
    cur_id := 0
    last_rect := mu_rect 0 0 0 0
    last_zindex := 0
    updated_focus := false
    frame := 0
    hover_root := none
    next_hover_root := none
    scroll_target := none
    root_list := []
    container_stack := []
    clip_stack := []
    id_stack := []
    layout_stack := []
    hovered_container_stack := []
    focus_stack := []
    events := []
    event_handlers := []
    global_event_handlers := []
    container_pool := List.replicate MU_CONTAINERPOOL_SIZE { id := 0, last_update := 0 }
    containers := List.replicate MU_CONTAINERPOOL_SIZE default
    treenode_pool := List.replicate MU_TREENODEPOOL_SIZE { id := 0, last_update := 0 }
    mouse_pos := mu_vec2 0 0
    last_mouse_pos := mu_vec2 0 0
    mouse_delta := mu_vec2 0 0
    scroll_delta := mu_vec2 0 0
    mouse_down := 0
    mouse_pressed := 0
    key_down := 0
    key_pressed := 0
    input_text := [] }

/-- The function `mu_init`: `new mu_Context(vgir)` on the storage the allocator returned.
The member initialisers and the constructor write the members below (the vectors are
empty, the style is the default style). The members without an initialiser keep what the
storage held: the two text callbacks, `last_rect`, `container_pool`, `containers`,
`treenode_pool`, the mouse position, last position and delta, the scroll delta and
`input_text`. -/
def mu_init (storage : mu_Context) : mu_Context :=
  { storage with
    style := default_style
    hover := 0
    focus := 0
    last_focus := 0
    should_focus_next := false
    prev_id := 0
    cur_id := 0
    last_zindex := 0
    updated_focus := false
    frame := 0
    hover_root := none
    next_hover_root := none
    scroll_target := none
    root_list := []
    container_stack := []
    clip_stack := []
    id_stack := []
    layout_stack := []
    hovered_container_stack := []
    focus_stack := []
    events := []
    event_handlers := []
    global_event_handlers := []
    mouse_down := 0
    mouse_pressed := 0
    key_down := 0
    key_pressed := 0 }

/-- The context `mu_init` returns on storage that reads as zero: the text callbacks are
unset until `mu_set_text_width_cb` and `mu_set_text_height_cb`, and the pools and the
containers hold zeros. -/
def fresh_context : mu_Context := mu_init zeroed_storage

def mu_set_text_width_cb (ctx : mu_Context) (cb : Int → Int → List uchar → Int) : mu_Context :=
  { ctx with text_width := some cb }

def mu_set_text_height_cb (ctx : mu_Context) (cb : Int → Int → Int) : mu_Context :=
  { ctx with text_height := some cb }

/-! ## Stacks -/

/-- The template `push`: `stk.push_back(val)`. -/
def push {α : Type} (stk : List α) (val : α) : List α := stk ++ [val]

/-- The template `pop`: `expect(!stk.empty())`, then `stk.pop_back()`. -/
def pop {α : Type} (stk : List α) : Option (List α) :=
  if stk.isEmpty then none else some stk.dropLast

/-! ## Identity -/

def HASH_INITIAL : Nat := 2166136261

/-- The loop of `hash`: `while(size--) *hash = (*hash ^ *p++) * 16777619`, on `unsigned`. -/
def hash : Nat → List uchar → Nat
  | h, [] => h
  | h, p :: rest => hash (((h ^^^ p.val) * 16777619) % 4294967296) rest

/-- The function `mu_get_id`; `data` holds the `size` bytes at the pointer. Returns the
identity and the context with `prev_id` and `cur_id` updated. -/
def mu_get_id (ctx : mu_Context) (data : List uchar) : Nat × mu_Context :=
  let idx := ctx.id_stack.length
  let res := if idx > 0 then ctx.id_stack.getD (idx - 1) 0 else HASH_INITIAL
  let res := hash res data
  (res, { ctx with prev_id := ctx.cur_id, cur_id := res })

/-- The overload `mu_push_id(ctx, id)`. -/
def mu_push_id (ctx : mu_Context) (id : Nat) : mu_Context :=
  { ctx with id_stack := push ctx.id_stack id }

/-- The overload `mu_push_id(ctx, data, size)`. -/
def mu_push_id_data (ctx : mu_Context) (data : List uchar) : mu_Context :=
  let r := mu_get_id ctx data
  mu_push_id r.2 r.1

def mu_pop_id (ctx : mu_Context) : Option mu_Context :=
  match pop ctx.id_stack with
  | none => none
  | some stk => some { ctx with id_stack := stk }

def mu_get_current_id (ctx : mu_Context) : Nat := ctx.cur_id

/-- An argument of one `mu_push_id` call: a raw identity or a byte payload. -/
inductive PushArg where
  | raw (id : Nat)
  | bytes (data : List uchar)

/-- One `mu_push_id` call with the given argument. -/
def push_id_arg (ctx : mu_Context) : PushArg → mu_Context
  | PushArg.raw id => mu_push_id ctx id
  | PushArg.bytes data => mu_push_id_data ctx data

/-- The pushes of `args`, in order. -/
def push_ids (ctx : mu_Context) (args : List PushArg) : mu_Context :=
  args.foldl push_id_arg ctx

/-- A run of `n` calls of `mu_pop_id`; fatal as soon as one of them is. -/
def pop_ids : Nat → mu_Context → Option mu_Context
  | 0, ctx => some ctx
  | n + 1, ctx =>
    match mu_pop_id ctx with
    | none => none
    | some ctx1 => pop_ids n ctx1

/-- The fold the specification gives for the identity hash, FNV-1a on 32 bits. -/
def fnv1a_fold (seed : Nat) (d : List uchar) : Nat :=
  d.foldl (fun h b => ((h ^^^ b.val) * 16777619) % 2 ^ 32) seed

/-- The top of the identity stack, or the initial constant when the stack is empty. -/
def id_seed (ctx : mu_Context) : Nat :=
  match ctx.id_stack.getLast? with
  | some top => top
  | none => 2166136261

/-! ## Retained pool -/

/-- The loop of `mu_pool_init` from index `i` on: `f` is the smallest `last_update` seen
below the frame number so far and `n` the index where it was seen (`-1` for none). -/
def pool_init_loop : List mu_PoolItem → Nat → Int → Int → Int × Int
  | [], _, f, n => (f, n)
  | it :: rest, i, f, n =>
    if it.last_update < f then pool_init_loop rest (i + 1) it.last_update (i : Int)
    else pool_init_loop rest (i + 1) f n

/-- The function `mu_pool_update`. -/
def mu_pool_update (ctx : mu_Context) (items : List mu_PoolItem) (idx : Nat) : List mu_PoolItem :=
  items.modify (fun it => { it with last_update := ctx.frame }) idx

/-- The function `mu_pool_init` on the array `items` (`len` is its length): the index of
the slot taken and the array after the call, `none` when `expect(n > -1)` fails. -/
def mu_pool_init (ctx : mu_Context) (items : List mu_PoolItem) (id : Nat) :
    Option (Nat × List mu_PoolItem) :=
  let n := (pool_init_loop items 0 ctx.frame (-1)).2
  if n > -1 then
    let items1 := items.modify (fun it => { it with id := id }) n.toNat
    some (n.toNat, mu_pool_update ctx items1 n.toNat)
  else none

/-- The loop of `mu_pool_get` from index `i` on. -/
def pool_get_loop : List mu_PoolItem → Nat → Nat → Int
  | [], _, _ => -1
  | it :: rest, i, id => if it.id = id then (i : Int) else pool_get_loop rest (i + 1) id

/-- The function `mu_pool_get`: the index of the first slot holding `id`, or `-1`. -/
def mu_pool_get (items : List mu_PoolItem) (id : Nat) : Int :=
  pool_get_loop items 0 id

/-! ## Geometry -/

/-- The overload `expand_rect(rect, n)`. -/
def expand_rect (rect : mu_Rect) (n : Int) : mu_Rect :=
  mu_rect (rect.x - n) (rect.y - n) (rect.w + n * 2) (rect.h + n * 2)

/-- The overload `expand_rect(rect, box)`, as written in the source. -/
def expand_rect_box (rect : mu_Rect) (box : mu_Box) : mu_Rect :=
  mu_rect (rect.x - box.top) (rect.y - box.top) (rect.w + box.left + box.right)
    (rect.h + box.top + box.bottom)

def intersect_rects (r1 r2 : mu_Rect) : mu_Rect :=
  let x1 := mu_max r1.x r2.x
  let y1 := mu_max r1.y r2.y
  let x2 := mu_min (r1.x + r1.w) (r2.x + r2.w)
  let y2 := mu_min (r1.y + r1.h) (r2.y + r2.h)
  let x2 := if x2 < x1 then x1 else x2
  let y2 := if y2 < y1 then y1 else y2
  mu_rect x1 y1 (x2 - x1) (y2 - y1)

def rect_overlaps_vec2 (r : mu_Rect) (p : mu_Vec2) : Bool :=
  decide (p.x ≥ r.x) && decide (p.x < r.x + r.w) && decide (p.y ≥ r.y) && decide (p.y < r.y + r.h)

/-- The member `data[i]` of the union `mu_Vec2`. -/
def vec2_data (v : mu_Vec2) (i : Nat) : Int := if i = 0 then v.x else v.y

/-- Assignment to `data[i]` of a `mu_Vec2`. -/
def vec2_set_data (v : mu_Vec2) (i : Nat) (a : Int) : mu_Vec2 :=
  if i = 0 then { v with x := a } else { v with y := a }

/-- The member `data[i]` of the union `mu_Rect`. -/
def rect_data (r : mu_Rect) (i : Nat) : Int :=
  if i = 0 then r.x else if i = 1 then r.y else if i = 2 then r.w else r.h

/-- Assignment to `data[i]` of a `mu_Rect`. -/
def rect_set_data (r : mu_Rect) (i : Nat) (a : Int) : mu_Rect :=
  if i = 0 then { r with x := a } else if i = 1 then { r with y := a }
  else if i = 2 then { r with w := a } else { r with h := a }

/-! ## Containers of the pool -/

/-- The record a container pointer points to. -/
def get_cnt (ctx : mu_Context) (cnt : Nat) : mu_Container := ctx.containers.getD cnt default

/-- A write through a container pointer. -/
def set_cnt (ctx : mu_Context) (cnt : Nat) (f : mu_Container → mu_Container) : mu_Context :=
  { ctx with containers := List.modify f cnt ctx.containers }

/-- The record `memset(cnt, 0, sizeof(*cnt))` leaves. -/
def zero_container : mu_Container :=
  { rect := mu_rect 0 0 0 0, body := mu_rect 0 0 0 0, content_size := mu_vec2 0 0,
    scroll := mu_vec2 0 0, zindex := 0, open_ := 0, id := 0 }

def mu_bring_to_front (ctx : mu_Context) (cnt : Nat) : mu_Context :=
  let ctx1 := { ctx with last_zindex := ctx.last_zindex + 1 }
  set_cnt ctx1 cnt (fun c => { c with zindex := ctx1.last_zindex })

/-- The function `get_container`: `none` is the fatal error of `mu_pool_init`; otherwise the
pointer returned (`none` for `nullptr`) and the context after the call. -/
def get_container (ctx : mu_Context) (id : Nat) (opt : Nat) : Option (Option Nat × mu_Context) :=
  let idx := mu_pool_get ctx.container_pool id
  if idx ≥ 0 then
    let ctx1 :=
      if (get_cnt ctx idx.toNat).open_ ≠ 0 ∨ ¬ has_flag opt MU_OPT_CLOSED = true then
        { ctx with container_pool := mu_pool_update ctx ctx.container_pool idx.toNat }
      else ctx
    some (some idx.toNat, set_cnt ctx1 idx.toNat (fun c => { c with id := id }))
  else if has_flag opt MU_OPT_CLOSED then some (none, ctx)
  else
    match mu_pool_init ctx ctx.container_pool id with
    | none => none
    | some (n, pool) =>
      let ctx1 := { ctx with container_pool := pool }
      let ctx2 := set_cnt ctx1 n (fun _ => { zero_container with open_ := 1, id := id })
      some (some n, mu_bring_to_front ctx2 n)

def mu_get_container (ctx : mu_Context) (name : List uchar) : Option (Option Nat × mu_Context) :=
  let r := mu_get_id ctx name
  get_container r.2 r.1 0

def mu_get_current_container (ctx : mu_Context) : Option Nat := ctx.container_stack.getLast?

/-! ## Clip stack -/

/-- The function `mu_get_clip_rect`: `expect(!ctx->clip_stack.empty())`, then `back()`. -/
def mu_get_clip_rect (ctx : mu_Context) : Option mu_Rect := ctx.clip_stack.getLast?

def mu_push_clip_rect (ctx : mu_Context) (rect : mu_Rect) : Option mu_Context :=
  match mu_get_clip_rect ctx with
  | none => none
  | some last => some { ctx with clip_stack := push ctx.clip_stack (intersect_rects rect last) }

def mu_pop_clip_rect (ctx : mu_Context) : Option mu_Context :=
  match pop ctx.clip_stack with
  | none => none
  | some stk => some { ctx with clip_stack := stk }

/-- The values of `int`: 32 bits, two's complement. -/
def fits_int (n : Int) : Prop := -2147483648 ≤ n ∧ n ≤ 2147483647

instance (n : Int) : Decidable (fits_int n) := by
  unfold fits_int
  infer_instance

/-- The sum `a + b` of two `int`s as the compiled code computes it: the sum when it is a
value of `int`, and otherwise the sum wrapped around on 32 bits. -/
def int_add (a b : Int) : Int := (a + b + 2147483648) % 4294967296 - 2147483648

/-- The function `mu_check_clip`; the edge sums `x + w` and `y + h` are `int` sums. -/
def mu_check_clip (ctx : mu_Context) (r : mu_Rect) : Option Nat :=
  match mu_get_clip_rect ctx with
  | none => none
  | some cr =>
    if r.x > int_add cr.x cr.w ∨ int_add r.x r.w < cr.x ∨ r.y > int_add cr.y cr.h
        ∨ int_add r.y r.h < cr.y then
      some MU_CLIP_ALL
    else if r.x ≥ cr.x ∧ int_add r.x r.w ≤ int_add cr.x cr.w ∧ r.y ≥ cr.y
        ∧ int_add r.y r.h ≤ int_add cr.y cr.h then
      some 0
    else some MU_CLIP_PART

/-! ## Drawing: only the checks that can abort -/

def MU_COLOR_TEXT : Int := 0
def MU_COLOR_WINDOWBG : Int := 2
def MU_COLOR_TITLEBG : Int := 3
def MU_COLOR_FOOTERBG : Int := 4
def MU_COLOR_TITLETEXT : Int := 5
def MU_COLOR_PANELBG : Int := 6
def MU_COLOR_BUTTON : Int := 7
def MU_COLOR_BASE : Int := 10
def MU_COLOR_SCROLLBASE : Int := 13
def MU_COLOR_SCROLLTHUMB : Int := 14

/-- The function `mu_draw_rect`: it reads the clip rectangle and then only draws. -/
def mu_draw_rect (ctx : mu_Context) (_rect : mu_Rect) : Option Unit :=
  match mu_get_clip_rect ctx with
  | none => none
  | some _ => some ()

/-- The function `mu_draw_box`: it reads the clip rectangle and then only draws. -/
def mu_draw_box (ctx : mu_Context) (_rect : mu_Rect) : Option Unit :=
  match mu_get_clip_rect ctx with
  | none => none
  | some _ => some ()

/-- The function `mu_draw_text`: it calls both text callbacks (a null callback is fatal),
classifies the text rectangle with `mu_check_clip`, and then only draws. -/
def mu_draw_text (ctx : mu_Context) (font font_size : Int) (str : List uchar) (pos : mu_Vec2) :
    Option Unit :=
  match ctx.text_width, ctx.text_height with
  | some tw, some th =>
    match mu_check_clip ctx (mu_rect pos.x pos.y (tw font font_size str) (th font font_size)) with
    | none => none
    | some _ => some ()
  | _, _ => none

/-- The function `mu_draw_icon`; `expect(text)` fails for an icon id outside 1..6, and the
icon strings of the style are taken as empty. -/
def mu_draw_icon (ctx : mu_Context) (id : Int) (rect : mu_Rect) : Option Unit :=
  match mu_check_clip ctx rect with
  | none => none
  | some clipped =>
    if clipped = MU_CLIP_ALL then some ()
    else if 1 ≤ id ∧ id ≤ 6 then
      match ctx.text_width, ctx.text_height with
      | some tw, some th =>
        mu_draw_text ctx ctx.style.icon_font ctx.style.icon_font_size []
          (mu_vec2
            (rect.x + Int.tdiv (rect.w - tw ctx.style.icon_font ctx.style.icon_font_size []) 2)
            (rect.y + Int.tdiv (rect.h - th ctx.style.icon_font ctx.style.icon_font_size) 2))
      | _, _ => none
    else none

/-- The function `default_draw_frame`, the only value `ctx->draw_frame` takes. -/
def default_draw_frame (ctx : mu_Context) (rect : mu_Rect) (colorid : Int) : Option Unit :=
  match mu_draw_rect ctx rect with
  | none => none
  | some _ =>
    if colorid = MU_COLOR_SCROLLBASE ∨ colorid = MU_COLOR_SCROLLTHUMB ∨ colorid = MU_COLOR_TITLEBG
    then some ()
    else if ctx.style.border_alpha ≠ 0 then mu_draw_box ctx (expand_rect rect 1)
    else some ()

def mu_draw_control_frame (ctx : mu_Context) (id : Nat) (rect : mu_Rect) (colorid : Int)
    (opt : Nat) : Option Unit :=
  if has_flag opt MU_OPT_NOFRAME then some ()
  else
    default_draw_frame ctx rect
      (colorid + (if ctx.focus = id then 2 else if ctx.hover = id then 1 else 0))

def has_focus (ctx : mu_Context) (id : Nat) : Bool :=
  (ctx.focus != 0 && ctx.focus == id) || ctx.last_focus == id

def draw_focus (ctx : mu_Context) (id : Nat) (rect : mu_Rect) : Option Unit :=
  if has_focus ctx id then mu_draw_box ctx rect else some ()

/-- The function `mu_draw_control_text`: the text is drawn inside a clip rectangle that is
pushed before and popped after. -/
def mu_draw_control_text (ctx : mu_Context) (str : List uchar) (rect : mu_Rect) (opt : Nat) :
    Option mu_Context :=
  match ctx.text_width, ctx.text_height with
  | some tw, some th =>
    match mu_push_clip_rect ctx rect with
    | none => none
    | some ctx1 =>
      let font := ctx.style.font
      let font_size := ctx.style.font_size
      let posy := rect.y + Int.tdiv (rect.h - th font font_size) 2
      let posx :=
        if has_flag opt MU_OPT_ALIGNCENTER then rect.x + Int.tdiv (rect.w - tw font font_size str) 2
        else if has_flag opt MU_OPT_ALIGNRIGHT then
          rect.x + rect.w - tw font font_size str - ctx.style.padding.left
        else rect.x + ctx.style.padding.left
      match mu_draw_text ctx1 font font_size str (mu_vec2 posx posy) with
      | none => none
      | some _ => mu_pop_clip_rect ctx1
  | _, _ => none

/-! ## Layout -/

def RELATIVE : Int := 1
def ABSOLUTE : Int := 2

/-- The layout `mu_get_layout` points to, the top of the layout stack. -/
def mu_get_layout (ctx : mu_Context) : Option mu_Layout := ctx.layout_stack.getLast?

/-- A write through the pointer `mu_get_layout` returned. -/
def set_layout (ctx : mu_Context) (layout : mu_Layout) : mu_Context :=
  { ctx with layout_stack := ctx.layout_stack.dropLast ++ [layout] }

/-- The body of `mu_layout_row` on the layout it points to; `widths` is `none` for a null
pointer, and `expect(items <= MU_MAX_WIDTHS)` guards the copy. -/
def layout_row (layout : mu_Layout) (items : Int) (widths : Option (List Int)) (height : Int) :
    Option mu_Layout :=
  let copied : Option mu_Layout :=
    match widths with
    | none => some layout
    | some ws =>
      if items ≤ (MU_MAX_WIDTHS : Int) then
        some { layout with
          widths := ws.take items.toNat ++ layout.widths.drop items.toNat }
      else none
  match copied with
  | none => none
  | some l =>
    some { l with
      items := items
      position := mu_vec2 l.indent l.next_row
      size := { l.size with y := height }
      item_index := 0 }

def mu_layout_row (ctx : mu_Context) (items : Int) (widths : Option (List Int)) (height : Int) :
    Option mu_Context :=
  match mu_get_layout ctx with
  | none => none
  | some layout =>
    match layout_row layout items widths height with
    | none => none
    | some l => some (set_layout ctx l)

def mu_layout_width (ctx : mu_Context) (width : Int) : Option mu_Context :=
  match mu_get_layout ctx with
  | none => none
  | some layout => some (set_layout ctx { layout with size := { layout.size with x := width } })

def mu_layout_height (ctx : mu_Context) (height : Int) : Option mu_Context :=
  match mu_get_layout ctx with
  | none => none
  | some layout => some (set_layout ctx { layout with size := { layout.size with y := height } })

def mu_layout_set_next (ctx : mu_Context) (r : mu_Rect) (relative : Int) : Option mu_Context :=
  match mu_get_layout ctx with
  | none => none
  | some layout =>
    some (set_layout ctx
      { layout with next := r, next_type := if relative ≠ 0 then RELATIVE else ABSOLUTE })

def mu_layout_set_next_size (ctx : mu_Context) (size : mu_Vec2) : Option mu_Context :=
  match mu_get_layout ctx with
  | none => none
  | some layout => some (set_layout ctx { layout with next_size := some size })

/-- The layout a default-constructed `mu_Layout` holds. -/
def empty_layout : mu_Layout :=
  { body := mu_rect 0 0 0 0, next := mu_rect 0 0 0 0, position := mu_vec2 0 0,
    size := mu_vec2 0 0, max := mu_vec2 0 0, widths := List.replicate MU_MAX_WIDTHS 0,
    items := 0, item_index := 0, next_row := 0, next_type := 0, next_size := none, indent := 0 }

def push_layout (ctx : mu_Context) (body : mu_Rect) (scroll : mu_Vec2) : Option mu_Context :=
  let layout : mu_Layout :=
    { empty_layout with
      body := mu_rect (body.x - scroll.x) (body.y - scroll.y) body.w body.h
      max := mu_vec2 (-16777216) (-16777216) }
  mu_layout_row { ctx with layout_stack := push ctx.layout_stack layout } 1 (some [0]) 0

/-- The part of `mu_layout_next` after the branch on `next_type`: update position, apply
the body offset, update the max position. -/
def layout_next_tail (style : mu_Style) (layout : mu_Layout) (res : mu_Rect) :
    mu_Rect × mu_Layout :=
  let layout1 := { layout with
    position := { layout.position with x := layout.position.x + (res.w + style.margin.x * 2) }
    next_row := mu_max layout.next_row (res.y + res.h + style.margin.y) }
  let res1 := { res with x := res.x + layout1.body.x, y := res.y + layout1.body.y }
  let layout2 := { layout1 with
    max := mu_vec2 (mu_max layout1.max.x (res1.x + res1.w)) (mu_max layout1.max.y (res1.y + res1.h)) }
  (res1, layout2)

/-- The branch of `mu_layout_next` taken when no rect was set by `mu_layout_set_next`:
next row when the row is exhausted, position, size, margins, and the item counter. -/
def layout_next_cell (style : mu_Style) (layout : mu_Layout) : mu_Rect × mu_Layout :=
  let layout1 :=
    if layout.item_index = layout.items then
      match layout_row layout layout.items none layout.size.y with
      | some l => l
      | none => layout
    else layout
  let resx := layout1.position.x + style.margin.x
  let resy := layout1.position.y + style.margin.y
  let sized : (Int × Int) × mu_Layout :=
    match layout1.next_size with
    | some next_size => ((next_size.x, next_size.y), { layout1 with next_size := none })
    | none =>
      ((if layout1.items > 0 then layout1.widths.getD layout1.item_index.toNat 0
          else layout1.size.x, layout1.size.y), layout1)
  let layout2 := sized.2
  let w := sized.1.1
  let h := sized.1.2
  let w := if w = 0 then style.size.x + style.padding.left + style.padding.right else w
  let h := if h = 0 then style.size.y + style.padding.top + style.padding.bottom else h
  let w := if w < 0 then w + (layout2.body.w - resx + 1) else w
  let h := if h < 0 then h + (layout2.body.h - resy + 1) else h
  let w := w - style.margin.x * 2
  let h := h - style.margin.y * 2
  (mu_rect resx resy w h, { layout2 with item_index := layout2.item_index + 1 })

def mu_layout_next (ctx : mu_Context) : Option (mu_Rect × mu_Context) :=
  match mu_get_layout ctx with
  | none => none
  | some layout =>
    if layout.next_type ≠ 0 then
      let type := layout.next_type
      let layout1 := { layout with next_type := 0 }
      let res := layout1.next
      if type = ABSOLUTE then some (res, { set_layout ctx layout1 with last_rect := res })
      else
        let r := layout_next_tail ctx.style layout1 res
        some (r.1, { set_layout ctx r.2 with last_rect := r.1 })
    else
      let c := layout_next_cell ctx.style layout
      let r := layout_next_tail ctx.style c.2 c.1
      some (r.1, { set_layout ctx r.2 with last_rect := r.1 })

/-! ## Columns and runs of layout calls -/

def mu_layout_begin_column (ctx : mu_Context) : Option mu_Context :=
  match mu_layout_next ctx with
  | none => none
  | some (r, ctx1) => push_layout ctx1 r (mu_vec2 0 0)

/-- The function `mu_layout_end_column`: `b` is the child frame on top, `a` the frame
under it, which is on top after the pop. -/
def mu_layout_end_column (ctx : mu_Context) : Option mu_Context :=
  match mu_get_layout ctx with
  | none => none
  | some b =>
    match pop ctx.layout_stack with
    | none => none
    | some stk =>
      let ctx1 := { ctx with layout_stack := stk }
      match mu_get_layout ctx1 with
      | none => none
      | some a =>
        some (set_layout ctx1
          { a with
            position := { a.position with
              x := mu_max a.position.x (b.position.x + b.body.x - a.body.x) }
            next_row := mu_max a.next_row (b.next_row + b.body.y - a.body.y)
            max := mu_vec2 (mu_max a.max.x b.max.x) (mu_max a.max.y b.max.y) })

/-- A run of `n` calls of `mu_layout_next`: the rects returned, in order, and the context
after the last call. -/
def layout_nexts : Nat → mu_Context → Option (List mu_Rect × mu_Context)
  | 0, ctx => some ([], ctx)
  | n + 1, ctx =>
    match mu_layout_next ctx with
    | none => none
    | some (r, ctx1) =>
      match layout_nexts n ctx1 with
      | none => none
      | some (rs, ctx2) => some (r :: rs, ctx2)

/-- One layout call on the current frame. -/
inductive LayoutOp where
  | row (items : Int) (widths : Option (List Int)) (height : Int)
  | width (width : Int)
  | height (height : Int)
  | set_next (r : mu_Rect) (relative : Int)
  | set_next_size (size : mu_Vec2)
  | next

def run_layout_op (ctx : mu_Context) : LayoutOp → Option mu_Context
  | LayoutOp.row items widths height => mu_layout_row ctx items widths height
  | LayoutOp.width width => mu_layout_width ctx width
  | LayoutOp.height height => mu_layout_height ctx height
  | LayoutOp.set_next r relative => mu_layout_set_next ctx r relative
  | LayoutOp.set_next_size size => mu_layout_set_next_size ctx size
  | LayoutOp.next =>
    match mu_layout_next ctx with
    | none => none
    | some (_, ctx1) => some ctx1

/-- The layout calls of `ops` in order, fatal as soon as one of them is. -/
def run_layout_ops : mu_Context → List LayoutOp → Option mu_Context
  | ctx, [] => some ctx
  | ctx, op :: rest =>
    match run_layout_op ctx op with
    | none => none
    | some ctx1 => run_layout_ops ctx1 rest

/-- The width a cell configured with `w` gets before the margins are taken off, when `w`
is not negative: the statement `if(res.w == 0) res.w = size.x + padding.left +
padding.right` of `mu_layout_next`. -/
def outer_width (style : mu_Style) (w : Int) : Int :=
  if w = 0 then style.size.x + style.padding.left + style.padding.right else w

/-- The size statements of `mu_layout_next` on one axis, for the configured size `v`: zero
becomes the style default `dflt`, a negative size has `room` added (`body.w - res.x + 1`
or `body.h - res.y + 1`), and the margin is subtracted on both sides. -/
def cell_size (dflt room margin v : Int) : Int :=
  let v := if v = 0 then dflt else v
  let v := if v < 0 then v + room else v
  v - margin * 2

/-- The index in `widths` of the cell the next regular call of `mu_layout_next` returns:
the first cell of a new row when the row is exhausted. -/
def next_cell_index (layout : mu_Layout) : Nat :=
  if layout.item_index = layout.items then 0 else layout.item_index.toNat

/-- The cursor the next regular call of `mu_layout_next` places its cell at: the start of
a new row when the row is exhausted. -/
def next_cell_cursor (layout : mu_Layout) : mu_Vec2 :=
  if layout.item_index = layout.items then mu_vec2 layout.indent layout.next_row
  else layout.position

/-- The regular path of `mu_layout_next` on the layout: the branch without a rect set by
`mu_layout_set_next`, then the common tail. -/
def regular_cell (style : mu_Style) (layout : mu_Layout) : mu_Rect × mu_Layout :=
  layout_next_tail style (layout_next_cell style layout).2 (layout_next_cell style layout).1

/-! ## Controls -/

/-- The function `in_hover_root`: the container stack is searched from the top for the
hover root (a null hover root is found nowhere). -/
def in_hover_root (ctx : mu_Context) : Bool :=
  match ctx.hover_root with
  | none => false
  | some root => ctx.container_stack.reverse.any (fun c => c == root)

/-- The function `mu_mouse_over`; the `&&` chain reads the clip rectangle only when the
mouse is inside `rect`. -/
def mu_mouse_over (ctx : mu_Context) (rect : mu_Rect) : Option Bool :=
  if rect_overlaps_vec2 rect ctx.mouse_pos then
    match mu_get_clip_rect ctx with
    | none => none
    | some cr => some (rect_overlaps_vec2 cr ctx.mouse_pos && in_hover_root ctx)
  else some false

def mu_set_focus (ctx : mu_Context) (id : Nat) : mu_Context :=
  let ctx1 := { ctx with last_focus := ctx.focus, focus := id, updated_focus := true }
  if id ≠ 0 then { ctx1 with focus_stack := ctx1.id_stack } else ctx1

/-- The first statement of `mu_update_control`: a pending focus-next request gives the
widget focus and is cleared. -/
def update_control_focus_next (ctx : mu_Context) (id : Nat) : mu_Context :=
  if ctx.should_focus_next then { mu_set_focus ctx id with should_focus_next := false }
  else ctx

/-- The statement `if(ctx->focus == id) ctx->updated_focus = true` of `mu_update_control`. -/
def update_control_confirm (ctx : mu_Context) (id : Nat) : mu_Context :=
  if ctx.focus = id then { ctx with updated_focus := true } else ctx

/-- Hover step of `mu_update_control`: `if(mouseover && !ctx->mouse_down) hover = id`. -/
def update_control_hover (ctx : mu_Context) (id : Nat) (mouseover : Bool) : mu_Context :=
  if mouseover = true ∧ ctx.mouse_down = 0 then { ctx with hover := id } else ctx

/-- Focus-loss step of `mu_update_control`: the block `if(ctx->focus == id) { .. }`. -/
def update_control_focus_loss (ctx : mu_Context) (id : Nat) (opt : Nat) (mouseover : Bool) :
    mu_Context :=
  if ctx.focus = id then
    let c1 := if ctx.mouse_pressed ≠ 0 ∧ mouseover = false then mu_set_focus ctx 0 else ctx
    if c1.mouse_down = 0 ∧ has_flag opt MU_OPT_HOLDFOCUS = false then mu_set_focus c1 0 else c1
  else ctx

/-- Focus-gain step of `mu_update_control`: the block `if(ctx->hover == id) { .. }`. -/
def update_control_focus_gain (ctx : mu_Context) (id : Nat) (mouseover : Bool) : mu_Context :=
  if ctx.hover = id then
    if ctx.mouse_pressed ≠ 0 then mu_set_focus ctx id
    else if mouseover = false then { ctx with hover := 0 }
    else ctx
  else ctx

/-- Tab step of `mu_update_control`: the last `if` of the function. -/
def update_control_tab (ctx : mu_Context) (id : Nat) (handled_focus_next : Bool) : mu_Context :=
  if has_flag ctx.key_pressed MU_KEY_TAB = true ∧ handled_focus_next = false
      ∧ has_focus ctx id = true then
    if has_flag ctx.key_down MU_KEY_SHIFT then mu_set_focus ctx ctx.prev_id
    else { ctx with should_focus_next := true }
  else ctx

/-- The statements of `mu_update_control` after the `MU_OPT_NOINTERACT` return: hover,
focus loss, focus gain and Tab, in that order, with `mouseover` and `handled_focus_next` as
computed before. -/
def update_control_interact (ctx : mu_Context) (id : Nat) (opt : Nat) (mouseover : Bool)
    (handled_focus_next : Bool) : mu_Context :=
  update_control_tab
    (update_control_focus_gain
      (update_control_focus_loss (update_control_hover ctx id mouseover) id opt mouseover)
      id mouseover)
    id handled_focus_next

def mu_update_control (ctx : mu_Context) (id : Nat) (rect : mu_Rect) (opt : Nat) :
    Option mu_Context :=
  let handled_focus_next := ctx.should_focus_next
  let ctx1 := update_control_focus_next ctx id
  match mu_mouse_over ctx1 rect with
  | none => none
  | some mouseover =>
    let ctx2 := update_control_confirm ctx1 id
    if has_flag opt MU_OPT_NOINTERACT then some ctx2
    else some (update_control_interact ctx2 id opt mouseover handled_focus_next)

/-! ## The focus machine on its own fields

`mu_update_control` reads the rectangle, the clip stack and the container stack only to
compute `mouseover`; everything else it does is on the ten fields below. `FocusView` holds
them, and `view_update_control` is the function `mu_update_control` is on them, statement
by statement; the theorem `focus_view_update_control` proves that the two agree. -/

/-- The fields of the context that the focus machine of `mu_update_control` reads or
writes. -/
structure FocusView where
  hover : Nat
  focus : Nat
  last_focus : Nat
  should_focus_next : Bool
  updated_focus : Bool
  prev_id : Nat
  mouse_down : Nat
  mouse_pressed : Nat
  key_down : Nat
  key_pressed : Nat
deriving DecidableEq, Repr

def focus_view (c : mu_Context) : FocusView :=
  { hover := c.hover, focus := c.focus, last_focus := c.last_focus,
    should_focus_next := c.should_focus_next, updated_focus := c.updated_focus,
    prev_id := c.prev_id, mouse_down := c.mouse_down, mouse_pressed := c.mouse_pressed,
    key_down := c.key_down, key_pressed := c.key_pressed }

/-- On the view, `mu_set_focus`. -/
def view_set_focus (v : FocusView) (id : Nat) : FocusView :=
  { v with last_focus := v.focus, focus := id, updated_focus := true }

/-- On the view, `has_focus`. -/
def view_has_focus (v : FocusView) (id : Nat) : Bool :=
  (v.focus != 0 && v.focus == id) || v.last_focus == id

/-- On the view, `update_control_focus_next`. -/
def view_focus_next (v : FocusView) (id : Nat) : FocusView :=
  if v.should_focus_next then { view_set_focus v id with should_focus_next := false } else v

/-- On the view, `update_control_confirm`. -/
def view_confirm (v : FocusView) (id : Nat) : FocusView :=
  if v.focus = id then { v with updated_focus := true } else v

/-- On the view, `update_control_hover`. -/
def view_hover (v : FocusView) (id : Nat) (mouseover : Bool) : FocusView :=
  if mouseover = true ∧ v.mouse_down = 0 then { v with hover := id } else v

/-- On the view, `update_control_focus_loss`. -/
def view_focus_loss (v : FocusView) (id : Nat) (opt : Nat) (mouseover : Bool) : FocusView :=
  if v.focus = id then
    let v1 := if v.mouse_pressed ≠ 0 ∧ mouseover = false then view_set_focus v 0 else v
    if v1.mouse_down = 0 ∧ has_flag opt MU_OPT_HOLDFOCUS = false then view_set_focus v1 0 else v1
  else v

/-- On the view, `update_control_focus_gain`. -/
def view_focus_gain (v : FocusView) (id : Nat) (mouseover : Bool) : FocusView :=
  if v.hover = id then
    if v.mouse_pressed ≠ 0 then view_set_focus v id
    else if mouseover = false then { v with hover := 0 }
    else v
  else v

/-- On the view, `update_control_tab`. -/
def view_tab (v : FocusView) (id : Nat) (handled_focus_next : Bool) : FocusView :=
  if has_flag v.key_pressed MU_KEY_TAB = true ∧ handled_focus_next = false
      ∧ view_has_focus v id = true then
    if has_flag v.key_down MU_KEY_SHIFT then view_set_focus v v.prev_id
    else { v with should_focus_next := true }
  else v

/-- On the view, `mu_update_control` with the value `mouseover` that `mu_mouse_over` gave. -/
def view_update_control (v : FocusView) (id : Nat) (opt : Nat) (mouseover : Bool) : FocusView :=
  let handled_focus_next := v.should_focus_next
  let v1 := view_focus_next v id
  let v2 := view_confirm v1 id
  if has_flag opt MU_OPT_NOINTERACT then v2
  else
    view_tab
      (view_focus_gain (view_focus_loss (view_hover v2 id mouseover) id opt mouseover)
        id mouseover)
      id handled_focus_next

/-- The context `c2` differs from `c` at most in the fields the focus machine writes. -/
def only_focus_changed (c c2 : mu_Context) : Prop :=
  c2 = { c with
    hover := c2.hover, focus := c2.focus, last_focus := c2.last_focus,
    should_focus_next := c2.should_focus_next, updated_focus := c2.updated_focus,
    focus_stack := c2.focus_stack }

/-! ## Frames and input -/

def mu_begin (ctx : mu_Context) : Option mu_Context :=
  if ctx.text_width.isSome ∧ ctx.text_height.isSome then
    some { ctx with
      root_list := []
      hovered_container_stack := []
      event_handlers := []
      global_event_handlers := []
      scroll_target := none
      hover_root := ctx.next_hover_root
      next_hover_root := none
      mouse_delta := mu_vec2 (ctx.mouse_pos.x - ctx.last_mouse_pos.x)
        (ctx.mouse_pos.y - ctx.last_mouse_pos.y)
      frame := ctx.frame + 1 }
  else none

/-- Insertion of a root container into a list ordered by z-index. -/
def insert_by_zindex (ctx : mu_Context) (c : Nat) : List Nat → List Nat
  | [] => [c]
  | d :: rest =>
    if (get_cnt ctx c).zindex < (get_cnt ctx d).zindex then c :: d :: rest
    else d :: insert_by_zindex ctx c rest

/-- The call `std::sort(root_list, a->zindex < b->zindex)`, as an insertion sort (the order
the library gives to containers of equal z-index is not specified). -/
def sort_root_list (ctx : mu_Context) : List Nat → List Nat
  | [] => []
  | c :: rest => insert_by_zindex ctx c (sort_root_list ctx rest)

/-- The function `mu_end`. The call `handle_events` only invokes the registered callbacks,
which get the event and not the context, and the jump fix-ups go to the backend. -/
def mu_end (ctx : mu_Context) : Option mu_Context :=
  if ctx.container_stack.isEmpty ∧ ctx.clip_stack.isEmpty ∧ ctx.id_stack.isEmpty
      ∧ ctx.layout_stack.isEmpty then
    let ctx1 := { ctx with events := [] }
    let ctx2 :=
      match ctx1.scroll_target with
      | some t =>
        set_cnt ctx1 t (fun c => { c with
          scroll := mu_vec2 (c.scroll.x + ctx1.scroll_delta.x) (c.scroll.y + ctx1.scroll_delta.y) })
      | none => ctx1
    let ctx3 := if ctx2.updated_focus = false then { ctx2 with focus := 0 } else ctx2
    let ctx4 := { ctx3 with updated_focus := false }
    let ctx5 :=
      match ctx4.next_hover_root with
      | some r =>
        if ctx4.mouse_pressed ≠ 0 ∧ (get_cnt ctx4 r).zindex < ctx4.last_zindex
            ∧ (get_cnt ctx4 r).zindex ≥ 0 then mu_bring_to_front ctx4 r
        else ctx4
      | none => ctx4
    let ctx6 := { ctx5 with
      key_pressed := 0
      input_text := []
      mouse_pressed := 0
      scroll_delta := mu_vec2 0 0
      last_mouse_pos := ctx5.mouse_pos }
    some { ctx6 with root_list := sort_root_list ctx6 ctx6.root_list }
  else none

/-- The statement `if(ctx->scroll_target) ..` of `mu_end`. -/
def end_scroll (ctx : mu_Context) : mu_Context :=
  match ctx.scroll_target with
  | some t =>
    set_cnt ctx t (fun c => { c with
      scroll := mu_vec2 (c.scroll.x + ctx.scroll_delta.x) (c.scroll.y + ctx.scroll_delta.y) })
  | none => ctx

/-- The statements of `mu_end` on `focus` and `updated_focus`. -/
def end_focus (ctx : mu_Context) : mu_Context :=
  { (if ctx.updated_focus = false then { ctx with focus := 0 } else ctx) with
    updated_focus := false }

/-- The statement of `mu_end` that brings the hover root to the front on a press. -/
def end_front (ctx : mu_Context) : mu_Context :=
  match ctx.next_hover_root with
  | some r =>
    if ctx.mouse_pressed ≠ 0 ∧ (get_cnt ctx r).zindex < ctx.last_zindex
        ∧ (get_cnt ctx r).zindex ≥ 0 then mu_bring_to_front ctx r
    else ctx
  | none => ctx

/-- The statements of `mu_end` that reset the input state. -/
def end_reset (ctx : mu_Context) : mu_Context :=
  { ctx with
    key_pressed := 0
    input_text := []
    mouse_pressed := 0
    scroll_delta := mu_vec2 0 0
    last_mouse_pos := ctx.mouse_pos }

/-- The sort of the root list at the end of `mu_end`. -/
def end_sort (ctx : mu_Context) : mu_Context :=
  { ctx with root_list := sort_root_list ctx ctx.root_list }

def mu_input_mousemove (ctx : mu_Context) (x y : Int) : mu_Context :=
  let ev : mu_Event :=
    { type := MOUSEMOVE
      data := mu_EventData.mousemove x y (x - ctx.mouse_pos.x) (y - ctx.mouse_pos.y) }
  { ctx with events := ctx.events ++ [ev], mouse_pos := mu_vec2 x y }

def mu_input_mousedown (ctx : mu_Context) (x y : Int) (btn : Nat) : mu_Context :=
  let ev : mu_Event := { type := MOUSEDOWN, data := mu_EventData.mousebutton btn }
  let ctx1 := mu_input_mousemove { ctx with events := ctx.events ++ [ev] } x y
  { ctx1 with mouse_down := ctx1.mouse_down ||| btn, mouse_pressed := ctx1.mouse_pressed ||| btn }

def mu_input_mouseup (ctx : mu_Context) (x y : Int) (btn : Nat) : mu_Context :=
  let ev : mu_Event := { type := MOUSEUP, data := mu_EventData.mousebutton btn }
  let ctx1 := mu_input_mousemove { ctx with events := ctx.events ++ [ev] } x y
  { ctx1 with mouse_down := clear_flag ctx1.mouse_down btn }

def mu_input_scroll (ctx : mu_Context) (x y : Int) : mu_Context :=
  { ctx with scroll_delta := mu_vec2 (ctx.scroll_delta.x + x) (ctx.scroll_delta.y + y) }

def mu_input_keydown (ctx : mu_Context) (key : Nat) : mu_Context :=
  let ev : mu_Event := { type := KEYDOWN, data := mu_EventData.key key }
  { ctx with
    events := ctx.events ++ [ev]
    key_pressed := ctx.key_pressed ||| key
    key_down := ctx.key_down ||| key }

def mu_input_keyup (ctx : mu_Context) (key : Nat) : mu_Context :=
  let ev : mu_Event := { type := KEYUP, data := mu_EventData.key key }
  { ctx with events := ctx.events ++ [ev], key_down := clear_flag ctx.key_down key }

/-- The function `mu_input_text`; `input_text` holds the bytes before the terminator of
the 32-byte array. -/
def mu_input_text (ctx : mu_Context) (text : List uchar) : Option mu_Context :=
  let len := ctx.input_text.length
  let size := text.length + 1
  if len + size ≤ 32 then some { ctx with input_text := ctx.input_text ++ text } else none

/-! ## Event dispatch -/

/-- The predicate `make_is_handler_applicable(event, stack, target_id)` builds. -/
def is_handler_applicable (event : mu_Event) (stack : List Nat) (target_id : Nat)
    (handler : EventHandlerWrapper) : Bool :=
  if (handler.type &&& event.type) = 0 then false
  else if handler.container_id = target_id then true
  else if handler.container_id = 0 then true
  else stack.reverse.any (fun parentFocusId => decide (handler.container_id = parentFocusId))

/-- One `for` loop of `handle_event` over the handlers in the order given: the handlers
called, in the order of the calls, and whether one of them reported the event handled
(the `return`). -/
def call_handlers (event : mu_Event) :
    List EventHandlerWrapper → List EventHandlerWrapper × Bool
  | [] => ([], false)
  | h :: rest =>
    if h.fn event then ([h], true)
    else ((h :: (call_handlers event rest).1), (call_handlers event rest).2)

/-- The view `handlers | views::reverse | views::filter(is_handler_applicable)`. -/
def make_event_handlers (event : mu_Event) (id_stack : List Nat) (target_id : Nat)
    (handlers : List EventHandlerWrapper) : List EventHandlerWrapper :=
  handlers.reverse.filter (is_handler_applicable event id_stack target_id)

/-- The function `handle_event`: the handlers it calls, in the order of the calls. -/
def handle_event (ctx : mu_Context) (event : mu_Event) (id_stack : List Nat) (target_id : Nat) :
    List EventHandlerWrapper :=
  let g := call_handlers event
    (make_event_handlers event id_stack target_id ctx.global_event_handlers)
  if g.2 then g.1
  else g.1 ++ (call_handlers event
    (make_event_handlers event id_stack target_id ctx.event_handlers)).1

/-- The function `handle_events`, which `mu_end` calls before it clears the buffer: every
buffered event with the handlers called for it. -/
def handle_events (ctx : mu_Context) : List (mu_Event × List EventHandlerWrapper) :=
  if ctx.events.isEmpty then []
  else
    let focus_id := if ctx.focus ≠ 0 then ctx.focus else ctx.last_focus
    let hover_id :=
      match ctx.hovered_container_stack.getLast? with
      | some id => id
      | none => 0
    ctx.events.map (fun event =>
      if (event.type &&& (MOUSEDOWN ||| MOUSEUP ||| MOUSEMOVE)) ≠ 0 then
        (event, handle_event ctx event ctx.hovered_container_stack hover_id)
      else if (event.type &&& (KEYDOWN ||| KEYUP ||| KEYPRESS)) ≠ 0 then
        (event, handle_event ctx event ctx.focus_stack focus_id)
      else (event, []))

/-- The function `mu_event_handler`: the handler is registered for the identity on top of
the identity stack, 0 when the stack is empty. -/
def mu_event_handler (ctx : mu_Context) (type : Nat) (handler_fn : mu_Event → Bool) :
    mu_Context :=
  let id :=
    match ctx.id_stack.getLast? with
    | some top => top
    | none => 0
  { ctx with
    event_handlers := ctx.event_handlers ++ [{ container_id := id, type := type, fn := handler_fn }] }

def mu_global_event_handler (ctx : mu_Context) (type : Nat) (handler_fn : mu_Event → Bool) :
    mu_Context :=
  { ctx with
    global_event_handlers :=
      ctx.global_event_handlers ++ [{ container_id := 0, type := type, fn := handler_fn }] }

/-! ## Button -/

/-- The four bytes of an `int`, least significant first (the object representation that
`mu_get_id(ctx, &icon, sizeof(icon))` hashes on a little-endian target). -/
def int_bytes (n : Int) : List uchar :=
  let m := (n % 4294967296).toNat
  [Fin.ofNat m, Fin.ofNat (m / 256), Fin.ofNat (m / 65536), Fin.ofNat (m / 16777216)]

/-- The function `mu_button_ex`; `label` is `none` for a null pointer. Returns the result
flags and the context after the call. -/
def mu_button_ex (ctx : mu_Context) (label : Option (List uchar)) (icon : Int) (opt : Nat) :
    Option (Nat × mu_Context) :=
  let r0 :=
    match label with
    | some l => mu_get_id ctx l
    | none => mu_get_id ctx (int_bytes icon)
  let id := r0.1
  match mu_layout_next r0.2 with
  | none => none
  | some (r, ctx1) =>
    match mu_update_control ctx1 id r opt with
    | none => none
    | some ctx2 =>
      let res := if ctx2.mouse_pressed = MU_MOUSE_LEFT ∧ ctx2.focus = id then MU_RES_SUBMIT else 0
      match mu_draw_control_frame ctx2 id r MU_COLOR_BUTTON opt with
      | none => none
      | some _ =>
        match (match label with
               | some l => mu_draw_control_text ctx2 l r opt
               | none => some ctx2) with
        | none => none
        | some ctx3 =>
          match (if icon ≠ 0 then mu_draw_icon ctx3 icon r else some ()) with
          | none => none
          | some _ =>
            match draw_focus ctx3 id r with
            | none => none
            | some _ => some (res, ctx3)

/-! ## Scrollbars -/

/-- The strings of `scrollbar_ids`, 11 bytes each: `!scrollbarx` and `!scrollbary`. -/
def scrollbar_ids (axis : Nat) : List uchar :=
  if axis = 0 then [33, 115, 99, 114, 111, 108, 108, 98, 97, 114, 120]
  else [33, 115, 99, 114, 111, 108, 108, 98, 97, 114, 121]

/-- The rect `base` of `scrollbar`: the body moved past its far edge on the other axis and
given the scrollbar size there. -/
def scrollbar_base (style : mu_Style) (b : mu_Rect) (axis : Nat) : mu_Rect :=
  let other_axis := if axis = 0 then 1 else 0
  let other_size := other_axis + 2
  let base := rect_set_data b other_axis (rect_data b other_axis + rect_data b other_size)
  rect_set_data base other_size style.scrollbar_size

/-- The test `ctx->focus == id && ctx->mouse_down == MU_MOUSE_LEFT` of `scrollbar`. -/
def scrollbar_dragged (ctx : mu_Context) (id : Nat) : Bool :=
  decide (ctx.focus = id ∧ ctx.mouse_down = MU_MOUSE_LEFT)

/-- The function `scrollbar` for the container `cnt`, the body `*b`, the padded content
size `cs`, and `axis` 0 (`MU_AXIS_X`) or 1 (`MU_AXIS_Y`). -/
def scrollbar (ctx : mu_Context) (cnt : Nat) (b : mu_Rect) (cs : mu_Vec2) (axis : Nat) :
    Option mu_Context :=
  let size := axis + 2
  let maxscroll := vec2_data cs axis - rect_data b size
  if maxscroll ≤ 0 ∨ rect_data b size ≤ 0 then
    some (set_cnt ctx cnt (fun c => { c with scroll := vec2_set_data c.scroll axis 0 }))
  else
    let r0 := mu_get_id ctx (scrollbar_ids axis)
    let id := r0.1
    let base := scrollbar_base ctx.style b axis
    match mu_update_control r0.2 id base 0 with
    | none => none
    | some ctx1 =>
      let ctx2 :=
        if scrollbar_dragged ctx1 id then
          set_cnt ctx1 cnt (fun c => { c with
            scroll := vec2_set_data c.scroll axis
              (vec2_data c.scroll axis
                + Int.tdiv (vec2_data ctx1.mouse_delta axis * vec2_data cs axis)
                    (rect_data base size)) })
        else ctx1
      let ctx3 := set_cnt ctx2 cnt (fun c => { c with
        scroll := vec2_set_data c.scroll axis (mu_clamp (vec2_data c.scroll axis) 0 maxscroll) })
      match default_draw_frame ctx3 base MU_COLOR_SCROLLBASE with
      | none => none
      | some _ =>
        let thumb := rect_set_data base size
          (mu_max ctx3.style.thumb_size
            (Int.tdiv (rect_data base size * rect_data b size) (vec2_data cs axis)))
        let thumb := rect_set_data thumb axis
          (rect_data thumb axis
            + Int.tdiv (vec2_data (get_cnt ctx3 cnt).scroll axis
                * (rect_data base size - rect_data thumb size)) maxscroll)
        match default_draw_frame ctx3 thumb MU_COLOR_SCROLLTHUMB with
        | none => none
        | some _ =>
          match mu_mouse_over ctx3 b with
          | none => none
          | some over =>
            let ctx4 := if over then { ctx3 with scroll_target := some cnt } else ctx3
            match draw_focus ctx4 id base with
            | none => none
            | some _ => some ctx4

/-- The content size `cs` of `scrollbars`: the container content size plus the padding. -/
def scrollbars_cs (ctx : mu_Context) (cnt : Nat) : mu_Vec2 :=
  let cs := (get_cnt ctx cnt).content_size
  mu_vec2 (cs.x + (ctx.style.padding.left + ctx.style.padding.right))
    (cs.y + (ctx.style.padding.top + ctx.style.padding.bottom))

/-- The body `scrollbars` leaves in `*body`: narrowed by the scrollbar size on each side
where the content exceeds the body the container had before. -/
def scrollbars_body (ctx : mu_Context) (cnt : Nat) (body : mu_Rect) : mu_Rect :=
  let sz := ctx.style.scrollbar_size
  let cs := scrollbars_cs ctx cnt
  let body1 := if cs.y > (get_cnt ctx cnt).body.h then { body with w := body.w - sz } else body
  if cs.x > (get_cnt ctx cnt).body.w then { body1 with h := body1.h - sz } else body1

/-- The function `scrollbars`: the body it leaves in `*body` and the context. -/
def scrollbars (ctx : mu_Context) (cnt : Nat) (body : mu_Rect) : Option (mu_Rect × mu_Context) :=
  let cs := scrollbars_cs ctx cnt
  match mu_push_clip_rect ctx body with
  | none => none
  | some ctx1 =>
    let body2 := scrollbars_body ctx cnt body
    match scrollbar ctx1 cnt body2 cs 1 with
    | none => none
    | some ctx2 =>
      match scrollbar ctx2 cnt body2 cs 0 with
      | none => none
      | some ctx3 =>
        match mu_pop_clip_rect ctx3 with
        | none => none
        | some ctx4 => some (body2, ctx4)

/-! ## Containers: windows, popups, panels -/

def pop_container (ctx : mu_Context) : Option mu_Context :=
  match mu_get_current_container ctx, mu_get_layout ctx with
  | some cnt, some layout =>
    let ctx1 := set_cnt ctx cnt (fun c => { c with
      content_size := mu_vec2 (layout.max.x - layout.body.x + ctx.style.margin.x)
        (layout.max.y - layout.body.y + ctx.style.margin.y) })
    match pop ctx1.container_stack with
    | none => none
    | some cstk =>
      match pop ctx1.layout_stack with
      | none => none
      | some lstk => mu_pop_id { ctx1 with container_stack := cstk, layout_stack := lstk }
  | _, _ => none

def push_container_body (ctx : mu_Context) (cnt : Nat) (body : mu_Rect) (opt : Nat) :
    Option mu_Context :=
  match (if has_flag opt MU_OPT_NOSCROLL then some (body, ctx) else scrollbars ctx cnt body) with
  | none => none
  | some (body1, ctx1) =>
    match push_layout ctx1 (expand_rect_box body1 ctx1.style.padding) (get_cnt ctx1 cnt).scroll with
    | none => none
    | some ctx2 =>
      let ctx3 := set_cnt ctx2 cnt (fun c => { c with body := body1 })
      match mu_mouse_over ctx3 body1 with
      | none => none
      | some over =>
        some (if over then
            { ctx3 with
              hovered_container_stack := ctx3.hovered_container_stack ++ [(get_cnt ctx3 cnt).id] }
          else ctx3)

def begin_root_container (ctx : mu_Context) (cnt : Nat) : mu_Context :=
  let ctx1 := { ctx with
    container_stack := push ctx.container_stack cnt
    root_list := push ctx.root_list cnt }
  let ctx2 :=
    if rect_overlaps_vec2 (get_cnt ctx1 cnt).rect ctx1.mouse_pos &&
        (match ctx1.next_hover_root with
         | none => true
         | some r => decide ((get_cnt ctx1 cnt).zindex > (get_cnt ctx1 r).zindex)) then
      { ctx1 with next_hover_root := some cnt }
    else ctx1
  { ctx2 with clip_stack := push ctx2.clip_stack unclipped_rect }

def end_root_container (ctx : mu_Context) : Option mu_Context :=
  match mu_get_current_container ctx with
  | none => none
  | some _ =>
    match mu_pop_clip_rect ctx with
    | none => none
    | some ctx1 => pop_container ctx1

/-- The title bar of `mu_begin_window_ex` (`!title`): the context and the body after it. -/
def window_title (ctx : mu_Context) (cnt : Nat) (title : List uchar) (titlerect body : mu_Rect)
    (opt : Nat) : Option (mu_Rect × mu_Context) :=
  let r0 := mu_get_id ctx [33, 116, 105, 116, 108, 101]
  let id := r0.1
  match mu_update_control r0.2 id titlerect opt with
  | none => none
  | some ctx1 =>
    match mu_draw_control_text ctx1 title titlerect opt with
    | none => none
    | some ctx2 =>
      match draw_focus ctx2 id titlerect with
      | none => none
      | some _ =>
        let ctx3 :=
          if id = ctx2.focus ∧ ctx2.mouse_down = MU_MOUSE_LEFT then
            set_cnt ctx2 cnt (fun c => { c with
              rect := { c.rect with
                x := c.rect.x + ctx2.mouse_delta.x
                y := c.rect.y + ctx2.mouse_delta.y } })
          else ctx2
        some ({ body with y := body.y + titlerect.h, h := body.h - titlerect.h }, ctx3)

/-- The close button of `mu_begin_window_ex` (`!close`). -/
def window_close (ctx : mu_Context) (cnt : Nat) (titlerect : mu_Rect) (opt : Nat) :
    Option mu_Context :=
  let r0 := mu_get_id ctx [33, 99, 108, 111, 115, 101]
  let id := r0.1
  let r := mu_rect (titlerect.x + titlerect.w - titlerect.h) titlerect.y titlerect.h titlerect.h
  match mu_draw_icon r0.2 MU_ICON_CLOSE r with
  | none => none
  | some _ =>
    match mu_update_control r0.2 id r opt with
    | none => none
    | some ctx1 =>
      match draw_focus ctx1 id r with
      | none => none
      | some _ =>
        some (if ctx1.mouse_pressed = MU_MOUSE_LEFT ∧ id = ctx1.focus then
            set_cnt ctx1 cnt (fun c => { c with open_ := 0 })
          else ctx1)

/-- The resize notch of `mu_begin_window_ex` (`!resize`): the context and the body. -/
def window_resize (ctx : mu_Context) (cnt : Nat) (rect body : mu_Rect) (opt : Nat) :
    Option (mu_Rect × mu_Context) :=
  let sz := ctx.style.footer_height
  let r0 := mu_get_id ctx [33, 114, 101, 115, 105, 122, 101]
  let id := r0.1
  let footer_rect := mu_rect rect.x (rect.y + rect.h - sz) rect.w sz
  match default_draw_frame r0.2 footer_rect MU_COLOR_FOOTERBG with
  | none => none
  | some _ =>
    let r := mu_rect (rect.x + rect.w - sz) (rect.y + rect.h - sz) sz sz
    match mu_update_control r0.2 id r opt with
    | none => none
    | some ctx1 =>
      match mu_draw_icon ctx1 MU_ICON_RESIZE r with
      | none => none
      | some _ =>
        match draw_focus ctx1 id r with
        | none => none
        | some _ =>
          let ctx2 :=
            if id = ctx1.focus ∧ ctx1.mouse_down = MU_MOUSE_LEFT then
              set_cnt ctx1 cnt (fun c => { c with
                rect := { c.rect with
                  w := mu_max 96 (c.rect.w + ctx1.mouse_delta.x)
                  h := mu_max 64 (c.rect.h + ctx1.mouse_delta.y) } })
            else ctx1
          some ({ body with h := body.h - sz }, ctx2)

/-- The function `mu_begin_window_ex` from the point where the container is known to be
open: everything after the early `return 0`. -/
def begin_window_open (ctx : mu_Context) (cnt : Nat) (id : Nat) (title : List uchar)
    (rect : mu_Rect) (opt : Nat) : Option (Nat × mu_Context) :=
  let ctx1 := mu_push_id ctx id
  let ctx2 :=
    if (get_cnt ctx1 cnt).rect.w = 0 ∨ has_flag opt MU_OPT_FIXED_SIZE = true then
      set_cnt ctx1 cnt (fun c => { c with rect := rect })
    else ctx1
  let ctx3 := begin_root_container ctx2 cnt
  let rect := (get_cnt ctx3 cnt).rect
  let body := rect
  match (if has_flag opt MU_OPT_NOFRAME then some ()
         else default_draw_frame ctx3 rect MU_COLOR_WINDOWBG) with
  | none => none
  | some _ =>
    let titlerect := { rect with h := ctx3.style.title_height }
    let titled : Option (mu_Rect × mu_Context) :=
      if has_flag opt MU_OPT_NOTITLE then some (body, ctx3)
      else
        match default_draw_frame ctx3 titlerect MU_COLOR_TITLEBG with
        | none => none
        | some _ =>
          match window_title ctx3 cnt title titlerect body opt with
          | none => none
          | some (body1, ctx4) =>
            if has_flag opt MU_OPT_NOCLOSE then some (body1, ctx4)
            else
              match window_close ctx4 cnt titlerect opt with
              | none => none
              | some ctx5 => some (body1, ctx5)
    match titled with
    | none => none
    | some (body1, ctx5) =>
      match (if has_flag opt MU_OPT_NORESIZE then some (body1, ctx5)
             else window_resize ctx5 cnt rect body1 opt) with
      | none => none
      | some (body2, ctx6) =>
        match push_container_body ctx6 cnt body2 opt with
        | none => none
        | some ctx7 =>
          match mu_get_layout ctx7 with
          | none => none
          | some layout =>
            let ctx8 :=
              if has_flag opt MU_OPT_AUTOSIZE then
                set_cnt ctx7 cnt (fun c => { c with
                  rect := { c.rect with
                    w := c.content_size.x + (c.rect.w - layout.body.w)
                    h := c.content_size.y + (c.rect.h - layout.body.h) } })
              else ctx7
            let ctx9 :=
              if has_flag opt MU_OPT_POPUP = true ∧ ctx8.mouse_pressed ≠ 0
                  ∧ ctx8.hover_root ≠ some cnt then
                set_cnt ctx8 cnt (fun c => { c with open_ := 0 })
              else ctx8
            match mu_push_clip_rect ctx9 (get_cnt ctx9 cnt).body with
            | none => none
            | some ctx10 => some (MU_RES_ACTIVE, ctx10)

/-- The function `mu_begin_window_ex`: the value returned and the context. -/
def mu_begin_window_ex (ctx : mu_Context) (title : List uchar) (rect : mu_Rect) (opt : Nat) :
    Option (Nat × mu_Context) :=
  let r0 := mu_get_id ctx title
  let id := r0.1
  match get_container r0.2 id opt with
  | none => none
  | some (none, ctx1) => some (0, ctx1)
  | some (some cnt, ctx1) =>
    if (get_cnt ctx1 cnt).open_ = 0 then some (0, ctx1)
    else begin_window_open ctx1 cnt id title rect opt

def mu_end_window (ctx : mu_Context) : Option mu_Context :=
  match mu_pop_clip_rect ctx with
  | none => none
  | some ctx1 => end_root_container ctx1

def mu_begin_popup (ctx : mu_Context) (name : List uchar) : Option (Nat × mu_Context) :=
  let opt := MU_OPT_POPUP ||| MU_OPT_AUTOSIZE ||| MU_OPT_NORESIZE ||| MU_OPT_NOSCROLL
    ||| MU_OPT_NOTITLE ||| MU_OPT_CLOSED
  mu_begin_window_ex ctx name (mu_rect 0 0 0 0) opt

def mu_end_popup (ctx : mu_Context) : Option mu_Context := mu_end_window ctx

def mu_end_panel (ctx : mu_Context) : Option mu_Context :=
  match mu_pop_clip_rect ctx with
  | none => none
  | some ctx1 => pop_container ctx1

/-- The function `mu_begin_panel_ex`. When `get_container` returns the null pointer (with
`MU_OPT_CLOSED` and no container of that identity in the pool) the function writes through
it: that crash is the `none` of the embedding as well. -/
def mu_begin_panel_ex (ctx : mu_Context) (name : List uchar) (opt : Nat) : Option mu_Context :=
  let r0 := mu_get_id ctx name
  let ctx1 := mu_push_id r0.2 r0.1
  match get_container ctx1 ctx1.cur_id opt with
  | none => none
  | some (none, _) => none
  | some (some cnt, ctx2) =>
    match mu_layout_next ctx2 with
    | none => none
    | some (r, ctx3) =>
      let ctx4 := set_cnt ctx3 cnt (fun c => { c with rect := r })
      match (if has_flag opt MU_OPT_NOFRAME then some ()
             else default_draw_frame ctx4 (get_cnt ctx4 cnt).rect MU_COLOR_PANELBG) with
      | none => none
      | some _ =>
        let ctx5 := { ctx4 with container_stack := push ctx4.container_stack cnt }
        match push_container_body ctx5 cnt (get_cnt ctx5 cnt).rect opt with
        | none => none
        | some ctx6 => mu_push_clip_rect ctx6 (get_cnt ctx6 cnt).body

def mu_open_popup (ctx : mu_Context) (name : List uchar) : Option mu_Context :=
  match mu_get_container ctx name with
  | none => none
  | some (none, _) => none
  | some (some cnt, ctx1) =>
    let ctx2 := { ctx1 with hover_root := some cnt, next_hover_root := some cnt }
    let ctx3 := set_cnt ctx2 cnt (fun c => { c with
      rect := mu_rect ctx2.mouse_pos.x ctx2.mouse_pos.y 1 1, open_ := 1 })
    some (mu_bring_to_front ctx3 cnt)

/-! ## Text box -/

/-- The loop `while((buf[--len] & 0xc0) == 0x80 && len > 0);` of `mu_textbox_raw`: the value
of `len` when the loop ends, for the value `len` it is entered with. The source enters it
with `len > 0` only; for 0, where the source would read before the buffer, the embedding
returns 0. -/
def backspace_len (buf : List uchar) : Nat → Nat
  | 0 => 0
  | len + 1 =>
    if ((buf.getD len 0).val &&& 192) = 128 ∧ len > 0 then backspace_len buf len else len

/-- The block `handle text input` of `mu_textbox_raw`, on the bytes of `buf` before the
terminator: the result flags and the text. -/
def textbox_input (buf : List uchar) (bufsz : Int) (input_text : List uchar) :
    Nat × List uchar :=
  let len : Int := buf.length
  let n := mu_min (bufsz - len - 1) (input_text.length : Int)
  if n > 0 then (MU_RES_CHANGE, buf ++ input_text.take n.toNat) else (0, buf)

/-- The block `handle backspace` of `mu_textbox_raw`, on the flags and the text the input
block left. -/
def textbox_backspace (key_pressed : Nat) (s : Nat × List uchar) : Nat × List uchar :=
  if has_flag key_pressed MU_KEY_BACKSPACE = true ∧ s.2.length > 0 then
    (s.1 ||| MU_RES_CHANGE, s.2.take (backspace_len s.2 s.2.length))
  else s

/-- The first `if(ctx->focus == id)` block of `mu_textbox_raw`: text input, backspace and
return. The result flags, the text and the context. -/
def textbox_edit (ctx : mu_Context) (buf : List uchar) (bufsz : Int) (id : Nat) :
    Nat × List uchar × mu_Context :=
  if ctx.focus = id then
    let s := textbox_backspace ctx.key_pressed (textbox_input buf bufsz ctx.input_text)
    if has_flag ctx.key_pressed MU_KEY_RETURN then (s.1 ||| MU_RES_SUBMIT, s.2, mu_set_focus ctx 0)
    else (s.1, s.2, ctx)
  else (0, buf, ctx)

/-- The part `draw` of `mu_textbox_raw`: only the checks that can abort, and the clip
rectangle pushed and popped around the text of a focused text box. -/
def textbox_draw (ctx : mu_Context) (buf : List uchar) (id : Nat) (r : mu_Rect) (opt : Nat) :
    Option mu_Context :=
  match mu_draw_control_frame ctx id r MU_COLOR_BASE opt with
  | none => none
  | some _ =>
    let drawn : Option mu_Context :=
      if ctx.focus = id then
        match ctx.text_width, ctx.text_height with
        | some tw, some th =>
          let font := ctx.style.font
          let font_size := ctx.style.font_size
          let textw := tw font font_size buf
          let texth := th font font_size
          let ofx := r.w - ctx.style.padding.left - textw - 1
          let textx := r.x + mu_min ofx ctx.style.padding.left
          let texty := r.y + Int.tdiv (r.h - texth) 2
          match mu_push_clip_rect ctx r with
          | none => none
          | some ctx1 =>
            match mu_draw_text ctx1 font font_size buf (mu_vec2 textx texty) with
            | none => none
            | some _ =>
              match mu_draw_rect ctx1 (mu_rect (textx + textw) texty 1 texth) with
              | none => none
              | some _ => mu_pop_clip_rect ctx1
        | _, _ => none
      else mu_draw_control_text ctx buf r opt
    match drawn with
    | none => none
    | some ctx2 =>
      match draw_focus ctx2 id r with
      | none => none
      | some _ => some ctx2

/-- The function `mu_textbox_raw`; `buf` holds the bytes of the caller's buffer before the
terminator, `bufsz` is the size of the buffer. Returns the result flags, the text in the
buffer after the call, and the context. -/
def mu_textbox_raw (ctx : mu_Context) (buf : List uchar) (bufsz : Int) (id : Nat) (r : mu_Rect)
    (opt : Nat) : Option (Nat × List uchar × mu_Context) :=
  match mu_update_control ctx id r (opt ||| MU_OPT_HOLDFOCUS) with
  | none => none
  | some ctx1 =>
    let e := textbox_edit ctx1 buf bufsz id
    match textbox_draw e.2.2 e.2.1 id r opt with
    | none => none
    | some ctx2 => some (e.1, e.2.1, ctx2)

/-! ## Frames as sequences of calls -/

/-- One call made between `mu_begin` and `mu_end`: a `mu_update_control` call, or any
other call, given as the function it is on the context. -/
inductive FrameOp where
  | update_control (id : Nat) (rect : mu_Rect) (opt : Nat)
  | other (g : mu_Context → Option mu_Context)

def run_op (ctx : mu_Context) : FrameOp → Option mu_Context
  | FrameOp.update_control id rect opt => mu_update_control ctx id rect opt
  | FrameOp.other g => g ctx

/-- The calls of `ops` in order, fatal as soon as one of them is. -/
def run_ops : mu_Context → List FrameOp → Option mu_Context
  | ctx, [] => some ctx
  | ctx, op :: rest =>
    match run_op ctx op with
    | none => none
    | some ctx1 => run_ops ctx1 rest

/-- The fields the interaction state machine reads and writes about focus are left alone
by the call `g`. -/
def keeps_focus_state (g : mu_Context → Option mu_Context) : Prop :=
  ∀ c c2 : mu_Context, g c = some c2 →
    c2.focus = c.focus ∧ c2.updated_focus = c.updated_focus ∧
    c2.should_focus_next = c.should_focus_next ∧ c2.mouse_pressed = c.mouse_pressed ∧
    c2.key_pressed = c.key_pressed

/-- The call does not declare the widget `f`: it is a `mu_update_control` call for another
identity, or another call that leaves the focus state alone. -/
def not_declaring (f : Nat) : FrameOp → Prop
  | FrameOp.update_control id _ _ => id ≠ f
  | FrameOp.other g => keeps_focus_state g

/-! ## Z-order of the containers and calls of the library -/

/-- The z-index of the container `i` of the pool. -/
def cnt_zindex (ctx : mu_Context) (i : Nat) : Int := (get_cnt ctx i).zindex

/-- What the z-order is made of: `last_zindex` and the z-index of every container. -/
def zkey (ctx : mu_Context) : Int × (Nat → Int) := (ctx.last_zindex, cnt_zindex ctx)

/-- The z-order invariant: `last_zindex` is not negative, the z-index of every container
is between 0 and `last_zindex`, and no two containers share a positive z-index. -/
def zorder_ok (ctx : mu_Context) : Prop :=
  0 ≤ ctx.last_zindex ∧
  (∀ i : Nat, 0 ≤ cnt_zindex ctx i ∧ cnt_zindex ctx i ≤ ctx.last_zindex) ∧
  (∀ i j : Nat, 0 < cnt_zindex ctx i → cnt_zindex ctx i = cnt_zindex ctx j → i = j)

/-- One call of the library, with its arguments. -/
inductive ApiCall where
  | set_text_width_cb (cb : Int → Int → List uchar → Int)
  | set_text_height_cb (cb : Int → Int → Int)
  | begin_
  | end_
  | input_mousemove (x y : Int)
  | input_mousedown (x y : Int) (btn : Nat)
  | input_mouseup (x y : Int) (btn : Nat)
  | input_scroll (x y : Int)
  | input_keydown (key : Nat)
  | input_keyup (key : Nat)
  | input_text (text : List uchar)
  | event_handler (type : Nat) (fn : mu_Event → Bool)
  | global_event_handler (type : Nat) (fn : mu_Event → Bool)
  | push_id (arg : PushArg)
  | pop_id
  | push_clip_rect (r : mu_Rect)
  | pop_clip_rect
  | layout (op : LayoutOp)
  | layout_begin_column
  | layout_end_column
  | set_focus (id : Nat)
  | update_control (id : Nat) (rect : mu_Rect) (opt : Nat)
  | button_ex (label : Option (List uchar)) (icon : Int) (opt : Nat)
  | get_container (name : List uchar)
  | bring_to_front (cnt : Nat)
  | begin_window_ex (title : List uchar) (rect : mu_Rect) (opt : Nat)
  | end_window
  | open_popup (name : List uchar)
  | begin_popup (name : List uchar)
  | end_popup
  | begin_panel_ex (name : List uchar) (opt : Nat)
  | end_panel

/-- The context after one call of the library, `none` when the call is fatal; the value
the call returns is dropped. -/
def run_api (ctx : mu_Context) : ApiCall → Option mu_Context
  | ApiCall.set_text_width_cb cb => some (mu_set_text_width_cb ctx cb)
  | ApiCall.set_text_height_cb cb => some (mu_set_text_height_cb ctx cb)
  | ApiCall.begin_ => mu_begin ctx
  | ApiCall.end_ => mu_end ctx
  | ApiCall.input_mousemove x y => some (mu_input_mousemove ctx x y)
  | ApiCall.input_mousedown x y btn => some (mu_input_mousedown ctx x y btn)
  | ApiCall.input_mouseup x y btn => some (mu_input_mouseup ctx x y btn)
  | ApiCall.input_scroll x y => some (mu_input_scroll ctx x y)
  | ApiCall.input_keydown key => some (mu_input_keydown ctx key)
  | ApiCall.input_keyup key => some (mu_input_keyup ctx key)
  | ApiCall.input_text text => mu_input_text ctx text
  | ApiCall.event_handler type fn => some (mu_event_handler ctx type fn)
  | ApiCall.global_event_handler type fn => some (mu_global_event_handler ctx type fn)
  | ApiCall.push_id arg => some (push_id_arg ctx arg)
  | ApiCall.pop_id => mu_pop_id ctx
  | ApiCall.push_clip_rect r => mu_push_clip_rect ctx r
  | ApiCall.pop_clip_rect => mu_pop_clip_rect ctx
  | ApiCall.layout op => run_layout_op ctx op
  | ApiCall.layout_begin_column => mu_layout_begin_column ctx
  | ApiCall.layout_end_column => mu_layout_end_column ctx
  | ApiCall.set_focus id => some (mu_set_focus ctx id)
  | ApiCall.update_control id rect opt => mu_update_control ctx id rect opt
  | ApiCall.button_ex label icon opt => (mu_button_ex ctx label icon opt).map Prod.snd
  | ApiCall.get_container name => (mu_get_container ctx name).map Prod.snd
  | ApiCall.bring_to_front cnt => some (mu_bring_to_front ctx cnt)
  | ApiCall.begin_window_ex title rect opt => (mu_begin_window_ex ctx title rect opt).map Prod.snd
  | ApiCall.end_window => mu_end_window ctx
  | ApiCall.open_popup name => mu_open_popup ctx name
  | ApiCall.begin_popup name => (mu_begin_popup ctx name).map Prod.snd
  | ApiCall.end_popup => mu_end_popup ctx
  | ApiCall.begin_panel_ex name opt => mu_begin_panel_ex ctx name opt
  | ApiCall.end_panel => mu_end_panel ctx

/-- The calls of `calls` in order, fatal as soon as one of them is. -/
def run_apis : mu_Context → List ApiCall → Option mu_Context
  | ctx, [] => some ctx
  | ctx, call :: rest =>
    match run_api ctx call with
    | none => none
    | some ctx1 => run_apis ctx1 rest

/-- The root list is in ascending z-order. -/
def root_list_sorted (ctx : mu_Context) : Prop :=
  ctx.root_list.Pairwise (fun a b => cnt_zindex ctx a ≤ cnt_zindex ctx b)

/-! ## Contexts and frames of the scenarios -/

/-- A fresh context with text callbacks installed: every glyph 8 wide, every line 16
high. -/
def scenario_init : mu_Context :=
  mu_set_text_height_cb (mu_set_text_width_cb fresh_context (fun _ _ str => 8 * (str.length : Int)))
    (fun _ _ => 16)

/-- A context in the middle of a frame: widget 5 has focus, the Tab key went down this
frame, and one clip rectangle is on the stack. -/
def tab_context : mu_Context :=
  { scenario_init with
    focus := 5, key_pressed := MU_KEY_TAB, key_down := MU_KEY_TAB,
    clip_stack := [unclipped_rect] }

/-- A context in the middle of a frame whose active clip rectangle is (0,0,100,100),
pushed on the unclipped rectangle of a window. -/
def clip_context : mu_Context :=
  { scenario_init with clip_stack := [unclipped_rect, mu_rect 0 0 100 100] }

/-- The context after `push_layout` of the body (0,0,300,400) with no scroll on a fresh
context with the default style: one layout frame, as inside a window. -/
def layout_context : mu_Context :=
  match push_layout scenario_init (mu_rect 0 0 300 400) (mu_vec2 0 0) with
  | some c => c
  | none => scenario_init

/-- The context `layout_context` after `mu_layout_row` with the widths `ws`. -/
def row_context (items : Int) (ws : List Int) (height : Int) : mu_Context :=
  match mu_layout_row layout_context items (some ws) height with
  | some c => c
  | none => layout_context

/-- The context `row_context 3 [0, 50, 0] 0` with a style whose default size is (-5, -5). -/
def negative_default_context : mu_Context :=
  { row_context 3 [0, 50, 0] 0 with style := { default_style with size := mu_vec2 (-5) (-5) } }

/-- The context after `n` calls of `mu_layout_next`. -/
def after_nexts (n : Nat) (ctx : mu_Context) : mu_Context :=
  match layout_nexts n ctx with
  | some (_, c) => c
  | none => ctx

/-- The layout on top of the layout stack, for a context that has one. -/
def top_layout (ctx : mu_Context) : mu_Layout := (mu_get_layout ctx).getD empty_layout

/-- A fresh context after the input calls of one frame: the left button pressed at (3,4),
the Tab key down, a scroll of (0,5) and the text `a`. -/
def input_context : mu_Context :=
  match mu_input_text
      (mu_input_scroll
        (mu_input_keydown (mu_input_mousedown scenario_init 3 4 MU_MOUSE_LEFT) MU_KEY_TAB) 0 5)
      [97] with
  | some c => c
  | none => scenario_init

/-- A run of `n` calls of `mu_push_clip_rect` with the rect `r`. -/
def push_clip_rects (r : mu_Rect) : Nat → mu_Context → Option mu_Context
  | 0, ctx => some ctx
  | n + 1, ctx =>
    match mu_push_clip_rect ctx r with
    | none => none
    | some ctx1 => push_clip_rects r n ctx1

/-- A run of `n` calls of `push_layout` with the same body and scroll. -/
def push_layouts (body : mu_Rect) (scroll : mu_Vec2) : Nat → mu_Context → Option mu_Context
  | 0, ctx => some ctx
  | n + 1, ctx =>
    match push_layout ctx body scroll with
    | none => none
    | some ctx1 => push_layouts body scroll n ctx1

/-- A context whose identity, clip and layout stacks hold as many entries as the
constructor reserved for them: 32, 32 and 16. -/
def full_stacks_context : mu_Context :=
  { scenario_init with
    id_stack := List.replicate MU_IDSTACK_SIZE 7
    clip_stack := List.replicate MU_CLIPSTACK_SIZE unclipped_rect
    layout_stack := List.replicate MU_LAYOUTSTACK_SIZE empty_layout }

/-- A context at the end of a frame with handlers registered: two global ones (types 8
and 24, neither reports handled), then in the scope 3 a handler of type 40 that does not
report handled, in the inner scope 5 a handler of type 72 that does, and in the scope 9 a
handler of type 136; the focus stack is `[3, 5]`, widget 5 has focus, and a key-down event
is buffered. -/
def handlers_context : mu_Context :=
  { mu_input_keydown scenario_init MU_KEY_RETURN with
    focus := 5
    focus_stack := [3, 5]
    global_event_handlers :=
      [{ container_id := 0, type := 8, fn := fun _ => false },
       { container_id := 0, type := 24, fn := fun _ => false }]
    event_handlers :=
      [{ container_id := 3, type := 40, fn := fun _ => false },
       { container_id := 5, type := 72, fn := fun _ => true },
       { container_id := 9, type := 136, fn := fun _ => false }] }

/-- The calls of a first frame with two windows, `a` declared before `b`, in which the
window `a` (container 0) is brought to the front before the frame ends. -/
def two_windows_calls : List ApiCall :=
  [ApiCall.set_text_width_cb (fun _ _ str => 8 * (str.length : Int)),
   ApiCall.set_text_height_cb (fun _ _ => 16),
   ApiCall.begin_,
   ApiCall.begin_window_ex [97] (mu_rect 0 0 100 100) 0,
   ApiCall.end_window,
   ApiCall.begin_window_ex [98] (mu_rect 50 50 100 100) 0,
   ApiCall.end_window,
   ApiCall.bring_to_front 0]

/-- The context `two_windows_calls` lead to from a fresh context. -/
def two_windows_context : mu_Context := (run_apis fresh_context two_windows_calls).getD fresh_context

/-- The identity `mu_button_ex` computes for a button. -/
def button_id (ctx : mu_Context) (label : Option (List uchar)) (icon : Int) : Nat :=
  match label with
  | some l => (mu_get_id ctx l).1
  | none => (mu_get_id ctx (int_bytes icon)).1

/-- One frame of the button scenario: `mu_begin`, a window `w` at (0,0,200,200) with
neither title bar nor resize notch, the button `ok` placed at (0,0,50,20) by
`mu_layout_set_next`, `mu_end_window`, `mu_end`. The result is what `mu_button_ex`
returned and the context after the frame. -/
def button_frame (ctx : mu_Context) : Option (Nat × mu_Context) :=
  match mu_begin ctx with
  | none => none
  | some c1 =>
    match mu_begin_window_ex c1 [119] (mu_rect 0 0 200 200) (MU_OPT_NOTITLE ||| MU_OPT_NORESIZE) with
    | none => none
    | some (active, c2) =>
      if active = 0 then none
      else
        match mu_layout_set_next c2 (mu_rect 0 0 50 20) 0 with
        | none => none
        | some c3 =>
          match mu_button_ex c3 (some [111, 107]) 0 MU_OPT_ALIGNCENTER with
          | none => none
          | some (res, c4) =>
            match mu_end_window c4 with
            | none => none
            | some c5 =>
              match mu_end c5 with
              | none => none
              | some c6 => some (res, c6)

/-- Successive frames of the button scenario, each preceded by the input calls given for
it; the results of `mu_button_ex`, frame by frame, each with `ctx.focus` at the end of the
frame. -/
def button_frames : mu_Context → List (mu_Context → mu_Context) → Option (List (Nat × Nat))
  | _, [] => some []
  | ctx, input :: rest =>
    match button_frame (input ctx) with
    | none => none
    | some (res, c) =>
      match button_frames c rest with
      | none => none
      | some l => some ((res, c.focus) :: l)

/-- A widget of a scenario frame: the bytes hashed into its identity, the rectangle it is
given, and its options. -/
structure ScenarioWidget where
  name : List uchar
  rect : mu_Rect
  opt : Nat

/-- The calls a widget makes: `mu_get_id`, `mu_layout_next` (the rectangle is set before
with `mu_layout_set_next`), `mu_update_control`. -/
def declare_widget (ctx : mu_Context) (w : ScenarioWidget) : Option mu_Context :=
  match mu_layout_set_next ctx w.rect 0 with
  | none => none
  | some c1 =>
    match mu_layout_next (mu_get_id c1 w.name).2 with
    | none => none
    | some (rect, c2) => mu_update_control c2 (mu_get_id c1 w.name).1 rect w.opt

def declare_widgets : mu_Context → List ScenarioWidget → Option mu_Context
  | ctx, [] => some ctx
  | ctx, w :: rest =>
    match declare_widget ctx w with
    | none => none
    | some c => declare_widgets c rest

/-- One scenario frame: `mu_begin`, the window `w` at (0,0,200,200) with neither title bar
nor resize notch, the widgets in order, `mu_end_window`, `mu_end`. -/
def widget_frame (ctx : mu_Context) (widgets : List ScenarioWidget) : Option mu_Context :=
  match mu_begin ctx with
  | none => none
  | some c1 =>
    match mu_begin_window_ex c1 [119] (mu_rect 0 0 200 200) (MU_OPT_NOTITLE ||| MU_OPT_NORESIZE) with
    | none => none
    | some (active, c2) =>
      if active = 0 then none
      else
        match declare_widgets c2 widgets with
        | none => none
        | some c3 =>
          match mu_end_window c3 with
          | none => none
          | some c4 => mu_end c4

/-- Successive scenario frames, each with the input calls made before it and the widgets
declared in it. -/
def widget_frames : mu_Context → List ((mu_Context → mu_Context) × List ScenarioWidget) →
    Option mu_Context
  | ctx, [] => some ctx
  | ctx, f :: rest =>
    match widget_frame (f.1 ctx) f.2 with
    | none => none
    | some c => widget_frames c rest

/-- Text box `a` of the scenarios, at (0,0,50,20), with `MU_OPT_HOLDFOCUS`. -/
def widget_a : ScenarioWidget := { name := [97], rect := mu_rect 0 0 50 20, opt := MU_OPT_HOLDFOCUS }

/-- Plain widget `b` of the scenarios, at (0,30,50,20). -/
def widget_b : ScenarioWidget := { name := [98], rect := mu_rect 0 30 50 20, opt := 0 }

/-- Plain widget `c` of the scenarios, at (0,60,50,20). -/
def widget_c : ScenarioWidget := { name := [99], rect := mu_rect 0 60 50 20, opt := 0 }

/-- The identity a scenario widget gets inside the window `w`. -/
def widget_id (w : ScenarioWidget) : Nat :=
  (mu_get_id (mu_push_id scenario_init (mu_get_id scenario_init [119]).1) w.name).1

/-- The context inside the window `w` of the scenarios, in the first frame of a fresh
context, after the widgets `a` and `b` were declared. -/
def window_context : mu_Context :=
  match mu_begin scenario_init with
  | none => scenario_init
  | some c1 =>
    match mu_begin_window_ex c1 [119] (mu_rect 0 0 200 200) (MU_OPT_NOTITLE ||| MU_OPT_NORESIZE) with
    | none => c1
    | some (_, c2) =>
      match declare_widgets c2 [widget_a, widget_b] with
      | none => c2
      | some c3 => c3

/-- The frames that give the text box `a` focus by a click: the pointer is moved over it,
rests there, the left button goes down and up, all three widgets declared in each. -/
def click_on_a : List ((mu_Context → mu_Context) × List ScenarioWidget) :=
  [(fun c => mu_input_mousemove c 10 10, [widget_a, widget_b, widget_c]),
   (fun c => c, [widget_a, widget_b, widget_c]),
   (fun c => mu_input_mousedown c 10 10 MU_MOUSE_LEFT, [widget_a, widget_b, widget_c]),
   (fun c => mu_input_mouseup c 10 10 MU_MOUSE_LEFT, [widget_a, widget_b, widget_c])]

/-- The rectangle the specification gives for `expand_rect(rect, box)`: the rect grown by
the box on the matching sides. -/
def expand_rect_spec (rect : mu_Rect) (box : mu_Box) : mu_Rect :=
  mu_rect (rect.x - box.left) (rect.y - box.top) (rect.w + box.left + box.right)
    (rect.h + box.top + box.bottom)

/-- The context `window_context` with the pointer at (10,10) over the window `w`, which is
the hover root, the left button held down since an earlier frame, and the identity 7
hovered. -/
def held_context : mu_Context :=
  { window_context with
    mouse_pos := mu_vec2 10 10, mouse_down := MU_MOUSE_LEFT, hover := 7, hover_root := some 0 }

/-- The context `window_context` with the left button pressed this frame at (10,10), over
the window `w`, which is the hover root, while the identity 9 is hovered. -/
def press_context : mu_Context :=
  { window_context with
    mouse_pos := mu_vec2 10 10, mouse_down := MU_MOUSE_LEFT, mouse_pressed := MU_MOUSE_LEFT,
    hover := 9, hover_root := some 0 }

/-- The context `window_context` in which the identity 9 has focus and is still the
hovered one from the frame before, while the left button was pressed this frame at
(100,100). -/
def stale_hover_context : mu_Context :=
  { window_context with
    focus := 9, hover := 9, mouse_pos := mu_vec2 100 100, mouse_down := MU_MOUSE_LEFT,
    mouse_pressed := MU_MOUSE_LEFT, hover_root := some 0 }

/-- The context `window_context` in which the identity 9 has focus, the pointer rests at
(100,100) and no button is down. -/
def idle_focus_context : mu_Context :=
  { window_context with focus := 9, mouse_pos := mu_vec2 100 100, hover_root := some 0 }

/-- Text box `d` of the scenarios, at (0,90,50,20), with `MU_OPT_HOLDFOCUS`. -/
def widget_d : ScenarioWidget := { name := [100], rect := mu_rect 0 90 50 20, opt := MU_OPT_HOLDFOCUS }

/-- The frames that give the text box `d` focus by a click, as `click_on_a` does for `a`,
with the four widgets declared in each. -/
def click_on_d : List ((mu_Context → mu_Context) × List ScenarioWidget) :=
  [(fun c => mu_input_mousemove c 10 100, [widget_a, widget_b, widget_c, widget_d]),
   (fun c => c, [widget_a, widget_b, widget_c, widget_d]),
   (fun c => mu_input_mousedown c 10 100 MU_MOUSE_LEFT, [widget_a, widget_b, widget_c, widget_d]),
   (fun c => mu_input_mouseup c 10 100 MU_MOUSE_LEFT, [widget_a, widget_b, widget_c, widget_d])]

/-- A frame in which the Shift key and then the Tab key go down, with the four widgets
declared. -/
def shift_tab_frame : List ((mu_Context → mu_Context) × List ScenarioWidget) :=
  [(fun c => mu_input_keydown (mu_input_keydown c MU_KEY_SHIFT) MU_KEY_TAB,
    [widget_a, widget_b, widget_c, widget_d])]

/-- The context `window_context` in which the identity 9 has focus after the identity 5
had it, the identity computed before the last one is 7, and the Tab key went down this
frame with Shift held. -/
def shift_tab_context : mu_Context :=
  { window_context with
    focus := 9, last_focus := 5, prev_id := 7, key_pressed := MU_KEY_TAB,
    key_down := MU_KEY_TAB ||| MU_KEY_SHIFT }

/-- What the steps of `mu_update_control` before the Tab step keep, on the view, in a frame
without a press edge: the widget `has_focus` reports, and the fields the Tab step reads. -/
def view_tab_inputs_kept (id : Nat) (v w : FocusView) : Prop :=
  (view_has_focus v id = true → view_has_focus w id = true) ∧ w.prev_id = v.prev_id ∧
    w.key_pressed = v.key_pressed ∧ w.key_down = v.key_down ∧
    w.should_focus_next = v.should_focus_next ∧ w.mouse_pressed = v.mouse_pressed

/-- The first event `handle_events` dispatches at `handlers_context`, with the handlers
called for it. -/
def handlers_dispatch : mu_Event × List EventHandlerWrapper :=
  ((handle_events handlers_context)[0]?).getD (default, [])

/-- The third handler called for that event. -/
def handlers_third_called : EventHandlerWrapper :=
  (handlers_dispatch.2[2]?).getD { container_id := 0, type := 0, fn := fun _ => false }

/-- The context `window_context` in which the text box 9 has focus, the left button is
held, the text `é!` (bytes 195, 169, 33) was typed this frame and the Backspace key went
down. -/
def typing_context : mu_Context :=
  { window_context with
    focus := 9, mouse_down := MU_MOUSE_LEFT, input_text := [195, 169, 33],
    key_pressed := MU_KEY_BACKSPACE, key_down := MU_KEY_BACKSPACE }

/-- The rect `r` moved by `(dx, dy)`. -/
def move_rect (dx dy : Int) (r : mu_Rect) : mu_Rect := { r with x := r.x + dx, y := r.y + dy }

/-- The layout frame `l` with the origin of its body at `(bx, by_)` and the running maximum
`m`: a frame that differs from `l` at most in `body.x`, `body.y` and `max`. -/
def shift_layout (l : mu_Layout) (bx by_ : Int) (m : mu_Vec2) : mu_Layout :=
  { l with body := { l.body with x := bx, y := by_ }, max := m }

/-- The function `mu_layout_next` on the frame it points to: the rect returned and the
frame after the call. -/
def layout_next_on (style : mu_Style) (layout : mu_Layout) : mu_Rect × mu_Layout :=
  if layout.next_type ≠ 0 then
    if layout.next_type = ABSOLUTE then (layout.next, { layout with next_type := 0 })
    else layout_next_tail style { layout with next_type := 0 } layout.next
  else regular_cell style layout

/-- The calls `mu_layout_row` and `mu_layout_next` among the layout calls. -/
def row_or_next : LayoutOp → Bool
  | LayoutOp.row _ _ _ => true
  | LayoutOp.next => true
  | _ => false

/-- The layout calls of `ops` in order, with the rects the calls of `mu_layout_next`
returned. -/
def layout_calls : mu_Context → List LayoutOp → Option (List mu_Rect × mu_Context)
  | ctx, [] => some ([], ctx)
  | ctx, op :: rest =>
    match op with
    | LayoutOp.next =>
      match mu_layout_next ctx with
      | none => none
      | some (r, ctx1) =>
        match layout_calls ctx1 rest with
        | none => none
        | some (rs, ctx2) => some (r :: rs, ctx2)
    | _ =>
      match run_layout_op ctx op with
      | none => none
      | some ctx1 => layout_calls ctx1 rest

/-- The context `layout_context` with the container scrolled by (10,20): `push_layout` of
the same body (0,0,300,400) with that scroll offset. -/
def scrolled_layout_context : mu_Context :=
  match push_layout scenario_init (mu_rect 0 0 300 400) (mu_vec2 10 20) with
  | some c => c
  | none => scenario_init

/-- A row of two cells, 50 wide and filling, and three calls of `mu_layout_next`, the last
of which starts a second row. -/
def row_and_three_nexts : List LayoutOp :=
  [LayoutOp.row 2 (some [50, -1]) 0, LayoutOp.next, LayoutOp.next, LayoutOp.next]

/-- The four stacks a container call pushes on: the container stack, the clip stack, the
identity stack and the layout stack. -/
def four_stacks (c : mu_Context) : List Nat × List mu_Rect × List Nat × List mu_Layout :=
  (c.container_stack, c.clip_stack, c.id_stack, c.layout_stack)

/-- The state `c3` a balanced body leaves when entered at `c2`: every push of the body was
matched by its pop, so that the container, clip and identity stacks are as they were, and
the layout stack holds the same frames under a top frame that the layout calls of the body
may have written. -/
def balanced_body (c2 c3 : mu_Context) : Prop :=
  c3.container_stack = c2.container_stack ∧ c3.clip_stack = c2.clip_stack ∧
    c3.id_stack = c2.id_stack ∧ c3.layout_stack.dropLast = c2.layout_stack.dropLast ∧
    c3.layout_stack.length = c2.layout_stack.length

/-- Storage that reads as zero except for what an earlier use left in the first slot of
the container pool and in the first container: the identity of the window `a`, and a
container that is open with the z-index 5. -/
def stale_storage : mu_Context :=
  { zeroed_storage with
    container_pool :=
      { id := (mu_get_id zeroed_storage [97]).1, last_update := 0 }
        :: List.replicate 47 { id := 0, last_update := 0 }
    containers :=
      { zero_container with zindex := 5, open_ := 1 } :: List.replicate 47 zero_container }

/-- The calls of a first frame with two windows, `a` declared before `b`, in which the
window `b` (container 1) is brought to the front before the frame ends. -/
def front_b_calls : List ApiCall :=
  [ApiCall.set_text_width_cb (fun _ _ str => 8 * (str.length : Int)),
   ApiCall.set_text_height_cb (fun _ _ => 16),
   ApiCall.begin_,
   ApiCall.begin_window_ex [97] (mu_rect 0 0 100 100) 0,
   ApiCall.end_window,
   ApiCall.begin_window_ex [98] (mu_rect 50 50 100 100) 0,
   ApiCall.end_window,
   ApiCall.bring_to_front 1]

/-- The calls of one frame up to, and without, `mu_end`: the window `q` at (200,0,100,100)
with a key-down handler and, when `with_x`, the widget 1001; then the window `p` at
(0,0,100,100) with a key-down handler and the widget 1002, which holds focus. -/
def stale_scope_frame (with_x : Bool) : List ApiCall :=
  [ApiCall.begin_,
   ApiCall.begin_window_ex [113] (mu_rect 200 0 100 100) (MU_OPT_NOTITLE ||| MU_OPT_NORESIZE),
   ApiCall.event_handler KEYDOWN (fun _ => false)]
  ++ (if with_x then [ApiCall.update_control 1001 (mu_rect 210 10 50 20) 0] else [])
  ++ [ApiCall.end_window,
   ApiCall.begin_window_ex [112] (mu_rect 0 0 100 100) (MU_OPT_NOTITLE ||| MU_OPT_NORESIZE),
   ApiCall.event_handler KEYDOWN (fun _ => false),
   ApiCall.update_control 1002 (mu_rect 10 10 50 20) MU_OPT_HOLDFOCUS,
   ApiCall.end_window]

/-- The calls of nine frames: the pointer moves onto the widget 1002 of the window `p` and
clicks it; it moves onto the widget 1001 of the window `q` and presses it; the widget 1001
is not declared in the frame of the release; then a key goes down, and the last frame is
run up to `mu_end`. -/
def stale_scope_calls : List ApiCall :=
  [ApiCall.set_text_width_cb (fun _ _ str => 8 * (str.length : Int)),
   ApiCall.set_text_height_cb (fun _ _ => 16),
   ApiCall.input_mousemove 20 20]
  ++ stale_scope_frame true ++ [ApiCall.end_]
  ++ stale_scope_frame true ++ [ApiCall.end_]
  ++ [ApiCall.input_mousedown 20 20 MU_MOUSE_LEFT]
  ++ stale_scope_frame true ++ [ApiCall.end_]
  ++ [ApiCall.input_mouseup 20 20 MU_MOUSE_LEFT]
  ++ stale_scope_frame true ++ [ApiCall.end_]
  ++ [ApiCall.input_mousemove 220 20]
  ++ stale_scope_frame true ++ [ApiCall.end_]
  ++ stale_scope_frame true ++ [ApiCall.end_]
  ++ [ApiCall.input_mousedown 220 20 MU_MOUSE_LEFT]
  ++ stale_scope_frame true ++ [ApiCall.end_]
  ++ [ApiCall.input_mouseup 220 20 MU_MOUSE_LEFT]
  ++ stale_scope_frame false ++ [ApiCall.end_]
  ++ [ApiCall.input_keydown MU_KEY_RETURN]
  ++ stale_scope_frame true

/-- For each buffered event of a context, its type and the scopes of the handlers
`handle_events` calls for it, in the order of the calls. -/
def called_scopes (c : mu_Context) : List (Nat × List Nat) :=
  (handle_events c).map (fun p => (p.1.type, p.2.map (fun h => h.container_id)))

/-! ## Theorems -/

/-! ### Identity -/

theorem hash_eq_fnv1a_fold (d : List uchar) : ∀ h : Nat, hash h d = fnv1a_fold h d := by
  induction d with
  | nil => intro h; rfl
  | cons b rest ih =>
    intro h
    simp only [hash, fnv1a_fold, List.foldl_cons]
    rw [ih]
    rfl

theorem stack_top_eq_id_seed (ctx : mu_Context) :
    (if ctx.id_stack.length > 0 then ctx.id_stack.getD (ctx.id_stack.length - 1) 0
      else HASH_INITIAL) = id_seed ctx := by
  unfold id_seed
  rw [List.getLast?_eq_getElem?, List.getD_eq_getElem?_getD]
  by_cases hlen : ctx.id_stack.length > 0
  · have hlt : ctx.id_stack.length - 1 < ctx.id_stack.length := by omega
    simp [hlen, List.getElem?_eq_getElem hlt]
  · have hnil : ctx.id_stack = [] := List.length_eq_zero.mp (by omega)
    simp [hnil, HASH_INITIAL]

theorem mu_get_id_fst (ctx : mu_Context) (d : List uchar) :
    (mu_get_id ctx d).1 = fnv1a_fold (id_seed ctx) d := by
  unfold mu_get_id
  simp only
  rw [stack_top_eq_id_seed, hash_eq_fnv1a_fold]

/-- C1: `mu_get_id` returns the 32-bit FNV-1a fold of the payload, seeded with the top of
the identity stack or with 2166136261 when the stack is empty, each step being
`h := ((h xor b) * 16777619) mod 2^32`; so two contexts whose identity stacks have the same
top (in particular the same contents) give the same identity for the same payload. -/
theorem mu_get_id_is_fnv1a (ctx : mu_Context) (d : List uchar) :
    (mu_get_id ctx d).1 =
        d.foldl (fun h b => ((h ^^^ b.val) * 16777619) % 2 ^ 32)
          (match ctx.id_stack.getLast? with
           | some top => top
           | none => 2166136261)
      ∧ ∀ ctx2 : mu_Context, ctx2.id_stack.getLast? = ctx.id_stack.getLast? →
          (mu_get_id ctx2 d).1 = (mu_get_id ctx d).1 := by
  refine ⟨mu_get_id_fst ctx d, ?_⟩
  intro ctx2 h
  rw [mu_get_id_fst, mu_get_id_fst]
  unfold id_seed
  rw [h]

/-- C1, at the empty stack of a fresh context and at a context whose stack top is 7. -/
theorem mu_get_id_is_fnv1a_witness :
    (mu_get_id (mu_push_id fresh_context 7) [33, 120]).1 =
        ([33, 120] : List uchar).foldl (fun h b => ((h ^^^ b.val) * 16777619) % 2 ^ 32)
          (match (mu_push_id fresh_context 7).id_stack.getLast? with
           | some top => top
           | none => 2166136261)
      ∧ ∀ ctx2 : mu_Context, ctx2.id_stack.getLast? = (mu_push_id fresh_context 7).id_stack.getLast? →
          (mu_get_id ctx2 [33, 120]).1 = (mu_get_id (mu_push_id fresh_context 7) [33, 120]).1 :=
  mu_get_id_is_fnv1a (mu_push_id fresh_context 7) [33, 120]

/-- C2 (refuted as stated): on the empty identity stack the payloads `costarring` and
`liquid` get the same identity although the payloads differ, and the stacks `[1, 5]` and
`[2, 5]` give the payload `ok` the same identity although the chains differ. -/
theorem mu_get_id_collision :
    ((mu_get_id fresh_context [99, 111, 115, 116, 97, 114, 114, 105, 110, 103]).1
        = (mu_get_id fresh_context [108, 105, 113, 117, 105, 100]).1
      ∧ ¬ (fresh_context.id_stack = fresh_context.id_stack ∧
          ([99, 111, 115, 116, 97, 114, 114, 105, 110, 103] : List uchar)
            = [108, 105, 113, 117, 105, 100]))
    ∧ ((mu_get_id (mu_push_id (mu_push_id fresh_context 1) 5) [111, 107]).1
        = (mu_get_id (mu_push_id (mu_push_id fresh_context 2) 5) [111, 107]).1
      ∧ ¬ ((mu_push_id (mu_push_id fresh_context 1) 5).id_stack
            = (mu_push_id (mu_push_id fresh_context 2) 5).id_stack ∧
          ([111, 107] : List uchar) = [111, 107])) := by
  refine ⟨⟨by decide, by decide⟩, ⟨by decide, by decide⟩⟩

/-- C2 (amended): identical identity stacks and identical payloads give identical
identities; the converse is not claimed. -/
theorem mu_get_id_deterministic (ctx1 ctx2 : mu_Context) (d1 d2 : List uchar)
    (hs : ctx1.id_stack = ctx2.id_stack) (hd : d1 = d2) :
    (mu_get_id ctx1 d1).1 = (mu_get_id ctx2 d2).1 := by
  rw [mu_get_id_fst, mu_get_id_fst, hd]
  unfold id_seed
  rw [hs]

theorem mu_get_id_deterministic_witness :
    (mu_get_id (mu_push_id fresh_context 7) [111, 107]).1
      = (mu_get_id (mu_push_id { fresh_context with focus := 3 } 7) [111, 107]).1 :=
  mu_get_id_deterministic (mu_push_id fresh_context 7) (mu_push_id { fresh_context with focus := 3 } 7)
    [111, 107] [111, 107] rfl rfl

theorem push_id_arg_id_stack (ctx : mu_Context) (a : PushArg) :
    ∃ id, (push_id_arg ctx a).id_stack = ctx.id_stack ++ [id] := by
  cases a with
  | raw id => exact ⟨id, rfl⟩
  | bytes data => exact ⟨(mu_get_id ctx data).1, rfl⟩

theorem push_ids_id_stack (args : List PushArg) :
    ∀ ctx : mu_Context, ∃ ids : List Nat, ids.length = args.length ∧
      (push_ids ctx args).id_stack = ctx.id_stack ++ ids := by
  induction args with
  | nil => intro ctx; exact ⟨[], rfl, by simp [push_ids]⟩
  | cons a rest ih =>
    intro ctx
    obtain ⟨id, hid⟩ := push_id_arg_id_stack ctx a
    obtain ⟨ids, hlen, hst⟩ := ih (push_id_arg ctx a)
    refine ⟨id :: ids, by simp [hlen], ?_⟩
    have : push_ids ctx (a :: rest) = push_ids (push_id_arg ctx a) rest := rfl
    rw [this, hst, hid]
    simp

theorem pop_ids_append (n : Nat) :
    ∀ (ctx : mu_Context) (s ids : List Nat), ids.length = n → ctx.id_stack = s ++ ids →
      pop_ids n ctx = some { ctx with id_stack := s } := by
  induction n with
  | zero =>
    intro ctx s ids hlen hst
    have hnil : ids = [] := List.length_eq_zero.mp hlen
    subst hnil
    simp only [List.append_nil] at hst
    simp [pop_ids, ← hst]
  | succ n ih =>
    intro ctx s ids hlen hst
    rcases List.eq_nil_or_concat ids with hnil | ⟨front, b, hcat⟩
    · subst hnil; simp at hlen
    · subst hcat
      rw [List.concat_eq_append] at hst hlen
      have hpop : mu_pop_id ctx = some { ctx with id_stack := s ++ front } := by
        unfold mu_pop_id pop
        rw [hst, ← List.append_assoc, List.dropLast_concat]
        simp
      have hlen2 : front.length = n := by simpa using hlen
      simp only [pop_ids, hpop]
      exact ih { ctx with id_stack := s ++ front } s front hlen2 rfl

/-- C3: from every context, any `n` calls of `mu_push_id` (each with a raw identity or a
byte payload) followed by `n` calls of `mu_pop_id` succeed, and the identity stack is then
the one before the pushes, depth and contents. -/
theorem push_pop_id_balanced (ctx : mu_Context) (args : List PushArg) :
    ∃ ctx2 : mu_Context, pop_ids args.length (push_ids ctx args) = some ctx2 ∧
      ctx2.id_stack = ctx.id_stack ∧ ctx2.id_stack.length = ctx.id_stack.length := by
  obtain ⟨ids, hlen, hst⟩ := push_ids_id_stack args ctx
  refine ⟨{ push_ids ctx args with id_stack := ctx.id_stack }, ?_, rfl, rfl⟩
  exact pop_ids_append args.length (push_ids ctx args) ctx.id_stack ids hlen hst

/-! ### Retained pool -/

/-- What the loop of `mu_pool_init` computes: either no slot is below `f` and the
accumulators are returned as they were, or the result is the first slot with the smallest
`last_update`, which is below `f`. -/
theorem pool_init_loop_spec (l : List mu_PoolItem) :
    ∀ (i : Nat) (f n : Int),
      ((∀ it ∈ l, ¬ it.last_update < f) ∧ pool_init_loop l i f n = (f, n)) ∨
      (∃ (k : Nat) (old : mu_PoolItem), l[k]? = some old ∧
          pool_init_loop l i f n = (old.last_update, ((i + k : Nat) : Int)) ∧
          old.last_update < f ∧
          (∀ it ∈ l, old.last_update ≤ it.last_update) ∧
          (∀ (j : Nat) (it : mu_PoolItem), j < k → l[j]? = some it →
            old.last_update < it.last_update)) := by
  induction l with
  | nil => intro i f n; left; simp [pool_init_loop]
  | cons a rest ih =>
    intro i f n
    by_cases hlt : a.last_update < f
    · have hstep : pool_init_loop (a :: rest) i f n
          = pool_init_loop rest (i + 1) a.last_update (i : Int) := by
        simp [pool_init_loop, hlt]
      rcases ih (i + 1) a.last_update (i : Int) with ⟨hnone, hres⟩ | ⟨k, old, hk, hres, hlt2, hmin, hfirst⟩
      · right
        refine ⟨0, a, by simp, ?_, hlt, ?_, ?_⟩
        · rw [hstep, hres]; simp
        · intro it hit
          rcases List.mem_cons.mp hit with h | h
          · rw [h]
          · have := hnone it h; omega
        · intro j it hj; omega
      · right
        refine ⟨k + 1, old, by simpa using hk, ?_, by omega, ?_, ?_⟩
        · rw [hstep, hres]
          congr 2
          omega
        · intro it hit
          rcases List.mem_cons.mp hit with h | h
          · rw [h]; omega
          · exact hmin it h
        · intro j it hj hget
          cases j with
          | zero =>
            simp at hget
            rw [← hget]; exact hlt2
          | succ j =>
            simp at hget
            exact hfirst j it (by omega) hget
    · have hstep : pool_init_loop (a :: rest) i f n = pool_init_loop rest (i + 1) f n := by
        simp [pool_init_loop, hlt]
      rcases ih (i + 1) f n with ⟨hnone, hres⟩ | ⟨k, old, hk, hres, hlt2, hmin, hfirst⟩
      · left
        refine ⟨?_, by rw [hstep, hres]⟩
        intro it hit
        rcases List.mem_cons.mp hit with h | h
        · rw [h]; exact hlt
        · exact hnone it h
      · right
        refine ⟨k + 1, old, by simpa using hk, ?_, hlt2, ?_, ?_⟩
        · rw [hstep, hres]
          congr 2
          omega
        · intro it hit
          rcases List.mem_cons.mp hit with h | h
          · rw [h]; omega
          · exact hmin it h
        · intro j it hj hget
          cases j with
          | zero =>
            simp at hget
            rw [← hget]; omega
          | succ j =>
            simp at hget
            exact hfirst j it (by omega) hget

/-- The result of `mu_pool_init` when the loop has chosen slot `k`. -/
theorem mu_pool_init_of_loop (ctx : mu_Context) (items : List mu_PoolItem) (id : Nat) (k : Nat)
    (f : Int) (h : pool_init_loop items 0 ctx.frame (-1) = (f, (k : Int))) :
    mu_pool_init ctx items id = some (k,
      List.modify (fun it => { it with last_update := ctx.frame }) k
        (List.modify (fun it => { it with id := id }) k items)) := by
  unfold mu_pool_init mu_pool_update
  simp only [h]
  have hk : (k : Int) > -1 := by omega
  simp only [hk, if_true, Int.toNat_ofNat]

/-- C4: when some slot has `last_update` below the current frame number, `mu_pool_init`
returns the index of the slot with the smallest `last_update` of all slots, the lowest
such index on a tie, writes `id` into it stamped with the current frame number, and leaves
every other slot unchanged. -/
theorem mu_pool_init_evicts_oldest (ctx : mu_Context) (items : List mu_PoolItem) (id : Nat)
    (h : ∃ it ∈ items, it.last_update < ctx.frame) :
    ∃ (n : Nat) (items2 : List mu_PoolItem) (old : mu_PoolItem),
      mu_pool_init ctx items id = some (n, items2) ∧
      items[n]? = some old ∧
      (∀ it ∈ items, old.last_update ≤ it.last_update) ∧
      (∀ (j : Nat) (it : mu_PoolItem), j < n → items[j]? = some it →
        old.last_update < it.last_update) ∧
      items2[n]? = some { id := id, last_update := ctx.frame } ∧
      items2.length = items.length ∧
      (∀ j : Nat, j ≠ n → items2[j]? = items[j]?) := by
  rcases pool_init_loop_spec items 0 ctx.frame (-1) with ⟨hnone, _⟩ | ⟨k, old, hk, hres, _, hmin, hfirst⟩
  · obtain ⟨it, hit, hlt⟩ := h
    exact absurd hlt (hnone it hit)
  · refine ⟨k, _, old, mu_pool_init_of_loop ctx items id k old.last_update (by simpa using hres), hk, hmin,
      hfirst, ?_, ?_, ?_⟩
    · simp [List.getElem?_modify, hk]
    · simp [List.length_modify]
    · intro j hj
      have hne : ¬ k = j := fun e => hj e.symm
      simp only [List.getElem?_modify, hne, if_false]
      cases items[j]? <;> rfl

/-- C4, at a pool of three slots in frame 9: slots 1 and 2 tie for the oldest stamp, and
slot 1 is the one taken. -/
theorem mu_pool_init_evicts_oldest_witness :
    (∃ it ∈ ([⟨10, 8⟩, ⟨11, 4⟩, ⟨12, 4⟩] : List mu_PoolItem),
        it.last_update < ({ fresh_context with frame := 9 } : mu_Context).frame) ∧
    ∃ (n : Nat) (items2 : List mu_PoolItem) (old : mu_PoolItem),
      mu_pool_init { fresh_context with frame := 9 } [⟨10, 8⟩, ⟨11, 4⟩, ⟨12, 4⟩] 77 = some (n, items2) ∧
      ([⟨10, 8⟩, ⟨11, 4⟩, ⟨12, 4⟩] : List mu_PoolItem)[n]? = some old ∧
      (∀ it ∈ ([⟨10, 8⟩, ⟨11, 4⟩, ⟨12, 4⟩] : List mu_PoolItem),
        old.last_update ≤ it.last_update) ∧
      (∀ (j : Nat) (it : mu_PoolItem), j < n →
        ([⟨10, 8⟩, ⟨11, 4⟩, ⟨12, 4⟩] : List mu_PoolItem)[j]? = some it →
        old.last_update < it.last_update) ∧
      items2[n]? = some { id := 77, last_update := ({ fresh_context with frame := 9 } : mu_Context).frame } ∧
      items2.length = ([⟨10, 8⟩, ⟨11, 4⟩, ⟨12, 4⟩] : List mu_PoolItem).length ∧
      (∀ j : Nat, j ≠ n →
        items2[j]? = ([⟨10, 8⟩, ⟨11, 4⟩, ⟨12, 4⟩] : List mu_PoolItem)[j]?) :=
  ⟨⟨⟨10, 8⟩, by simp, by decide⟩,
    mu_pool_init_evicts_oldest { fresh_context with frame := 9 } [⟨10, 8⟩, ⟨11, 4⟩, ⟨12, 4⟩] 77
      ⟨⟨10, 8⟩, by simp, by decide⟩⟩

/-- C5 (refuted as stated): in frame 3, on a pool of 48 slots that were all stamped in
frame 3, `mu_pool_init` is fatal (`expect(n > -1)` fails) instead of evicting a slot. -/
theorem mu_pool_init_all_touched_fatal :
    mu_pool_init { fresh_context with frame := 3 }
      ((List.range 48).map (fun i => ({ id := i + 1, last_update := 3 } : mu_PoolItem))) 100
      = none := by
  decide

/-- C5 (amended): `mu_pool_init` returns a slot exactly when some slot has `last_update`
below the current frame number, and the index it returns is then a valid one; when every
slot was stamped in the current frame (or later) the call is fatal. -/
theorem mu_pool_init_succeeds_iff (ctx : mu_Context) (items : List mu_PoolItem) (id : Nat) :
    ((mu_pool_init ctx items id).isSome = true ↔ ∃ it ∈ items, it.last_update < ctx.frame) ∧
    (∀ (n : Nat) (items2 : List mu_PoolItem),
      mu_pool_init ctx items id = some (n, items2) → n < items.length) := by
  rcases pool_init_loop_spec items 0 ctx.frame (-1) with ⟨hnone, hres⟩ | ⟨k, old, hk, hres, hlt, _, _⟩
  · have hfail : mu_pool_init ctx items id = none := by
      unfold mu_pool_init
      simp [hres]
    refine ⟨?_, ?_⟩
    · rw [hfail]
      constructor
      · intro h; simp at h
      · rintro ⟨it, hit, hlt⟩
        exact absurd hlt (hnone it hit)
    · intro n items2 h
      rw [hfail] at h
      cases h
  · have hok := mu_pool_init_of_loop ctx items id k old.last_update (by simpa using hres)
    have hklt : k < items.length := by
      rcases Nat.lt_or_ge k items.length with h | h
      · exact h
      · rw [List.getElem?_eq_none h] at hk
        cases hk
    refine ⟨?_, ?_⟩
    · rw [hok]
      constructor
      · intro _
        exact ⟨old, List.getElem?_mem hk, hlt⟩
      · intro _; rfl
    · intro n items2 h
      rw [hok] at h
      have := (Prod.mk.inj (Option.some.inj h)).1
      omega

/-! ### Closed lookup of a container -/

theorem pool_get_loop_absent (items : List mu_PoolItem) (id : Nat) :
    ∀ i : Nat, (∀ it ∈ items, it.id ≠ id) → pool_get_loop items i id = -1 := by
  induction items with
  | nil => intro i _; rfl
  | cons a rest ih =>
    intro i h
    have ha : a.id ≠ id := h a (List.mem_cons_self a rest)
    simp only [pool_get_loop, ha, if_false]
    exact ih (i + 1) (fun it hit => h it (List.mem_cons_of_mem a hit))

theorem get_container_closed_absent (ctx : mu_Context) (id opt : Nat)
    (hopt : has_flag opt MU_OPT_CLOSED = true)
    (hid : ∀ it ∈ ctx.container_pool, it.id ≠ id) :
    get_container ctx id opt = some (none, ctx) := by
  unfold get_container mu_pool_get
  rw [pool_get_loop_absent ctx.container_pool id 0 hid]
  simp [hopt]

/-- C6: when no slot of the container pool holds `id`, `get_container` with
`MU_OPT_CLOSED` returns the null pointer and the context it was given, so the pool, every
container record and `last_zindex` are unchanged; and `mu_begin_popup` for a name whose
identity no slot holds returns 0, changing only `prev_id` and `cur_id`. -/
theorem closed_lookup_allocates_nothing (ctx : mu_Context) (id opt : Nat) (name : List uchar)
    (hopt : has_flag opt MU_OPT_CLOSED = true)
    (hid : ∀ it ∈ ctx.container_pool, it.id ≠ id)
    (hname : ∀ it ∈ ctx.container_pool, it.id ≠ (mu_get_id ctx name).1) :
    (∃ ctx2 : mu_Context, get_container ctx id opt = some (none, ctx2) ∧
        ctx2.container_pool = ctx.container_pool ∧ ctx2.containers = ctx.containers ∧
        ctx2.last_zindex = ctx.last_zindex ∧ ctx2 = ctx) ∧
    (∃ ctx3 : mu_Context, mu_begin_popup ctx name = some (0, ctx3) ∧
        ctx3.container_pool = ctx.container_pool ∧ ctx3.containers = ctx.containers ∧
        ctx3.last_zindex = ctx.last_zindex ∧ ctx3 = (mu_get_id ctx name).2) := by
  refine ⟨⟨ctx, get_container_closed_absent ctx id opt hopt hid, rfl, rfl, rfl, rfl⟩, ?_⟩
  refine ⟨(mu_get_id ctx name).2, ?_, rfl, rfl, rfl, rfl⟩
  unfold mu_begin_popup mu_begin_window_ex
  simp only
  rw [get_container_closed_absent (mu_get_id ctx name).2 (mu_get_id ctx name).1 _ (by decide)
    hname]

/-- C6, at the fresh context, whose pool slots all hold identity 0: a closed lookup of
identity 77 and `mu_begin_popup` for the name `menu`. -/
theorem closed_lookup_allocates_nothing_witness :
    (∃ ctx2 : mu_Context, get_container fresh_context 77 MU_OPT_CLOSED = some (none, ctx2) ∧
        ctx2.container_pool = fresh_context.container_pool ∧ ctx2.containers = fresh_context.containers ∧
        ctx2.last_zindex = fresh_context.last_zindex ∧ ctx2 = fresh_context) ∧
    (∃ ctx3 : mu_Context, mu_begin_popup fresh_context [109, 101, 110, 117] = some (0, ctx3) ∧
        ctx3.container_pool = fresh_context.container_pool ∧ ctx3.containers = fresh_context.containers ∧
        ctx3.last_zindex = fresh_context.last_zindex ∧
        ctx3 = (mu_get_id fresh_context [109, 101, 110, 117]).2) :=
  closed_lookup_allocates_nothing fresh_context 77 MU_OPT_CLOSED [109, 101, 110, 117] (by decide)
    (by decide) (by decide)

/-! ### The focus machine -/

theorem mu_mouse_over_some (c : mu_Context) (rect : mu_Rect) (hclip : c.clip_stack ≠ []) :
    ∃ mo : Bool, mu_mouse_over c rect = some mo := by
  unfold mu_mouse_over mu_get_clip_rect
  cases h : c.clip_stack.getLast? with
  | none => exact absurd (List.getLast?_eq_none_iff.mp h) hclip
  | some cr => split <;> simp

theorem focus_view_set_focus (c : mu_Context) (id : Nat) :
    focus_view (mu_set_focus c id) = view_set_focus (focus_view c) id := by
  unfold mu_set_focus
  split <;> rfl

theorem has_focus_view (c : mu_Context) (id : Nat) :
    has_focus c id = view_has_focus (focus_view c) id := rfl

theorem focus_view_focus_next (c : mu_Context) (id : Nat) :
    focus_view (update_control_focus_next c id) = view_focus_next (focus_view c) id := by
  unfold update_control_focus_next view_focus_next
  by_cases h : c.should_focus_next = true
  · have h2 : (focus_view c).should_focus_next = true := h
    rw [if_pos h, if_pos h2, ← focus_view_set_focus]
    rfl
  · have h2 : ¬ (focus_view c).should_focus_next = true := h
    rw [if_neg h, if_neg h2]

theorem focus_view_hover (c : mu_Context) (id : Nat) (mo : Bool) :
    focus_view (update_control_hover c id mo) = view_hover (focus_view c) id mo := by
  unfold update_control_hover view_hover
  by_cases h : mo = true ∧ c.mouse_down = 0
  · have h2 : mo = true ∧ (focus_view c).mouse_down = 0 := h
    rw [if_pos h, if_pos h2]; rfl
  · have h2 : ¬ (mo = true ∧ (focus_view c).mouse_down = 0) := h
    rw [if_neg h, if_neg h2]

theorem focus_view_focus_loss (c : mu_Context) (id opt : Nat) (mo : Bool) :
    focus_view (update_control_focus_loss c id opt mo)
      = view_focus_loss (focus_view c) id opt mo := by
  unfold update_control_focus_loss view_focus_loss
  by_cases h1 : c.focus = id
  · have h1v : (focus_view c).focus = id := h1
    rw [if_pos h1, if_pos h1v]
    by_cases h2 : c.mouse_pressed ≠ 0 ∧ mo = false
    · have h2v : (focus_view c).mouse_pressed ≠ 0 ∧ mo = false := h2
      simp only [if_pos h2, if_pos h2v]
      have e : focus_view (mu_set_focus c 0) = view_set_focus (focus_view c) 0 :=
        focus_view_set_focus c 0
      by_cases h3 : (mu_set_focus c 0).mouse_down = 0 ∧ has_flag opt MU_OPT_HOLDFOCUS = false
      · have h3v : (view_set_focus (focus_view c) 0).mouse_down = 0
            ∧ has_flag opt MU_OPT_HOLDFOCUS = false := by rw [← e]; exact h3
        rw [if_pos h3, if_pos h3v, focus_view_set_focus, e]
      · have h3v : ¬ ((view_set_focus (focus_view c) 0).mouse_down = 0
            ∧ has_flag opt MU_OPT_HOLDFOCUS = false) := by rw [← e]; exact h3
        rw [if_neg h3, if_neg h3v, e]
    · have h2v : ¬ ((focus_view c).mouse_pressed ≠ 0 ∧ mo = false) := h2
      simp only [if_neg h2, if_neg h2v]
      by_cases h3 : c.mouse_down = 0 ∧ has_flag opt MU_OPT_HOLDFOCUS = false
      · have h3v : (focus_view c).mouse_down = 0 ∧ has_flag opt MU_OPT_HOLDFOCUS = false := h3
        rw [if_pos h3, if_pos h3v, focus_view_set_focus]
      · have h3v : ¬ ((focus_view c).mouse_down = 0 ∧ has_flag opt MU_OPT_HOLDFOCUS = false) := h3
        rw [if_neg h3, if_neg h3v]
  · have h1v : ¬ (focus_view c).focus = id := h1
    rw [if_neg h1, if_neg h1v]

theorem focus_view_focus_gain (c : mu_Context) (id : Nat) (mo : Bool) :
    focus_view (update_control_focus_gain c id mo) = view_focus_gain (focus_view c) id mo := by
  unfold update_control_focus_gain view_focus_gain
  by_cases h1 : c.hover = id
  · have h1v : (focus_view c).hover = id := h1
    rw [if_pos h1, if_pos h1v]
    by_cases h2 : c.mouse_pressed ≠ 0
    · have h2v : (focus_view c).mouse_pressed ≠ 0 := h2
      rw [if_pos h2, if_pos h2v, focus_view_set_focus]
    · have h2v : ¬ (focus_view c).mouse_pressed ≠ 0 := h2
      rw [if_neg h2, if_neg h2v]
      by_cases h3 : mo = false
      · rw [if_pos h3, if_pos h3]; rfl
      · rw [if_neg h3, if_neg h3]
  · have h1v : ¬ (focus_view c).hover = id := h1
    rw [if_neg h1, if_neg h1v]

theorem focus_view_tab (c : mu_Context) (id : Nat) (handled : Bool) :
    focus_view (update_control_tab c id handled) = view_tab (focus_view c) id handled := by
  unfold update_control_tab view_tab
  by_cases h1 : has_flag c.key_pressed MU_KEY_TAB = true ∧ handled = false
      ∧ has_focus c id = true
  · have h1v : has_flag (focus_view c).key_pressed MU_KEY_TAB = true ∧ handled = false
        ∧ view_has_focus (focus_view c) id = true := h1
    rw [if_pos h1, if_pos h1v]
    by_cases h2 : has_flag c.key_down MU_KEY_SHIFT = true
    · have h2v : has_flag (focus_view c).key_down MU_KEY_SHIFT = true := h2
      rw [if_pos h2, if_pos h2v, focus_view_set_focus]; rfl
    · have h2v : ¬ has_flag (focus_view c).key_down MU_KEY_SHIFT = true := h2
      rw [if_neg h2, if_neg h2v]; rfl
  · have h1v : ¬ (has_flag (focus_view c).key_pressed MU_KEY_TAB = true ∧ handled = false
        ∧ view_has_focus (focus_view c) id = true) := h1
    rw [if_neg h1, if_neg h1v]

theorem focus_view_confirm (c : mu_Context) (id : Nat) :
    focus_view (update_control_confirm c id) = view_confirm (focus_view c) id := by
  unfold update_control_confirm view_confirm
  by_cases hf : c.focus = id
  · have hfv : (focus_view c).focus = id := hf
    rw [if_pos hf, if_pos hfv]; rfl
  · have hfv : ¬ (focus_view c).focus = id := hf
    rw [if_neg hf, if_neg hfv]

/-- On the fields of the focus machine, `mu_update_control` is `view_update_control` with
the value of `mu_mouse_over` taken after the focus-next step. -/
theorem focus_view_update_control (c c2 : mu_Context) (id : Nat) (rect : mu_Rect) (opt : Nat)
    (h : mu_update_control c id rect opt = some c2) :
    ∃ mo : Bool, mu_mouse_over (update_control_focus_next c id) rect = some mo ∧
      focus_view c2 = view_update_control (focus_view c) id opt mo := by
  unfold mu_update_control at h
  cases hmo : mu_mouse_over (update_control_focus_next c id) rect with
  | none => simp only [hmo] at h; cases h
  | some mo =>
    simp only [hmo] at h
    refine ⟨mo, rfl, ?_⟩
    unfold view_update_control
    by_cases hni : has_flag opt MU_OPT_NOINTERACT = true
    · rw [if_pos hni] at h
      simp only [if_pos hni]
      rw [← Option.some.inj h, focus_view_confirm, focus_view_focus_next]
    · rw [if_neg hni] at h
      simp only [if_neg hni]
      rw [← Option.some.inj h]
      unfold update_control_interact
      rw [focus_view_tab, focus_view_focus_gain, focus_view_focus_loss, focus_view_hover,
        focus_view_confirm, focus_view_focus_next]
      rfl

theorem only_focus_changed_refl (c : mu_Context) : only_focus_changed c c := rfl

theorem only_focus_changed_trans (a b c : mu_Context) (h1 : only_focus_changed a b)
    (h2 : only_focus_changed b c) : only_focus_changed a c := by
  unfold only_focus_changed at *
  rw [h2, h1]

theorem only_focus_changed_set_focus (c : mu_Context) (id : Nat) :
    only_focus_changed c (mu_set_focus c id) := by
  unfold only_focus_changed mu_set_focus
  split <;> rfl

theorem only_focus_changed_focus_next (c : mu_Context) (id : Nat) :
    only_focus_changed c (update_control_focus_next c id) := by
  unfold update_control_focus_next
  split
  · exact only_focus_changed_trans _ _ _ (only_focus_changed_set_focus c id) rfl
  · exact only_focus_changed_refl c

theorem only_focus_changed_confirm (c : mu_Context) (id : Nat) :
    only_focus_changed c (update_control_confirm c id) := by
  unfold update_control_confirm
  split <;> rfl

theorem only_focus_changed_hover (c : mu_Context) (id : Nat) (mo : Bool) :
    only_focus_changed c (update_control_hover c id mo) := by
  unfold update_control_hover
  split <;> rfl

theorem only_focus_changed_focus_loss (c : mu_Context) (id opt : Nat) (mo : Bool) :
    only_focus_changed c (update_control_focus_loss c id opt mo) := by
  unfold update_control_focus_loss
  split
  · split
    · show only_focus_changed c
        (if (mu_set_focus c 0).mouse_down = 0 ∧ has_flag opt MU_OPT_HOLDFOCUS = false then
          mu_set_focus (mu_set_focus c 0) 0 else mu_set_focus c 0)
      split
      · exact only_focus_changed_trans _ _ _ (only_focus_changed_set_focus c 0)
          (only_focus_changed_set_focus _ 0)
      · exact only_focus_changed_set_focus c 0
    · show only_focus_changed c
        (if c.mouse_down = 0 ∧ has_flag opt MU_OPT_HOLDFOCUS = false then
          mu_set_focus c 0 else c)
      split
      · exact only_focus_changed_set_focus c 0
      · exact only_focus_changed_refl c
  · exact only_focus_changed_refl c

theorem only_focus_changed_focus_gain (c : mu_Context) (id : Nat) (mo : Bool) :
    only_focus_changed c (update_control_focus_gain c id mo) := by
  unfold update_control_focus_gain
  split
  · split
    · exact only_focus_changed_set_focus c id
    · split <;> rfl
  · exact only_focus_changed_refl c

theorem only_focus_changed_tab (c : mu_Context) (id : Nat) (handled : Bool) :
    only_focus_changed c (update_control_tab c id handled) := by
  unfold update_control_tab
  split
  · split
    · exact only_focus_changed_set_focus c c.prev_id
    · rfl
  · exact only_focus_changed_refl c

/-- Outside the fields of the focus machine, `mu_update_control` changes nothing. -/
theorem update_control_frame (c c2 : mu_Context) (id : Nat) (rect : mu_Rect) (opt : Nat)
    (h : mu_update_control c id rect opt = some c2) : only_focus_changed c c2 := by
  unfold mu_update_control at h
  cases hmo : mu_mouse_over (update_control_focus_next c id) rect with
  | none => simp only [hmo] at h; cases h
  | some mo =>
    simp only [hmo] at h
    have k1 := only_focus_changed_trans _ _ _ (only_focus_changed_focus_next c id)
      (only_focus_changed_confirm (update_control_focus_next c id) id)
    by_cases hni : has_flag opt MU_OPT_NOINTERACT = true
    · rw [if_pos hni] at h
      rw [← Option.some.inj h]
      exact k1
    · rw [if_neg hni] at h
      rw [← Option.some.inj h]
      unfold update_control_interact
      exact only_focus_changed_trans _ _ _ k1
        (only_focus_changed_trans _ _ _ (only_focus_changed_hover _ id mo)
          (only_focus_changed_trans _ _ _ (only_focus_changed_focus_loss _ id opt mo)
            (only_focus_changed_trans _ _ _ (only_focus_changed_focus_gain _ id mo)
              (only_focus_changed_tab _ id c.should_focus_next))))

theorem update_control_some (c : mu_Context) (id : Nat) (rect : mu_Rect) (opt : Nat)
    (hclip : c.clip_stack ≠ []) : ∃ c2 : mu_Context, mu_update_control c id rect opt = some c2 := by
  have hc : (update_control_focus_next c id).clip_stack ≠ [] := by
    have := only_focus_changed_focus_next c id
    unfold only_focus_changed at this
    rw [this]
    exact hclip
  obtain ⟨mo, hmo⟩ := mu_mouse_over_some (update_control_focus_next c id) rect hc
  unfold mu_update_control
  simp only [hmo]
  split <;> exact ⟨_, rfl⟩

/-! ### Focus at frame end -/

/-- A quiet frame keeps the state of the focus machine: while `f` has focus, nothing has
confirmed it, no focus-next is pending, and there is neither a press edge nor a Tab edge,
a `mu_update_control` call for another identity leaves all of that as it is. -/
theorem update_control_quiet (c c2 : mu_Context) (f id : Nat) (rect : mu_Rect) (opt : Nat)
    (hne : id ≠ f)
    (hf : c.focus = f) (hu : c.updated_focus = false) (hs : c.should_focus_next = false)
    (hm : c.mouse_pressed = 0) (ht : has_flag c.key_pressed MU_KEY_TAB = false)
    (h : mu_update_control c id rect opt = some c2) :
    c2.focus = f ∧ c2.updated_focus = false ∧ c2.should_focus_next = false ∧
      c2.mouse_pressed = 0 ∧ c2.key_pressed = c.key_pressed := by
  have hne2 : ¬ c.focus = id := fun e => hne (by rw [← e, hf])
  unfold mu_update_control update_control_focus_next at h
  simp only [hs, Bool.false_eq_true, if_false] at h
  cases hmo : mu_mouse_over c rect with
  | none => rw [hmo] at h; cases h
  | some mouseover =>
    rw [hmo] at h
    simp only [update_control_confirm, hne2, if_false] at h
    by_cases hni : has_flag opt MU_OPT_NOINTERACT = true
    · simp only [hni, if_true] at h
      cases h
      exact ⟨hf, hu, hs, hm, rfl⟩
    · simp only [hni, if_false] at h
      cases h
      have h1 : (update_control_hover c id mouseover).focus = c.focus ∧
          (update_control_hover c id mouseover).updated_focus = c.updated_focus ∧
          (update_control_hover c id mouseover).should_focus_next = c.should_focus_next ∧
          (update_control_hover c id mouseover).mouse_pressed = c.mouse_pressed ∧
          (update_control_hover c id mouseover).key_pressed = c.key_pressed := by
        unfold update_control_hover
        split <;> simp
      have h2 : update_control_focus_loss (update_control_hover c id mouseover) id opt mouseover
          = update_control_hover c id mouseover := by
        unfold update_control_focus_loss
        rw [if_neg (by rw [h1.1]; exact hne2)]
      have h3 : ∀ d : mu_Context, d.mouse_pressed = 0 →
          (update_control_focus_gain d id mouseover).focus = d.focus ∧
          (update_control_focus_gain d id mouseover).updated_focus = d.updated_focus ∧
          (update_control_focus_gain d id mouseover).should_focus_next = d.should_focus_next ∧
          (update_control_focus_gain d id mouseover).mouse_pressed = d.mouse_pressed ∧
          (update_control_focus_gain d id mouseover).key_pressed = d.key_pressed := by
        intro d hd
        unfold update_control_focus_gain
        split_ifs <;> simp_all
      have h4 : ∀ d : mu_Context, has_flag d.key_pressed MU_KEY_TAB = false →
          update_control_tab d id false = d := by
        intro d hd
        unfold update_control_tab
        rw [if_neg]
        rw [hd]; simp
      unfold update_control_interact
      rw [h2]
      have h3a := h3 (update_control_hover c id mouseover) (by rw [h1.2.2.2.1, hm])
      rw [h4 _ (by rw [h3a.2.2.2.2, h1.2.2.2.2, ht])]
      refine ⟨?_, ?_, ?_, ?_, ?_⟩
      · rw [h3a.1, h1.1, hf]
      · rw [h3a.2.1, h1.2.1, hu]
      · rw [h3a.2.2.1, h1.2.2.1, hs]
      · rw [h3a.2.2.2.1, h1.2.2.2.1, hm]
      · rw [h3a.2.2.2.2, h1.2.2.2.2]

theorem run_ops_quiet (f : Nat) (ops : List FrameOp) :
    ∀ c c2 : mu_Context, (∀ op ∈ ops, not_declaring f op) →
      c.focus = f → c.updated_focus = false → c.should_focus_next = false →
      c.mouse_pressed = 0 → has_flag c.key_pressed MU_KEY_TAB = false →
      run_ops c ops = some c2 →
      c2.focus = f ∧ c2.updated_focus = false := by
  induction ops with
  | nil =>
    intro c c2 _ hf hu _ _ _ h
    simp only [run_ops, Option.some.injEq] at h
    subst h
    exact ⟨hf, hu⟩
  | cons op rest ih =>
    intro c c2 hops hf hu hs hm ht h
    have hop : not_declaring f op := hops op (List.mem_cons_self op rest)
    have hrest : ∀ o ∈ rest, not_declaring f o := fun o ho => hops o (List.mem_cons_of_mem op ho)
    simp only [run_ops] at h
    cases hstep : run_op c op with
    | none => rw [hstep] at h; cases h
    | some c1 =>
      rw [hstep] at h
      simp only at h
      cases op with
      | update_control id rect opt =>
        obtain ⟨q1, q2, q3, q4, q5⟩ :=
          update_control_quiet c c1 f id rect opt hop hf hu hs hm ht hstep
        exact ih c1 c2 hrest q1 q2 q3 q4 (by rw [q5]; exact ht) h
      | other g =>
        obtain ⟨q1, q2, q3, q4, q5⟩ := hop c c1 hstep
        exact ih c1 c2 hrest (by rw [q1, hf]) (by rw [q2, hu]) (by rw [q3, hs])
          (by rw [q4, hm]) (by rw [q5]; exact ht) h

theorem mu_end_focus (c : mu_Context)
    (h1 : c.container_stack = []) (h2 : c.clip_stack = []) (h3 : c.id_stack = [])
    (h4 : c.layout_stack = []) :
    ∃ c2 : mu_Context, mu_end c = some c2 ∧
      c2.focus = (if c.updated_focus = false then 0 else c.focus) ∧
      c2.last_focus = c.last_focus ∧ c2.should_focus_next = c.should_focus_next ∧
      c2.mouse_pressed = 0 ∧ c2.text_width = c.text_width ∧ c2.text_height = c.text_height := by
  unfold mu_end
  simp only [h1, h2, h3, h4, List.isEmpty_nil, and_self, if_true]
  refine ⟨_, rfl, ?_, ?_, ?_, ?_, ?_, ?_⟩
  all_goals
    simp only [set_cnt, mu_bring_to_front]
    repeat' split
    all_goals simp_all

/-- C7 (refuted as stated). From a fresh context the text box `a` is given focus by a
click (`click_on_a`); the pointer then moves over the plain widget `b`; in the next frame
the left button goes down on `b` and `a` is not declared: after `mu_end` of that frame
`ctx.focus` is the identity of `b`, not 0. The same on bare states, where widget 5 holds focus
when the frame begins and is not declared in it: (1) widget 7 was hovered and the mouse is
pressed; (2) a focus-next request is pending and 7 is the first widget declared; (3) 7 was
focused before 5 and Shift+Tab is pressed, so focus moves to `prev_id`, 9. -/
theorem focus_not_cleared_when_moved :
    (Option.map (fun c => c.focus) (widget_frames scenario_init click_on_a)
        = some (widget_id widget_a)
      ∧ Option.map (fun c => c.focus)
          (widget_frames scenario_init
            (click_on_a ++
              [(fun c => mu_input_mousemove c 10 40, [widget_a, widget_b, widget_c]),
               (fun c => mu_input_mousedown c 10 40 MU_MOUSE_LEFT, [widget_b, widget_c])]))
        = some (widget_id widget_b)
      ∧ widget_id widget_a ≠ 0 ∧ widget_id widget_b ≠ 0 ∧ widget_id widget_a ≠ widget_id widget_b)
    ∧ Option.map (fun c => c.focus)
        (Option.bind
          (run_ops { fresh_context with focus := 5, hover := 7, mouse_down := 1, mouse_pressed := 1 }
            [FrameOp.update_control 7 (mu_rect 100 100 50 20) 0])
          mu_end) = some 7
    ∧ Option.map (fun c => c.focus)
        (Option.bind
          (run_ops { fresh_context with focus := 5, should_focus_next := true }
            [FrameOp.update_control 7 (mu_rect 100 100 50 20) MU_OPT_HOLDFOCUS])
          mu_end) = some 7
    ∧ Option.map (fun c => c.focus)
        (Option.bind
          (run_ops
            { fresh_context with
              focus := 5, last_focus := 7, prev_id := 9, key_pressed := 32, key_down := 33 }
            [FrameOp.update_control 7 (mu_rect 100 100 50 20) 0])
          mu_end) = some 9 := by
  refine ⟨⟨by decide, by decide, by decide, by decide, by decide⟩, by decide, by decide,
    by decide⟩

/-- C7 (amended): if `f` holds focus when a frame begins (nothing has confirmed focus
yet), the frame has no mouse-press edge, no Tab edge and no pending focus-next request,
and no call of the frame declares `f` (every `mu_update_control` call is for another
identity, every other call leaves the focus state alone), then `mu_end` succeeds on the
balanced stacks and `ctx.focus` is 0 after it. -/
theorem focus_cleared_when_not_redeclared (ctx ctx2 : mu_Context) (f : Nat) (ops : List FrameOp)
    (hf : ctx.focus = f) (hu : ctx.updated_focus = false)
    (hs : ctx.should_focus_next = false) (hm : ctx.mouse_pressed = 0)
    (ht : has_flag ctx.key_pressed MU_KEY_TAB = false)
    (hops : ∀ op ∈ ops, not_declaring f op)
    (hrun : run_ops ctx ops = some ctx2)
    (h1 : ctx2.container_stack = []) (h2 : ctx2.clip_stack = []) (h3 : ctx2.id_stack = [])
    (h4 : ctx2.layout_stack = []) :
    ∃ ctx3 : mu_Context, mu_end ctx2 = some ctx3 ∧ ctx3.focus = 0 := by
  obtain ⟨_, q2⟩ := run_ops_quiet f ops ctx ctx2 hops hf hu hs hm ht hrun
  obtain ⟨c3, he, hfoc, _⟩ := mu_end_focus ctx2 h1 h2 h3 h4
  exact ⟨c3, he, by rw [hfoc, if_pos q2]⟩

/-- C7, at a frame in which widget 5 has focus and only widget 7 is declared, after a
`mu_get_id` call: the frame ends with `ctx.focus` 0. -/
theorem focus_cleared_when_not_redeclared_witness :
    ∃ ctx3 : mu_Context,
      mu_end (mu_get_id { fresh_context with focus := 5 } [111, 107]).2 = some ctx3 ∧
        ctx3.focus = 0 :=
  focus_cleared_when_not_redeclared { fresh_context with focus := 5 }
    (mu_get_id { fresh_context with focus := 5 } [111, 107]).2 5
    [FrameOp.other (fun c => some (mu_get_id c [111, 107]).2),
     FrameOp.update_control 7 (mu_rect 100 100 50 20) 0]
    rfl rfl rfl rfl (by decide)
    (by
      intro op hop
      simp only [List.mem_cons, List.mem_singleton, List.not_mem_nil, or_false] at hop
      rcases hop with h | h
      · subst h
        intro c c2 hc
        cases hc
        exact ⟨rfl, rfl, rfl, rfl, rfl⟩
      · subst h
        show (7 : Nat) ≠ 5
        decide)
    rfl rfl rfl rfl rfl

/-! ### Tab order -/

/-- Step of the focused widget `A` under a Tab edge without Shift and without a press. -/
theorem view_tab_from_focused (v : FocusView) (A opt : Nat) (mo : Bool)
    (hA0 : A ≠ 0) (hf : v.focus = A)
    (htab : has_flag v.key_pressed MU_KEY_TAB = true)
    (hshift : has_flag v.key_down MU_KEY_SHIFT = false)
    (hs : v.should_focus_next = false) (hm : v.mouse_pressed = 0)
    (hni : has_flag opt MU_OPT_NOINTERACT = false) :
    (view_update_control v A opt mo).should_focus_next = true ∧
    ((view_update_control v A opt mo).focus = A ∨ (view_update_control v A opt mo).focus = 0) ∧
    (view_update_control v A opt mo).mouse_pressed = 0 ∧
    (view_update_control v A opt mo).mouse_down = v.mouse_down ∧
    (view_update_control v A opt mo).key_pressed = v.key_pressed ∧
    (view_update_control v A opt mo).key_down = v.key_down := by
  obtain ⟨hover, focus, last_focus, sfn, upd, prev_id, md, mp, kd, kp⟩ := v
  simp only at hf htab hshift hs hm
  subst hf hs hm
  by_cases h1 : md = 0 <;> by_cases h2 : has_flag opt MU_OPT_HOLDFOCUS = true <;>
    by_cases h3 : hover = focus <;> cases mo <;>
    simp [view_update_control, view_tab, view_focus_gain, view_focus_loss, view_hover,
      view_confirm, view_focus_next, view_has_focus, view_set_focus, htab, hshift, hni, h1, h2,
      h3, hA0]

/-- Step of the widget `B` on which a pending focus-next request lands, with no press. -/
theorem view_focus_next_lands (v : FocusView) (B opt : Nat) (mo : Bool)
    (hB0 : B ≠ 0) (hs : v.should_focus_next = true) (hm : v.mouse_pressed = 0) :
    (view_update_control v B opt mo).should_focus_next = false ∧
    (view_update_control v B opt mo).updated_focus = true ∧
    (view_update_control v B opt mo).focus
      = (if has_flag opt MU_OPT_NOINTERACT = true ∨ v.mouse_down ≠ 0
            ∨ has_flag opt MU_OPT_HOLDFOCUS = true then B else 0) ∧
    (view_update_control v B opt mo).last_focus
      = (if has_flag opt MU_OPT_NOINTERACT = true ∨ v.mouse_down ≠ 0
            ∨ has_flag opt MU_OPT_HOLDFOCUS = true then v.focus else B) ∧
    (view_update_control v B opt mo).mouse_pressed = 0 ∧
    (view_update_control v B opt mo).mouse_down = v.mouse_down ∧
    (view_update_control v B opt mo).key_pressed = v.key_pressed ∧
    (view_update_control v B opt mo).key_down = v.key_down := by
  obtain ⟨hover, focus, last_focus, sfn, upd, prev_id, md, mp, kd, kp⟩ := v
  simp only at hs hm
  subst hs hm
  by_cases h0 : has_flag opt MU_OPT_NOINTERACT = true <;> by_cases h1 : md = 0 <;>
    by_cases h2 : has_flag opt MU_OPT_HOLDFOCUS = true <;>
    by_cases h3 : hover = B <;> cases mo <;>
    simp [view_update_control, view_tab, view_focus_gain, view_focus_loss, view_hover,
      view_confirm, view_focus_next, view_has_focus, view_set_focus, h0, h1, h2, h3, hB0]

/-- Step of a widget `C` that has no focus, with no press and no pending request. -/
theorem view_unfocused_step (v : FocusView) (C opt : Nat) (mo : Bool)
    (hf : v.focus ≠ C) (hl : v.last_focus ≠ C)
    (hs : v.should_focus_next = false) (hm : v.mouse_pressed = 0) :
    (view_update_control v C opt mo).should_focus_next = false ∧
    (view_update_control v C opt mo).updated_focus = v.updated_focus ∧
    (view_update_control v C opt mo).focus = v.focus ∧
    (view_update_control v C opt mo).last_focus = v.last_focus := by
  obtain ⟨hover, focus, last_focus, sfn, upd, prev_id, md, mp, kd, kp⟩ := v
  simp only at hs hm hf hl
  subst hs hm
  by_cases h0 : has_flag opt MU_OPT_NOINTERACT = true <;> by_cases h1 : md = 0 <;>
    by_cases h3 : hover = C <;> cases mo <;>
    simp [view_update_control, view_tab, view_focus_gain, view_focus_loss, view_hover,
      view_confirm, view_focus_next, view_has_focus, view_set_focus, h0, h1, h3, hf, hl]

theorem mu_begin_focus (c : mu_Context) (h1 : c.text_width.isSome = true)
    (h2 : c.text_height.isSome = true) :
    ∃ c2 : mu_Context, mu_begin c = some c2 ∧ c2.focus = c.focus ∧
      c2.last_focus = c.last_focus ∧ c2.should_focus_next = c.should_focus_next ∧
      c2.mouse_pressed = c.mouse_pressed ∧ c2.updated_focus = c.updated_focus := by
  unfold mu_begin
  rw [if_pos ⟨h1, h2⟩]
  exact ⟨_, rfl, rfl, rfl, rfl, rfl, rfl⟩

/-- C8 (amended): focused widget `A`, a Tab edge without Shift, no press edge; `A`, `B`,
`C` are declared in this order through `mu_update_control`. `A` raises the focus-next
request, it lands on `B` and is cleared there, and `C` does not get focus. `B` is then the
widget `has_focus` reports: `ctx.focus` is `B` when `B` keeps focus (`MU_OPT_HOLDFOCUS` or
`MU_OPT_NOINTERACT` in its options, or a mouse button down) and otherwise `ctx.focus` is 0
and `ctx.last_focus` is `B`; `mu_end` and the next `mu_begin` keep that. -/
theorem tab_focus_lands_on_next_widget (ctx : mu_Context) (A B C : Nat) (rA rB rC : mu_Rect)
    (oA oB oC : Nat)
    (hAC : A ≠ C) (hBC : B ≠ C) (hA0 : A ≠ 0) (hB0 : B ≠ 0) (hC0 : C ≠ 0)
    (hf : ctx.focus = A)
    (htab : has_flag ctx.key_pressed MU_KEY_TAB = true)
    (hshift : has_flag ctx.key_down MU_KEY_SHIFT = false)
    (hs : ctx.should_focus_next = false) (hm : ctx.mouse_pressed = 0)
    (hni : has_flag oA MU_OPT_NOINTERACT = false)
    (hclip : ctx.clip_stack ≠ []) :
    ∃ c1 c2 c3 : mu_Context,
      mu_update_control ctx A rA oA = some c1 ∧ mu_update_control c1 B rB oB = some c2 ∧
      mu_update_control c2 C rC oC = some c3 ∧
      c1.should_focus_next = true ∧ c2.should_focus_next = false ∧
      c3.should_focus_next = false ∧
      has_focus c3 B = true ∧ has_focus c3 C = false ∧ c3.updated_focus = true ∧
      c3.focus = (if has_flag oB MU_OPT_NOINTERACT = true ∨ ctx.mouse_down ≠ 0
                      ∨ has_flag oB MU_OPT_HOLDFOCUS = true then B else 0) ∧
      (¬ (has_flag oB MU_OPT_NOINTERACT = true ∨ ctx.mouse_down ≠ 0
            ∨ has_flag oB MU_OPT_HOLDFOCUS = true) → c3.last_focus = B) ∧
      (∀ c4 : mu_Context, c4.focus = c3.focus → c4.last_focus = c3.last_focus →
        c4.updated_focus = c3.updated_focus →
        c4.container_stack = [] → c4.clip_stack = [] → c4.id_stack = [] →
        c4.layout_stack = [] → c4.text_width.isSome = true → c4.text_height.isSome = true →
        ∃ c5 c6 : mu_Context, mu_end c4 = some c5 ∧ mu_begin c5 = some c6 ∧
          c6.focus = c3.focus ∧ c6.last_focus = c3.last_focus ∧ has_focus c6 B = true) := by
  obtain ⟨c1, h1⟩ := update_control_some ctx A rA oA hclip
  have f1 := update_control_frame ctx c1 A rA oA h1
  obtain ⟨moA, _, v1⟩ := focus_view_update_control ctx c1 A rA oA h1
  have hclip1 : c1.clip_stack ≠ [] := by
    unfold only_focus_changed at f1; rw [f1]; exact hclip
  obtain ⟨c2, h2⟩ := update_control_some c1 B rB oB hclip1
  have f2 := update_control_frame c1 c2 B rB oB h2
  obtain ⟨moB, _, v2⟩ := focus_view_update_control c1 c2 B rB oB h2
  have hclip2 : c2.clip_stack ≠ [] := by
    unfold only_focus_changed at f2; rw [f2]; exact hclip1
  obtain ⟨c3, h3⟩ := update_control_some c2 C rC oC hclip2
  obtain ⟨moC, _, v3⟩ := focus_view_update_control c2 c3 C rC oC h3
  -- step A
  obtain ⟨a1, a2, a3, a4, a5, a6⟩ := view_tab_from_focused (focus_view ctx) A oA moA hA0 hf
    htab hshift hs hm hni
  rw [← v1] at a1 a2 a3 a4 a5 a6
  -- step B
  obtain ⟨b1, b2, b3, b4, b5, b6, b7, b8⟩ := view_focus_next_lands (focus_view c1) B oB moB hB0
    a1 a3
  rw [← v2] at b1 b2 b3 b4 b5 b6 b7 b8
  have hmd : c1.mouse_down = ctx.mouse_down := a4
  have b3c : c2.focus = (if has_flag oB MU_OPT_NOINTERACT = true ∨ ctx.mouse_down ≠ 0
      ∨ has_flag oB MU_OPT_HOLDFOCUS = true then B else 0) := by
    rw [← hmd]; exact b3
  have b4c : c2.last_focus = (if has_flag oB MU_OPT_NOINTERACT = true ∨ ctx.mouse_down ≠ 0
      ∨ has_flag oB MU_OPT_HOLDFOCUS = true then c1.focus else B) := by
    rw [← hmd]; exact b4
  have hc1f : c1.focus ≠ C := by
    rcases a2 with h | h
    · have : c1.focus = A := h
      rw [this]; exact hAC
    · have : c1.focus = 0 := h
      rw [this]; exact fun e => hC0 e.symm
  have hc2f : c2.focus ≠ C := by
    rw [b3c]; split
    · exact hBC
    · exact fun e => hC0 e.symm
  have hc2l : c2.last_focus ≠ C := by
    rw [b4c]; split
    · exact hc1f
    · exact hBC
  -- step C
  obtain ⟨g1, g2, g3, g4⟩ := view_unfocused_step (focus_view c2) C oC moC hc2f hc2l b1 b5
  rw [← v3] at g1 g2 g3 g4
  have g3c : c3.focus = c2.focus := g3
  have g4c : c3.last_focus = c2.last_focus := g4
  have g2c : c3.updated_focus = true := by
    have : c3.updated_focus = c2.updated_focus := g2
    rw [this]; exact b2
  have hfB : has_focus c3 B = true := by
    unfold has_focus
    rw [g3c, g4c, b3c, b4c]
    split <;> simp [hB0]
  have hfC : has_focus c3 C = false := by
    unfold has_focus
    rw [g3c, g4c]
    simp [hc2f, hc2l]
  refine ⟨c1, c2, c3, h1, h2, h3, a1, b1, g1, hfB, hfC, g2c, by rw [g3c, b3c], ?_, ?_⟩
  · intro hnot
    rw [g4c, b4c, if_neg hnot]
  · intro c4 e1 e2 e3 s1 s2 s3 s4 t1 t2
    obtain ⟨c5, he, hfoc, hlast, _, _, tw, th⟩ := mu_end_focus c4 s1 s2 s3 s4
    obtain ⟨c6, hb, k1, k2, _⟩ := mu_begin_focus c5 (by rw [tw]; exact t1) (by rw [th]; exact t2)
    have hu : c4.updated_focus = true := by rw [e3]; exact g2c
    have hfoc2 : c5.focus = c4.focus := by rw [hfoc, hu]; simp
    refine ⟨c5, c6, he, hb, by rw [k1, hfoc2, e1], by rw [k2, hlast, e2], ?_⟩
    unfold has_focus
    rw [k1, k2, hfoc2, hlast, e1, e2]
    exact hfB

/-- C8, at `tab_context` with the widgets 5, 7 and 9, where 5 is a text box
(`MU_OPT_HOLDFOCUS`) and 7 and 9 are plain. -/
theorem tab_focus_lands_on_next_widget_witness :
    ∃ c1 c2 c3 : mu_Context,
      mu_update_control tab_context 5 (mu_rect 0 0 50 20) MU_OPT_HOLDFOCUS = some c1 ∧
      mu_update_control c1 7 (mu_rect 60 0 50 20) 0 = some c2 ∧
      mu_update_control c2 9 (mu_rect 120 0 50 20) 0 = some c3 ∧
      c1.should_focus_next = true ∧ c2.should_focus_next = false ∧
      c3.should_focus_next = false ∧
      has_focus c3 7 = true ∧ has_focus c3 9 = false ∧ c3.updated_focus = true ∧
      c3.focus = (if has_flag 0 MU_OPT_NOINTERACT = true ∨ tab_context.mouse_down ≠ 0
                      ∨ has_flag 0 MU_OPT_HOLDFOCUS = true then 7 else 0) ∧
      (¬ (has_flag 0 MU_OPT_NOINTERACT = true ∨ tab_context.mouse_down ≠ 0
            ∨ has_flag 0 MU_OPT_HOLDFOCUS = true) → c3.last_focus = 7) ∧
      (∀ c4 : mu_Context, c4.focus = c3.focus → c4.last_focus = c3.last_focus →
        c4.updated_focus = c3.updated_focus →
        c4.container_stack = [] → c4.clip_stack = [] → c4.id_stack = [] →
        c4.layout_stack = [] → c4.text_width.isSome = true → c4.text_height.isSome = true →
        ∃ c5 c6 : mu_Context, mu_end c4 = some c5 ∧ mu_begin c5 = some c6 ∧
          c6.focus = c3.focus ∧ c6.last_focus = c3.last_focus ∧ has_focus c6 7 = true) :=
  tab_focus_lands_on_next_widget tab_context 5 7 9 (mu_rect 0 0 50 20) (mu_rect 60 0 50 20)
    (mu_rect 120 0 50 20) MU_OPT_HOLDFOCUS 0 0 (by decide) (by decide) (by decide) (by decide)
    (by decide) (by decide) (by decide) (by decide) (by decide) (by decide) (by decide)
    (by decide)

/-- C8 (refuted as stated). From a fresh context the text box `a` is given focus by a
click (`click_on_a`), then Tab goes down and `a`, `b`, `c` are declared in this order: when
the next frame starts `ctx.focus` is 0, not the identity of the plain widget `b`, which is
in `ctx.last_focus`. The same on the bare state `tab_context` with the widgets 5, 7, 9. -/
theorem tab_focus_not_in_focus_field :
    (Option.map (fun c => c.focus) (widget_frames scenario_init click_on_a)
        = some (widget_id widget_a)
      ∧ Option.map (fun c => (c.focus, c.last_focus, c.should_focus_next))
          (Option.bind
            (widget_frames scenario_init
              (click_on_a ++
                [(fun c => mu_input_keydown c MU_KEY_TAB, [widget_a, widget_b, widget_c])]))
            mu_begin)
        = some (0, widget_id widget_b, false)
      ∧ widget_id widget_b ≠ 0)
    ∧ Option.map (fun c => (c.focus, c.last_focus, c.should_focus_next))
        (Option.bind
          (Option.bind
            (run_ops tab_context
              [FrameOp.update_control 5 (mu_rect 0 0 50 20) MU_OPT_HOLDFOCUS,
               FrameOp.update_control 7 (mu_rect 60 0 50 20) 0,
               FrameOp.update_control 9 (mu_rect 120 0 50 20) 0,
               FrameOp.other mu_pop_clip_rect])
            mu_end)
          mu_begin)
      = some (0, 7, false) := by
  refine ⟨⟨by decide, by decide, by decide⟩, by decide⟩

/-! ### Button -/

theorem pop_push {α : Type} (stk : List α) (x : α) : pop (push stk x) = some stk := by
  unfold pop push
  simp

/-- The text helper pushes a clip rectangle and pops it again: the context is unchanged. -/
theorem mu_draw_control_text_eq (c c2 : mu_Context) (str : List uchar) (rect : mu_Rect)
    (opt : Nat) (h : mu_draw_control_text c str rect opt = some c2) : c2 = c := by
  unfold mu_draw_control_text at h
  split at h
  · rename_i tw th _ _
    unfold mu_push_clip_rect at h
    cases hclip : mu_get_clip_rect c with
    | none => simp only [hclip] at h; cases h
    | some last =>
      simp only [hclip] at h
      split at h
      · cases h
      · unfold mu_pop_clip_rect at h
        simp only [pop_push] at h
        cases h
        rfl
  · cases h

theorem mu_layout_next_frame (c c2 : mu_Context) (r : mu_Rect)
    (h : mu_layout_next c = some (r, c2)) :
    c2 = { c with layout_stack := c2.layout_stack, last_rect := c2.last_rect } := by
  unfold mu_layout_next at h
  split at h
  · cases h
  · split at h
    · dsimp only at h
      split at h <;> (cases h; rfl)
    · cases h; rfl

/-- What `mu_button_ex` returns: `MU_RES_SUBMIT` exactly when the frame has the press
edge of the left button alone and the button has focus after `mu_update_control`. -/
theorem mu_button_ex_result (ctx ctx2 : mu_Context) (label : Option (List uchar)) (icon : Int)
    (opt res : Nat) (h : mu_button_ex ctx label icon opt = some (res, ctx2)) :
    res = (if ctx.mouse_pressed = MU_MOUSE_LEFT ∧ ctx2.focus = button_id ctx label icon
            then MU_RES_SUBMIT else 0) ∧ ctx2.mouse_pressed = ctx.mouse_pressed := by
  unfold mu_button_ex at h
  have hid : (match label with
      | some l => mu_get_id ctx l
      | none => mu_get_id ctx (int_bytes icon)).1 = button_id ctx label icon := by
    unfold button_id; cases label <;> rfl
  have hctx : ∀ d : List uchar, (mu_get_id ctx d).2.mouse_pressed = ctx.mouse_pressed :=
    fun _ => rfl
  have hmp0 : (match label with
      | some l => mu_get_id ctx l
      | none => mu_get_id ctx (int_bytes icon)).2.mouse_pressed = ctx.mouse_pressed := by
    cases label <;> rfl
  simp only [hid] at h
  generalize (match label with
      | some l => mu_get_id ctx l
      | none => mu_get_id ctx (int_bytes icon)).2 = c0 at h hmp0
  cases hl : mu_layout_next c0 with
  | none => simp only [hl] at h; cases h
  | some p =>
    obtain ⟨r, c1⟩ := p
    simp only [hl] at h
    have f1 := mu_layout_next_frame c0 c1 r hl
    have hmp1 : c1.mouse_pressed = ctx.mouse_pressed := by rw [f1]; exact hmp0
    cases hu : mu_update_control c1 (button_id ctx label icon) r opt with
    | none => simp only [hu] at h; cases h
    | some c2 =>
      simp only [hu] at h
      have f2 := update_control_frame c1 c2 _ r opt hu
      have hmp2 : c2.mouse_pressed = ctx.mouse_pressed := by
        unfold only_focus_changed at f2
        rw [f2]; exact hmp1
      split at h
      · cases h
      · split at h
        · cases h
        · rename_i c3 hdt
          have e3 : c3 = c2 := by
            cases label with
            | none => simp only [Option.some.injEq] at hdt; exact hdt.symm
            | some l => exact mu_draw_control_text_eq c2 c3 l r opt hdt
          subst e3
          split at h
          · cases h
          · split at h
            · cases h
            · simp only [Option.some.injEq, Prod.mk.injEq] at h
              obtain ⟨h1, h2⟩ := h
              subst h2
              refine ⟨?_, hmp2⟩
              rw [← h1, hmp2]

/-- C9 (refuted as stated): the pointer is brought over the button (two frames), the left
button goes down at (10,10) before the third frame and up at (10,10) before the fourth.
The button has identity 652798800. `mu_button_ex` returns `MU_RES_SUBMIT` (2) on the frame
of the press; on the frame of the release, which the button enters holding focus, it
returns 0. Without the two frames that establish hover, neither frame returns the flag. -/
theorem button_release_frame_returns_zero :
    button_id (mu_push_id scenario_init (mu_get_id scenario_init [119]).1) (some [111, 107]) 0
        = 652798800
    ∧ button_frames scenario_init
        [fun c => mu_input_mousemove c 10 10, fun c => c,
         fun c => mu_input_mousedown c 10 10 MU_MOUSE_LEFT,
         fun c => mu_input_mouseup c 10 10 MU_MOUSE_LEFT]
      = some [(0, 0), (0, 0), (2, 652798800), (0, 0)]
    ∧ button_frames scenario_init
        [fun c => mu_input_mousedown c 10 10 MU_MOUSE_LEFT,
         fun c => mu_input_mouseup c 10 10 MU_MOUSE_LEFT]
      = some [(0, 0), (0, 0)] := by
  refine ⟨by decide, by decide, by decide⟩

/-- C9 (amended): with the button declared at (0,0,50,20) in every frame and the pointer
already over it, a mousedown at (10,10) before one frame and a mouseup at (10,10) before
the next make `mu_button_ex` return `MU_RES_SUBMIT` on the frame of the press, where the
press gives the hovered button focus, and 0 on the release frame and after. In general
`mu_button_ex` returns `MU_RES_SUBMIT` exactly when the frame carries the press edge of
the left button alone and the button has focus after `mu_update_control`, else 0; `mu_end`
clears the press edge and `mu_input_mouseup` does not set it, so one click activates the
button at most once. -/
theorem button_activates_on_press_frame_only :
    button_frames scenario_init
        [fun c => mu_input_mousemove c 10 10, fun c => c,
         fun c => mu_input_mousedown c 10 10 MU_MOUSE_LEFT,
         fun c => mu_input_mouseup c 10 10 MU_MOUSE_LEFT, fun c => c]
      = some [(0, 0), (0, 0), (MU_RES_SUBMIT, 652798800), (0, 0), (0, 0)]
    ∧ (∀ (ctx ctx2 : mu_Context) (label : Option (List uchar)) (icon : Int) (opt res : Nat),
        mu_button_ex ctx label icon opt = some (res, ctx2) →
        res = (if ctx.mouse_pressed = MU_MOUSE_LEFT ∧ ctx2.focus = button_id ctx label icon
                then MU_RES_SUBMIT else 0))
    ∧ (∀ (c c1 : mu_Context) (x y : Int) (btn : Nat), mu_end c = some c1 →
        (mu_input_mouseup c1 x y btn).mouse_pressed = 0 ∧
        ∀ c2 : mu_Context, mu_begin (mu_input_mouseup c1 x y btn) = some c2 →
          c2.mouse_pressed = 0) := by
  refine ⟨by decide, ?_, ?_⟩
  · intro ctx ctx2 label icon opt res h
    exact (mu_button_ex_result ctx ctx2 label icon opt res h).1
  · intro c c1 x y btn h
    have hz : c1.mouse_pressed = 0 := by
      unfold mu_end at h
      split at h
      · cases h; rfl
      · cases h
    have hu : (mu_input_mouseup c1 x y btn).mouse_pressed = 0 := hz
    refine ⟨hu, ?_⟩
    intro c2 hb
    unfold mu_begin at hb
    split at hb
    · cases hb; exact hu
    · cases hb

/-! ### Scrollbars -/

theorem get_cnt_set_cnt (c : mu_Context) (i : Nat) (f : mu_Container → mu_Container)
    (hi : i < c.containers.length) : get_cnt (set_cnt c i f) i = f (get_cnt c i) := by
  unfold get_cnt set_cnt
  simp only [List.getD_eq_getElem?_getD, List.getElem?_modify, List.getElem?_eq_getElem hi]
  simp

theorem get_clip_rect_some (c : mu_Context) (hclip : c.clip_stack ≠ []) :
    ∃ last : mu_Rect, mu_get_clip_rect c = some last := by
  unfold mu_get_clip_rect
  cases h : c.clip_stack.getLast? with
  | none => exact absurd (List.getLast?_eq_none_iff.mp h) hclip
  | some cr => exact ⟨cr, rfl⟩

theorem default_draw_frame_some (c : mu_Context) (rect : mu_Rect) (colorid : Int)
    (hclip : c.clip_stack ≠ []) : default_draw_frame c rect colorid = some () := by
  obtain ⟨last, hl⟩ := get_clip_rect_some c hclip
  unfold default_draw_frame mu_draw_rect mu_draw_box
  simp only [hl]
  split_ifs <;> rfl

theorem draw_focus_some (c : mu_Context) (id : Nat) (rect : mu_Rect)
    (hclip : c.clip_stack ≠ []) : draw_focus c id rect = some () := by
  obtain ⟨last, hl⟩ := get_clip_rect_some c hclip
  unfold draw_focus mu_draw_box
  simp only [hl]
  split_ifs <;> rfl

theorem intersect_rects_size (r top : mu_Rect) (hw : 0 ≤ top.w) (hh : 0 ≤ top.h) :
    0 ≤ (intersect_rects r top).w ∧ (intersect_rects r top).w ≤ top.w ∧
    0 ≤ (intersect_rects r top).h ∧ (intersect_rects r top).h ≤ top.h := by
  unfold intersect_rects mu_max mu_min mu_rect
  simp only
  refine ⟨?_, ?_, ?_, ?_⟩ <;> split_ifs <;> omega

theorem intersect_rects_points (r top : mu_Rect) (p : mu_Vec2)
    (h : rect_overlaps_vec2 (intersect_rects r top) p = true) :
    rect_overlaps_vec2 r p = true ∧ rect_overlaps_vec2 top p = true := by
  unfold rect_overlaps_vec2 at *
  unfold intersect_rects mu_max mu_min mu_rect at h
  simp only [Bool.and_eq_true, decide_eq_true_eq] at h ⊢
  obtain ⟨⟨⟨h1, h2⟩, h3⟩, h4⟩ := h
  split_ifs at h1 h2 h3 h4 <;> omega

/-- C11: on a non-empty clip stack whose top has non-negative width and height,
`mu_push_clip_rect(r)` succeeds and pushes `intersect_rects(r, top)`; the new top has
non-negative width and height, neither larger than that of the previous top, and every
point inside the new top is inside `r` and inside the previous top. -/
theorem push_clip_rect_shrinks (ctx : mu_Context) (r top : mu_Rect)
    (htop : ctx.clip_stack.getLast? = some top) (hw : 0 ≤ top.w) (hh : 0 ≤ top.h) :
    ∃ ctx2 : mu_Context, mu_push_clip_rect ctx r = some ctx2 ∧
      ctx2.clip_stack = ctx.clip_stack ++ [intersect_rects r top] ∧
      mu_get_clip_rect ctx2 = some (intersect_rects r top) ∧
      0 ≤ (intersect_rects r top).w ∧ (intersect_rects r top).w ≤ top.w ∧
      0 ≤ (intersect_rects r top).h ∧ (intersect_rects r top).h ≤ top.h ∧
      ∀ p : mu_Vec2, rect_overlaps_vec2 (intersect_rects r top) p = true →
        rect_overlaps_vec2 r p = true ∧ rect_overlaps_vec2 top p = true := by
  obtain ⟨s1, s2, s3, s4⟩ := intersect_rects_size r top hw hh
  refine ⟨{ ctx with clip_stack := push ctx.clip_stack (intersect_rects r top) }, ?_, rfl, ?_,
    s1, s2, s3, s4, fun p hp => intersect_rects_points r top p hp⟩
  · unfold mu_push_clip_rect mu_get_clip_rect
    rw [htop]
  · unfold mu_get_clip_rect push
    simp

/-- C11, at the clip stack a window leaves, `[unclipped_rect]`, and the rect
(40,40,300,450). -/
theorem push_clip_rect_shrinks_witness :
    ∃ ctx2 : mu_Context, mu_push_clip_rect tab_context (mu_rect 40 40 300 450) = some ctx2 ∧
      ctx2.clip_stack
        = tab_context.clip_stack ++ [intersect_rects (mu_rect 40 40 300 450) unclipped_rect] ∧
      mu_get_clip_rect ctx2 = some (intersect_rects (mu_rect 40 40 300 450) unclipped_rect) ∧
      0 ≤ (intersect_rects (mu_rect 40 40 300 450) unclipped_rect).w ∧
      (intersect_rects (mu_rect 40 40 300 450) unclipped_rect).w ≤ unclipped_rect.w ∧
      0 ≤ (intersect_rects (mu_rect 40 40 300 450) unclipped_rect).h ∧
      (intersect_rects (mu_rect 40 40 300 450) unclipped_rect).h ≤ unclipped_rect.h ∧
      ∀ p : mu_Vec2,
        rect_overlaps_vec2 (intersect_rects (mu_rect 40 40 300 450) unclipped_rect) p = true →
        rect_overlaps_vec2 (mu_rect 40 40 300 450) p = true ∧
          rect_overlaps_vec2 unclipped_rect p = true :=
  push_clip_rect_shrinks tab_context (mu_rect 40 40 300 450) unclipped_rect rfl (by decide)
    (by decide)

theorem int_add_of_fits (a b : Int) (h : fits_int (a + b)) : int_add a b = a + b := by
  unfold fits_int at h
  unfold int_add
  omega

/-- The three answers of `mu_check_clip`, by the coordinates it tests, when the edge sums
are values of `int`. -/
theorem mu_check_clip_cases (ctx : mu_Context) (r cr : mu_Rect)
    (hcr : ctx.clip_stack.getLast? = some cr)
    (hrx : fits_int (r.x + r.w)) (hry : fits_int (r.y + r.h))
    (hcx : fits_int (cr.x + cr.w)) (hcy : fits_int (cr.y + cr.h)) :
    (mu_check_clip ctx r = some MU_CLIP_ALL ↔
      (r.x > cr.x + cr.w ∨ r.x + r.w < cr.x ∨ r.y > cr.y + cr.h ∨ r.y + r.h < cr.y)) ∧
    (mu_check_clip ctx r = some 0 ↔
      (¬ (r.x > cr.x + cr.w ∨ r.x + r.w < cr.x ∨ r.y > cr.y + cr.h ∨ r.y + r.h < cr.y) ∧
        (r.x ≥ cr.x ∧ r.x + r.w ≤ cr.x + cr.w ∧ r.y ≥ cr.y ∧ r.y + r.h ≤ cr.y + cr.h))) ∧
    (mu_check_clip ctx r = some MU_CLIP_PART ↔
      (¬ (r.x > cr.x + cr.w ∨ r.x + r.w < cr.x ∨ r.y > cr.y + cr.h ∨ r.y + r.h < cr.y) ∧
        ¬ (r.x ≥ cr.x ∧ r.x + r.w ≤ cr.x + cr.w ∧ r.y ≥ cr.y ∧ r.y + r.h ≤ cr.y + cr.h))) := by
  unfold mu_check_clip mu_get_clip_rect
  rw [hcr]
  simp only
  rw [int_add_of_fits r.x r.w hrx, int_add_of_fits r.y r.h hry, int_add_of_fits cr.x cr.w hcx,
    int_add_of_fits cr.y cr.h hcy]
  by_cases h1 : (r.x > cr.x + cr.w ∨ r.x + r.w < cr.x ∨ r.y > cr.y + cr.h ∨ r.y + r.h < cr.y)
  · rw [if_pos h1]
    simp [h1, MU_CLIP_ALL, MU_CLIP_PART]
  · rw [if_neg h1]
    by_cases h2 : (r.x ≥ cr.x ∧ r.x + r.w ≤ cr.x + cr.w ∧ r.y ≥ cr.y ∧ r.y + r.h ≤ cr.y + cr.h)
    · rw [if_pos h2]
      simp [h1, h2, MU_CLIP_ALL, MU_CLIP_PART]
    · rw [if_neg h2]
      simp [h1, h2, MU_CLIP_ALL, MU_CLIP_PART]

/-- C12 (refuted as stated): with the clip rectangle (0,0,100,100), the rect
(100,0,10,10) lies against the right edge and shares no point with it, yet `mu_check_clip`
returns `MU_CLIP_PART`, not `MU_CLIP_ALL`. And the rect (50,50,2147483647,10), of positive
size, has the point (50,50) inside the clip rectangle and points outside it, yet
`mu_check_clip` returns `MU_CLIP_ALL`: its right edge `50 + 2147483647` is not a value of
`int`, and the sum the code computes is -2147483599, left of the clip rectangle. -/
theorem check_clip_touching_is_part :
    mu_get_clip_rect clip_context = some (mu_rect 0 0 100 100)
    ∧ (∀ p : mu_Vec2, ¬ (rect_overlaps_vec2 (mu_rect 100 0 10 10) p = true
          ∧ rect_overlaps_vec2 (mu_rect 0 0 100 100) p = true))
    ∧ mu_check_clip clip_context (mu_rect 100 0 10 10) = some MU_CLIP_PART
    ∧ (rect_overlaps_vec2 (mu_rect 50 50 2147483647 10) (mu_vec2 50 50) = true
      ∧ rect_overlaps_vec2 (mu_rect 0 0 100 100) (mu_vec2 50 50) = true
      ∧ rect_overlaps_vec2 (mu_rect 50 50 2147483647 10) (mu_vec2 200 50) = true
      ∧ rect_overlaps_vec2 (mu_rect 0 0 100 100) (mu_vec2 200 50) = false
      ∧ int_add 50 2147483647 = -2147483599
      ∧ mu_check_clip clip_context (mu_rect 50 50 2147483647 10) = some MU_CLIP_ALL) := by
  refine ⟨by decide, ?_, by decide, by decide⟩
  intro p
  unfold rect_overlaps_vec2 mu_rect
  simp only [Bool.and_eq_true, decide_eq_true_eq]
  omega

/-- C12 (amended): for a rect `r` of positive size and the active clip rectangle `cr`, the
edge sums `x + w` and `y + h` of both being values of `int`,
`mu_check_clip` returns 0 exactly when every point of `r` is inside `cr`; it returns
`MU_CLIP_ALL` exactly when `r` lies strictly beyond one side of `cr`, and then the two
share no point; it returns `MU_CLIP_PART` in every other case, that is exactly when `r`
is not strictly beyond a side and some point of `r` is outside `cr`. -/
theorem check_clip_classifies (ctx : mu_Context) (r cr : mu_Rect)
    (hcr : ctx.clip_stack.getLast? = some cr) (hw : 0 < r.w) (hh : 0 < r.h)
    (hrx : fits_int (r.x + r.w)) (hry : fits_int (r.y + r.h))
    (hcx : fits_int (cr.x + cr.w)) (hcy : fits_int (cr.y + cr.h)) :
    ∃ v : Nat, mu_check_clip ctx r = some v ∧
      (v = 0 ∨ v = MU_CLIP_ALL ∨ v = MU_CLIP_PART) ∧
      (v = 0 ↔ ∀ p : mu_Vec2, rect_overlaps_vec2 r p = true → rect_overlaps_vec2 cr p = true) ∧
      (v = MU_CLIP_ALL ↔
        (r.x > cr.x + cr.w ∨ r.x + r.w < cr.x ∨ r.y > cr.y + cr.h ∨ r.y + r.h < cr.y)) ∧
      (v = MU_CLIP_ALL → ∀ p : mu_Vec2,
        ¬ (rect_overlaps_vec2 r p = true ∧ rect_overlaps_vec2 cr p = true)) ∧
      (v = MU_CLIP_PART ↔
        (¬ (r.x > cr.x + cr.w ∨ r.x + r.w < cr.x ∨ r.y > cr.y + cr.h ∨ r.y + r.h < cr.y) ∧
          ∃ p : mu_Vec2, rect_overlaps_vec2 r p = true ∧ rect_overlaps_vec2 cr p = false)) := by
  have pin : ∀ p : mu_Vec2, rect_overlaps_vec2 r p = true ↔
      (p.x ≥ r.x ∧ p.x < r.x + r.w) ∧ (p.y ≥ r.y ∧ p.y < r.y + r.h) := by
    intro p
    unfold rect_overlaps_vec2
    simp only [Bool.and_eq_true, decide_eq_true_eq]
    tauto
  have pcr : ∀ p : mu_Vec2, rect_overlaps_vec2 cr p = true ↔
      (p.x ≥ cr.x ∧ p.x < cr.x + cr.w) ∧ (p.y ≥ cr.y ∧ p.y < cr.y + cr.h) := by
    intro p
    unfold rect_overlaps_vec2
    simp only [Bool.and_eq_true, decide_eq_true_eq]
    tauto
  -- containment by coordinates is containment of points, for a rect of positive size
  have hin : (r.x ≥ cr.x ∧ r.x + r.w ≤ cr.x + cr.w ∧ r.y ≥ cr.y ∧ r.y + r.h ≤ cr.y + cr.h) ↔
      ∀ p : mu_Vec2, rect_overlaps_vec2 r p = true → rect_overlaps_vec2 cr p = true := by
    constructor
    · intro h p hp
      have := (pin p).mp hp
      exact (pcr p).mpr (by omega)
    · intro h
      have a := (pcr ⟨r.x, r.y⟩).mp (h ⟨r.x, r.y⟩ ((pin ⟨r.x, r.y⟩).mpr (by simp; omega)))
      have b := (pcr ⟨r.x + r.w - 1, r.y + r.h - 1⟩).mp
        (h ⟨r.x + r.w - 1, r.y + r.h - 1⟩
          ((pin ⟨r.x + r.w - 1, r.y + r.h - 1⟩).mpr (by simp; omega)))
      simp only at a b
      omega
  have hbeyond : (r.x > cr.x + cr.w ∨ r.x + r.w < cr.x ∨ r.y > cr.y + cr.h ∨ r.y + r.h < cr.y) →
      ∀ p : mu_Vec2, ¬ (rect_overlaps_vec2 r p = true ∧ rect_overlaps_vec2 cr p = true) := by
    intro h p hp
    have a := (pin p).mp hp.1
    have b := (pcr p).mp hp.2
    omega
  have hnotin : (∃ p : mu_Vec2, rect_overlaps_vec2 r p = true ∧ rect_overlaps_vec2 cr p = false) ↔
      ¬ (∀ p : mu_Vec2, rect_overlaps_vec2 r p = true → rect_overlaps_vec2 cr p = true) := by
    constructor
    · rintro ⟨p, hp1, hp2⟩ h
      rw [h p hp1] at hp2
      cases hp2
    · intro h
      by_contra hne
      apply h
      intro p hp
      by_contra hc
      exact hne ⟨p, hp, by simpa using hc⟩
  obtain ⟨c1, c2, c3⟩ := mu_check_clip_cases ctx r cr hcr hrx hry hcx hcy
  by_cases h1 : (r.x > cr.x + cr.w ∨ r.x + r.w < cr.x ∨ r.y > cr.y + cr.h ∨ r.y + r.h < cr.y)
  · refine ⟨MU_CLIP_ALL, c1.mpr h1, Or.inr (Or.inl rfl), ?_, ?_, fun _ => hbeyond h1, ?_⟩
    · constructor
      · intro h; exact absurd h (by decide)
      · intro h
        exfalso
        have hp := (pin ⟨r.x, r.y⟩).mpr (by simp; omega)
        exact hbeyond h1 ⟨r.x, r.y⟩ ⟨hp, h _ hp⟩
    · exact ⟨fun _ => h1, fun _ => rfl⟩
    · constructor
      · intro h; exact absurd h (by decide)
      · intro h; exact absurd h1 h.1
  · by_cases h2 : (r.x ≥ cr.x ∧ r.x + r.w ≤ cr.x + cr.w ∧ r.y ≥ cr.y ∧ r.y + r.h ≤ cr.y + cr.h)
    · refine ⟨0, c2.mpr ⟨h1, h2⟩, Or.inl rfl, ⟨fun _ => hin.mp h2, fun _ => rfl⟩, ?_, ?_, ?_⟩
      · constructor
        · intro h; exact absurd h (by decide)
        · intro h; exact absurd h h1
      · intro h; exact absurd h (by decide)
      · constructor
        · intro h; exact absurd h (by decide)
        · intro h; exact absurd (hin.mp h2) (hnotin.mp h.2)
    · refine ⟨MU_CLIP_PART, c3.mpr ⟨h1, h2⟩, Or.inr (Or.inr rfl), ?_, ?_, ?_, ?_⟩
      · constructor
        · intro h; exact absurd h (by decide)
        · intro h; exact absurd (hin.mpr h) h2
      · constructor
        · intro h; exact absurd h (by decide)
        · intro h; exact absurd h h1
      · intro h; exact absurd h (by decide)
      · exact ⟨fun _ => ⟨h1, hnotin.mpr (fun h => h2 (hin.mpr h))⟩, fun _ => rfl⟩

/-- C12, at the clip rectangle (0,0,100,100) and the rect (90,10,20,10), which sticks out
on the right. -/
theorem check_clip_classifies_witness :
    ∃ v : Nat, mu_check_clip clip_context (mu_rect 90 10 20 10) = some v ∧
      (v = 0 ∨ v = MU_CLIP_ALL ∨ v = MU_CLIP_PART) ∧
      (v = 0 ↔ ∀ p : mu_Vec2, rect_overlaps_vec2 (mu_rect 90 10 20 10) p = true →
        rect_overlaps_vec2 (mu_rect 0 0 100 100) p = true) ∧
      (v = MU_CLIP_ALL ↔
        ((mu_rect 90 10 20 10).x > (mu_rect 0 0 100 100).x + (mu_rect 0 0 100 100).w
          ∨ (mu_rect 90 10 20 10).x + (mu_rect 90 10 20 10).w < (mu_rect 0 0 100 100).x
          ∨ (mu_rect 90 10 20 10).y > (mu_rect 0 0 100 100).y + (mu_rect 0 0 100 100).h
          ∨ (mu_rect 90 10 20 10).y + (mu_rect 90 10 20 10).h < (mu_rect 0 0 100 100).y)) ∧
      (v = MU_CLIP_ALL → ∀ p : mu_Vec2,
        ¬ (rect_overlaps_vec2 (mu_rect 90 10 20 10) p = true
            ∧ rect_overlaps_vec2 (mu_rect 0 0 100 100) p = true)) ∧
      (v = MU_CLIP_PART ↔
        (¬ ((mu_rect 90 10 20 10).x > (mu_rect 0 0 100 100).x + (mu_rect 0 0 100 100).w
            ∨ (mu_rect 90 10 20 10).x + (mu_rect 90 10 20 10).w < (mu_rect 0 0 100 100).x
            ∨ (mu_rect 90 10 20 10).y > (mu_rect 0 0 100 100).y + (mu_rect 0 0 100 100).h
            ∨ (mu_rect 90 10 20 10).y + (mu_rect 90 10 20 10).h < (mu_rect 0 0 100 100).y) ∧
          ∃ p : mu_Vec2, rect_overlaps_vec2 (mu_rect 90 10 20 10) p = true
            ∧ rect_overlaps_vec2 (mu_rect 0 0 100 100) p = false)) :=
  check_clip_classifies clip_context (mu_rect 90 10 20 10) (mu_rect 0 0 100 100) rfl
    (by decide) (by decide) (by decide) (by decide) (by decide) (by decide)

/-- C13 (refuted as stated): with the clip rectangle (0,0,100,100), the rect
(90,200,20,10) has its left edge left of the clip's right edge and its right edge beyond
it, but lies below the clip: `mu_check_clip` returns `MU_CLIP_ALL`. And the rect
(50,50,2147483647,10), on the rows of the clip rectangle, has its left edge left of the
clip's right edge and its right edge `50 + 2147483647` beyond it, but that sum is not a
value of `int`: the code computes -2147483599 and `mu_check_clip` returns `MU_CLIP_ALL`. -/
theorem check_clip_straddling_below_is_all :
    mu_get_clip_rect clip_context = some (mu_rect 0 0 100 100)
    ∧ (mu_rect 90 200 20 10).x < (mu_rect 0 0 100 100).x + (mu_rect 0 0 100 100).w
    ∧ (mu_rect 90 200 20 10).x + (mu_rect 90 200 20 10).w
        > (mu_rect 0 0 100 100).x + (mu_rect 0 0 100 100).w
    ∧ mu_check_clip clip_context (mu_rect 90 200 20 10) = some MU_CLIP_ALL
    ∧ ((mu_rect 50 50 2147483647 10).x < (mu_rect 0 0 100 100).x + (mu_rect 0 0 100 100).w
      ∧ (mu_rect 50 50 2147483647 10).x + (mu_rect 50 50 2147483647 10).w
          > (mu_rect 0 0 100 100).x + (mu_rect 0 0 100 100).w
      ∧ (mu_rect 50 50 2147483647 10).y ≤ (mu_rect 0 0 100 100).y + (mu_rect 0 0 100 100).h
      ∧ (mu_rect 50 50 2147483647 10).y + (mu_rect 50 50 2147483647 10).h
          ≥ (mu_rect 0 0 100 100).y
      ∧ ¬ fits_int ((mu_rect 50 50 2147483647 10).x + (mu_rect 50 50 2147483647 10).w)
      ∧ mu_check_clip clip_context (mu_rect 50 50 2147483647 10) = some MU_CLIP_ALL) := by
  refine ⟨by decide, by decide, by decide, by decide, by decide⟩

/-- C13 (amended): a rect whose left edge is left of the right edge of the active clip
rectangle and whose right edge is beyond it, the edge sums `x + w` and `y + h` of both being
values of `int`, is never classified 0; when in addition it is neither wholly above nor
wholly below the clip rectangle (whose width is not negative), `mu_check_clip` returns
`MU_CLIP_PART`. -/
theorem check_clip_straddling_right_edge (ctx : mu_Context) (r cr : mu_Rect)
    (hcr : ctx.clip_stack.getLast? = some cr) (hcw : 0 ≤ cr.w)
    (hleft : r.x < cr.x + cr.w) (hright : r.x + r.w > cr.x + cr.w)
    (hrx : fits_int (r.x + r.w)) (hry : fits_int (r.y + r.h))
    (hcx : fits_int (cr.x + cr.w)) (hcy : fits_int (cr.y + cr.h)) :
    mu_check_clip ctx r ≠ some 0 ∧
    (r.y ≤ cr.y + cr.h → r.y + r.h ≥ cr.y → mu_check_clip ctx r = some MU_CLIP_PART) := by
  obtain ⟨_, c2, c3⟩ := mu_check_clip_cases ctx r cr hcr hrx hry hcx hcy
  refine ⟨?_, ?_⟩
  · intro h
    have := (c2.mp h).2
    omega
  · intro hy1 hy2
    apply c3.mpr
    constructor
    · intro h; omega
    · intro h; omega

/-- C13, at the clip rectangle (0,0,100,100) and the text rectangle (90,10,20,10). -/
theorem check_clip_straddling_right_edge_witness :
    mu_check_clip clip_context (mu_rect 90 10 20 10) ≠ some 0 ∧
    ((mu_rect 90 10 20 10).y ≤ (mu_rect 0 0 100 100).y + (mu_rect 0 0 100 100).h →
      (mu_rect 90 10 20 10).y + (mu_rect 90 10 20 10).h ≥ (mu_rect 0 0 100 100).y →
      mu_check_clip clip_context (mu_rect 90 10 20 10) = some MU_CLIP_PART) :=
  check_clip_straddling_right_edge clip_context (mu_rect 90 10 20 10) (mu_rect 0 0 100 100) rfl
    (by decide) (by decide) (by decide) (by decide) (by decide) (by decide) (by decide)

/-! ### Layout -/

theorem get_layout_set_layout (ctx : mu_Context) (l : mu_Layout) :
    mu_get_layout (set_layout ctx l) = some l := by
  unfold mu_get_layout set_layout
  simp

theorem get_layout_set_layout_last_rect (ctx : mu_Context) (l : mu_Layout) (r : mu_Rect) :
    mu_get_layout { set_layout ctx l with last_rect := r } = some l := by
  unfold mu_get_layout set_layout
  simp

theorem set_layout_set_layout (ctx : mu_Context) (l1 l2 : mu_Layout) :
    set_layout (set_layout ctx l1) l2 = set_layout ctx l2 := by
  unfold set_layout
  simp

theorem set_layout_length (ctx : mu_Context) (l0 l : mu_Layout)
    (h : mu_get_layout ctx = some l0) :
    (set_layout ctx l).layout_stack.length = ctx.layout_stack.length := by
  unfold mu_get_layout at h
  unfold set_layout
  have hne : ctx.layout_stack ≠ [] := by
    intro h0
    rw [h0] at h
    simp at h
  have := List.length_pos.mpr hne
  simp
  omega

/-- A call of `mu_layout_next` without a rect set by `mu_layout_set_next` returns the
regular cell and writes the layout back. -/
theorem mu_layout_next_regular (ctx : mu_Context) (layout : mu_Layout)
    (hl : mu_get_layout ctx = some layout) (hnt : layout.next_type = 0) :
    mu_layout_next ctx =
      some ((regular_cell ctx.style layout).1,
        { set_layout ctx (regular_cell ctx.style layout).2 with
          last_rect := (regular_cell ctx.style layout).1 }) := by
  unfold mu_layout_next regular_cell
  rw [hl]
  simp [hnt]

/-- The cell branch of `mu_layout_next` inside a row, with no size set by
`mu_layout_set_next_size`. -/
theorem layout_next_cell_inside (style : mu_Style) (layout : mu_Layout)
    (hns : layout.next_size = none) (hne : layout.item_index ≠ layout.items) :
    layout_next_cell style layout =
      (mu_rect (layout.position.x + style.margin.x) (layout.position.y + style.margin.y)
        (cell_size (style.size.x + style.padding.left + style.padding.right)
          (layout.body.w - (layout.position.x + style.margin.x) + 1) style.margin.x
          (if layout.items > 0 then layout.widths.getD layout.item_index.toNat 0
            else layout.size.x))
        (cell_size (style.size.y + style.padding.top + style.padding.bottom)
          (layout.body.h - (layout.position.y + style.margin.y) + 1) style.margin.y
          layout.size.y),
       { layout with item_index := layout.item_index + 1 }) := by
  unfold layout_next_cell cell_size
  simp [hns, hne]

/-- The row `mu_layout_next` starts when the row is exhausted. -/
theorem layout_row_restart (layout : mu_Layout) :
    layout_row layout layout.items none layout.size.y =
      some { layout with position := mu_vec2 layout.indent layout.next_row, item_index := 0 } := by
  unfold layout_row
  rfl

/-- The cell branch of `mu_layout_next` on an exhausted row is the cell branch on the row
started anew. -/
theorem layout_next_cell_exhausted (style : mu_Style) (layout : mu_Layout)
    (hex : layout.item_index = layout.items) (hitems : 0 < layout.items) :
    layout_next_cell style layout =
      layout_next_cell style
        { layout with position := mu_vec2 layout.indent layout.next_row, item_index := 0 } := by
  have hne : (0 : Int) ≠ layout.items := by omega
  unfold layout_next_cell
  simp only [layout_row_restart, hex, if_true]
  simp [hne, layout_row]

/-- The rect of the regular path of `mu_layout_next` for a row cell: its origin is the
cursor plus margin plus body origin, its size the configured one through `cell_size`. -/
theorem regular_cell_rect (style : mu_Style) (layout : mu_Layout)
    (hns : layout.next_size = none) (hitems : 0 < layout.items) :
    (regular_cell style layout).1 =
      mu_rect ((next_cell_cursor layout).x + style.margin.x + layout.body.x)
        ((next_cell_cursor layout).y + style.margin.y + layout.body.y)
        (cell_size (style.size.x + style.padding.left + style.padding.right)
          (layout.body.w - ((next_cell_cursor layout).x + style.margin.x) + 1) style.margin.x
          (layout.widths.getD (next_cell_index layout) 0))
        (cell_size (style.size.y + style.padding.top + style.padding.bottom)
          (layout.body.h - ((next_cell_cursor layout).y + style.margin.y) + 1) style.margin.y
          layout.size.y) := by
  unfold regular_cell next_cell_cursor next_cell_index
  by_cases hex : layout.item_index = layout.items
  · have hne : (0 : Int) ≠ layout.items := by omega
    rw [layout_next_cell_exhausted style layout hex hitems,
      layout_next_cell_inside style
        { layout with position := mu_vec2 layout.indent layout.next_row, item_index := 0 }
        hns hne]
    simp [layout_next_tail, mu_rect, mu_vec2, hex, hitems]
  · rw [layout_next_cell_inside style _ hns hex]
    simp [layout_next_tail, mu_rect, hex, hitems]

/-- The layout the regular path of `mu_layout_next` leaves for a row cell: the cursor has
moved right by the width of the rect plus both margins, the item counter by one. -/
theorem regular_cell_layout (style : mu_Style) (layout : mu_Layout)
    (hns : layout.next_size = none) (hitems : 0 < layout.items) :
    (regular_cell style layout).2.position.x =
        (next_cell_cursor layout).x + ((regular_cell style layout).1.w + style.margin.x * 2) ∧
      (regular_cell style layout).2.position.y = (next_cell_cursor layout).y ∧
      (regular_cell style layout).2.item_index =
        (if layout.item_index = layout.items then 0 else layout.item_index) + 1 ∧
      (regular_cell style layout).2.items = layout.items ∧
      (regular_cell style layout).2.widths = layout.widths ∧
      (regular_cell style layout).2.size = layout.size ∧
      (regular_cell style layout).2.body = layout.body ∧
      (regular_cell style layout).2.indent = layout.indent ∧
      (regular_cell style layout).2.next_type = layout.next_type ∧
      (regular_cell style layout).2.next_size = none := by
  unfold regular_cell next_cell_cursor
  by_cases hex : layout.item_index = layout.items
  · have hne : (0 : Int) ≠ layout.items := by omega
    rw [layout_next_cell_exhausted style layout hex hitems,
      layout_next_cell_inside style
        { layout with position := mu_vec2 layout.indent layout.next_row, item_index := 0 }
        hns hne]
    simp [layout_next_tail, mu_rect, mu_vec2, hex, hitems, hns]
  · rw [layout_next_cell_inside style _ hns hex]
    simp [layout_next_tail, mu_rect, hex, hitems, hns]

/-- C16 (amended): a row cell whose configured width is exactly 0 is resolved to the style
default `size.x + padding.left + padding.right`, and a row whose height is exactly 0 to
`size.y + padding.top + padding.bottom` (for a regular call on a row with items). When the
default is not negative, the rect `mu_layout_next` returns has the default less the margin
on both sides as its width (height); when the default is negative, it is treated as a
negative configured size is: the room left in the body plus 1 is added before the margin is
subtracted. -/
theorem zero_size_resolves_to_style_default (ctx : mu_Context) (layout : mu_Layout)
    (hl : mu_get_layout ctx = some layout) (hnt : layout.next_type = 0)
    (hns : layout.next_size = none) (hitems : 0 < layout.items) :
    ∃ r ctx2, mu_layout_next ctx = some (r, ctx2) ∧
      (layout.widths[next_cell_index layout]? = some 0 →
        0 ≤ ctx.style.size.x + ctx.style.padding.left + ctx.style.padding.right →
        r.w = ctx.style.size.x + ctx.style.padding.left + ctx.style.padding.right
          - ctx.style.margin.x * 2) ∧
      (layout.size.y = 0 →
        0 ≤ ctx.style.size.y + ctx.style.padding.top + ctx.style.padding.bottom →
        r.h = ctx.style.size.y + ctx.style.padding.top + ctx.style.padding.bottom
          - ctx.style.margin.y * 2) ∧
      (layout.widths[next_cell_index layout]? = some 0 →
        ctx.style.size.x + ctx.style.padding.left + ctx.style.padding.right < 0 →
        r.w = ctx.style.size.x + ctx.style.padding.left + ctx.style.padding.right
          + (layout.body.w - (r.x - layout.body.x) + 1) - ctx.style.margin.x * 2) ∧
      (layout.size.y = 0 →
        ctx.style.size.y + ctx.style.padding.top + ctx.style.padding.bottom < 0 →
        r.h = ctx.style.size.y + ctx.style.padding.top + ctx.style.padding.bottom
          + (layout.body.h - (r.y - layout.body.y) + 1) - ctx.style.margin.y * 2) := by
  refine ⟨_, _, mu_layout_next_regular ctx layout hl hnt, ?_, ?_, ?_, ?_⟩
  · intro hw hd
    rw [regular_cell_rect ctx.style layout hns hitems]
    have hz : ¬ (ctx.style.size.x + ctx.style.padding.left + ctx.style.padding.right < 0) := by
      omega
    simp [mu_rect, cell_size, List.getD_eq_getElem?_getD, hw, hz]
  · intro hh hd
    rw [regular_cell_rect ctx.style layout hns hitems]
    have hz : ¬ (ctx.style.size.y + ctx.style.padding.top + ctx.style.padding.bottom < 0) := by
      omega
    simp [mu_rect, cell_size, hh, hz]
  · intro hw hd
    rw [regular_cell_rect ctx.style layout hns hitems]
    simp only [mu_rect, cell_size, List.getD_eq_getElem?_getD, hw, Option.getD_some, if_true,
      if_pos hd]
    omega
  · intro hh hd
    rw [regular_cell_rect ctx.style layout hns hitems]
    simp only [mu_rect, cell_size, hh, if_true, if_pos hd]
    omega

/-- C16 (amended), at the first cell of the row `{0, 50, 0}` of height 0 with the default
style: the rect is 68 - 20 wide and 44 - 20 high. -/
theorem zero_size_resolves_to_style_default_witness :
    mu_get_layout (row_context 3 [0, 50, 0] 0) = some (top_layout (row_context 3 [0, 50, 0] 0)) ∧
      (top_layout (row_context 3 [0, 50, 0] 0)).widths[
        next_cell_index (top_layout (row_context 3 [0, 50, 0] 0))]? = some 0 ∧
      (top_layout (row_context 3 [0, 50, 0] 0)).size.y = 0 ∧
      (mu_layout_next (row_context 3 [0, 50, 0] 0)).map Prod.fst = some (mu_rect 10 10 48 24) ∧
      ∃ r ctx2, mu_layout_next (row_context 3 [0, 50, 0] 0) = some (r, ctx2) ∧
        r.w = (row_context 3 [0, 50, 0] 0).style.size.x
              + (row_context 3 [0, 50, 0] 0).style.padding.left
              + (row_context 3 [0, 50, 0] 0).style.padding.right
              - (row_context 3 [0, 50, 0] 0).style.margin.x * 2 ∧
        r.h = (row_context 3 [0, 50, 0] 0).style.size.y
              + (row_context 3 [0, 50, 0] 0).style.padding.top
              + (row_context 3 [0, 50, 0] 0).style.padding.bottom
              - (row_context 3 [0, 50, 0] 0).style.margin.y * 2 :=
  ⟨by decide, by decide, by decide, by decide,
    (zero_size_resolves_to_style_default (row_context 3 [0, 50, 0] 0)
      (top_layout (row_context 3 [0, 50, 0] 0)) (by decide) (by decide) (by decide)
      (by decide)).imp
      (fun _ hr => hr.imp
        (fun _ hc => ⟨hc.1, hc.2.1 (by decide) (by decide), hc.2.2.1 (by decide) (by decide)⟩))⟩

/-- C16 (refuted as stated): with a style whose default size is (-5, -5), padding 0 and
margin 10, the first cell of the row `{0, 50, 0}` of height 0 in the body (0,0,300,400) has
the configured width and height 0, and `mu_layout_next` returns a rect 266 wide and 366
high, not the default less the margin on both sides, which is -25. -/
theorem negative_style_default_fills_room :
    mu_get_layout negative_default_context = some (top_layout negative_default_context)
    ∧ (top_layout negative_default_context).widths[
        next_cell_index (top_layout negative_default_context)]? = some 0
    ∧ (top_layout negative_default_context).size.y = 0
    ∧ (top_layout negative_default_context).body = mu_rect 0 0 300 400
    ∧ negative_default_context.style.size.x + negative_default_context.style.padding.left
        + negative_default_context.style.padding.right
        - negative_default_context.style.margin.x * 2 = -25
    ∧ negative_default_context.style.size.y + negative_default_context.style.padding.top
        + negative_default_context.style.padding.bottom
        - negative_default_context.style.margin.y * 2 = -25
    ∧ (mu_layout_next negative_default_context).map Prod.fst
        = some (mu_rect 10 10 266 366) := by
  refine ⟨by decide, by decide, by decide, by decide, by decide, by decide, by decide⟩

/-- C14 (amended): a row cell whose configured width `v` is negative gets the
width `(body.w - (r.x - body.x)) + v + 1 - 2 * margin.x`, where `r.x - body.x` is the
offset of the returned rect inside the body. -/
theorem negative_width_fills_remaining (ctx : mu_Context) (layout : mu_Layout) (v : Int)
    (hl : mu_get_layout ctx = some layout) (hnt : layout.next_type = 0)
    (hns : layout.next_size = none) (hitems : 0 < layout.items)
    (hv : layout.widths[next_cell_index layout]? = some v) (hneg : v < 0) :
    ∃ r ctx2, mu_layout_next ctx = some (r, ctx2) ∧
      r.x = layout.body.x + (next_cell_cursor layout).x + ctx.style.margin.x ∧
      r.w = (layout.body.w - (r.x - layout.body.x)) + v + 1 - ctx.style.margin.x * 2 := by
  refine ⟨_, _, mu_layout_next_regular ctx layout hl hnt, ?_, ?_⟩
  · rw [regular_cell_rect ctx.style layout hns hitems]
    simp only [mu_rect]
    omega
  · rw [regular_cell_rect ctx.style layout hns hitems]
    have hv0 : v ≠ 0 := by omega
    simp only [mu_rect, cell_size, List.getD_eq_getElem?_getD, hv, Option.getD_some, if_neg hv0,
      if_pos hneg]
    omega

/-- C14, at the second cell of the row `{54, -1}` in a body 300 wide: the rect is at
offset 64 and `(300 - 64) + (-1) + 1 - 20` wide. -/
theorem negative_width_fills_remaining_witness :
    (mu_layout_next (after_nexts 1 (row_context 2 [54, -1] 0))).map Prod.fst
        = some (mu_rect 64 10 216 24) ∧
      ∃ r ctx2, mu_layout_next (after_nexts 1 (row_context 2 [54, -1] 0)) = some (r, ctx2) ∧
        r.x = (top_layout (after_nexts 1 (row_context 2 [54, -1] 0))).body.x
            + (next_cell_cursor (top_layout (after_nexts 1 (row_context 2 [54, -1] 0)))).x
            + (after_nexts 1 (row_context 2 [54, -1] 0)).style.margin.x ∧
        r.w = ((top_layout (after_nexts 1 (row_context 2 [54, -1] 0))).body.w
            - (r.x - (top_layout (after_nexts 1 (row_context 2 [54, -1] 0))).body.x))
            + (-1) + 1 - (after_nexts 1 (row_context 2 [54, -1] 0)).style.margin.x * 2 :=
  ⟨by decide,
    negative_width_fills_remaining (after_nexts 1 (row_context 2 [54, -1] 0))
      (top_layout (after_nexts 1 (row_context 2 [54, -1] 0))) (-1)
      (by decide) (by decide) (by decide) (by decide) (by decide) (by decide)⟩

/-- C14 (refuted as stated): in a body 300 wide the second cell of the row
`{54, -1}` is returned at offset 64 with width 216, which is neither `(300 - 64) + (-1)`
nor, taking the cursor 54 as the offset, `(300 - 54) + (-1)`. -/
theorem negative_width_not_remaining_plus_v :
    (top_layout (after_nexts 1 (row_context 2 [54, -1] 0))).widths[
        next_cell_index (top_layout (after_nexts 1 (row_context 2 [54, -1] 0)))]? = some (-1) ∧
      (top_layout (after_nexts 1 (row_context 2 [54, -1] 0))).body = mu_rect 0 0 300 400 ∧
      (top_layout (after_nexts 1 (row_context 2 [54, -1] 0))).position.x = 54 ∧
      ∃ r, (mu_layout_next (after_nexts 1 (row_context 2 [54, -1] 0))).map Prod.fst = some r ∧
        r = mu_rect 64 10 216 24 ∧
        r.w ≠ ((top_layout (after_nexts 1 (row_context 2 [54, -1] 0))).body.w
          - (r.x - (top_layout (after_nexts 1 (row_context 2 [54, -1] 0))).body.x)) + (-1) ∧
        r.w ≠ ((top_layout (after_nexts 1 (row_context 2 [54, -1] 0))).body.w
          - (top_layout (after_nexts 1 (row_context 2 [54, -1] 0))).position.x) + (-1) :=
  ⟨by decide, by decide, by decide, mu_rect 64 10 216 24, by decide, rfl, by decide, by decide⟩

/-- The regular path of `mu_layout_next` on an exhausted row is the regular path on the
row started anew. -/
theorem regular_cell_exhausted (style : mu_Style) (layout : mu_Layout)
    (hex : layout.item_index = layout.items) (hitems : 0 < layout.items) :
    regular_cell style layout =
      regular_cell style
        { layout with position := mu_vec2 layout.indent layout.next_row, item_index := 0 } := by
  unfold regular_cell
  rw [layout_next_cell_exhausted style layout hex hitems]

/-- The first cell of a row started anew, whatever size was set for it. -/
theorem regular_cell_first (style : mu_Style) (layout : mu_Layout)
    (hidx : layout.item_index = 0) (hitems : 0 < layout.items) :
    (regular_cell style layout).1.x = layout.body.x + layout.position.x + style.margin.x ∧
      (regular_cell style layout).1.y = layout.body.y + layout.position.y + style.margin.y ∧
      (regular_cell style layout).2.item_index = 1 ∧
      (regular_cell style layout).2.items = layout.items ∧
      (regular_cell style layout).2.widths = layout.widths ∧
      (regular_cell style layout).2.size = layout.size ∧
      (regular_cell style layout).2.position.y = layout.position.y := by
  have h0 : (0 : Int) = layout.items ↔ False := by
    constructor
    · intro h
      omega
    · intro h
      exact h.elim
  unfold regular_cell layout_next_cell layout_next_tail
  cases hns : layout.next_size <;> simp [hidx, h0, mu_rect, hns] <;> omega

/-- C17: a regular call of `mu_layout_next` on an exhausted row (`item_index` equals
`items`, `items > 0`) first starts a new row with the same configuration: the cursor goes
to (`indent`, `next_row`), `item_index` to 0, and `items`, `widths` and the row height stay,
so the call returns the first cell of the new row, at the indent, with the width configured
for the first cell. -/
theorem exhausted_row_starts_new_row (ctx : mu_Context) (layout : mu_Layout)
    (hl : mu_get_layout ctx = some layout) (hnt : layout.next_type = 0)
    (hex : layout.item_index = layout.items) (hitems : 0 < layout.items) :
    layout_row layout layout.items none layout.size.y =
        some { layout with
          position := mu_vec2 layout.indent layout.next_row, item_index := 0 } ∧
      mu_layout_next ctx =
        mu_layout_next (set_layout ctx { layout with
          position := mu_vec2 layout.indent layout.next_row, item_index := 0 }) ∧
      ∃ r ctx2 layout2, mu_layout_next ctx = some (r, ctx2) ∧
        mu_get_layout ctx2 = some layout2 ∧
        r.x = layout.body.x + layout.indent + ctx.style.margin.x ∧
        r.y = layout.body.y + layout.next_row + ctx.style.margin.y ∧
        layout2.item_index = 1 ∧ layout2.items = layout.items ∧
        layout2.widths = layout.widths ∧ layout2.size.y = layout.size.y ∧
        layout2.position.y = layout.next_row ∧
        (layout.next_size = none →
          r.w = cell_size (ctx.style.size.x + ctx.style.padding.left + ctx.style.padding.right)
            (layout.body.w - (layout.indent + ctx.style.margin.x) + 1) ctx.style.margin.x
            (layout.widths.getD 0 0)) := by
  have hreg := mu_layout_next_regular ctx layout hl hnt
  have hx := regular_cell_exhausted ctx.style layout hex hitems
  have hfirst := regular_cell_first ctx.style
    { layout with position := mu_vec2 layout.indent layout.next_row, item_index := 0 }
    rfl hitems
  rw [← hx] at hfirst
  obtain ⟨h1, h2, h3, h4, h5, h6, h7⟩ := hfirst
  refine ⟨layout_row_restart layout, ?_, _, _, _, hreg, get_layout_set_layout_last_rect _ _ _,
    ?_, ?_, h3, h4, h5, ?_, ?_, ?_⟩
  · rw [hreg, mu_layout_next_regular
      (set_layout ctx { layout with
        position := mu_vec2 layout.indent layout.next_row, item_index := 0 })
      { layout with position := mu_vec2 layout.indent layout.next_row, item_index := 0 }
      (get_layout_set_layout ctx _) hnt]
    have hs : (set_layout ctx { layout with
        position := mu_vec2 layout.indent layout.next_row, item_index := 0 }).style
        = ctx.style := rfl
    rw [hs, ← hx, set_layout_set_layout]
  · rw [h1]
    simp [mu_vec2]
  · rw [h2]
    simp [mu_vec2]
  · rw [h6]
  · rw [h7]
    simp [mu_vec2]
  · intro hns
    rw [regular_cell_rect ctx.style layout hns hitems]
    simp [mu_rect, next_cell_cursor, next_cell_index, hex, mu_vec2]

/-- C17, at the row `{54, -1}` after both its cells were returned: the third call returns
the first cell of a new row, 44 lower. -/
theorem exhausted_row_starts_new_row_witness :
    (top_layout (after_nexts 2 (row_context 2 [54, -1] 0))).item_index = 2 ∧
      (mu_layout_next (after_nexts 2 (row_context 2 [54, -1] 0))).map Prod.fst
        = some (mu_rect 10 54 34 24) ∧
      (layout_row (top_layout (after_nexts 2 (row_context 2 [54, -1] 0)))
          (top_layout (after_nexts 2 (row_context 2 [54, -1] 0))).items none
          (top_layout (after_nexts 2 (row_context 2 [54, -1] 0))).size.y =
        some { top_layout (after_nexts 2 (row_context 2 [54, -1] 0)) with
          position := mu_vec2 (top_layout (after_nexts 2 (row_context 2 [54, -1] 0))).indent
            (top_layout (after_nexts 2 (row_context 2 [54, -1] 0))).next_row,
          item_index := 0 }) :=
  ⟨by decide, by decide,
    (exhausted_row_starts_new_row (after_nexts 2 (row_context 2 [54, -1] 0))
      (top_layout (after_nexts 2 (row_context 2 [54, -1] 0)))
      (by decide) (by decide) (by decide) (by decide)).1⟩

/-- The rect of the regular path of `mu_layout_next` does not read the rect set by
`mu_layout_set_next`. -/
theorem regular_cell_ignores_next (style : mu_Style) (layout : mu_Layout) (r : mu_Rect)
    (t : Int) :
    (regular_cell style { layout with next := r, next_type := t }).1 =
      (regular_cell style layout).1 := by
  unfold regular_cell layout_next_cell layout_next_tail layout_row
  by_cases hex : layout.item_index = layout.items <;>
    cases hns : layout.next_size <;> simp [hex, hns]

theorem set_layout_style (ctx : mu_Context) (l : mu_Layout) :
    (set_layout ctx l).style = ctx.style := rfl

/-- C18: after `mu_layout_set_next(r, relative)` the next `mu_layout_next` returns `r`
itself when `relative` is 0, leaving the cursor, `item_index`, `next_row` and `max` as they
were, and `r` moved by the body origin when `relative` is not 0; either way `next_type` is
0 afterwards, so the call after that takes the regular path of a row cell, and after an
absolute rect it returns what the call would have returned without the override. -/
theorem set_next_overrides_once (ctx : mu_Context) (layout : mu_Layout) (r : mu_Rect)
    (relative : Int) (hl : mu_get_layout ctx = some layout) :
    ∃ ctx1, mu_layout_set_next ctx r relative = some ctx1 ∧
      (relative = 0 →
        mu_layout_next ctx1 =
          some (r, { set_layout ctx { layout with next := r, next_type := 0 } with
            last_rect := r }) ∧
        (layout.next_type = 0 → ∀ r1 ctx2, mu_layout_next ctx1 = some (r1, ctx2) →
          (mu_layout_next ctx2).map Prod.fst = (mu_layout_next ctx).map Prod.fst)) ∧
      (relative ≠ 0 →
        ∃ ctx2 layout2,
          mu_layout_next ctx1 =
            some (mu_rect (r.x + layout.body.x) (r.y + layout.body.y) r.w r.h, ctx2) ∧
          mu_get_layout ctx2 = some layout2 ∧
          layout2.position.x = layout.position.x + (r.w + ctx.style.margin.x * 2) ∧
          layout2.position.y = layout.position.y ∧
          layout2.item_index = layout.item_index ∧
          layout2.next_row = mu_max layout.next_row (r.y + r.h + ctx.style.margin.y)) ∧
      (∀ r1 ctx2, mu_layout_next ctx1 = some (r1, ctx2) →
        ∃ layout2, mu_get_layout ctx2 = some layout2 ∧ layout2.next_type = 0 ∧
          layout2.items = layout.items ∧ layout2.widths = layout.widths ∧
          mu_layout_next ctx2 =
            some ((regular_cell ctx2.style layout2).1,
              { set_layout ctx2 (regular_cell ctx2.style layout2).2 with
                last_rect := (regular_cell ctx2.style layout2).1 })) := by
  have hset : mu_layout_set_next ctx r relative =
      some (set_layout ctx
        { layout with next := r, next_type := if relative ≠ 0 then RELATIVE else ABSOLUTE }) := by
    unfold mu_layout_set_next
    rw [hl]
  have hget := get_layout_set_layout ctx
    { layout with next := r, next_type := if relative ≠ 0 then RELATIVE else ABSOLUTE }
  by_cases hrel : relative = 0
  · have habs : mu_layout_next (set_layout ctx
        { layout with next := r, next_type := if relative ≠ 0 then RELATIVE else ABSOLUTE }) =
          some (r, { set_layout ctx { layout with next := r, next_type := 0 } with
            last_rect := r }) := by
      unfold mu_layout_next
      rw [hget]
      simp [hrel, ABSOLUTE, set_layout_set_layout]
    refine ⟨_, hset, ?_, ?_, ?_⟩
    · intro _
      refine ⟨habs, ?_⟩
      intro hnt r1 ctx2 h
      rw [habs] at h
      simp only [Option.some.injEq, Prod.mk.injEq] at h
      obtain ⟨_, h2⟩ := h
      subst h2
      rw [mu_layout_next_regular _ _ (get_layout_set_layout_last_rect ctx _ r) rfl,
        mu_layout_next_regular ctx layout hl hnt]
      simp only [Option.map_some']
      exact congrArg some (regular_cell_ignores_next ctx.style layout r 0)
    · intro h
      exact (h hrel).elim
    · intro r1 ctx2 h
      rw [habs] at h
      simp only [Option.some.injEq, Prod.mk.injEq] at h
      obtain ⟨_, h2⟩ := h
      subst h2
      exact ⟨_, get_layout_set_layout_last_rect ctx _ r, rfl, rfl, rfl,
        mu_layout_next_regular _ _ (get_layout_set_layout_last_rect ctx _ r) rfl⟩
  · have hrl : mu_layout_next (set_layout ctx
        { layout with next := r, next_type := if relative ≠ 0 then RELATIVE else ABSOLUTE }) =
          some ((layout_next_tail ctx.style { layout with next := r, next_type := 0 } r).1,
            { set_layout ctx
                (layout_next_tail ctx.style { layout with next := r, next_type := 0 } r).2 with
              last_rect :=
                (layout_next_tail ctx.style { layout with next := r, next_type := 0 } r).1 }) := by
      unfold mu_layout_next
      rw [hget]
      simp [hrel, ABSOLUTE, RELATIVE, set_layout_set_layout, set_layout_style]
    refine ⟨_, hset, ?_, ?_, ?_⟩
    · intro h
      exact (hrel h).elim
    · intro _
      refine ⟨{ set_layout ctx
            (layout_next_tail ctx.style { layout with next := r, next_type := 0 } r).2 with
          last_rect := (layout_next_tail ctx.style { layout with next := r, next_type := 0 } r).1 },
        (layout_next_tail ctx.style { layout with next := r, next_type := 0 } r).2,
        ?_, get_layout_set_layout_last_rect ctx _ _, ?_, ?_, ?_, ?_⟩
      · rw [hrl]
        simp [layout_next_tail, mu_rect]
      · simp [layout_next_tail]
      · simp [layout_next_tail]
      · simp [layout_next_tail]
      · simp [layout_next_tail]
    · intro r1 ctx2 h
      rw [hrl] at h
      simp only [Option.some.injEq, Prod.mk.injEq] at h
      obtain ⟨_, h2⟩ := h
      subst h2
      exact ⟨_, get_layout_set_layout_last_rect ctx _ _, rfl, rfl, rfl,
        mu_layout_next_regular _ _ (get_layout_set_layout_last_rect ctx _ _) rfl⟩

/-- C18, at the row `{54, -1}` and the absolute rect (5,6,20,30): the first call returns
it, the second the first cell of the row. -/
theorem set_next_overrides_once_witness :
    mu_get_layout (row_context 2 [54, -1] 0) = some (top_layout (row_context 2 [54, -1] 0)) ∧
      ((mu_layout_set_next (row_context 2 [54, -1] 0) (mu_rect 5 6 20 30) 0).bind
        mu_layout_next).map Prod.fst = some (mu_rect 5 6 20 30) ∧
      ((mu_layout_set_next (row_context 2 [54, -1] 0) (mu_rect 5 6 20 30) 0).bind
        (layout_nexts 2)).map Prod.fst = some [mu_rect 5 6 20 30, mu_rect 10 10 34 24] ∧
      ∃ ctx1, mu_layout_set_next (row_context 2 [54, -1] 0) (mu_rect 5 6 20 30) 0 = some ctx1 ∧
        ∀ r1 ctx2, mu_layout_next ctx1 = some (r1, ctx2) →
          ∃ layout2, mu_get_layout ctx2 = some layout2 ∧ layout2.next_type = 0 :=
  ⟨by decide, by decide, by decide,
    (set_next_overrides_once (row_context 2 [54, -1] 0)
      (top_layout (row_context 2 [54, -1] 0)) (mu_rect 5 6 20 30) 0 (by decide)).imp
      (fun _ h => ⟨h.1, fun r1 ctx2 hn =>
        (h.2.2.2 r1 ctx2 hn).imp (fun _ hl2 => ⟨hl2.1, hl2.2.1⟩)⟩)⟩

theorem cell_size_of_nonneg (dflt room margin v : Int) (hv : 0 ≤ v)
    (hd : v = 0 → 0 ≤ dflt) :
    cell_size dflt room margin v = (if v = 0 then dflt else v) - margin * 2 := by
  unfold cell_size
  by_cases h0 : v = 0
  · have h1 : ¬ dflt < 0 := by
      have := hd h0
      omega
    simp [h0, h1]
  · have h1 : ¬ v < 0 := by omega
    simp [h0, h1]

/-- The calls of `mu_layout_next` for the cells left in a row whose widths are not
negative, the style default being not negative where a width is 0: every returned width
plus both margins is the configured width (the style default for 0), and every cell starts
where the widths before it end. -/
theorem layout_nexts_row (rest : List Int) :
    ∀ (ctx : mu_Context) (layout : mu_Layout) (k : Nat),
      mu_get_layout ctx = some layout → layout.next_type = 0 → layout.next_size = none →
      layout.item_index = (k : Int) → layout.items = (k : Int) + (rest.length : Int) →
      (∀ j, j < rest.length → layout.widths.getD (k + j) 0 = rest.getD j 0) →
      (∀ w ∈ rest, 0 ≤ w ∧
        (w = 0 → 0 ≤ ctx.style.size.x + ctx.style.padding.left + ctx.style.padding.right)) →
      ∃ rs ctx2, layout_nexts rest.length ctx = some (rs, ctx2) ∧
        rs.map (fun r => r.w + ctx.style.margin.x * 2) = rest.map (outer_width ctx.style) ∧
        ∀ i r, rs[i]? = some r →
          r.x = layout.body.x + layout.position.x + ctx.style.margin.x
              + ((rest.take i).map (outer_width ctx.style)).sum ∧
            r.y = layout.body.y + layout.position.y + ctx.style.margin.y := by
  induction rest with
  | nil =>
    intro ctx layout k _ _ _ _ _ _ _
    refine ⟨[], ctx, rfl, rfl, ?_⟩
    intro i r h
    simp at h
  | cons w rest ih =>
    intro ctx layout k hl hnt hns hidx hitems hws hpos
    have hne : layout.item_index ≠ layout.items := by
      rw [hidx, hitems]
      simp only [List.length_cons]
      push_cast
      omega
    have hitems0 : 0 < layout.items := by
      rw [hitems]
      simp only [List.length_cons]
      push_cast
      omega
    have hci : next_cell_index layout = k := by
      unfold next_cell_index
      rw [if_neg hne, hidx]
      simp
    have hcc : next_cell_cursor layout = layout.position := by
      unfold next_cell_cursor
      rw [if_neg hne]
    have hstep := mu_layout_next_regular ctx layout hl hnt
    have hrect := regular_cell_rect ctx.style layout hns hitems0
    obtain ⟨p1, p2, p3, p4, p5, _, p7, _, p9, p10⟩ :=
      regular_cell_layout ctx.style layout hns hitems0
    have hw : layout.widths.getD k 0 = w := by
      have h0 := hws 0 (by simp)
      simpa using h0
    have hw0 := hpos w (by simp)
    rw [hci, hcc, hw, cell_size_of_nonneg _ _ _ _ hw0.1 hw0.2] at hrect
    have hih := ih
      { set_layout ctx (regular_cell ctx.style layout).2 with
        last_rect := (regular_cell ctx.style layout).1 }
      (regular_cell ctx.style layout).2 (k + 1)
      (get_layout_set_layout_last_rect ctx _ _) (p9.trans hnt) p10
      (by rw [p3, if_neg hne, hidx]; push_cast; rfl)
      (by rw [p4, hitems]; simp only [List.length_cons]; push_cast; omega)
      (by
        intro j hj
        rw [p5]
        have h1 := hws (j + 1) (by simp only [List.length_cons]; omega)
        have h2 : k + 1 + j = k + (j + 1) := by omega
        rw [h2, h1]
        simp)
      (fun w1 hw1 => hpos w1 (by simp [hw1]))
    obtain ⟨rs, ctx2, hrun, hmap, hcells⟩ := hih
    have hst : ({ set_layout ctx (regular_cell ctx.style layout).2 with
        last_rect := (regular_cell ctx.style layout).1 } : mu_Context).style = ctx.style := rfl
    rw [hst] at hmap hcells
    refine ⟨(regular_cell ctx.style layout).1 :: rs, ctx2, ?_, ?_, ?_⟩
    · simp only [List.length_cons]
      unfold layout_nexts
      rw [hstep]
      simp only
      rw [hrun]
    · simp only [List.map_cons, hmap]
      rw [hrect]
      simp [mu_rect, outer_width]
    · intro i r hr
      cases i with
      | zero =>
        simp only [List.getElem?_cons_zero, Option.some.injEq] at hr
        subst hr
        rw [hrect]
        simp only [mu_rect, List.take_zero, List.map_nil, List.sum_nil]
        omega
      | succ i =>
        simp only [List.getElem?_cons_succ] at hr
        obtain ⟨hx, hy⟩ := hcells i r hr
        rw [p7, p1, hcc] at hx
        rw [p7, p2, hcc] at hy
        rw [hrect] at hx
        simp only [mu_rect] at hx
        simp only [List.take_succ_cons, List.map_cons, List.sum_cons, outer_width]
        constructor
        · rw [hx]
          ring
        · exact hy

/-- The function `mu_layout_row` with as many explicit widths as items. -/
theorem mu_layout_row_explicit (ctx : mu_Context) (layout : mu_Layout) (ws : List Int)
    (height : Int) (hl : mu_get_layout ctx = some layout) (hlen : ws.length ≤ MU_MAX_WIDTHS) :
    mu_layout_row ctx (ws.length : Int) (some ws) height =
      some (set_layout ctx
        { layout with
          widths := ws ++ layout.widths.drop ws.length
          items := (ws.length : Int)
          position := mu_vec2 layout.indent layout.next_row
          size := { layout.size with y := height }
          item_index := 0 }) := by
  have h : (ws.length : Int) ≤ (MU_MAX_WIDTHS : Int) := by exact_mod_cast hlen
  unfold mu_layout_row layout_row
  rw [hl]
  simp [h]

theorem outer_width_of_pos (style : mu_Style) (ws : List Int) (hpos : ∀ w ∈ ws, 0 < w) :
    ws.map (outer_width style) = ws := by
  induction ws with
  | nil => rfl
  | cons w ws ih =>
    have hw : w ≠ 0 := by
      have := hpos w (by simp)
      omega
    have h2 := ih (fun w1 hw1 => hpos w1 (by simp [hw1]))
    rw [List.map_cons, h2]
    simp [outer_width, hw]

/-- The rects of a whole row with explicit widths that are not negative. -/
theorem layout_row_then_nexts (ctx : mu_Context) (layout : mu_Layout) (ws : List Int)
    (height : Int) (hl : mu_get_layout ctx = some layout) (hnt : layout.next_type = 0)
    (hns : layout.next_size = none) (hlen : ws.length ≤ MU_MAX_WIDTHS)
    (hnn : ∀ w ∈ ws, 0 ≤ w ∧
      (w = 0 → 0 ≤ ctx.style.size.x + ctx.style.padding.left + ctx.style.padding.right)) :
    ∃ ctx1 rs ctx2, mu_layout_row ctx (ws.length : Int) (some ws) height = some ctx1 ∧
      layout_nexts ws.length ctx1 = some (rs, ctx2) ∧
      rs.map (fun r => r.w + ctx.style.margin.x * 2) = ws.map (outer_width ctx.style) ∧
      ∀ i r, rs[i]? = some r →
        r.x = layout.body.x + layout.indent + ctx.style.margin.x
            + ((ws.take i).map (outer_width ctx.style)).sum ∧
          r.y = layout.body.y + layout.next_row + ctx.style.margin.y := by
  have hrow := mu_layout_row_explicit ctx layout ws height hl hlen
  have h := layout_nexts_row ws (set_layout ctx
        { layout with
          widths := ws ++ layout.widths.drop ws.length
          items := (ws.length : Int)
          position := mu_vec2 layout.indent layout.next_row
          size := { layout.size with y := height }
          item_index := 0 }) _ 0 (get_layout_set_layout ctx _) hnt hns rfl (by simp)
    (by
      intro j hj
      simp [List.getD_eq_getElem?_getD, List.getElem?_append_left hj])
    hnn
  obtain ⟨rs, ctx2, h1, h2, h3⟩ := h
  exact ⟨_, rs, ctx2, hrow, h1, h2, h3⟩

/-- C19: for a row of explicit positive widths `ws` and no override, the `i`-th rect
`mu_layout_next` returns has width `ws[i] - 2 * margin.x` and
`x = body.x + indent + margin.x + (ws[0] + ... + ws[i-1])`; the next rect starts
`2 * margin.x` after its right edge, and all rects of the row have the same `y`. -/
theorem row_cells_occupy_outer_widths (ctx : mu_Context) (layout : mu_Layout) (ws : List Int)
    (height : Int) (hl : mu_get_layout ctx = some layout) (hnt : layout.next_type = 0)
    (hns : layout.next_size = none) (hlen : ws.length ≤ MU_MAX_WIDTHS)
    (hpos : ∀ w ∈ ws, 0 < w) :
    ∃ ctx1 rs ctx2, mu_layout_row ctx (ws.length : Int) (some ws) height = some ctx1 ∧
      layout_nexts ws.length ctx1 = some (rs, ctx2) ∧ rs.length = ws.length ∧
      ∀ i w, ws[i]? = some w →
        ∃ r, rs[i]? = some r ∧ r.w = w - ctx.style.margin.x * 2 ∧
          r.x = layout.body.x + layout.indent + ctx.style.margin.x + (ws.take i).sum ∧
          r.y = layout.body.y + layout.next_row + ctx.style.margin.y ∧
          ∀ r2, rs[i + 1]? = some r2 →
            r2.x = r.x + r.w + ctx.style.margin.x * 2 ∧ r2.y = r.y := by
  have hsum : ∀ i, ((ws.take i).map (outer_width ctx.style)).sum = (ws.take i).sum := by
    intro i
    rw [outer_width_of_pos ctx.style (ws.take i)
      (fun w hw => hpos w (List.mem_of_mem_take hw))]
  have hnn : ∀ w ∈ ws, 0 ≤ w ∧
      (w = 0 → 0 ≤ ctx.style.size.x + ctx.style.padding.left + ctx.style.padding.right) := by
    intro w hw
    have := hpos w hw
    constructor
    · omega
    · intro h0
      omega
  obtain ⟨ctx1, rs, ctx2, hrow, h1, h2, h3⟩ :=
    layout_row_then_nexts ctx layout ws height hl hnt hns hlen hnn
  rw [outer_width_of_pos ctx.style ws hpos] at h2
  have hlen2 : rs.length = ws.length := by
    have := congrArg List.length h2
    simpa using this
  refine ⟨ctx1, rs, ctx2, hrow, h1, hlen2, ?_⟩
  intro i w hw
  have hi : i < ws.length := (List.getElem?_eq_some.mp hw).1
  have hwi : ws[i] = w := (List.getElem?_eq_some.mp hw).2
  have hri : i < rs.length := by omega
  have hr : rs[i]? = some rs[i] := List.getElem?_eq_getElem hri
  obtain ⟨hx, hy⟩ := h3 i rs[i] hr
  rw [hsum] at hx
  have hwr : rs[i].w + ctx.style.margin.x * 2 = w := by
    have h4 := congrArg (fun l => l[i]?) h2
    simp only [List.getElem?_map, hr, hw, Option.map_some', Option.some.injEq] at h4
    exact h4
  refine ⟨rs[i], hr, by omega, hx, hy, ?_⟩
  intro r2 hr2
  obtain ⟨hx2, hy2⟩ := h3 (i + 1) r2 hr2
  rw [hsum, List.sum_take_succ ws i hi, hwi] at hx2
  constructor
  · rw [hx2, hx]
    omega
  · rw [hy2, hy]

/-- C19, at the row `{86, 110, 90}` in the body (0,0,300,400) with margins of 10. -/
theorem row_cells_occupy_outer_widths_witness :
    ((mu_layout_row layout_context 3 (some [86, 110, 90]) 0).bind (layout_nexts 3)).map Prod.fst
        = some [mu_rect 10 10 66 24, mu_rect 96 10 90 24, mu_rect 206 10 70 24] ∧
      ∃ ctx1 rs ctx2,
        mu_layout_row layout_context (([86, 110, 90] : List Int).length : Int)
          (some [86, 110, 90]) 0 = some ctx1 ∧
        layout_nexts ([86, 110, 90] : List Int).length ctx1 = some (rs, ctx2) ∧
        rs.length = ([86, 110, 90] : List Int).length :=
  ⟨by decide,
    (row_cells_occupy_outer_widths layout_context (top_layout layout_context) [86, 110, 90] 0
      (by decide) (by decide) (by decide) (by decide) (by decide)).imp
      (fun _ h => h.imp (fun _ h => h.imp (fun _ h => ⟨h.1, h.2.1, h.2.2.1⟩)))⟩

/-- C15 (amended): for `mu_layout_row` with explicit widths none of which is
negative, followed by `mu_layout_next` for each item, the returned widths plus their
margins sum to the configured widths, a 0 counted as the style default; so the sum stays
within the body width exactly when the configured widths do. -/
theorem row_widths_sum_to_configured (ctx : mu_Context) (layout : mu_Layout) (ws : List Int)
    (height : Int) (hl : mu_get_layout ctx = some layout) (hnt : layout.next_type = 0)
    (hns : layout.next_size = none) (hlen : ws.length ≤ MU_MAX_WIDTHS)
    (hnn : ∀ w ∈ ws, 0 ≤ w)
    (hd : 0 ≤ ctx.style.size.x + ctx.style.padding.left + ctx.style.padding.right) :
    ∃ ctx1 rs ctx2, mu_layout_row ctx (ws.length : Int) (some ws) height = some ctx1 ∧
      layout_nexts ws.length ctx1 = some (rs, ctx2) ∧ rs.length = ws.length ∧
      (rs.map (fun r => r.w + ctx.style.margin.x * 2)).sum
        = (ws.map (outer_width ctx.style)).sum ∧
      ((rs.map (fun r => r.w + ctx.style.margin.x * 2)).sum ≤ layout.body.w ↔
        (ws.map (outer_width ctx.style)).sum ≤ layout.body.w) := by
  obtain ⟨ctx1, rs, ctx2, hrow, h1, h2, _⟩ :=
    layout_row_then_nexts ctx layout ws height hl hnt hns hlen (fun w hw => ⟨hnn w hw, fun _ => hd⟩)
  have hlen2 : rs.length = ws.length := by
    have := congrArg List.length h2
    simpa using this
  refine ⟨ctx1, rs, ctx2, hrow, h1, hlen2, ?_, ?_⟩
  · rw [h2]
  · rw [h2]

/-- C15, at the row `{100, 0, 50}` in a body 300 wide: the rects with their margins take
100 + 68 + 50. -/
theorem row_widths_sum_to_configured_witness :
    ((mu_layout_row layout_context 3 (some [100, 0, 50]) 0).bind (layout_nexts 3)).map Prod.fst
        = some [mu_rect 10 10 80 24, mu_rect 110 10 48 24, mu_rect 178 10 30 24] ∧
      ∃ ctx1 rs ctx2,
        mu_layout_row layout_context (([100, 0, 50] : List Int).length : Int)
          (some [100, 0, 50]) 0 = some ctx1 ∧
        layout_nexts ([100, 0, 50] : List Int).length ctx1 = some (rs, ctx2) ∧
        (rs.map (fun r => r.w + layout_context.style.margin.x * 2)).sum
          = (([100, 0, 50] : List Int).map (outer_width layout_context.style)).sum :=
  ⟨by decide,
    (row_widths_sum_to_configured layout_context (top_layout layout_context) [100, 0, 50] 0
      (by decide) (by decide) (by decide) (by decide) (by decide) (by decide)).imp
      (fun _ h => h.imp (fun _ h => h.imp (fun _ h => ⟨h.1, h.2.1, h.2.2.2.1⟩)))⟩

/-- C15 (refuted as stated): in a body 300 wide the row `{200, 200}` returns two
rects 180 wide; with the margins of 10 on both sides they sum to 400, and the rects alone
to 360. -/
theorem row_widths_exceed_body :
    (top_layout layout_context).body.w = 300 ∧
      ∃ rs, ((mu_layout_row layout_context 2 (some [200, 200]) 0).bind
          (layout_nexts 2)).map Prod.fst = some rs ∧
        rs = [mu_rect 10 10 180 24, mu_rect 210 10 180 24] ∧
        (rs.map (fun r => r.w + layout_context.style.margin.x * 2)).sum
          > (top_layout layout_context).body.w ∧
        (rs.map (fun r => r.w)).sum > (top_layout layout_context).body.w :=
  ⟨by decide, [mu_rect 10 10 180 24, mu_rect 210 10 180 24], by decide, rfl, by decide,
    by decide⟩

/-! ### Columns -/

theorem le_mu_max_left (a b : Int) : a ≤ mu_max a b := by
  unfold mu_max
  split_ifs <;> omega

/-- A call of `mu_layout_next` on a layout stack that is not empty returns, and writes the
top frame only. -/
theorem mu_layout_next_stack (ctx : mu_Context) (layout : mu_Layout)
    (hl : mu_get_layout ctx = some layout) :
    ∃ r ctx2 layout2, mu_layout_next ctx = some (r, ctx2) ∧
      ctx2.layout_stack = ctx.layout_stack.dropLast ++ [layout2] := by
  unfold mu_layout_next
  rw [hl]
  dsimp only
  split_ifs
  · exact ⟨_, _, _, rfl, rfl⟩
  · exact ⟨_, _, _, rfl, rfl⟩
  · exact ⟨_, _, _, rfl, rfl⟩

/-- The function `push_layout` returns, and puts one frame with the given body on the
stack. -/
theorem push_layout_stack (ctx : mu_Context) (body : mu_Rect) (scroll : mu_Vec2) :
    ∃ ctx2 layout, push_layout ctx body scroll = some ctx2 ∧
      ctx2.layout_stack = ctx.layout_stack ++ [layout] ∧
      layout.body = mu_rect (body.x - scroll.x) (body.y - scroll.y) body.w body.h := by
  unfold push_layout mu_layout_row mu_get_layout layout_row
  simp [push, set_layout, MU_MAX_WIDTHS]

/-- A layout call that returns writes the top frame only. -/
theorem run_layout_op_stack (ctx ctx2 : mu_Context) (op : LayoutOp)
    (h : run_layout_op ctx op = some ctx2) :
    ∃ layout2, ctx2.layout_stack = ctx.layout_stack.dropLast ++ [layout2] := by
  cases op with
  | row items widths height =>
    unfold run_layout_op mu_layout_row at h
    cases hl : mu_get_layout ctx with
    | none => simp [hl] at h
    | some l =>
      rw [hl] at h
      dsimp only at h
      cases hr : layout_row l items widths height with
      | none => simp [hr] at h
      | some l2 =>
        rw [hr] at h
        simp only [Option.some.injEq] at h
        subst h
        exact ⟨_, rfl⟩
  | width width =>
    unfold run_layout_op mu_layout_width at h
    cases hl : mu_get_layout ctx with
    | none => simp [hl] at h
    | some l =>
      rw [hl] at h
      simp only [Option.some.injEq] at h
      subst h
      exact ⟨_, rfl⟩
  | height height =>
    unfold run_layout_op mu_layout_height at h
    cases hl : mu_get_layout ctx with
    | none => simp [hl] at h
    | some l =>
      rw [hl] at h
      simp only [Option.some.injEq] at h
      subst h
      exact ⟨_, rfl⟩
  | set_next r relative =>
    unfold run_layout_op mu_layout_set_next at h
    cases hl : mu_get_layout ctx with
    | none => simp [hl] at h
    | some l =>
      rw [hl] at h
      simp only [Option.some.injEq] at h
      subst h
      exact ⟨_, rfl⟩
  | set_next_size size =>
    unfold run_layout_op mu_layout_set_next_size at h
    cases hl : mu_get_layout ctx with
    | none => simp [hl] at h
    | some l =>
      rw [hl] at h
      simp only [Option.some.injEq] at h
      subst h
      exact ⟨_, rfl⟩
  | next =>
    unfold run_layout_op at h
    cases hl : mu_get_layout ctx with
    | none =>
      unfold mu_layout_next at h
      simp [hl] at h
    | some l =>
      obtain ⟨r, c2, l2, hn, hs⟩ := mu_layout_next_stack ctx l hl
      rw [hn] at h
      simp only [Option.some.injEq] at h
      subst h
      exact ⟨l2, hs⟩

/-- Layout calls that return leave the frames under the top one as they were, and a
frame on top. -/
theorem run_layout_ops_stack (ops : List LayoutOp) :
    ∀ (ctx ctx2 : mu_Context) (s : List mu_Layout) (top : mu_Layout),
      ctx.layout_stack = s ++ [top] → run_layout_ops ctx ops = some ctx2 →
      ∃ top2, ctx2.layout_stack = s ++ [top2] := by
  induction ops with
  | nil =>
    intro ctx ctx2 s top hs h
    unfold run_layout_ops at h
    simp only [Option.some.injEq] at h
    subst h
    exact ⟨top, hs⟩
  | cons op rest ih =>
    intro ctx ctx2 s top hs h
    unfold run_layout_ops at h
    cases h1 : run_layout_op ctx op with
    | none => simp [h1] at h
    | some c1 =>
      rw [h1] at h
      obtain ⟨l2, hl2⟩ := run_layout_op_stack ctx c1 op h1
      rw [hs] at hl2
      simp only [List.dropLast_concat] at hl2
      exact ih c1 ctx2 s l2 hl2 h

/-- The function `mu_layout_end_column` on a stack with the child `b` on top of the parent
`a`. -/
theorem mu_layout_end_column_fold (ctx : mu_Context) (s : List mu_Layout) (a b : mu_Layout)
    (hs : ctx.layout_stack = s ++ [a, b]) :
    mu_layout_end_column ctx =
      some (set_layout { ctx with layout_stack := s ++ [a] }
        { a with
          position := { a.position with
            x := mu_max a.position.x (b.position.x + b.body.x - a.body.x) }
          next_row := mu_max a.next_row (b.next_row + b.body.y - a.body.y)
          max := mu_vec2 (mu_max a.max.x b.max.x) (mu_max a.max.y b.max.y) }) := by
  have h2 : s ++ [a, b] = (s ++ [a]) ++ [b] := by simp
  unfold mu_layout_end_column mu_get_layout pop
  rw [hs, h2]
  simp

/-- C20: `mu_layout_begin_column` puts a child frame on the layout stack, with the next
cell of the parent as its body; after any layout calls that return, `mu_layout_end_column`
pops it, so the stack has the depth it had, and the cursor x, `next_row`, `max.x` and
`max.y` of the parent are each the maximum of their value before the fold and the final
value of the child in the coordinates of the parent body, so none of them decreases. -/
theorem column_folds_into_parent (ctx : mu_Context) (layout : mu_Layout)
    (hl : mu_get_layout ctx = some layout) :
    ∃ ctx1 r a child, mu_layout_begin_column ctx = some ctx1 ∧
      (mu_layout_next ctx).map Prod.fst = some r ∧ child.body = r ∧
      ctx1.layout_stack = ctx.layout_stack.dropLast ++ [a, child] ∧
      ctx1.layout_stack.length = ctx.layout_stack.length + 1 ∧
      ∀ ops ctx2, run_layout_ops ctx1 ops = some ctx2 →
        ∃ b ctx3 a3, ctx2.layout_stack = ctx.layout_stack.dropLast ++ [a, b] ∧
          mu_layout_end_column ctx2 = some ctx3 ∧
          ctx3.layout_stack = ctx.layout_stack.dropLast ++ [a3] ∧
          ctx3.layout_stack.length = ctx.layout_stack.length ∧
          a3 = { a with
            position := { a.position with
              x := mu_max a.position.x (b.position.x + b.body.x - a.body.x) }
            next_row := mu_max a.next_row (b.next_row + b.body.y - a.body.y)
            max := mu_vec2 (mu_max a.max.x b.max.x) (mu_max a.max.y b.max.y) } ∧
          a.position.x ≤ a3.position.x ∧ a.next_row ≤ a3.next_row ∧
          a.max.x ≤ a3.max.x ∧ a.max.y ≤ a3.max.y := by
  have hne : ctx.layout_stack ≠ [] := by
    intro h0
    unfold mu_get_layout at hl
    rw [h0] at hl
    simp at hl
  have hlen : ctx.layout_stack.length = ctx.layout_stack.dropLast.length + 1 := by
    have := List.length_pos.mpr hne
    simp
    omega
  obtain ⟨r, cN, a, hn, hsN⟩ := mu_layout_next_stack ctx layout hl
  obtain ⟨c1, child, hp, hs1, hbody⟩ := push_layout_stack cN r (mu_vec2 0 0)
  have hs1b : c1.layout_stack = ctx.layout_stack.dropLast ++ [a, child] := by
    rw [hs1, hsN]
    simp
  refine ⟨c1, r, a, child, ?_, ?_, ?_, hs1b, ?_, ?_⟩
  · unfold mu_layout_begin_column
    rw [hn]
    exact hp
  · rw [hn]
    rfl
  · rw [hbody]
    simp [mu_vec2, mu_rect]
  · rw [hs1b]
    simp
    omega
  · intro ops ctx2 hrun
    have hs1c : c1.layout_stack = (ctx.layout_stack.dropLast ++ [a]) ++ [child] := by
      rw [hs1b]
      simp
    obtain ⟨b, hb⟩ := run_layout_ops_stack ops c1 ctx2 _ child hs1c hrun
    have hb2 : ctx2.layout_stack = ctx.layout_stack.dropLast ++ [a, b] := by
      rw [hb]
      simp
    refine ⟨b, _, _, hb2, mu_layout_end_column_fold ctx2 _ a b hb2, ?_, ?_, rfl,
      le_mu_max_left _ _, le_mu_max_left _ _, le_mu_max_left _ _, le_mu_max_left _ _⟩
    · simp [set_layout]
    · simp [set_layout]
      omega

/-- C20, at a column opened in the first cell of the row `{54, -1}`, with a row
`{46, -1}` and three cells in it: after the fold the parent cursor is at 56 and its
`next_row` at 98. -/
theorem column_folds_into_parent_witness :
    mu_get_layout (row_context 2 [54, -1] 0) = some (top_layout (row_context 2 [54, -1] 0)) ∧
      (((mu_layout_begin_column (row_context 2 [54, -1] 0)).bind
          (fun c => run_layout_ops c
            [LayoutOp.row 2 (some [46, -1]) 0, LayoutOp.next, LayoutOp.next,
              LayoutOp.next])).bind mu_layout_end_column).map (fun c => c.layout_stack)
        = some [{ top_layout (row_context 2 [54, -1] 0) with
            position := mu_vec2 56 0, max := mu_vec2 46 88, item_index := 1, next_row := 98 }] ∧
      ∃ ctx1 r a child, mu_layout_begin_column (row_context 2 [54, -1] 0) = some ctx1 ∧
        (mu_layout_next (row_context 2 [54, -1] 0)).map Prod.fst = some r ∧ child.body = r ∧
        ctx1.layout_stack = (row_context 2 [54, -1] 0).layout_stack.dropLast ++ [a, child] :=
  ⟨by decide, by decide,
    (column_folds_into_parent (row_context 2 [54, -1] 0)
      (top_layout (row_context 2 [54, -1] 0)) (by decide)).imp
      (fun _ h => h.imp (fun _ h => h.imp (fun _ h => h.imp
        (fun _ h => ⟨h.1, h.2.1, h.2.2.1, h.2.2.2.1⟩))))⟩

/-! ### Pool lookup -/

/-- The loop of `mu_pool_get` from index `i` on either finds nothing, or stops at the first
slot that holds `id`. -/
theorem pool_get_loop_spec (items : List mu_PoolItem) (id : Nat) :
    ∀ i : Nat,
      (pool_get_loop items i id = -1 ∧ ∀ it ∈ items, it.id ≠ id) ∨
      (∃ k : Nat, ∃ it : mu_PoolItem, items[k]? = some it ∧ it.id = id ∧
        (∀ j : Nat, j < k → ∀ jt : mu_PoolItem, items[j]? = some jt → jt.id ≠ id) ∧
        pool_get_loop items i id = ((i + k : Nat) : Int)) := by
  induction items with
  | nil =>
    intro i
    left
    exact ⟨rfl, fun it hit => by simp at hit⟩
  | cons a rest ih =>
    intro i
    by_cases ha : a.id = id
    · right
      refine ⟨0, a, by simp, ha, fun j hj => by omega, ?_⟩
      simp [pool_get_loop, ha]
    · rcases ih (i + 1) with ⟨h1, h2⟩ | ⟨k, it, hk, hid, hmin, hres⟩
      · left
        refine ⟨?_, ?_⟩
        · simp only [pool_get_loop, if_neg ha]
          exact h1
        · intro it hit
          rcases List.mem_cons.mp hit with h | h
          · rw [h]
            exact ha
          · exact h2 it h
      · right
        refine ⟨k + 1, it, by simpa using hk, hid, ?_, ?_⟩
        · intro j hj jt hjt
          cases j with
          | zero =>
            simp only [List.getElem?_cons_zero, Option.some.injEq] at hjt
            rw [← hjt]
            exact ha
          | succ j =>
            simp only [List.getElem?_cons_succ] at hjt
            exact hmin j (by omega) jt hjt
        · simp only [pool_get_loop, if_neg ha]
          rw [hres]
          congr 1
          omega

/-- C30: `mu_pool_get` scans from slot 0: it returns `-1` exactly when no slot holds `id`,
and it returns the index `k` exactly when slot `k` holds `id` and no slot below it does;
any index it returns is inside the pool. -/
theorem mu_pool_get_linear_scan (items : List mu_PoolItem) (id : Nat) :
    (mu_pool_get items id = -1 ↔ ∀ it ∈ items, it.id ≠ id) ∧
    (∀ k : Nat, mu_pool_get items id = (k : Int) ↔
      ((∃ it : mu_PoolItem, items[k]? = some it ∧ it.id = id) ∧
        ∀ j : Nat, j < k → ∀ jt : mu_PoolItem, items[j]? = some jt → jt.id ≠ id)) ∧
    (mu_pool_get items id = -1 ∨
      ∃ k : Nat, k < items.length ∧ mu_pool_get items id = (k : Int)) := by
  unfold mu_pool_get
  rcases pool_get_loop_spec items id 0 with ⟨h1, h2⟩ | ⟨k0, it0, hk0, hid0, hmin0, hres⟩
  · refine ⟨⟨fun _ => h2, fun _ => h1⟩, ?_, Or.inl h1⟩
    intro k
    constructor
    · intro h
      rw [h1] at h
      omega
    · rintro ⟨⟨it, hk, hid⟩, _⟩
      exact absurd hid (h2 it (List.getElem?_mem hk))
  · simp only [Nat.zero_add] at hres
    have hlt : k0 < items.length := (List.getElem?_eq_some.mp hk0).1
    refine ⟨?_, ?_, Or.inr ⟨k0, hlt, hres⟩⟩
    · constructor
      · intro h
        rw [hres] at h
        omega
      · intro h
        exact absurd hid0 (h it0 (List.getElem?_mem hk0))
    · intro k
      rw [hres]
      constructor
      · intro h
        have hk : k0 = k := by exact_mod_cast h
        subst hk
        exact ⟨⟨it0, hk0, hid0⟩, hmin0⟩
      · rintro ⟨⟨it, hk, hid⟩, hmin⟩
        have hk : k0 = k := by
          rcases Nat.lt_trichotomy k0 k with h | h | h
          · exact absurd hid0 (hmin k0 h it0 hk0)
          · exact h
          · exact absurd hid (hmin0 k h it hk)
        rw [hk]

/-! ### Frame end, input calls and stacks -/

/-- C24: `mu_end` is fatal exactly when one of the container, clip, identity and layout
stacks is not empty; with all four empty it returns. -/
theorem mu_end_fatal_iff_stack_left (ctx : mu_Context) :
    (mu_end ctx = none ↔
      (ctx.container_stack ≠ [] ∨ ctx.clip_stack ≠ [] ∨ ctx.id_stack ≠ [] ∨
        ctx.layout_stack ≠ [])) ∧
    ((∃ ctx2, mu_end ctx = some ctx2) ↔
      (ctx.container_stack = [] ∧ ctx.clip_stack = [] ∧ ctx.id_stack = [] ∧
        ctx.layout_stack = [])) := by
  by_cases h : ctx.container_stack = [] ∧ ctx.clip_stack = [] ∧ ctx.id_stack = [] ∧
      ctx.layout_stack = []
  · obtain ⟨h1, h2, h3, h4⟩ := h
    have hs : ∃ ctx2, mu_end ctx = some ctx2 := by
      unfold mu_end
      simp [h1, h2, h3, h4]
    obtain ⟨c2, hc2⟩ := hs
    constructor
    · constructor
      · intro hn
        rw [hc2] at hn
        cases hn
      · intro hn
        rcases hn with hn | hn | hn | hn
        · exact absurd h1 hn
        · exact absurd h2 hn
        · exact absurd h3 hn
        · exact absurd h4 hn
    · exact ⟨fun _ => ⟨h1, h2, h3, h4⟩, fun _ => ⟨c2, hc2⟩⟩
  · have hn : mu_end ctx = none := by
      unfold mu_end
      have h5 : ¬ (ctx.container_stack.isEmpty = true ∧ ctx.clip_stack.isEmpty = true ∧
          ctx.id_stack.isEmpty = true ∧ ctx.layout_stack.isEmpty = true) := by
        simpa [List.isEmpty_iff] using h
      rw [if_neg h5]
    constructor
    · constructor
      · intro _
        by_contra hc
        apply h
        simp only [not_or, not_not] at hc
        exact hc
      · intro _
        exact hn
    · constructor
      · rintro ⟨c2, hc2⟩
        rw [hn] at hc2
        cases hc2
      · intro h6
        exact absurd h6 h

/-- C29: with its four stacks empty `mu_end` returns, and in the context it leaves
`key_pressed` and `mouse_pressed` are 0, `scroll_delta` is (0,0), the input text and the
event buffer are empty and `last_mouse_pos` is `mouse_pos`; `mouse_down`, `key_down` and
`mouse_pos` are as they were. -/
theorem mu_end_resets_one_shot_input (ctx : mu_Context)
    (h1 : ctx.container_stack = []) (h2 : ctx.clip_stack = []) (h3 : ctx.id_stack = [])
    (h4 : ctx.layout_stack = []) :
    ∃ ctx2, mu_end ctx = some ctx2 ∧
      ctx2.key_pressed = 0 ∧ ctx2.mouse_pressed = 0 ∧ ctx2.scroll_delta = mu_vec2 0 0 ∧
      ctx2.input_text = [] ∧ ctx2.events = [] ∧ ctx2.last_mouse_pos = ctx.mouse_pos ∧
      ctx2.mouse_down = ctx.mouse_down ∧ ctx2.key_down = ctx.key_down ∧
      ctx2.mouse_pos = ctx.mouse_pos := by
  unfold mu_end
  simp only [h1, h2, h3, h4, List.isEmpty_nil, and_self, if_true]
  refine ⟨_, rfl, rfl, rfl, rfl, rfl, ?_, ?_, ?_, ?_, ?_⟩
  all_goals
    simp only [set_cnt, mu_bring_to_front]
    repeat' split
    all_goals simp_all

/-- C29, at a fresh context after a press of the left button at (3,4), the Tab key going
down, a scroll of (0,5) and the text `a`. -/
theorem mu_end_resets_one_shot_input_witness :
    (input_context.key_pressed = 32 ∧ input_context.mouse_pressed = 1 ∧
      input_context.scroll_delta = mu_vec2 0 5 ∧ input_context.input_text = [97] ∧
      input_context.events.length = 3) ∧
    ∃ ctx2,
      mu_end input_context = some ctx2 ∧
      ctx2.key_pressed = 0 ∧ ctx2.mouse_pressed = 0 ∧ ctx2.scroll_delta = mu_vec2 0 0 ∧
      ctx2.input_text = [] ∧ ctx2.events = [] ∧ ctx2.last_mouse_pos = input_context.mouse_pos ∧
      ctx2.mouse_down = input_context.mouse_down ∧ ctx2.key_down = input_context.key_down ∧
      ctx2.mouse_pos = input_context.mouse_pos :=
  ⟨by decide, mu_end_resets_one_shot_input input_context rfl rfl rfl rfl⟩

/-- C23 (refuted as stated): `mu_input_scroll` and `mu_input_text` on a fresh context leave
the event buffer empty; they only add to `scroll_delta` and to the input text. -/
theorem scroll_and_text_append_no_event :
    scenario_init.events = [] ∧
    (mu_input_scroll scenario_init 0 5).events = [] ∧
    (mu_input_scroll scenario_init 0 5).scroll_delta = mu_vec2 0 5 ∧
    (mu_input_text scenario_init [97]).map (fun c => (c.events, c.input_text))
      = some ([], [97]) := by
  refine ⟨by decide, by decide, by decide, by decide⟩

/-- C23 (amended): `mu_input_mousemove`, `mu_input_mousedown`, `mu_input_mouseup`,
`mu_input_keydown` and `mu_input_keyup` append to the event buffer (the two button calls
their button event and then the mouse-move event of the position) and update the current
fields; `mu_input_scroll` and `mu_input_text` append no event and only add to
`scroll_delta` and to the input text. -/
theorem input_calls_events_and_fields (ctx : mu_Context) (x y : Int) (btn key : Nat)
    (text : List uchar) :
    ((mu_input_mousemove ctx x y).events = ctx.events ++
        [{ type := MOUSEMOVE
           data := mu_EventData.mousemove x y (x - ctx.mouse_pos.x) (y - ctx.mouse_pos.y) }] ∧
      (mu_input_mousemove ctx x y).mouse_pos = mu_vec2 x y) ∧
    ((mu_input_mousedown ctx x y btn).events = ctx.events ++
        [{ type := MOUSEDOWN, data := mu_EventData.mousebutton btn },
         { type := MOUSEMOVE
           data := mu_EventData.mousemove x y (x - ctx.mouse_pos.x) (y - ctx.mouse_pos.y) }] ∧
      (mu_input_mousedown ctx x y btn).mouse_pos = mu_vec2 x y ∧
      (mu_input_mousedown ctx x y btn).mouse_down = ctx.mouse_down ||| btn ∧
      (mu_input_mousedown ctx x y btn).mouse_pressed = ctx.mouse_pressed ||| btn) ∧
    ((mu_input_mouseup ctx x y btn).events = ctx.events ++
        [{ type := MOUSEUP, data := mu_EventData.mousebutton btn },
         { type := MOUSEMOVE
           data := mu_EventData.mousemove x y (x - ctx.mouse_pos.x) (y - ctx.mouse_pos.y) }] ∧
      (mu_input_mouseup ctx x y btn).mouse_pos = mu_vec2 x y ∧
      (mu_input_mouseup ctx x y btn).mouse_down = clear_flag ctx.mouse_down btn ∧
      (mu_input_mouseup ctx x y btn).mouse_pressed = ctx.mouse_pressed) ∧
    ((mu_input_keydown ctx key).events = ctx.events ++
        [{ type := KEYDOWN, data := mu_EventData.key key }] ∧
      (mu_input_keydown ctx key).key_pressed = ctx.key_pressed ||| key ∧
      (mu_input_keydown ctx key).key_down = ctx.key_down ||| key) ∧
    ((mu_input_keyup ctx key).events = ctx.events ++
        [{ type := KEYUP, data := mu_EventData.key key }] ∧
      (mu_input_keyup ctx key).key_down = clear_flag ctx.key_down key ∧
      (mu_input_keyup ctx key).key_pressed = ctx.key_pressed) ∧
    ((mu_input_scroll ctx x y).events = ctx.events ∧
      (mu_input_scroll ctx x y).scroll_delta
        = mu_vec2 (ctx.scroll_delta.x + x) (ctx.scroll_delta.y + y)) ∧
    (∀ ctx2, mu_input_text ctx text = some ctx2 →
      ctx2.events = ctx.events ∧ ctx2.input_text = ctx.input_text ++ text) := by
  refine ⟨⟨rfl, rfl⟩, ⟨?_, rfl, rfl, rfl⟩, ⟨?_, rfl, rfl, rfl⟩, ⟨rfl, rfl, rfl⟩, ⟨rfl, rfl, rfl⟩,
    ⟨rfl, rfl⟩, ?_⟩
  · simp [mu_input_mousedown, mu_input_mousemove]
  · simp [mu_input_mouseup, mu_input_mousemove]
  · intro ctx2 h
    unfold mu_input_text at h
    dsimp only at h
    split at h
    · simp only [Option.some.injEq] at h
      subst h
      exact ⟨rfl, rfl⟩
    · cases h

/-- C26: `mu_input_text` returns exactly when the text accumulated so far, the new text
and one terminator fit the 32 bytes of `input_text`; it then leaves the old content
followed by the new text and changes nothing else, and otherwise it is fatal. -/
theorem mu_input_text_fits_iff (ctx : mu_Context) (text : List uchar) :
    ((∃ ctx2, mu_input_text ctx text = some ctx2) ↔
      ctx.input_text.length + text.length + 1 ≤ 32) ∧
    (mu_input_text ctx text = none ↔ 32 < ctx.input_text.length + text.length + 1) ∧
    (∀ ctx2, mu_input_text ctx text = some ctx2 →
      ctx2 = { ctx with input_text := ctx.input_text ++ text }) := by
  unfold mu_input_text
  dsimp only
  by_cases h : ctx.input_text.length + (text.length + 1) ≤ 32
  · rw [if_pos h]
    refine ⟨⟨fun _ => (by omega), fun _ => ⟨_, rfl⟩⟩,
      ⟨fun h1 => (by cases h1), fun h1 => (by omega)⟩, ?_⟩
    intro ctx2 h2
    simp only [Option.some.injEq] at h2
    exact h2.symm
  · rw [if_neg h]
    refine ⟨⟨fun ⟨_, h1⟩ => (by cases h1), fun h1 => (by omega)⟩,
      ⟨fun _ => (by omega), fun _ => rfl⟩, ?_⟩
    intro ctx2 h2
    cases h2

/-- C27: `mu_pop_id` and `mu_pop_clip_rect` are fatal exactly on an empty stack; on a
stack that is not empty they remove the top entry and leave the entries under it, and the
rest of the context, as they were. -/
theorem pop_fatal_iff_empty (ctx : mu_Context) :
    (mu_pop_id ctx = none ↔ ctx.id_stack = []) ∧
    (mu_pop_clip_rect ctx = none ↔ ctx.clip_stack = []) ∧
    (∀ (s : List Nat) (top : Nat), ctx.id_stack = s ++ [top] →
      mu_pop_id ctx = some { ctx with id_stack := s }) ∧
    (∀ (s : List mu_Rect) (top : mu_Rect), ctx.clip_stack = s ++ [top] →
      mu_pop_clip_rect ctx = some { ctx with clip_stack := s }) := by
  refine ⟨?_, ?_, ?_, ?_⟩
  · unfold mu_pop_id pop
    cases h : ctx.id_stack <;> simp
  · unfold mu_pop_clip_rect pop
    cases h : ctx.clip_stack <;> simp
  · intro s top h
    unfold mu_pop_id pop
    rw [h]
    simp
  · intro s top h
    unfold mu_pop_clip_rect pop
    rw [h]
    simp

/-- C25 (refuted as stated): a 33rd identity, a 33rd clip rect and a 17th layout frame are
stored, and nothing is fatal: the stacks then hold 33, 33 and 17 entries. -/
theorem push_beyond_capacity_not_fatal :
    (push_ids scenario_init (List.replicate 33 (PushArg.raw 7))).id_stack.length
      = MU_IDSTACK_SIZE + 1 ∧
    tab_context.clip_stack.length = 1 ∧
    (push_clip_rects (mu_rect 0 0 10 10) 32 tab_context).map (fun c => c.clip_stack.length)
      = some (MU_CLIPSTACK_SIZE + 1) ∧
    (push_layouts (mu_rect 0 0 300 400) (mu_vec2 0 0) 17 scenario_init).map
      (fun c => c.layout_stack.length) = some (MU_LAYOUTSTACK_SIZE + 1) := by
  refine ⟨by decide, by decide, by decide, by decide⟩

/-- C25 (amended): a push stores its entry on top whatever the number of entries on the
stack, also when the stack already holds the number of entries reserved for it (32
identities, 32 clip rects, 16 layout frames): `mu_push_id` and `push_layout` always return,
and `mu_push_clip_rect` returns whenever the clip stack is not empty. -/
theorem push_stores_beyond_capacity (ctx : mu_Context) (id : Nat) (r top body : mu_Rect)
    (scroll : mu_Vec2) (htop : mu_get_clip_rect ctx = some top) :
    (mu_push_id ctx id).id_stack = ctx.id_stack ++ [id] ∧
    (∃ ctx2, mu_push_clip_rect ctx r = some ctx2 ∧
      ctx2.clip_stack = ctx.clip_stack ++ [intersect_rects r top]) ∧
    (∃ ctx2 layout, push_layout ctx body scroll = some ctx2 ∧
      ctx2.layout_stack = ctx.layout_stack ++ [layout] ∧
      layout.body = mu_rect (body.x - scroll.x) (body.y - scroll.y) body.w body.h) := by
  refine ⟨rfl, ?_, push_layout_stack ctx body scroll⟩
  unfold mu_push_clip_rect
  rw [htop]
  exact ⟨_, rfl, rfl⟩

/-- C25, at a context whose identity, clip and layout stacks hold 32, 32 and 16
entries. -/
theorem push_stores_beyond_capacity_witness :
    (full_stacks_context.id_stack.length = MU_IDSTACK_SIZE ∧
      full_stacks_context.clip_stack.length = MU_CLIPSTACK_SIZE ∧
      full_stacks_context.layout_stack.length = MU_LAYOUTSTACK_SIZE) ∧
    ((mu_push_id full_stacks_context 9).id_stack = full_stacks_context.id_stack ++ [9] ∧
      (∃ ctx2, mu_push_clip_rect full_stacks_context (mu_rect 0 0 10 10) = some ctx2 ∧
        ctx2.clip_stack = full_stacks_context.clip_stack
          ++ [intersect_rects (mu_rect 0 0 10 10) unclipped_rect]) ∧
      (∃ ctx2 layout,
        push_layout full_stacks_context (mu_rect 0 0 300 400) (mu_vec2 0 0) = some ctx2 ∧
        ctx2.layout_stack = full_stacks_context.layout_stack ++ [layout] ∧
        layout.body = mu_rect ((mu_rect 0 0 300 400).x - (mu_vec2 0 0).x)
          ((mu_rect 0 0 300 400).y - (mu_vec2 0 0).y) (mu_rect 0 0 300 400).w
          (mu_rect 0 0 300 400).h)) :=
  ⟨by decide,
    push_stores_beyond_capacity full_stacks_context 9 (mu_rect 0 0 10 10) unclipped_rect
      (mu_rect 0 0 300 400) (mu_vec2 0 0) (by decide)⟩

/-! ### Content size of a container -/

theorem pop_of_getLast {α : Type} (stk : List α) (top : α) (h : stk.getLast? = some top) :
    pop stk = some stk.dropLast := by
  unfold pop
  cases stk with
  | nil => simp at h
  | cons a rest => rfl

/-- The function `pop_container` with a container on the container stack, a frame on the
layout stack and an identity on the identity stack. -/
theorem pop_container_content_size (ctx : mu_Context) (cnt : Nat) (layout : mu_Layout) (id : Nat)
    (hc : mu_get_current_container ctx = some cnt) (hl : mu_get_layout ctx = some layout)
    (hid : ctx.id_stack.getLast? = some id) :
    pop_container ctx =
      some { set_cnt ctx cnt (fun c => { c with
          content_size := mu_vec2 (layout.max.x - layout.body.x + ctx.style.margin.x)
            (layout.max.y - layout.body.y + ctx.style.margin.y) }) with
        container_stack := ctx.container_stack.dropLast
        layout_stack := ctx.layout_stack.dropLast
        id_stack := ctx.id_stack.dropLast } := by
  unfold pop_container
  rw [hc, hl]
  unfold mu_get_current_container at hc
  unfold mu_get_layout at hl
  simp only [set_cnt, mu_pop_id, pop_of_getLast _ _ hc, pop_of_getLast _ _ hl,
    pop_of_getLast _ _ hid]

/-- C21: `mu_end_window`, `mu_end_popup` and `mu_end_panel` pop the current container, and
set its `content_size` on each axis to `max` of the layout frame on top minus the origin
of its body plus the style margin; the container, layout and identity stacks lose their
top entry. -/
theorem end_container_sets_content_size (ctx : mu_Context) (cnt : Nat) (layout : mu_Layout)
    (id : Nat) (s : List mu_Rect) (r0 r1 : mu_Rect)
    (hc : mu_get_current_container ctx = some cnt) (hl : mu_get_layout ctx = some layout)
    (hid : ctx.id_stack.getLast? = some id) (hclip : ctx.clip_stack = s ++ [r0, r1])
    (hv : cnt < ctx.containers.length) :
    (∃ ctx2, mu_end_window ctx = some ctx2 ∧ mu_end_popup ctx = some ctx2 ∧
      (get_cnt ctx2 cnt).content_size =
        mu_vec2 (layout.max.x - layout.body.x + ctx.style.margin.x)
          (layout.max.y - layout.body.y + ctx.style.margin.y) ∧
      ctx2.container_stack = ctx.container_stack.dropLast ∧
      ctx2.layout_stack = ctx.layout_stack.dropLast ∧
      ctx2.id_stack = ctx.id_stack.dropLast ∧ ctx2.clip_stack = s) ∧
    (∃ ctx2, mu_end_panel ctx = some ctx2 ∧
      (get_cnt ctx2 cnt).content_size =
        mu_vec2 (layout.max.x - layout.body.x + ctx.style.margin.x)
          (layout.max.y - layout.body.y + ctx.style.margin.y) ∧
      ctx2.container_stack = ctx.container_stack.dropLast ∧
      ctx2.layout_stack = ctx.layout_stack.dropLast ∧
      ctx2.id_stack = ctx.id_stack.dropLast ∧ ctx2.clip_stack = s ++ [r0]) := by
  have hp1 : mu_pop_clip_rect ctx = some { ctx with clip_stack := s ++ [r0] } := by
    unfold mu_pop_clip_rect pop
    rw [hclip]
    have h2 : s ++ [r0, r1] = (s ++ [r0]) ++ [r1] := by simp
    rw [h2]
    simp
  have hp2 : mu_pop_clip_rect { ctx with clip_stack := s ++ [r0] }
      = some { ctx with clip_stack := s } := by
    unfold mu_pop_clip_rect pop
    simp
  have hcs : ∀ c : mu_Context, c.containers = ctx.containers →
      (get_cnt (set_cnt c cnt (fun k => { k with
          content_size := mu_vec2 (layout.max.x - layout.body.x + ctx.style.margin.x)
            (layout.max.y - layout.body.y + ctx.style.margin.y) })) cnt).content_size
        = mu_vec2 (layout.max.x - layout.body.x + ctx.style.margin.x)
            (layout.max.y - layout.body.y + ctx.style.margin.y) := by
    intro c hcc
    rw [get_cnt_set_cnt c cnt _ (by rw [hcc]; exact hv)]
  constructor
  · have hw : mu_end_window ctx =
        pop_container { ctx with clip_stack := s } := by
      unfold mu_end_window end_root_container
      rw [hp1]
      have hc2 : mu_get_current_container { ctx with clip_stack := s ++ [r0] } = some cnt := hc
      simp only [hc2, hp2]
    have hpop := pop_container_content_size { ctx with clip_stack := s } cnt layout id hc hl hid
    refine ⟨_, hw.trans hpop, ?_, ?_, rfl, rfl, rfl, rfl⟩
    · unfold mu_end_popup
      exact hw.trans hpop
    · exact hcs { ctx with clip_stack := s } rfl
  · have hw : mu_end_panel ctx = pop_container { ctx with clip_stack := s ++ [r0] } := by
      unfold mu_end_panel
      rw [hp1]
    have hpop := pop_container_content_size { ctx with clip_stack := s ++ [r0] } cnt layout id
      hc hl hid
    refine ⟨_, hw.trans hpop, ?_, rfl, rfl, rfl, rfl⟩
    exact hcs { ctx with clip_stack := s ++ [r0] } rfl

/-- C21, at the window `w` of the scenarios after two cells of its layout: the frame has
`max` (58,78) and its body starts at (0,0), the margin is 10, and the window is left with
the content size (68,88). -/
theorem end_container_sets_content_size_witness :
    ((top_layout (after_nexts 2 window_context)).max = mu_vec2 58 78 ∧
      (top_layout (after_nexts 2 window_context)).body = mu_rect 0 0 200 200 ∧
      (mu_end_window (after_nexts 2 window_context)).map (fun c => (get_cnt c 0).content_size)
        = some (mu_vec2 68 88)) ∧
    ∃ ctx2, mu_end_window (after_nexts 2 window_context) = some ctx2 ∧
      mu_end_popup (after_nexts 2 window_context) = some ctx2 ∧
      (get_cnt ctx2 0).content_size =
        mu_vec2
          ((top_layout (after_nexts 2 window_context)).max.x
            - (top_layout (after_nexts 2 window_context)).body.x
            + (after_nexts 2 window_context).style.margin.x)
          ((top_layout (after_nexts 2 window_context)).max.y
            - (top_layout (after_nexts 2 window_context)).body.y
            + (after_nexts 2 window_context).style.margin.y) :=
  ⟨by decide,
    (end_container_sets_content_size (after_nexts 2 window_context) 0
      (top_layout (after_nexts 2 window_context)) 4060888886 [] unclipped_rect
      (mu_rect 0 0 200 200) (by decide) (by decide) (by decide) (by decide) (by decide)).1.imp
      (fun _ h => ⟨h.1, h.2.1, h.2.2.1⟩)⟩

/-! ### Event dispatch -/

/-- One loop of `handle_event` calls a prefix of its handlers: every handler called before
the last one did not report the event handled; if the loop returned early, the last one
called did; if it did not, every handler was called and none reported handled. -/
theorem call_handlers_spec (event : mu_Event) (l : List EventHandlerWrapper) :
    ∃ rest, l = (call_handlers event l).1 ++ rest ∧
      (∀ h ∈ (call_handlers event l).1.dropLast, h.fn event = false) ∧
      ((call_handlers event l).2 = true →
        ∃ h, (call_handlers event l).1.getLast? = some h ∧ h.fn event = true) ∧
      ((call_handlers event l).2 = false →
        rest = [] ∧ ∀ h ∈ (call_handlers event l).1, h.fn event = false) := by
  induction l with
  | nil =>
    refine ⟨[], rfl, ?_, ?_, ?_⟩
    · intro h hh
      simp [call_handlers] at hh
    · intro h
      simp [call_handlers] at h
    · intro _
      exact ⟨rfl, fun h hh => by simp [call_handlers] at hh⟩
  | cons a rest ih =>
    by_cases ha : a.fn event = true
    · refine ⟨rest, ?_, ?_, ?_, ?_⟩
      · simp [call_handlers, ha]
      · intro h hh
        simp [call_handlers, ha] at hh
      · intro _
        exact ⟨a, by simp [call_handlers, ha], ha⟩
      · intro h
        simp [call_handlers, ha] at h
    · have haf : a.fn event = false := by simpa using ha
      obtain ⟨r, h1, h2, h3, h4⟩ := ih
      have hc1 : (call_handlers event (a :: rest)).1 = a :: (call_handlers event rest).1 := by
        simp [call_handlers, haf]
      have hc2 : (call_handlers event (a :: rest)).2 = (call_handlers event rest).2 := by
        simp [call_handlers, haf]
      rw [hc1, hc2]
      refine ⟨r, ?_, ?_, ?_, ?_⟩
      · rw [List.cons_append, ← h1]
      · intro h hh
        cases hcr : (call_handlers event rest).1 with
        | nil =>
          rw [hcr] at hh
          simp at hh
        | cons b t =>
          rw [hcr, List.dropLast_cons₂] at hh
          rcases List.mem_cons.mp hh with h5 | h5
          · rw [h5]
            exact haf
          · rw [hcr] at h2
            exact h2 h h5
      · intro h5
        obtain ⟨h, hl, hf⟩ := h3 h5
        refine ⟨h, ?_, hf⟩
        cases hcr : (call_handlers event rest).1 with
        | nil =>
          rw [hcr] at hl
          simp at hl
        | cons b t =>
          rw [hcr] at hl
          rw [List.getLast?_cons_cons]
          exact hl
      · intro h5
        obtain ⟨h6, h7⟩ := h4 h5
        refine ⟨h6, ?_⟩
        intro h hh
        rcases List.mem_cons.mp hh with h8 | h8
        · rw [h8]
          exact haf
        · exact h7 h h8

/-- C22: for an event dispatched by `handle_event`, take the applicable global handlers,
most recently registered first, followed by the applicable scope handlers, most recently
registered first. The handlers called are a prefix of that list, in that order; no handler
called before the last one reported the event handled, and when a handler of the list is
left uncalled, the last one called reported it handled. `handle_events` dispatches every
buffered event, in the order of the buffer. -/
theorem handle_event_order (ctx : mu_Context) (event : mu_Event) (id_stack : List Nat)
    (target_id : Nat) :
    (∃ rest,
      (ctx.global_event_handlers.reverse.filter
          (is_handler_applicable event id_stack target_id))
        ++ (ctx.event_handlers.reverse.filter
          (is_handler_applicable event id_stack target_id))
        = handle_event ctx event id_stack target_id ++ rest ∧
      (∀ h ∈ (handle_event ctx event id_stack target_id).dropLast, h.fn event = false) ∧
      (rest ≠ [] →
        ∃ h, (handle_event ctx event id_stack target_id).getLast? = some h ∧
          h.fn event = true)) ∧
    (handle_events ctx).map Prod.fst = ctx.events := by
  constructor
  · obtain ⟨rg, g1, g2, g3, g4⟩ := call_handlers_spec event
      (make_event_handlers event id_stack target_id ctx.global_event_handlers)
    obtain ⟨rs, s1, s2, s3, s4⟩ := call_handlers_spec event
      (make_event_handlers event id_stack target_id ctx.event_handlers)
    have hG : ctx.global_event_handlers.reverse.filter
        (is_handler_applicable event id_stack target_id)
        = make_event_handlers event id_stack target_id ctx.global_event_handlers := rfl
    have hS : ctx.event_handlers.reverse.filter
        (is_handler_applicable event id_stack target_id)
        = make_event_handlers event id_stack target_id ctx.event_handlers := rfl
    rw [hG, hS]
    unfold handle_event
    dsimp only
    by_cases hg : (call_handlers event
        (make_event_handlers event id_stack target_id ctx.global_event_handlers)).2 = true
    · rw [if_pos hg]
      refine ⟨rg ++ make_event_handlers event id_stack target_id ctx.event_handlers, ?_, g2, ?_⟩
      · rw [← List.append_assoc, ← g1]
      · intro _
        exact g3 hg
    · have hgf : (call_handlers event
          (make_event_handlers event id_stack target_id ctx.global_event_handlers)).2 = false := by
        simpa using hg
      rw [if_neg hg]
      obtain ⟨g5, g6⟩ := g4 hgf
      rw [g5, List.append_nil] at g1
      refine ⟨rs, ?_, ?_, ?_⟩
      · rw [List.append_assoc, ← s1, ← g1]
      · intro h hh
        cases hcs : (call_handlers event
            (make_event_handlers event id_stack target_id ctx.event_handlers)).1 with
        | nil =>
          rw [hcs, List.append_nil] at hh
          exact g6 h (List.mem_of_mem_dropLast hh)
        | cons b t =>
          rw [hcs, List.dropLast_append_of_ne_nil _ (List.cons_ne_nil b t)] at hh
          rcases List.mem_append.mp hh with h5 | h5
          · exact g6 h h5
          · rw [hcs] at s2
            exact s2 h h5
      · intro hrs
        by_cases hs : (call_handlers event
            (make_event_handlers event id_stack target_id ctx.event_handlers)).2 = true
        · obtain ⟨h, hl, hf⟩ := s3 hs
          refine ⟨h, ?_, hf⟩
          cases hcs : (call_handlers event
              (make_event_handlers event id_stack target_id ctx.event_handlers)).1 with
          | nil =>
            rw [hcs] at hl
            simp at hl
          | cons b t =>
            rw [hcs] at hl
            rw [List.getLast?_append_of_ne_nil _ (List.cons_ne_nil b t)]
            exact hl
        · have hsf : (call_handlers event
              (make_event_handlers event id_stack target_id ctx.event_handlers)).2 = false := by
            simpa using hs
          exact absurd (s4 hsf).1 hrs
  · unfold handle_events
    by_cases he : ctx.events.isEmpty = true
    · rw [if_pos he]
      have : ctx.events = [] := List.isEmpty_iff.mp he
      rw [this]
      rfl
    · rw [if_neg he]
      dsimp only
      rw [List.map_map]
      apply List.map_id''
      intro e
      simp only [Function.comp]
      split_ifs <;> rfl

/-- C22, at `handlers_context` and its buffered key-down event: the two global handlers
run first, the later one before the earlier one, then the handler of the inner scope 5,
which reports handled; the handler of the enclosing scope 3, registered earlier, is not
called, and the handler of scope 9 is not applicable. -/
theorem handle_event_order_witness :
    (handle_events handlers_context).map (fun p => (p.1.type, p.2.map (fun h => h.type)))
      = [(KEYDOWN, [24, 8, 72])] ∧
    (handle_events handlers_context).map Prod.fst = handlers_context.events :=
  ⟨by decide,
    (handle_event_order handlers_context { type := KEYDOWN, data := mu_EventData.key 0 } [] 0).2⟩

/-! ### Z-order -/

theorem get_cnt_set_cnt_ne (c : mu_Context) (i j : Nat) (f : mu_Container → mu_Container)
    (hij : j ≠ i) : get_cnt (set_cnt c i f) j = get_cnt c j := by
  unfold get_cnt set_cnt
  have hne : ¬ i = j := fun h => hij h.symm
  simp [List.getD_eq_getElem?_getD, List.getElem?_modify, hne]

theorem get_cnt_set_cnt_out (c : mu_Context) (i j : Nat) (f : mu_Container → mu_Container)
    (hi : c.containers.length ≤ i) : get_cnt (set_cnt c i f) j = get_cnt c j := by
  unfold get_cnt set_cnt
  by_cases hij : i = j
  · subst hij
    simp [List.getD_eq_getElem?_getD, List.getElem?_modify, List.getElem?_eq_none hi]
  · simp [List.getD_eq_getElem?_getD, List.getElem?_modify, hij]

/-- A write to a container that keeps its z-index keeps the z-order. -/
theorem zkey_set_cnt (c : mu_Context) (i : Nat) (f : mu_Container → mu_Container)
    (hf : ∀ k, (f k).zindex = k.zindex) : zkey (set_cnt c i f) = zkey c := by
  unfold zkey
  have h1 : (set_cnt c i f).last_zindex = c.last_zindex := rfl
  rw [h1]
  congr 1
  funext j
  unfold cnt_zindex
  by_cases hij : j = i
  · subst hij
    by_cases hi : j < c.containers.length
    · rw [get_cnt_set_cnt c j f hi, hf]
    · rw [get_cnt_set_cnt_out c j j f (by omega)]
  · rw [get_cnt_set_cnt_ne c i j f hij]

theorem zorder_ok_of_zkey (c c2 : mu_Context) (h : zkey c2 = zkey c) (hok : zorder_ok c) :
    zorder_ok c2 := by
  unfold zkey at h
  have h1 : c2.last_zindex = c.last_zindex := congrArg Prod.fst h
  have h2 : cnt_zindex c2 = cnt_zindex c := congrArg Prod.snd h
  unfold zorder_ok at hok ⊢
  rw [h1, h2]
  exact hok

/-- The z-order invariant after `mu_bring_to_front`. -/
theorem zorder_ok_bring_to_front (c : mu_Context) (cnt : Nat) (hok : zorder_ok c) :
    zorder_ok (mu_bring_to_front c cnt) := by
  obtain ⟨h0, hb, hd⟩ := hok
  have hl : (mu_bring_to_front c cnt).last_zindex = c.last_zindex + 1 := rfl
  have hz : ∀ j, cnt_zindex (mu_bring_to_front c cnt) j =
      if j = cnt ∧ cnt < c.containers.length then c.last_zindex + 1 else cnt_zindex c j := by
    intro j
    have hbf : mu_bring_to_front c cnt =
        set_cnt { c with last_zindex := c.last_zindex + 1 } cnt
          (fun k => { k with zindex := c.last_zindex + 1 }) := rfl
    unfold cnt_zindex
    rw [hbf]
    by_cases hj : j = cnt
    · subst hj
      by_cases hi : j < c.containers.length
      · rw [get_cnt_set_cnt { c with last_zindex := c.last_zindex + 1 } j _ hi,
          if_pos ⟨rfl, hi⟩]
      · rw [get_cnt_set_cnt_out { c with last_zindex := c.last_zindex + 1 } j j _
          (by simpa using hi), if_neg (fun h => hi h.2)]
        rfl
    · rw [get_cnt_set_cnt_ne { c with last_zindex := c.last_zindex + 1 } cnt j _ hj,
        if_neg (fun h => hj h.1)]
      rfl
  refine ⟨by rw [hl]; omega, ?_, ?_⟩
  · intro i
    rw [hz, hl]
    have := hb i
    split_ifs <;> omega
  · intro i j hpos heq
    rw [hz] at hpos heq
    rw [hz] at heq
    have hbi := hb i
    have hbj := hb j
    by_cases hi : i = cnt ∧ cnt < c.containers.length
    · by_cases hj : j = cnt ∧ cnt < c.containers.length
      · rw [hi.1, hj.1]
      · rw [if_pos hi, if_neg hj] at heq
        omega
    · by_cases hj : j = cnt ∧ cnt < c.containers.length
      · rw [if_neg hi, if_pos hj] at heq
        omega
      · rw [if_neg hi] at hpos
        rw [if_neg hi, if_neg hj] at heq
        exact hd i j hpos heq

/-- The z-order invariant after a write that sets the z-index of a container to 0. -/
theorem zorder_ok_set_cnt_zero (c : mu_Context) (n : Nat) (f : mu_Container → mu_Container)
    (hf : ∀ k, (f k).zindex = 0) (hok : zorder_ok c) : zorder_ok (set_cnt c n f) := by
  obtain ⟨h0, hb, hd⟩ := hok
  have hl : (set_cnt c n f).last_zindex = c.last_zindex := rfl
  have hz : ∀ j, cnt_zindex (set_cnt c n f) j =
      if j = n ∧ n < c.containers.length then 0 else cnt_zindex c j := by
    intro j
    unfold cnt_zindex
    by_cases hj : j = n
    · subst hj
      by_cases hi : j < c.containers.length
      · rw [get_cnt_set_cnt _ j _ hi, if_pos ⟨rfl, hi⟩, hf]
      · rw [get_cnt_set_cnt_out _ j j _ (by simpa using hi), if_neg (fun h => hi h.2)]
    · rw [get_cnt_set_cnt_ne _ n j _ hj, if_neg (fun h => hj h.1)]
  refine ⟨by rw [hl]; exact h0, ?_, ?_⟩
  · intro i
    rw [hz, hl]
    have := hb i
    split_ifs <;> omega
  · intro i j hpos heq
    rw [hz] at hpos heq
    rw [hz] at heq
    by_cases hi : i = n ∧ n < c.containers.length
    · rw [if_pos hi] at hpos
      omega
    · rw [if_neg hi] at hpos heq
      by_cases hj : j = n ∧ n < c.containers.length
      · rw [if_pos hj] at heq
        omega
      · rw [if_neg hj] at heq
        exact hd i j hpos heq

/-- The z-order invariant holds of the context `mu_init` returns when the storage holds
no z-index other than 0. -/
theorem zorder_ok_mu_init (storage : mu_Context)
    (hzero : ∀ c ∈ storage.containers, c.zindex = 0) : zorder_ok (mu_init storage) := by
  have hz : ∀ i, cnt_zindex (mu_init storage) i = 0 := by
    intro i
    have e : cnt_zindex (mu_init storage) i = (storage.containers.getD i default).zindex := rfl
    rw [e, List.getD_eq_getElem?_getD]
    by_cases hi : i < storage.containers.length
    · rw [List.getElem?_eq_getElem hi, Option.getD_some]
      exact hzero _ (List.getElem_mem hi)
    · rw [List.getElem?_eq_none (by omega)]
      rfl
  refine ⟨le_refl _, ?_, ?_⟩
  · intro i
    rw [hz]
    exact ⟨le_refl _, le_refl _⟩
  · intro i j hpos
    rw [hz] at hpos
    omega

theorem zkey_of_only_focus_changed (c c2 : mu_Context) (h : only_focus_changed c c2) :
    zkey c2 = zkey c := by
  unfold only_focus_changed at h
  rw [h]
  rfl

theorem zkey_update_control (c c2 : mu_Context) (id : Nat) (rect : mu_Rect) (opt : Nat)
    (h : mu_update_control c id rect opt = some c2) : zkey c2 = zkey c :=
  zkey_of_only_focus_changed c c2 (update_control_frame c c2 id rect opt h)

theorem zkey_layout_next (c c2 : mu_Context) (r : mu_Rect)
    (h : mu_layout_next c = some (r, c2)) : zkey c2 = zkey c := by
  rw [mu_layout_next_frame c c2 r h]
  rfl

theorem zkey_push_clip_rect (c c2 : mu_Context) (r : mu_Rect)
    (h : mu_push_clip_rect c r = some c2) : zkey c2 = zkey c := by
  unfold mu_push_clip_rect at h
  split at h
  · cases h
  · simp only [Option.some.injEq] at h
    subst h
    rfl

theorem zkey_pop_clip_rect (c c2 : mu_Context) (h : mu_pop_clip_rect c = some c2) :
    zkey c2 = zkey c := by
  unfold mu_pop_clip_rect at h
  split at h
  · cases h
  · simp only [Option.some.injEq] at h
    subst h
    rfl

theorem zkey_pop_id (c c2 : mu_Context) (h : mu_pop_id c = some c2) : zkey c2 = zkey c := by
  unfold mu_pop_id at h
  split at h
  · cases h
  · simp only [Option.some.injEq] at h
    subst h
    rfl

theorem zkey_layout_row (c c2 : mu_Context) (items : Int) (widths : Option (List Int))
    (height : Int) (h : mu_layout_row c items widths height = some c2) : zkey c2 = zkey c := by
  unfold mu_layout_row at h
  split at h
  · cases h
  · split at h
    · cases h
    · simp only [Option.some.injEq] at h
      subst h
      rfl

theorem zkey_push_layout (c c2 : mu_Context) (body : mu_Rect) (scroll : mu_Vec2)
    (h : push_layout c body scroll = some c2) : zkey c2 = zkey c := by
  unfold push_layout at h
  dsimp only at h
  have e := zkey_layout_row _ c2 _ _ _ h
  exact e

theorem zkey_run_layout_op (c c2 : mu_Context) (op : LayoutOp)
    (h : run_layout_op c op = some c2) : zkey c2 = zkey c := by
  cases op with
  | row items widths height =>
    unfold run_layout_op at h
    exact zkey_layout_row c c2 _ _ _ h
  | width width =>
    unfold run_layout_op mu_layout_width at h
    cases hl : mu_get_layout c with
    | none => simp [hl] at h
    | some l =>
      rw [hl] at h
      simp only [Option.some.injEq] at h
      subst h
      rfl
  | height height =>
    unfold run_layout_op mu_layout_height at h
    cases hl : mu_get_layout c with
    | none => simp [hl] at h
    | some l =>
      rw [hl] at h
      simp only [Option.some.injEq] at h
      subst h
      rfl
  | set_next r relative =>
    unfold run_layout_op mu_layout_set_next at h
    cases hl : mu_get_layout c with
    | none => simp [hl] at h
    | some l =>
      rw [hl] at h
      simp only [Option.some.injEq] at h
      subst h
      rfl
  | set_next_size size =>
    unfold run_layout_op mu_layout_set_next_size at h
    cases hl : mu_get_layout c with
    | none => simp [hl] at h
    | some l =>
      rw [hl] at h
      simp only [Option.some.injEq] at h
      subst h
      rfl
  | next =>
    unfold run_layout_op at h
    cases hn : mu_layout_next c with
    | none => simp [hn] at h
    | some p =>
      obtain ⟨r, c1⟩ := p
      rw [hn] at h
      simp only [Option.some.injEq] at h
      subst h
      exact zkey_layout_next c _ r hn

theorem zkey_layout_begin_column (c c2 : mu_Context)
    (h : mu_layout_begin_column c = some c2) : zkey c2 = zkey c := by
  unfold mu_layout_begin_column at h
  split at h
  · cases h
  · rename_i r c1 h1
    exact (zkey_push_layout c1 c2 _ _ h).trans (zkey_layout_next c c1 r h1)

theorem zkey_layout_end_column (c c2 : mu_Context)
    (h : mu_layout_end_column c = some c2) : zkey c2 = zkey c := by
  unfold mu_layout_end_column at h
  split at h
  · cases h
  · split at h
    · cases h
    · dsimp only at h
      split at h
      · cases h
      · simp only [Option.some.injEq] at h
        subst h
        rfl

theorem zkey_set_focus (c : mu_Context) (id : Nat) : zkey (mu_set_focus c id) = zkey c := by
  unfold mu_set_focus
  dsimp only
  split_ifs <;> rfl

theorem zkey_input_text (c c2 : mu_Context) (text : List uchar)
    (h : mu_input_text c text = some c2) : zkey c2 = zkey c := by
  unfold mu_input_text at h
  dsimp only at h
  split at h
  · simp only [Option.some.injEq] at h
    subst h
    rfl
  · cases h

theorem zkey_begin (c c2 : mu_Context) (h : mu_begin c = some c2) : zkey c2 = zkey c := by
  unfold mu_begin at h
  split at h
  · simp only [Option.some.injEq] at h
    subst h
    rfl
  · cases h

theorem zkey_button_ex (c c2 : mu_Context) (label : Option (List uchar)) (icon : Int)
    (opt res : Nat) (h : mu_button_ex c label icon opt = some (res, c2)) : zkey c2 = zkey c := by
  unfold mu_button_ex at h
  dsimp only at h
  have h0 : zkey (match label with
      | some l => mu_get_id c l
      | none => mu_get_id c (int_bytes icon)).2 = zkey c := by
    cases label <;> rfl
  split at h
  · cases h
  · rename_i r c1 h1
    split at h
    · cases h
    · rename_i c3 h3
      split at h
      · cases h
      · split at h
        · cases h
        · rename_i c4 h4
          split at h
          · cases h
          · split at h
            · cases h
            · simp only [Option.some.injEq, Prod.mk.injEq] at h
              obtain ⟨_, h5⟩ := h
              subst h5
              have e1 := zkey_layout_next _ c1 r h1
              have e3 := zkey_update_control c1 c3 _ r opt h3
              have e4 : zkey c4 = zkey c3 := by
                cases label with
                | none =>
                  simp only [Option.some.injEq] at h4
                  rw [h4]
                | some l =>
                  simp only at h4
                  rw [mu_draw_control_text_eq c3 c4 l r opt h4]
              rw [e4, e3, e1, h0]

theorem zkey_scrollbar (c c2 : mu_Context) (cnt : Nat) (b : mu_Rect) (cs : mu_Vec2) (axis : Nat)
    (h : scrollbar c cnt b cs axis = some c2) : zkey c2 = zkey c := by
  unfold scrollbar at h
  dsimp only at h
  split at h
  · simp only [Option.some.injEq] at h
    subst h
    exact zkey_set_cnt c cnt _ (fun _ => rfl)
  · split at h
    · cases h
    · rename_i c1 h1
      have e0 := zkey_update_control _ c1 _ _ _ h1
      have e1 : zkey c1 = zkey c := e0
      split at h
      · cases h
      · split at h
        · cases h
        · split at h
          · cases h
          · rename_i over _
            split at h
            · cases h
            · simp only [Option.some.injEq] at h
              subst h
              split_ifs
              · refine Eq.trans (b := zkey (set_cnt (set_cnt c1 cnt _) cnt _)) rfl ?_
                refine (zkey_set_cnt _ _ _ ?_).trans ((zkey_set_cnt _ _ _ ?_).trans e1)
                · intro k
                  rfl
                · intro k
                  rfl
              · refine Eq.trans (b := zkey (set_cnt c1 cnt _)) rfl ?_
                refine (zkey_set_cnt _ _ _ ?_).trans e1
                intro k
                rfl
              · refine (zkey_set_cnt _ _ _ ?_).trans ((zkey_set_cnt _ _ _ ?_).trans e1)
                · intro k
                  rfl
                · intro k
                  rfl
              · refine (zkey_set_cnt _ _ _ ?_).trans e1
                intro k
                rfl

theorem zkey_scrollbars (c c2 : mu_Context) (cnt : Nat) (body body2 : mu_Rect)
    (h : scrollbars c cnt body = some (body2, c2)) : zkey c2 = zkey c := by
  unfold scrollbars at h
  dsimp only at h
  split at h
  · cases h
  · rename_i c1 h1
    split at h
    · cases h
    · rename_i c3 h3
      split at h
      · cases h
      · rename_i c4 h4
        split at h
        · cases h
        · rename_i c5 h5
          simp only [Option.some.injEq, Prod.mk.injEq] at h
          obtain ⟨_, h6⟩ := h
          subst h6
          rw [zkey_pop_clip_rect c4 _ h5, zkey_scrollbar c3 c4 _ _ _ _ h4,
            zkey_scrollbar c1 c3 _ _ _ _ h3, zkey_push_clip_rect c c1 _ h1]

theorem zkey_push_container_body (c c2 : mu_Context) (cnt : Nat) (body : mu_Rect) (opt : Nat)
    (h : push_container_body c cnt body opt = some c2) : zkey c2 = zkey c := by
  unfold push_container_body at h
  split at h
  · cases h
  · rename_i body1 c1 h1
    have e1 : zkey c1 = zkey c := by
      split at h1
      · simp only [Option.some.injEq, Prod.mk.injEq] at h1
        rw [← h1.2]
      · exact zkey_scrollbars c c1 cnt body body1 h1
    split at h
    · cases h
    · rename_i c3 h3
      dsimp only at h
      split at h
      · cases h
      · simp only [Option.some.injEq] at h
        subst h
        have e3 := zkey_push_layout c1 c3 _ _ h3
        split_ifs
        · refine Eq.trans (b := zkey (set_cnt c3 cnt _)) rfl ?_
          refine (zkey_set_cnt _ _ _ ?_).trans (e3.trans e1)
          intro k
          rfl
        · refine (zkey_set_cnt _ _ _ ?_).trans (e3.trans e1)
          intro k
          rfl

theorem zkey_begin_root_container (c : mu_Context) (cnt : Nat) :
    zkey (begin_root_container c cnt) = zkey c := by
  unfold begin_root_container
  dsimp only
  split_ifs <;> rfl

theorem zkey_window_title (c c2 : mu_Context) (cnt : Nat) (title : List uchar)
    (titlerect body body2 : mu_Rect) (opt : Nat)
    (h : window_title c cnt title titlerect body opt = some (body2, c2)) :
    zkey c2 = zkey c := by
  unfold window_title at h
  dsimp only at h
  split at h
  · cases h
  · rename_i c1 h1
    split at h
    · cases h
    · rename_i c3 h3
      split at h
      · cases h
      · simp only [Option.some.injEq, Prod.mk.injEq] at h
        obtain ⟨_, h4⟩ := h
        subst h4
        have e0 := zkey_update_control _ c1 _ _ _ h1
        have e1 : zkey c1 = zkey c := e0
        have e3 : c3 = c1 := mu_draw_control_text_eq c1 c3 _ _ _ h3
        subst e3
        split_ifs
        · refine (zkey_set_cnt _ _ _ ?_).trans e1
          intro k
          rfl
        · exact e1

theorem zkey_window_close (c c2 : mu_Context) (cnt : Nat) (titlerect : mu_Rect) (opt : Nat)
    (h : window_close c cnt titlerect opt = some c2) : zkey c2 = zkey c := by
  unfold window_close at h
  dsimp only at h
  split at h
  · cases h
  · split at h
    · cases h
    · rename_i c1 h1
      split at h
      · cases h
      · simp only [Option.some.injEq] at h
        subst h
        have e0 := zkey_update_control _ c1 _ _ _ h1
        have e1 : zkey c1 = zkey c := e0
        split_ifs
        · refine (zkey_set_cnt _ _ _ ?_).trans e1
          intro k
          rfl
        · exact e1

theorem zkey_window_resize (c c2 : mu_Context) (cnt : Nat) (rect body body2 : mu_Rect)
    (opt : Nat) (h : window_resize c cnt rect body opt = some (body2, c2)) :
    zkey c2 = zkey c := by
  unfold window_resize at h
  dsimp only at h
  split at h
  · cases h
  · split at h
    · cases h
    · rename_i c1 h1
      split at h
      · cases h
      · split at h
        · cases h
        · simp only [Option.some.injEq, Prod.mk.injEq] at h
          obtain ⟨_, h4⟩ := h
          subst h4
          have e0 := zkey_update_control _ c1 _ _ _ h1
          have e1 : zkey c1 = zkey c := e0
          split_ifs
          · refine (zkey_set_cnt _ _ _ ?_).trans e1
            intro k
            rfl
          · exact e1

theorem zkey_pop_container (c c2 : mu_Context) (h : pop_container c = some c2) :
    zkey c2 = zkey c := by
  unfold pop_container at h
  split at h
  · rename_i cnt layout _ _
    dsimp only at h
    split at h
    · cases h
    · split at h
      · cases h
      · have e := zkey_pop_id _ c2 h
        rw [e]
        exact zkey_set_cnt c cnt _ (fun _ => rfl)
  · cases h

theorem zkey_end_window (c c2 : mu_Context) (h : mu_end_window c = some c2) :
    zkey c2 = zkey c := by
  unfold mu_end_window at h
  split at h
  · cases h
  · rename_i c1 h1
    unfold end_root_container at h
    split at h
    · cases h
    · split at h
      · cases h
      · rename_i c3 h3
        rw [zkey_pop_container c3 c2 h, zkey_pop_clip_rect c1 c3 h3, zkey_pop_clip_rect c c1 h1]

theorem zkey_end_panel (c c2 : mu_Context) (h : mu_end_panel c = some c2) :
    zkey c2 = zkey c := by
  unfold mu_end_panel at h
  split at h
  · cases h
  · rename_i c1 h1
    rw [zkey_pop_container c1 c2 h, zkey_pop_clip_rect c c1 h1]

theorem zkey_begin_window_open (c c2 : mu_Context) (cnt id : Nat) (title : List uchar)
    (rect : mu_Rect) (opt res : Nat)
    (h : begin_window_open c cnt id title rect opt = some (res, c2)) : zkey c2 = zkey c := by
  unfold begin_window_open at h
  dsimp only at h
  have e3 : zkey (begin_root_container
      (if (get_cnt (mu_push_id c id) cnt).rect.w = 0 ∨ has_flag opt MU_OPT_FIXED_SIZE = true then
        set_cnt (mu_push_id c id) cnt (fun k => { k with rect := rect })
      else mu_push_id c id) cnt) = zkey c := by
    rw [zkey_begin_root_container]
    split_ifs
    · exact zkey_set_cnt (mu_push_id c id) cnt _ (fun _ => rfl)
    · rfl
  split at h
  · cases h
  · split at h
    · cases h
    · rename_i body1 c5 h5
      have e5 : zkey c5 = zkey c := by
        split at h5
        · simp only [Option.some.injEq, Prod.mk.injEq] at h5
          rw [← h5.2]
          exact e3
        · split at h5
          · cases h5
          · split at h5
            · cases h5
            · rename_i bodyt c4 h4
              have e4 := zkey_window_title _ c4 _ _ _ _ _ _ h4
              split at h5
              · simp only [Option.some.injEq, Prod.mk.injEq] at h5
                rw [← h5.2, e4]
                exact e3
              · split at h5
                · cases h5
                · rename_i c6 h6
                  simp only [Option.some.injEq, Prod.mk.injEq] at h5
                  rw [← h5.2, zkey_window_close c4 c6 _ _ _ h6, e4]
                  exact e3
      split at h
      · cases h
      · rename_i body2 c6 h6
        have e6 : zkey c6 = zkey c := by
          split at h6
          · simp only [Option.some.injEq, Prod.mk.injEq] at h6
            rw [← h6.2]
            exact e5
          · rw [zkey_window_resize c5 c6 _ _ _ _ _ h6]
            exact e5
        split at h
        · cases h
        · rename_i c7 h7
          have e7 : zkey c7 = zkey c := (zkey_push_container_body c6 c7 _ _ _ h7).trans e6
          split at h
          · cases h
          · rename_i layout _
            split at h
            · cases h
            · rename_i c10 h10
              simp only [Option.some.injEq, Prod.mk.injEq] at h
              obtain ⟨_, h11⟩ := h
              subst h11
              have e10 := zkey_push_clip_rect _ c10 _ h10
              rw [e10]
              split_ifs
              · refine (zkey_set_cnt _ _ _ ?_).trans ((zkey_set_cnt _ _ _ ?_).trans e7)
                · intro k
                  rfl
                · intro k
                  rfl
              · refine (zkey_set_cnt _ _ _ ?_).trans e7
                intro k
                rfl
              · refine (zkey_set_cnt _ _ _ ?_).trans e7
                intro k
                rfl
              · exact e7

/-- The z-order invariant after `get_container`. -/
theorem zorder_ok_get_container (c c2 : mu_Context) (id opt : Nat) (r : Option Nat)
    (h : get_container c id opt = some (r, c2)) (hok : zorder_ok c) : zorder_ok c2 := by
  unfold get_container at h
  dsimp only at h
  split at h
  · simp only [Option.some.injEq, Prod.mk.injEq] at h
    obtain ⟨_, h2⟩ := h
    subst h2
    refine zorder_ok_of_zkey c _ ?_ hok
    refine (zkey_set_cnt _ _ _ ?_).trans ?_
    · intro k
      rfl
    · split_ifs <;> rfl
  · split at h
    · simp only [Option.some.injEq, Prod.mk.injEq] at h
      rw [← h.2]
      exact hok
    · split at h
      · cases h
      · rename_i n pool _
        simp only [Option.some.injEq, Prod.mk.injEq] at h
        obtain ⟨_, h2⟩ := h
        subst h2
        apply zorder_ok_bring_to_front
        apply zorder_ok_set_cnt_zero
        · intro k
          rfl
        · exact zorder_ok_of_zkey c _ rfl hok

theorem zorder_ok_mu_get_container (c c2 : mu_Context) (name : List uchar) (r : Option Nat)
    (h : mu_get_container c name = some (r, c2)) (hok : zorder_ok c) : zorder_ok c2 := by
  unfold mu_get_container at h
  dsimp only at h
  exact zorder_ok_get_container _ c2 _ _ r h (zorder_ok_of_zkey c _ rfl hok)

theorem zorder_ok_begin_window_ex (c c2 : mu_Context) (title : List uchar) (rect : mu_Rect)
    (opt res : Nat) (h : mu_begin_window_ex c title rect opt = some (res, c2))
    (hok : zorder_ok c) : zorder_ok c2 := by
  unfold mu_begin_window_ex at h
  dsimp only at h
  split at h
  · cases h
  · rename_i c1 h1
    simp only [Option.some.injEq, Prod.mk.injEq] at h
    rw [← h.2]
    exact zorder_ok_get_container _ c1 _ _ _ h1 (zorder_ok_of_zkey c _ rfl hok)
  · rename_i cnt c1 h1
    have ok1 := zorder_ok_get_container _ c1 _ _ _ h1 (zorder_ok_of_zkey c _ rfl hok)
    split at h
    · simp only [Option.some.injEq, Prod.mk.injEq] at h
      rw [← h.2]
      exact ok1
    · exact zorder_ok_of_zkey c1 c2 (zkey_begin_window_open c1 c2 _ _ _ _ _ _ h) ok1

theorem zorder_ok_begin_panel_ex (c c2 : mu_Context) (name : List uchar) (opt : Nat)
    (h : mu_begin_panel_ex c name opt = some c2) (hok : zorder_ok c) : zorder_ok c2 := by
  unfold mu_begin_panel_ex at h
  dsimp only at h
  split at h
  · cases h
  · cases h
  · rename_i cnt c3 h3
    have ok3 := zorder_ok_get_container _ c3 _ _ _ h3 (zorder_ok_of_zkey c _ rfl hok)
    split at h
    · cases h
    · rename_i r c4 h4
      have e4 := zkey_layout_next c3 c4 r h4
      split at h
      · cases h
      · split at h
        · cases h
        · rename_i c6 h6
          have e6 := zkey_push_container_body _ c6 _ _ _ h6
          have e7 := zkey_push_clip_rect c6 c2 _ h
          refine zorder_ok_of_zkey c3 c2 ?_ ok3
          rw [e7, e6]
          refine Eq.trans (b := zkey (set_cnt c4 cnt _)) rfl ?_
          refine (zkey_set_cnt _ _ _ ?_).trans e4
          intro k
          rfl

theorem zorder_ok_open_popup (c c2 : mu_Context) (name : List uchar)
    (h : mu_open_popup c name = some c2) (hok : zorder_ok c) : zorder_ok c2 := by
  unfold mu_open_popup at h
  split at h
  · cases h
  · cases h
  · rename_i cnt c1 h1
    have ok1 := zorder_ok_mu_get_container c c1 name _ h1 hok
    simp only [Option.some.injEq] at h
    subst h
    apply zorder_ok_bring_to_front
    refine zorder_ok_of_zkey c1 _ ?_ ok1
    refine (zkey_set_cnt _ _ _ ?_).trans rfl
    intro k
    rfl

/-- The function `mu_end` is its statements in order. -/
theorem mu_end_stages (c : mu_Context) :
    mu_end c =
      if c.container_stack.isEmpty ∧ c.clip_stack.isEmpty ∧ c.id_stack.isEmpty
          ∧ c.layout_stack.isEmpty then
        some (end_sort (end_reset (end_front (end_focus (end_scroll { c with events := [] })))))
      else none := rfl

theorem zkey_end_scroll (x : mu_Context) : zkey (end_scroll x) = zkey x := by
  unfold end_scroll
  split
  · refine zkey_set_cnt _ _ _ ?_
    intro k
    rfl
  · rfl

theorem zkey_end_focus (x : mu_Context) : zkey (end_focus x) = zkey x := by
  unfold end_focus
  split_ifs <;> rfl

theorem zorder_ok_end_front (x : mu_Context) (hok : zorder_ok x) : zorder_ok (end_front x) := by
  unfold end_front
  split
  · split_ifs
    · exact zorder_ok_bring_to_front x _ hok
    · exact hok
  · exact hok

theorem zorder_ok_end (c c2 : mu_Context) (h : mu_end c = some c2) (hok : zorder_ok c) :
    zorder_ok c2 := by
  rw [mu_end_stages] at h
  split at h
  swap
  · cases h
  simp only [Option.some.injEq] at h
  subst h
  have h1 : zkey (end_focus (end_scroll { c with events := [] })) = zkey c :=
    (zkey_end_focus _).trans ((zkey_end_scroll _).trans rfl)
  have h2 := zorder_ok_end_front _ (zorder_ok_of_zkey c _ h1 hok)
  exact zorder_ok_of_zkey _ _ rfl h2

/-- The z-order invariant holds after every call of the library that returns. -/
theorem zorder_ok_run_api (c c2 : mu_Context) (call : ApiCall)
    (h : run_api c call = some c2) (hok : zorder_ok c) : zorder_ok c2 := by
  cases call with
  | set_text_width_cb cb =>
    simp only [run_api, Option.some.injEq] at h
    subst h
    exact zorder_ok_of_zkey c _ rfl hok
  | set_text_height_cb cb =>
    simp only [run_api, Option.some.injEq] at h
    subst h
    exact zorder_ok_of_zkey c _ rfl hok
  | begin_ => exact zorder_ok_of_zkey c c2 (zkey_begin c c2 h) hok
  | end_ => exact zorder_ok_end c c2 h hok
  | input_mousemove x y =>
    simp only [run_api, Option.some.injEq] at h
    subst h
    exact zorder_ok_of_zkey c _ rfl hok
  | input_mousedown x y btn =>
    simp only [run_api, Option.some.injEq] at h
    subst h
    exact zorder_ok_of_zkey c _ rfl hok
  | input_mouseup x y btn =>
    simp only [run_api, Option.some.injEq] at h
    subst h
    exact zorder_ok_of_zkey c _ rfl hok
  | input_scroll x y =>
    simp only [run_api, Option.some.injEq] at h
    subst h
    exact zorder_ok_of_zkey c _ rfl hok
  | input_keydown key =>
    simp only [run_api, Option.some.injEq] at h
    subst h
    exact zorder_ok_of_zkey c _ rfl hok
  | input_keyup key =>
    simp only [run_api, Option.some.injEq] at h
    subst h
    exact zorder_ok_of_zkey c _ rfl hok
  | input_text text => exact zorder_ok_of_zkey c c2 (zkey_input_text c c2 text h) hok
  | event_handler type fn =>
    simp only [run_api, Option.some.injEq] at h
    subst h
    exact zorder_ok_of_zkey c _ rfl hok
  | global_event_handler type fn =>
    simp only [run_api, Option.some.injEq] at h
    subst h
    exact zorder_ok_of_zkey c _ rfl hok
  | push_id arg =>
    simp only [run_api, Option.some.injEq] at h
    subst h
    cases arg <;> exact zorder_ok_of_zkey c _ rfl hok
  | pop_id => exact zorder_ok_of_zkey c c2 (zkey_pop_id c c2 h) hok
  | push_clip_rect r => exact zorder_ok_of_zkey c c2 (zkey_push_clip_rect c c2 r h) hok
  | pop_clip_rect => exact zorder_ok_of_zkey c c2 (zkey_pop_clip_rect c c2 h) hok
  | layout op => exact zorder_ok_of_zkey c c2 (zkey_run_layout_op c c2 op h) hok
  | layout_begin_column =>
    exact zorder_ok_of_zkey c c2 (zkey_layout_begin_column c c2 h) hok
  | layout_end_column => exact zorder_ok_of_zkey c c2 (zkey_layout_end_column c c2 h) hok
  | set_focus id =>
    simp only [run_api, Option.some.injEq] at h
    subst h
    exact zorder_ok_of_zkey c _ (zkey_set_focus c id) hok
  | update_control id rect opt =>
    exact zorder_ok_of_zkey c c2 (zkey_update_control c c2 id rect opt h) hok
  | button_ex label icon opt =>
    simp only [run_api, Option.map_eq_some', Prod.exists, exists_eq_right] at h
    obtain ⟨res, h⟩ := h
    exact zorder_ok_of_zkey c c2 (zkey_button_ex c c2 label icon opt res h) hok
  | get_container name =>
    simp only [run_api, Option.map_eq_some', Prod.exists, exists_eq_right] at h
    obtain ⟨r, h⟩ := h
    exact zorder_ok_mu_get_container c c2 name r h hok
  | bring_to_front cnt =>
    simp only [run_api, Option.some.injEq] at h
    subst h
    exact zorder_ok_bring_to_front c cnt hok
  | begin_window_ex title rect opt =>
    simp only [run_api, Option.map_eq_some', Prod.exists, exists_eq_right] at h
    obtain ⟨res, h⟩ := h
    exact zorder_ok_begin_window_ex c c2 title rect opt res h hok
  | end_window => exact zorder_ok_of_zkey c c2 (zkey_end_window c c2 h) hok
  | open_popup name => exact zorder_ok_open_popup c c2 name h hok
  | begin_popup name =>
    simp only [run_api, Option.map_eq_some', Prod.exists, exists_eq_right] at h
    obtain ⟨res, h⟩ := h
    exact zorder_ok_begin_window_ex c c2 name _ _ res h hok
  | end_popup => exact zorder_ok_of_zkey c c2 (zkey_end_window c c2 h) hok
  | begin_panel_ex name opt => exact zorder_ok_begin_panel_ex c c2 name opt h hok
  | end_panel => exact zorder_ok_of_zkey c c2 (zkey_end_panel c c2 h) hok

/-- The z-order invariant holds in every state reached from a fresh context. -/
theorem zorder_ok_reachable (calls : List ApiCall) :
    ∀ c c2 : mu_Context, run_apis c calls = some c2 → zorder_ok c → zorder_ok c2 := by
  induction calls with
  | nil =>
    intro c c2 h hok
    simp only [run_apis, Option.some.injEq] at h
    rw [← h]
    exact hok
  | cons call rest ih =>
    intro c c2 h hok
    unfold run_apis at h
    cases h1 : run_api c call with
    | none => simp [h1] at h
    | some c1 =>
      rw [h1] at h
      exact ih c1 c2 h (zorder_ok_run_api c c1 call h1 hok)

theorem insert_by_zindex_perm (ctx : mu_Context) (c : Nat) (l : List Nat) :
    (insert_by_zindex ctx c l).Perm (c :: l) := by
  induction l with
  | nil => exact List.Perm.refl _
  | cons d rest ih =>
    unfold insert_by_zindex
    split_ifs
    · exact List.Perm.refl _
    · exact (List.Perm.cons d ih).trans (List.Perm.swap c d rest)

theorem insert_by_zindex_sorted (ctx : mu_Context) (c : Nat) (l : List Nat)
    (hl : l.Pairwise (fun a b => cnt_zindex ctx a ≤ cnt_zindex ctx b)) :
    (insert_by_zindex ctx c l).Pairwise (fun a b => cnt_zindex ctx a ≤ cnt_zindex ctx b) := by
  induction l with
  | nil => exact List.pairwise_singleton _ _
  | cons d rest ih =>
    have hd := List.pairwise_cons.mp hl
    unfold insert_by_zindex
    split_ifs with hlt
    · have hlt2 : cnt_zindex ctx c < cnt_zindex ctx d := hlt
      refine List.pairwise_cons.mpr ⟨?_, hl⟩
      intro a ha
      rcases List.mem_cons.mp ha with h | h
      · rw [h]
        omega
      · have := hd.1 a h
        omega
    · have hge : cnt_zindex ctx d ≤ cnt_zindex ctx c := by
        have h2 : ¬ cnt_zindex ctx c < cnt_zindex ctx d := hlt
        omega
      refine List.pairwise_cons.mpr ⟨?_, ih hd.2⟩
      intro a ha
      have ha2 := (insert_by_zindex_perm ctx c rest).subset ha
      rcases List.mem_cons.mp ha2 with h | h
      · rw [h]
        exact hge
      · exact hd.1 a h

theorem sort_root_list_perm (ctx : mu_Context) (l : List Nat) :
    (sort_root_list ctx l).Perm l := by
  induction l with
  | nil => exact List.Perm.refl _
  | cons c rest ih =>
    unfold sort_root_list
    exact (insert_by_zindex_perm ctx c _).trans (List.Perm.cons c ih)

theorem sort_root_list_sorted (ctx : mu_Context) (l : List Nat) :
    (sort_root_list ctx l).Pairwise (fun a b => cnt_zindex ctx a ≤ cnt_zindex ctx b) := by
  induction l with
  | nil => exact List.Pairwise.nil
  | cons c rest ih =>
    unfold sort_root_list
    exact insert_by_zindex_sorted ctx c _ ih

/-- In a list in ascending z-order, a member whose z-index is the largest of all and is
shared with no other container is the last entry. -/
theorem sorted_last_of_max (z : Nat → Int) (l : List Nat) (cnt : Nat)
    (hs : l.Pairwise (fun a b => z a ≤ z b)) (hm : cnt ∈ l) (hmax : ∀ a, z a ≤ z cnt)
    (huniq : ∀ a, z cnt = z a → cnt = a) : l.getLast? = some cnt := by
  have hne : l ≠ [] := List.ne_nil_of_mem hm
  obtain ⟨l1, x, hl⟩ : ∃ l1 x, l = l1 ++ [x] :=
    ⟨l.dropLast, l.getLast hne, (List.dropLast_append_getLast hne).symm⟩
  subst hl
  rw [List.getLast?_concat]
  rcases List.mem_append.mp hm with h | h
  · have h1 : z cnt ≤ z x := (List.pairwise_append.mp hs).2.2 cnt h x (by simp)
    have h2 := hmax x
    rw [huniq x (by omega)]
  · have h3 : cnt = x := by simpa using h
    rw [h3]

theorem some_getD_of_isSome {α : Type} (o : Option α) (d : α) (h : o.isSome = true) :
    o = some (o.getD d) := by
  cases o with
  | none => cases h
  | some a => rfl

theorem cnt_zindex_bring_to_front (c : mu_Context) (cnt j : Nat) :
    cnt_zindex (mu_bring_to_front c cnt) j =
      if j = cnt ∧ cnt < c.containers.length then c.last_zindex + 1 else cnt_zindex c j := by
  have hbf : mu_bring_to_front c cnt =
      set_cnt { c with last_zindex := c.last_zindex + 1 } cnt
        (fun k => { k with zindex := c.last_zindex + 1 }) := rfl
  unfold cnt_zindex
  rw [hbf]
  by_cases hj : j = cnt
  · subst hj
    by_cases hi : j < c.containers.length
    · rw [get_cnt_set_cnt { c with last_zindex := c.last_zindex + 1 } j _ hi,
        if_pos ⟨rfl, hi⟩]
    · rw [get_cnt_set_cnt_out { c with last_zindex := c.last_zindex + 1 } j j _
        (by simpa using hi), if_neg (fun h => hi h.2)]
      rfl
  · rw [get_cnt_set_cnt_ne { c with last_zindex := c.last_zindex + 1 } cnt j _ hj,
      if_neg (fun h => hj h.1)]
    rfl

theorem end_scroll_fields (x : mu_Context) :
    (end_scroll x).root_list = x.root_list ∧ (end_scroll x).mouse_pressed = x.mouse_pressed ∧
      (end_scroll x).next_hover_root = x.next_hover_root := by
  unfold end_scroll
  split <;> exact ⟨rfl, rfl, rfl⟩

theorem end_focus_fields (x : mu_Context) :
    (end_focus x).root_list = x.root_list ∧ (end_focus x).mouse_pressed = x.mouse_pressed ∧
      (end_focus x).next_hover_root = x.next_hover_root := by
  unfold end_focus
  split_ifs <;> exact ⟨rfl, rfl, rfl⟩

theorem end_front_root_list (x : mu_Context) : (end_front x).root_list = x.root_list := by
  unfold end_front
  split
  · split_ifs <;> rfl
  · rfl

theorem end_front_of_no_press (x : mu_Context) (h : x.mouse_pressed = 0) : end_front x = x := by
  unfold end_front
  split
  · rw [if_neg (fun hc => hc.1 h)]
  · rfl

/-- At the end of a frame the root list is a rearrangement of the root containers
declared in the frame, in ascending z-order, and a root container whose z-index is
`last_zindex`, the one brought to the front last, is its last entry. -/
theorem end_root_list_order (c c2 : mu_Context) (hok : zorder_ok c) (h : mu_end c = some c2) :
    root_list_sorted c2 ∧ c2.root_list.Perm c.root_list ∧
    ∀ cnt ∈ c2.root_list, 0 < c2.last_zindex → cnt_zindex c2 cnt = c2.last_zindex →
      c2.root_list.getLast? = some cnt := by
  have ok2 := zorder_ok_end c c2 h hok
  rw [mu_end_stages] at h
  split at h
  swap
  · cases h
  simp only [Option.some.injEq] at h
  have hsorted : root_list_sorted c2 := by
    rw [← h]
    exact sort_root_list_sorted
      (end_reset (end_front (end_focus (end_scroll { c with events := [] })))) _
  have hperm : c2.root_list.Perm c.root_list := by
    rw [← h]
    refine (sort_root_list_perm _ _).trans ?_
    have e : (end_reset (end_front (end_focus (end_scroll { c with events := [] })))).root_list
        = c.root_list := by
      show (end_front (end_focus (end_scroll { c with events := [] }))).root_list = c.root_list
      rw [end_front_root_list, (end_focus_fields _).1, (end_scroll_fields _).1]
    rw [e]
  refine ⟨hsorted, hperm, ?_⟩
  intro cnt hm hpos hz
  obtain ⟨_, hb, hd⟩ := ok2
  refine sorted_last_of_max (cnt_zindex c2) c2.root_list cnt hsorted hm ?_ ?_
  · intro a
    rw [hz]
    exact (hb a).2
  · intro a ha
    exact hd cnt a (by rw [hz]; exact hpos) ha

/-- C28 (on storage without a z-index other than 0): in every state reached by calls of
the library from the context `mu_init` returns on such storage, whatever else the storage
holds, no container has a z-index above `last_zindex`; so `mu_bring_to_front(cnt)` leaves
`cnt` with a z-index above that of every other container; and after `mu_end` the root list
is the root containers of the frame in ascending z-order, with the root container brought
to the front last (the one whose z-index is `last_zindex`) as its last entry. -/
theorem zorder_front_is_last (storage : mu_Context) (calls : List ApiCall) (ctx : mu_Context)
    (hzero : ∀ c ∈ storage.containers, c.zindex = 0)
    (h : run_apis (mu_init storage) calls = some ctx) :
    (∀ c ∈ ctx.containers, c.zindex ≤ ctx.last_zindex) ∧
    (∀ cnt j : Nat, cnt < ctx.containers.length → j ≠ cnt →
      cnt_zindex (mu_bring_to_front ctx cnt) j < cnt_zindex (mu_bring_to_front ctx cnt) cnt) ∧
    (∀ ctx2, mu_end ctx = some ctx2 →
      root_list_sorted ctx2 ∧ ctx2.root_list.Perm ctx.root_list ∧
      ∀ cnt ∈ ctx2.root_list, 0 < ctx2.last_zindex → cnt_zindex ctx2 cnt = ctx2.last_zindex →
        ctx2.root_list.getLast? = some cnt) ∧
    (∀ cnt ctx2, cnt < ctx.containers.length → cnt ∈ ctx.root_list → ctx.mouse_pressed = 0 →
      mu_end (mu_bring_to_front ctx cnt) = some ctx2 →
      root_list_sorted ctx2 ∧ ctx2.root_list.getLast? = some cnt) := by
  have hok : zorder_ok ctx :=
    zorder_ok_reachable calls (mu_init storage) ctx h (zorder_ok_mu_init storage hzero)
  obtain ⟨h0, hb, hd⟩ := hok
  refine ⟨?_, ?_, ?_, ?_⟩
  · intro c hc
    obtain ⟨i, hi, hget⟩ := List.getElem_of_mem hc
    have h1 := (hb i).2
    unfold cnt_zindex get_cnt at h1
    rw [List.getD_eq_getElem?_getD, List.getElem?_eq_getElem hi, Option.getD_some, hget] at h1
    exact h1
  · intro cnt j hcnt hj
    rw [cnt_zindex_bring_to_front ctx cnt j, cnt_zindex_bring_to_front ctx cnt cnt,
      if_neg (fun hc => hj hc.1), if_pos ⟨rfl, hcnt⟩]
    have := (hb j).2
    omega
  · intro ctx2 h2
    exact end_root_list_order ctx ctx2 ⟨h0, hb, hd⟩ h2
  · intro cnt ctx2 hcnt hm hmp h2
    have okb := zorder_ok_bring_to_front ctx cnt ⟨h0, hb, hd⟩
    obtain ⟨hs, hp, hlast⟩ := end_root_list_order _ ctx2 okb h2
    refine ⟨hs, hlast cnt ?_ ?_ ?_⟩
    · exact hp.symm.subset hm
    · rw [mu_end_stages] at h2
      split at h2
      swap
      · cases h2
      simp only [Option.some.injEq] at h2
      have hnp : (end_focus (end_scroll
          { mu_bring_to_front ctx cnt with events := [] })).mouse_pressed = 0 := by
        rw [(end_focus_fields _).2.1, (end_scroll_fields _).2.1]
        exact hmp
      rw [end_front_of_no_press _ hnp] at h2
      have hl : ctx2.last_zindex = ctx.last_zindex + 1 := by
        rw [← h2]
        have e := congrArg Prod.fst ((zkey_end_focus _).trans (zkey_end_scroll
          { mu_bring_to_front ctx cnt with events := [] }))
        exact e
      omega
    · rw [mu_end_stages] at h2
      split at h2
      swap
      · cases h2
      simp only [Option.some.injEq] at h2
      have hnp : (end_focus (end_scroll
          { mu_bring_to_front ctx cnt with events := [] })).mouse_pressed = 0 := by
        rw [(end_focus_fields _).2.1, (end_scroll_fields _).2.1]
        exact hmp
      rw [end_front_of_no_press _ hnp] at h2
      have ek : zkey ctx2 = zkey (mu_bring_to_front ctx cnt) := by
        rw [← h2]
        exact (zkey_end_focus _).trans (zkey_end_scroll
          { mu_bring_to_front ctx cnt with events := [] })
      have e1 : ctx2.last_zindex = ctx.last_zindex + 1 := congrArg Prod.fst ek
      have e2 : cnt_zindex ctx2 = cnt_zindex (mu_bring_to_front ctx cnt) := congrArg Prod.snd ek
      rw [e1, e2, cnt_zindex_bring_to_front, if_pos ⟨rfl, hcnt⟩]

/-- C28, at the first frame with the windows `a` and `b`, in which `a` is brought to the
front: the z-indexes are 3 and 2 with `last_zindex` 3, and `mu_end` leaves the root list
`[1, 0]`, the window `a` last. -/
theorem zorder_front_is_last_witness :
    (two_windows_context.root_list = [0, 1] ∧ two_windows_context.last_zindex = 3 ∧
      (two_windows_context.containers.take 3).map (fun c => c.zindex) = [3, 2, 0] ∧
      (mu_end two_windows_context).map (fun c => c.root_list) = some [1, 0]) ∧
    ∀ c ∈ two_windows_context.containers, c.zindex ≤ two_windows_context.last_zindex :=
  ⟨by decide,
    (zorder_front_is_last zeroed_storage two_windows_calls two_windows_context (by decide)
      (some_getD_of_isSome _ _ (by decide))).1⟩

/-! ### Padding of the layout body -/

/-- The function `push_layout` returns, and the frame on top afterwards has the body it was
given, moved back by the scroll offset. -/
theorem push_layout_body (ctx : mu_Context) (body : mu_Rect) (scroll : mu_Vec2) :
    Option.map (fun c => Option.map (fun l => l.body) (mu_get_layout c))
        (push_layout ctx body scroll)
      = some (some (mu_rect (body.x - scroll.x) (body.y - scroll.y) body.w body.h)) := by
  unfold push_layout mu_layout_row mu_get_layout layout_row
  simp [push, set_layout, MU_MAX_WIDTHS]

/-- C40 (the code deviates): `expand_rect(rect, box)` of the source returns
`(x - box.top, y - box.top, w + box.left + box.right, h + box.top + box.bottom)`; it is the
rect the specification gives, grown by `box.left` on the left, exactly when `box.left` equals
`box.top`. For the rect (0,0,10,10) and the box left 1, top 2, right 3, bottom 4 the source
returns (-2,-2,14,16) where the specification gives (-1,-2,14,16). The frame `push_layout`
pushes has the rect it is given, moved back by the scroll offset, as its body. -/
theorem expand_rect_box_left_is_top :
    (∀ (rect : mu_Rect) (box : mu_Box),
      expand_rect_box rect box = expand_rect_spec rect box ↔ box.left = box.top)
    ∧ expand_rect_box (mu_rect 0 0 10 10) { left := 1, top := 2, right := 3, bottom := 4 }
        = mu_rect (-2) (-2) 14 16
    ∧ expand_rect_spec (mu_rect 0 0 10 10) { left := 1, top := 2, right := 3, bottom := 4 }
        = mu_rect (-1) (-2) 14 16
    ∧ (∀ (ctx : mu_Context) (body : mu_Rect) (scroll : mu_Vec2),
        Option.map (fun c => Option.map (fun l => l.body) (mu_get_layout c))
            (push_layout ctx (expand_rect_box body ctx.style.padding) scroll)
          = some (some (mu_rect (body.x - ctx.style.padding.top - scroll.x)
              (body.y - ctx.style.padding.top - scroll.y)
              (body.w + ctx.style.padding.left + ctx.style.padding.right)
              (body.h + ctx.style.padding.top + ctx.style.padding.bottom)))) := by
  refine ⟨?_, by decide, by decide, ?_⟩
  · intro rect box
    unfold expand_rect_box expand_rect_spec mu_rect
    constructor
    · intro h
      have hx := congrArg mu_Rect.x h
      simp only at hx
      omega
    · intro h
      rw [h]
  · intro ctx body scroll
    rw [push_layout_body]
    rfl

/-! ### The identity hash is streaming -/

theorem hash_append (a b : List uchar) : ∀ h : Nat, hash h (a ++ b) = hash (hash h a) b := by
  induction a with
  | nil => intro h; rfl
  | cons p rest ih =>
    intro h
    simp only [List.cons_append, hash]
    exact ih _

theorem id_seed_push_id (ctx : mu_Context) (id : Nat) : id_seed (mu_push_id ctx id) = id := by
  unfold id_seed mu_push_id push
  simp

/-- C36: the identity hash is streaming. For every context and all byte sequences `a` and
`b`, `mu_push_id(a)` followed by `mu_get_id(b)` returns the identity `mu_get_id(a ++ b)`
returns on the starting stack, and `mu_get_id` of the empty sequence returns the parent
identity itself (the top of the identity stack, or 2166136261 on the empty stack); the two
scopes differ, since the first has one more identity on its stack, so that two different
combinations of scope and seed yield the same identity. -/
theorem mu_get_id_streaming (ctx : mu_Context) (a b : List uchar) :
    (mu_get_id (mu_push_id_data ctx a) b).1 = (mu_get_id ctx (a ++ b)).1
    ∧ (mu_get_id ctx []).1 =
        (match ctx.id_stack.getLast? with
         | some top => top
         | none => 2166136261)
    ∧ (mu_push_id_data ctx a).id_stack ≠ ctx.id_stack
    ∧ (mu_get_id (mu_push_id_data ctx a) []).1 = (mu_get_id ctx a).1 := by
  have hseed : id_seed (mu_push_id_data ctx a) = (mu_get_id ctx a).1 := by
    unfold mu_push_id_data
    exact id_seed_push_id _ _
  have e1 : (mu_get_id (mu_push_id_data ctx a) b).1 = (mu_get_id ctx (a ++ b)).1 := by
    rw [mu_get_id_fst, mu_get_id_fst, hseed, mu_get_id_fst, ← hash_eq_fnv1a_fold,
      ← hash_eq_fnv1a_fold, ← hash_eq_fnv1a_fold, hash_append]
  refine ⟨e1, ?_, ?_, ?_⟩
  · rw [mu_get_id_fst]
    rfl
  · intro h
    have hl := congrArg List.length h
    unfold mu_push_id_data mu_push_id push mu_get_id at hl
    simp at hl
  · rw [mu_get_id_fst, hseed]
    rfl

/-! ### Hover, focus loss and focus gain in `mu_update_control` -/

theorem mu_mouse_over_focus_next (c : mu_Context) (id : Nat) (rect : mu_Rect) :
    mu_mouse_over (update_control_focus_next c id) rect = mu_mouse_over c rect := by
  have h := only_focus_changed_focus_next c id
  unfold only_focus_changed at h
  rw [h]
  rfl

/-- What a true value of `mu_mouse_over` says about the context. -/
theorem mu_mouse_over_true (c : mu_Context) (rect : mu_Rect)
    (h : mu_mouse_over c rect = some true) :
    rect_overlaps_vec2 rect c.mouse_pos = true ∧
      (∃ cr, mu_get_clip_rect c = some cr ∧ rect_overlaps_vec2 cr c.mouse_pos = true) ∧
      in_hover_root c = true := by
  unfold mu_mouse_over at h
  split at h
  · rename_i h1
    split at h
    · cases h
    · rename_i cr hcr
      simp only [Option.some.injEq, Bool.and_eq_true] at h
      exact ⟨h1, ⟨cr, hcr, h.1⟩, h.2⟩
  · cases h

theorem view_set_focus_hover (v : FocusView) (id : Nat) :
    (view_set_focus v id).hover = v.hover ∧ (view_set_focus v id).mouse_down = v.mouse_down :=
  ⟨rfl, rfl⟩

theorem view_focus_next_hover (v : FocusView) (id : Nat) :
    (view_focus_next v id).hover = v.hover ∧
      (view_focus_next v id).mouse_down = v.mouse_down := by
  unfold view_focus_next
  split <;> exact ⟨rfl, rfl⟩

theorem view_confirm_hover (v : FocusView) (id : Nat) :
    (view_confirm v id).hover = v.hover ∧ (view_confirm v id).mouse_down = v.mouse_down := by
  unfold view_confirm
  split <;> exact ⟨rfl, rfl⟩

theorem view_focus_loss_hover (v : FocusView) (id opt : Nat) (mo : Bool) :
    (view_focus_loss v id opt mo).hover = v.hover := by
  unfold view_focus_loss
  dsimp only
  split_ifs <;> rfl

theorem view_focus_gain_hover (v : FocusView) (id : Nat) (mo : Bool) :
    (view_focus_gain v id mo).hover = v.hover ∨ (view_focus_gain v id mo).hover = 0 := by
  unfold view_focus_gain
  split_ifs
  · exact Or.inl rfl
  · exact Or.inr rfl
  · exact Or.inl rfl
  · exact Or.inl rfl

theorem view_tab_hover (v : FocusView) (id : Nat) (handled : Bool) :
    (view_tab v id handled).hover = v.hover := by
  unfold view_tab
  split_ifs <;> rfl

/-- On the view: the hover identity after `mu_update_control`. -/
theorem view_update_control_hover (v : FocusView) (id opt : Nat) (mo : Bool) :
    (view_update_control v id opt mo).hover = v.hover
      ∨ (view_update_control v id opt mo).hover = 0
      ∨ ((view_update_control v id opt mo).hover = id ∧ mo = true ∧ v.mouse_down = 0) := by
  have e2 : (view_confirm (view_focus_next v id) id).hover = v.hover :=
    (view_confirm_hover _ id).1.trans (view_focus_next_hover v id).1
  have m2 : (view_confirm (view_focus_next v id) id).mouse_down = v.mouse_down :=
    (view_confirm_hover _ id).2.trans (view_focus_next_hover v id).2
  unfold view_update_control
  dsimp only
  split_ifs with hni
  · exact Or.inl e2
  · rw [view_tab_hover]
    rcases view_focus_gain_hover
      (view_focus_loss (view_hover (view_confirm (view_focus_next v id) id) id mo) id opt mo)
      id mo with h | h
    · rw [h, view_focus_loss_hover]
      unfold view_hover
      split_ifs with hh
      · exact Or.inr (Or.inr ⟨rfl, hh.1, m2 ▸ hh.2⟩)
      · exact Or.inl e2
    · exact Or.inr (Or.inl h)

/-- C31: after `mu_update_control` the hover identity is its previous value, or 0, or the
widget's id, and the last only when the mouse position is inside the widget's rect, inside
the active clip rect and inside the hover root, and no mouse button is held; so for every
state with `mouse_down` non-zero on entry, `ctx.hover` after the call is its previous value
or 0. -/
theorem hover_set_only_when_over (c c2 : mu_Context) (id : Nat) (rect : mu_Rect) (opt : Nat)
    (h : mu_update_control c id rect opt = some c2) :
    (c2.hover = c.hover ∨ c2.hover = 0
      ∨ (c2.hover = id ∧ rect_overlaps_vec2 rect c.mouse_pos = true
          ∧ (∃ cr, mu_get_clip_rect c = some cr ∧ rect_overlaps_vec2 cr c.mouse_pos = true)
          ∧ in_hover_root c = true ∧ c.mouse_down = 0))
    ∧ (c.mouse_down ≠ 0 → c2.hover = c.hover ∨ c2.hover = 0) := by
  obtain ⟨mo, hmo, hv⟩ := focus_view_update_control c c2 id rect opt h
  rw [mu_mouse_over_focus_next] at hmo
  have e : c2.hover = (view_update_control (focus_view c) id opt mo).hover := by
    rw [← hv]
    rfl
  have k := view_update_control_hover (focus_view c) id opt mo
  rw [← e] at k
  have k2 : c2.hover = c.hover ∨ c2.hover = 0
      ∨ (c2.hover = id ∧ rect_overlaps_vec2 rect c.mouse_pos = true
          ∧ (∃ cr, mu_get_clip_rect c = some cr ∧ rect_overlaps_vec2 cr c.mouse_pos = true)
          ∧ in_hover_root c = true ∧ c.mouse_down = 0) := by
    rcases k with k | k | ⟨k1, k2, k3⟩
    · exact Or.inl k
    · exact Or.inr (Or.inl k)
    · rw [k2] at hmo
      obtain ⟨a, b, d⟩ := mu_mouse_over_true c rect hmo
      exact Or.inr (Or.inr ⟨k1, a, b, d, k3⟩)
  refine ⟨k2, ?_⟩
  intro hmd
  rcases k2 with k | k | ⟨_, _, _, _, k⟩
  · exact Or.inl k
  · exact Or.inr k
  · exact absurd k hmd

theorem hover_set_only_when_over_witness :
    (((mu_update_control held_context 9 (mu_rect 0 0 50 20) 0).getD held_context).hover
          = held_context.hover
        ∨ ((mu_update_control held_context 9 (mu_rect 0 0 50 20) 0).getD held_context).hover = 0
        ∨ (((mu_update_control held_context 9 (mu_rect 0 0 50 20) 0).getD held_context).hover = 9
            ∧ rect_overlaps_vec2 (mu_rect 0 0 50 20) held_context.mouse_pos = true
            ∧ (∃ cr, mu_get_clip_rect held_context = some cr
                ∧ rect_overlaps_vec2 cr held_context.mouse_pos = true)
            ∧ in_hover_root held_context = true ∧ held_context.mouse_down = 0))
      ∧ (held_context.mouse_down ≠ 0 →
          ((mu_update_control held_context 9 (mu_rect 0 0 50 20) 0).getD held_context).hover
              = held_context.hover
            ∨ ((mu_update_control held_context 9 (mu_rect 0 0 50 20) 0).getD held_context).hover
              = 0) :=
  hover_set_only_when_over held_context _ 9 (mu_rect 0 0 50 20) 0
    (some_getD_of_isSome _ held_context (by decide))

/-- On the view: the focus identity after `mu_update_control` when no focus-next request is
pending, the Tab key did not go down and the widget is interactive. -/
theorem view_update_control_focus (v : FocusView) (id opt : Nat) (mo : Bool)
    (hs : v.should_focus_next = false) (ht : has_flag v.key_pressed MU_KEY_TAB = false)
    (hni : has_flag opt MU_OPT_NOINTERACT = false) :
    (view_update_control v id opt mo).focus =
      if (view_hover v id mo).hover = id ∧ v.mouse_pressed ≠ 0 then id
      else if v.focus = id ∧ ((v.mouse_pressed ≠ 0 ∧ mo = false)
          ∨ (v.mouse_down = 0 ∧ has_flag opt MU_OPT_HOLDFOCUS = false)) then 0
      else v.focus := by
  obtain ⟨hover, focus, last_focus, sfn, upd, prev_id, md, mp, kd, kp⟩ := v
  simp only at hs ht
  subst hs
  by_cases h1 : md = 0 <;> by_cases h2 : mp = 0 <;> by_cases h3 : hover = id <;>
    by_cases h4 : focus = id <;> by_cases h5 : has_flag opt MU_OPT_HOLDFOCUS = true <;>
    cases mo <;>
    simp [view_update_control, view_tab, view_focus_gain, view_focus_loss, view_hover,
      view_confirm, view_focus_next, view_has_focus, view_set_focus, hni, ht, h1, h2, h3, h4, h5]

theorem update_control_hover_view (c : mu_Context) (id : Nat) (mo : Bool) :
    (update_control_hover c id mo).hover = (view_hover (focus_view c) id mo).hover := by
  rw [← focus_view_hover]
  rfl

/-- The focus identity after `mu_update_control` on an interactive widget, with no
focus-next request pending and no Tab edge. -/
theorem update_control_focus (c c2 : mu_Context) (id : Nat) (rect : mu_Rect) (opt : Nat)
    (hs : c.should_focus_next = false) (ht : has_flag c.key_pressed MU_KEY_TAB = false)
    (hni : has_flag opt MU_OPT_NOINTERACT = false)
    (h : mu_update_control c id rect opt = some c2) :
    ∃ mo : Bool, mu_mouse_over c rect = some mo ∧
      c2.focus =
        if (update_control_hover c id mo).hover = id ∧ c.mouse_pressed ≠ 0 then id
        else if c.focus = id ∧ ((c.mouse_pressed ≠ 0 ∧ mo = false)
            ∨ (c.mouse_down = 0 ∧ has_flag opt MU_OPT_HOLDFOCUS = false)) then 0
        else c.focus := by
  obtain ⟨mo, hmo, hv⟩ := focus_view_update_control c c2 id rect opt h
  rw [mu_mouse_over_focus_next] at hmo
  refine ⟨mo, hmo, ?_⟩
  have e : c2.focus = (view_update_control (focus_view c) id opt mo).focus := by
    rw [← hv]
    rfl
  rw [e, view_update_control_focus (focus_view c) id opt mo hs ht hni, update_control_hover_view]
  rfl

/-- C33: focus gain. For a widget that does not hold focus on entry, with no focus-next
request pending, no Tab edge and `opt` without `MU_OPT_NOINTERACT`, `ctx.focus` equals the
widget's id after `mu_update_control` if and only if `ctx.hover` equals its id after the
hover step and `mouse_pressed` is non-zero. -/
theorem focus_gained_iff_hovered_and_pressed (c c2 : mu_Context) (id : Nat) (rect : mu_Rect)
    (opt : Nat) (hf : c.focus ≠ id) (hs : c.should_focus_next = false)
    (ht : has_flag c.key_pressed MU_KEY_TAB = false)
    (hni : has_flag opt MU_OPT_NOINTERACT = false)
    (h : mu_update_control c id rect opt = some c2) :
    ∃ mo : Bool, mu_mouse_over c rect = some mo ∧
      (c2.focus = id ↔ ((update_control_hover c id mo).hover = id ∧ c.mouse_pressed ≠ 0)) := by
  obtain ⟨mo, hmo, e⟩ := update_control_focus c c2 id rect opt hs ht hni h
  refine ⟨mo, hmo, ?_⟩
  rw [e]
  by_cases hA : (update_control_hover c id mo).hover = id ∧ c.mouse_pressed ≠ 0
  · rw [if_pos hA]
    exact ⟨fun _ => hA, fun _ => rfl⟩
  · rw [if_neg hA, if_neg (fun k => hf k.1)]
    exact ⟨fun k => absurd k hf, fun k => absurd k hA⟩

theorem focus_gained_iff_hovered_and_pressed_witness :
    ∃ mo : Bool, mu_mouse_over press_context (mu_rect 0 0 50 20) = some mo ∧
      (((mu_update_control press_context 9 (mu_rect 0 0 50 20) 0).getD press_context).focus = 9
        ↔ ((update_control_hover press_context 9 mo).hover = 9
            ∧ press_context.mouse_pressed ≠ 0)) :=
  focus_gained_iff_hovered_and_pressed press_context _ 9 (mu_rect 0 0 50 20) 0
    (by decide) (by decide) (by decide) (by decide)
    (some_getD_of_isSome _ press_context (by decide))

/-- C32 (refuted as stated). In `stale_hover_context` the widget 9 holds focus, no
focus-next request is pending, the Tab key did not go down and a press occurred this frame
while the mouse is not over the widget, but the widget is still the hovered identity: the
focus-gain step gives the focus back and `ctx.focus` is 9 after the call. In
`idle_focus_context` the widget 9 holds focus, no button is down and `opt` is
`MU_OPT_NOINTERACT`, without `MU_OPT_HOLDFOCUS`: the function returns before the focus-loss
step and `ctx.focus` is 9 after the call. In the frames of the scenario the text box `a`
has focus after the click on it, and still has it after a frame in which the left button
went down at (100,100), away from it. -/
theorem focus_kept_despite_loss_condition :
    (stale_hover_context.focus = 9 ∧ stale_hover_context.should_focus_next = false
      ∧ has_flag stale_hover_context.key_pressed MU_KEY_TAB = false
      ∧ stale_hover_context.mouse_pressed ≠ 0
      ∧ mu_mouse_over stale_hover_context (mu_rect 0 0 50 20) = some false
      ∧ Option.map (fun c => c.focus)
          (mu_update_control stale_hover_context 9 (mu_rect 0 0 50 20) 0) = some 9)
    ∧ (idle_focus_context.focus = 9 ∧ idle_focus_context.should_focus_next = false
      ∧ has_flag idle_focus_context.key_pressed MU_KEY_TAB = false
      ∧ idle_focus_context.mouse_down = 0
      ∧ has_flag MU_OPT_NOINTERACT MU_OPT_HOLDFOCUS = false
      ∧ Option.map (fun c => c.focus)
          (mu_update_control idle_focus_context 9 (mu_rect 0 0 50 20) MU_OPT_NOINTERACT)
          = some 9)
    ∧ (Option.map (fun c => c.focus) (widget_frames scenario_init click_on_a)
        = some (widget_id widget_a)
      ∧ Option.map (fun c => c.focus)
          (widget_frames scenario_init
            (click_on_a ++
              [(fun c => mu_input_mousedown c 100 100 MU_MOUSE_LEFT,
                [widget_a, widget_b, widget_c])]))
        = some (widget_id widget_a)
      ∧ widget_id widget_a ≠ 0) := by
  refine ⟨by decide, by decide, by decide, by decide, by decide⟩

/-- C32 (amended): focus loss. If the widget holds focus when `mu_update_control` is
entered, with no focus-next request pending, no Tab edge and `opt` without
`MU_OPT_NOINTERACT`, and either a mouse press occurred this frame while the mouse is not
over the widget, or no mouse button is down and `opt` does not contain `MU_OPT_HOLDFOCUS`,
then `ctx.focus` is 0 after the call unless the focus-gain step gives the focus back, which
it does when the widget is the hovered identity after the hover step and a press edge
occurred this frame. -/
theorem focus_lost_unless_regained (c c2 : mu_Context) (id : Nat) (rect : mu_Rect) (opt : Nat)
    (mo : Bool) (hf : c.focus = id) (hs : c.should_focus_next = false)
    (ht : has_flag c.key_pressed MU_KEY_TAB = false)
    (hni : has_flag opt MU_OPT_NOINTERACT = false)
    (hmo : mu_mouse_over c rect = some mo)
    (hloss : (c.mouse_pressed ≠ 0 ∧ mo = false)
      ∨ (c.mouse_down = 0 ∧ has_flag opt MU_OPT_HOLDFOCUS = false))
    (h : mu_update_control c id rect opt = some c2) :
    c2.focus = (if (update_control_hover c id mo).hover = id ∧ c.mouse_pressed ≠ 0 then id
      else 0) := by
  obtain ⟨mo2, hmo2, e⟩ := update_control_focus c c2 id rect opt hs ht hni h
  rw [hmo] at hmo2
  have hm : mo2 = mo := (Option.some.inj hmo2).symm
  subst hm
  rw [e]
  by_cases hA : (update_control_hover c id mo2).hover = id ∧ c.mouse_pressed ≠ 0
  · rw [if_pos hA, if_pos hA]
  · rw [if_neg hA, if_neg hA, if_pos ⟨hf, hloss⟩]

theorem focus_lost_unless_regained_witness :
    ((mu_update_control idle_focus_context 9 (mu_rect 0 0 50 20) 0).getD
        idle_focus_context).focus
      = (if (update_control_hover idle_focus_context 9 false).hover = 9
            ∧ idle_focus_context.mouse_pressed ≠ 0 then 9 else 0) :=
  focus_lost_unless_regained idle_focus_context _ 9 (mu_rect 0 0 50 20) 0 false
    (by decide) (by decide) (by decide) (by decide) (by decide) (Or.inr (by decide))
    (some_getD_of_isSome _ idle_focus_context (by decide))

/-! ### Shift+Tab -/

theorem view_tab_inputs_kept_trans (id : Nat) (a b c : FocusView)
    (h1 : view_tab_inputs_kept id a b) (h2 : view_tab_inputs_kept id b c) :
    view_tab_inputs_kept id a c := by
  obtain ⟨a1, a2, a3, a4, a5, a6⟩ := h1
  obtain ⟨b1, b2, b3, b4, b5, b6⟩ := h2
  exact ⟨fun h => b1 (a1 h), b2.trans a2, b3.trans a3, b4.trans a4, b5.trans a5, b6.trans a6⟩

theorem view_confirm_kept (v : FocusView) (id : Nat) :
    view_tab_inputs_kept id v (view_confirm v id) := by
  unfold view_confirm
  split
  · exact ⟨fun h => h, rfl, rfl, rfl, rfl, rfl⟩
  · exact ⟨fun h => h, rfl, rfl, rfl, rfl, rfl⟩

theorem view_hover_kept (v : FocusView) (id : Nat) (mo : Bool) :
    view_tab_inputs_kept id v (view_hover v id mo) := by
  unfold view_hover
  split
  · exact ⟨fun h => h, rfl, rfl, rfl, rfl, rfl⟩
  · exact ⟨fun h => h, rfl, rfl, rfl, rfl, rfl⟩

theorem view_focus_loss_kept (v : FocusView) (id opt : Nat) (mo : Bool)
    (hm : v.mouse_pressed = 0) : view_tab_inputs_kept id v (view_focus_loss v id opt mo) := by
  unfold view_focus_loss
  by_cases hf : v.focus = id
  · have hc : ¬ (v.mouse_pressed ≠ 0 ∧ mo = false) := fun k => k.1 hm
    simp only [if_pos hf, if_neg hc]
    split
    · refine ⟨fun _ => ?_, rfl, rfl, rfl, rfl, rfl⟩
      unfold view_has_focus view_set_focus
      simp [hf]
    · exact ⟨fun h => h, rfl, rfl, rfl, rfl, rfl⟩
  · rw [if_neg hf]
    exact ⟨fun h => h, rfl, rfl, rfl, rfl, rfl⟩

theorem view_focus_gain_kept (v : FocusView) (id : Nat) (mo : Bool)
    (hm : v.mouse_pressed = 0) : view_tab_inputs_kept id v (view_focus_gain v id mo) := by
  unfold view_focus_gain
  have hc : ¬ v.mouse_pressed ≠ 0 := fun k => k hm
  simp only [if_neg hc]
  split_ifs
  · exact ⟨fun h => h, rfl, rfl, rfl, rfl, rfl⟩
  · exact ⟨fun h => h, rfl, rfl, rfl, rfl, rfl⟩
  · exact ⟨fun h => h, rfl, rfl, rfl, rfl, rfl⟩

/-- On the view: the Tab step of `mu_update_control` on the widget `has_focus` reports, in
a frame without a press edge. -/
theorem view_tab_edge (v : FocusView) (id opt : Nat) (mo : Bool)
    (hfoc : view_has_focus v id = true)
    (htab : has_flag v.key_pressed MU_KEY_TAB = true)
    (hs : v.should_focus_next = false) (hm : v.mouse_pressed = 0)
    (hni : has_flag opt MU_OPT_NOINTERACT = false) :
    (has_flag v.key_down MU_KEY_SHIFT = true →
      (view_update_control v id opt mo).focus = v.prev_id ∧
      (view_update_control v id opt mo).should_focus_next = false) ∧
    (has_flag v.key_down MU_KEY_SHIFT = false →
      (view_update_control v id opt mo).should_focus_next = true ∧
      (view_update_control v id opt mo).mouse_pressed = 0) := by
  have hfn : view_focus_next v id = v := by
    unfold view_focus_next
    rw [hs]
    rfl
  have k1 := view_confirm_kept v id
  have k2 := view_tab_inputs_kept_trans id _ _ _ k1 (view_hover_kept (view_confirm v id) id mo)
  have m2 : (view_hover (view_confirm v id) id mo).mouse_pressed = 0 := k2.2.2.2.2.2.trans hm
  have k3 := view_tab_inputs_kept_trans id _ _ _ k2
    (view_focus_loss_kept (view_hover (view_confirm v id) id mo) id opt mo m2)
  have m3 : (view_focus_loss (view_hover (view_confirm v id) id mo) id opt mo).mouse_pressed = 0 :=
    k3.2.2.2.2.2.trans hm
  have k4 := view_tab_inputs_kept_trans id _ _ _ k3
    (view_focus_gain_kept
      (view_focus_loss (view_hover (view_confirm v id) id mo) id opt mo) id mo m3)
  obtain ⟨q1, q2, q3, q4, q5, q6⟩ := k4
  have hcond : has_flag
        (view_focus_gain (view_focus_loss (view_hover (view_confirm v id) id mo) id opt mo)
          id mo).key_pressed MU_KEY_TAB = true ∧ v.should_focus_next = false ∧
      view_has_focus
        (view_focus_gain (view_focus_loss (view_hover (view_confirm v id) id mo) id opt mo)
          id mo) id = true := ⟨by rw [q3]; exact htab, hs, q1 hfoc⟩
  unfold view_update_control
  simp only [hfn, hni, Bool.false_eq_true, if_false]
  unfold view_tab
  rw [if_pos hcond, q4]
  constructor
  · intro hsh
    rw [if_pos hsh]
    exact ⟨q2, q5.trans hs⟩
  · intro hsh
    rw [if_neg (by rw [hsh]; decide)]
    exact ⟨rfl, q6.trans hm⟩

/-- On the view: a pending focus-next request is taken by the widget evaluated next, which
`has_focus` then reports, in a frame without a press edge. -/
theorem view_focus_next_taken (v : FocusView) (B opt : Nat) (mo : Bool)
    (hs : v.should_focus_next = true) (hm : v.mouse_pressed = 0) :
    (view_update_control v B opt mo).should_focus_next = false ∧
    ((view_update_control v B opt mo).focus = B ∨ (view_update_control v B opt mo).last_focus = B)
    := by
  obtain ⟨hover, focus, last_focus, sfn, upd, prev_id, md, mp, kd, kp⟩ := v
  simp only at hs hm
  subst hs hm
  by_cases h0 : has_flag opt MU_OPT_NOINTERACT = true <;> by_cases h1 : md = 0 <;>
    by_cases h3 : hover = B <;> by_cases h5 : has_flag opt MU_OPT_HOLDFOCUS = true <;>
    cases mo <;>
    simp [view_update_control, view_tab, view_focus_gain, view_focus_loss, view_hover,
      view_confirm, view_focus_next, view_has_focus, view_set_focus, h0, h1, h3, h5]

/-- C34 (refuted as stated). In the frames of the scenario the text box `a` is given focus
by a click, then the text box `d` by another click, so that `a` is the identity that held
focus before `d`; then Shift and Tab go down: at the end of that frame `ctx.focus` is the
identity of `c`, the widget declared just before `d`, which never held focus, and not the
identity of `a`. On the bare state `shift_tab_context`, where 9 has focus after 5 had it
and `prev_id` is 7, focus moves to 7. -/
theorem shift_tab_moves_to_declared_before :
    (Option.map (fun c => c.focus) (widget_frames scenario_init click_on_a)
        = some (widget_id widget_a)
      ∧ Option.map (fun c => c.focus) (widget_frames scenario_init (click_on_a ++ click_on_d))
        = some (widget_id widget_d)
      ∧ Option.map (fun c => c.focus)
          (widget_frames scenario_init (click_on_a ++ click_on_d ++ shift_tab_frame))
        = some (widget_id widget_c)
      ∧ widget_id widget_c ≠ widget_id widget_a
      ∧ (List.range 9).all (fun n =>
          Option.map (fun c => decide (c.focus ≠ widget_id widget_c))
            (widget_frames scenario_init ((click_on_a ++ click_on_d).take n)) == some true)
        = true)
    ∧ (shift_tab_context.focus = 9 ∧ shift_tab_context.last_focus = 5
      ∧ shift_tab_context.prev_id = 7
      ∧ has_flag shift_tab_context.key_pressed MU_KEY_TAB = true
      ∧ has_flag shift_tab_context.key_down MU_KEY_SHIFT = true
      ∧ Option.map (fun c => c.focus)
          (mu_update_control shift_tab_context 9 (mu_rect 0 0 50 20) 0) = some 7) := by
  refine ⟨⟨by decide, by decide, by decide, by decide, by decide⟩, by decide⟩

/-- C34 (amended): Shift+Tab. When `mu_update_control` evaluates the widget `has_focus`
reports (`ctx.focus` is its non-zero id, or `ctx.last_focus` is its id) with a Tab
key-press edge this frame, no focus-next request pending, no press edge and `opt` without
`MU_OPT_NOINTERACT`, then with Shift held focus moves to `ctx.prev_id`, the identity that
`mu_get_id` computed before the last one (in a run of widgets, the identity of the widget
declared just before this one), and no focus-next request is set; without Shift it instead
sets the focus-next request, which the widget evaluated next takes and clears. -/
theorem shift_tab_moves_focus_to_prev_id (c c2 : mu_Context) (id : Nat) (rect : mu_Rect)
    (opt : Nat) (hfoc : has_focus c id = true)
    (htab : has_flag c.key_pressed MU_KEY_TAB = true)
    (hs : c.should_focus_next = false) (hm : c.mouse_pressed = 0)
    (hni : has_flag opt MU_OPT_NOINTERACT = false)
    (h : mu_update_control c id rect opt = some c2) :
    (has_flag c.key_down MU_KEY_SHIFT = true →
      c2.focus = c.prev_id ∧ c2.should_focus_next = false)
    ∧ (has_flag c.key_down MU_KEY_SHIFT = false →
      c2.should_focus_next = true ∧
      ∀ (id2 : Nat) (rect2 : mu_Rect) (opt2 : Nat) (c3 : mu_Context),
        mu_update_control c2 id2 rect2 opt2 = some c3 →
          c3.should_focus_next = false ∧ (c3.focus = id2 ∨ c3.last_focus = id2))
    ∧ (∀ (ctx : mu_Context) (data : List uchar),
        (mu_get_id ctx data).2.prev_id = ctx.cur_id
          ∧ (mu_get_id ctx data).2.cur_id = (mu_get_id ctx data).1) := by
  obtain ⟨mo, _, hv⟩ := focus_view_update_control c c2 id rect opt h
  have k := view_tab_edge (focus_view c) id opt mo hfoc htab hs hm hni
  rw [← hv] at k
  refine ⟨k.1, ?_, fun _ _ => ⟨rfl, rfl⟩⟩
  intro hsh
  obtain ⟨k1, k2⟩ := k.2 hsh
  refine ⟨k1, ?_⟩
  intro id2 rect2 opt2 c3 h3
  obtain ⟨mo3, _, hv3⟩ := focus_view_update_control c2 c3 id2 rect2 opt2 h3
  have k3 := view_focus_next_taken (focus_view c2) id2 opt2 mo3 k1 k2
  rw [← hv3] at k3
  exact k3

theorem shift_tab_moves_focus_to_prev_id_witness :
    ((mu_update_control shift_tab_context 9 (mu_rect 0 0 50 20) 0).getD
        shift_tab_context).focus = shift_tab_context.prev_id
      ∧ ((mu_update_control shift_tab_context 9 (mu_rect 0 0 50 20) 0).getD
        shift_tab_context).should_focus_next = false :=
  (shift_tab_moves_focus_to_prev_id shift_tab_context _ 9 (mu_rect 0 0 50 20) 0
    (by decide) (by decide) (by decide) (by decide) (by decide)
    (some_getD_of_isSome _ shift_tab_context (by decide))).1 (by decide)

/-! ### Scope of the handlers called -/

/-- A mask and a single bit overlap only when the mask includes the bit. -/
theorem and_two_pow_of_ne_zero (x k : Nat) (h : x &&& 2 ^ k ≠ 0) : x &&& 2 ^ k = 2 ^ k := by
  by_cases hb : x.testBit k = true
  · apply Nat.eq_of_testBit_eq
    intro j
    rw [Nat.testBit_and, Nat.testBit_two_pow]
    by_cases hj : k = j
    · subst hj
      simp [hb]
    · simp [hj]
  · exfalso
    apply h
    apply Nat.eq_of_testBit_eq
    intro j
    rw [Nat.testBit_and, Nat.testBit_two_pow]
    by_cases hj : k = j
    · subst hj
      simp [hb]
    · simp [hj]

theorem mem_call_handlers (event : mu_Event) (l : List EventHandlerWrapper)
    (h : EventHandlerWrapper) (hh : h ∈ (call_handlers event l).1) : h ∈ l := by
  obtain ⟨rest, e, _⟩ := call_handlers_spec event l
  rw [e]
  exact List.mem_append_left _ hh

/-- A handler `handle_event` calls is registered and applicable. -/
theorem mem_handle_event (ctx : mu_Context) (event : mu_Event) (stack : List Nat)
    (target_id : Nat) (h : EventHandlerWrapper)
    (hh : h ∈ handle_event ctx event stack target_id) :
    (h ∈ ctx.global_event_handlers ∨ h ∈ ctx.event_handlers) ∧
      (h.type &&& event.type) ≠ 0 ∧
      (h.container_id = target_id ∨ h.container_id = 0 ∨ h.container_id ∈ stack) := by
  have hm : h ∈ make_event_handlers event stack target_id ctx.global_event_handlers
      ∨ h ∈ make_event_handlers event stack target_id ctx.event_handlers := by
    unfold handle_event at hh
    dsimp only at hh
    split at hh
    · exact Or.inl (mem_call_handlers _ _ _ hh)
    · rcases List.mem_append.mp hh with k | k
      · exact Or.inl (mem_call_handlers _ _ _ k)
      · exact Or.inr (mem_call_handlers _ _ _ k)
  have happ : is_handler_applicable event stack target_id h = true := by
    rcases hm with k | k
    · exact (List.mem_filter.mp k).2
    · exact (List.mem_filter.mp k).2
  have hreg : h ∈ ctx.global_event_handlers ∨ h ∈ ctx.event_handlers := by
    rcases hm with k | k
    · exact Or.inl (List.mem_reverse.mp (List.mem_filter.mp k).1)
    · exact Or.inr (List.mem_reverse.mp (List.mem_filter.mp k).1)
  refine ⟨hreg, ?_⟩
  unfold is_handler_applicable at happ
  split at happ
  · cases happ
  · rename_i hty
    refine ⟨hty, ?_⟩
    split at happ
    · rename_i k
      exact Or.inl k
    · split at happ
      · rename_i k
        exact Or.inr (Or.inl k)
      · rw [List.any_eq_true] at happ
        obtain ⟨x, hx, hxe⟩ := happ
        have : h.container_id = x := of_decide_eq_true hxe
        rw [this]
        exact Or.inr (Or.inr (List.mem_reverse.mp hx))

/-- C35 (what holds of the code): when `handle_events` (called by `mu_end`) calls a handler
for a buffered event, the handler is registered, its type mask overlaps the event's type
(and includes it when the type is a single bit), and its scope matches: for a pointer event
(mouse move, down, up) its scope identity is on the stack of containers the pointer is over
or is 0; for a keyboard event its scope identity is the key target (`ctx.focus`, or
`ctx.last_focus` when `ctx.focus` is 0), or on `ctx.focus_stack` (the identity stack
`mu_set_focus` saved when it last gave focus to a non-zero identity, which need not enclose
the key target), or is 0. For an event of another type no handler is called. -/
theorem handler_called_only_in_scope (ctx : mu_Context)
    (p : mu_Event × List EventHandlerWrapper) (h : EventHandlerWrapper)
    (hp : p ∈ handle_events ctx) (hh : h ∈ p.2) :
    (h ∈ ctx.global_event_handlers ∨ h ∈ ctx.event_handlers)
    ∧ (h.type &&& p.1.type) ≠ 0
    ∧ (∀ k : Nat, p.1.type = 2 ^ k → h.type &&& p.1.type = p.1.type)
    ∧ (((p.1.type &&& (MOUSEDOWN ||| MOUSEUP ||| MOUSEMOVE)) ≠ 0
          ∧ (h.container_id ∈ ctx.hovered_container_stack ∨ h.container_id = 0))
      ∨ ((p.1.type &&& (MOUSEDOWN ||| MOUSEUP ||| MOUSEMOVE)) = 0
          ∧ (p.1.type &&& (KEYDOWN ||| KEYUP ||| KEYPRESS)) ≠ 0
          ∧ (h.container_id = (if ctx.focus ≠ 0 then ctx.focus else ctx.last_focus)
              ∨ h.container_id ∈ ctx.focus_stack ∨ h.container_id = 0))) := by
  unfold handle_events at hp
  split at hp
  · cases hp
  · dsimp only at hp
    obtain ⟨event, _, he⟩ := List.mem_map.mp hp
    subst he
    have key : ∀ (q : (h.type &&& event.type) ≠ 0),
        ∀ k : Nat, event.type = 2 ^ k → h.type &&& event.type = event.type := by
      intro q k hk
      rw [hk] at q ⊢
      exact and_two_pow_of_ne_zero _ _ q
    by_cases hm : (event.type &&& (MOUSEDOWN ||| MOUSEUP ||| MOUSEMOVE)) ≠ 0
    · rw [if_pos hm] at hh ⊢
      dsimp only at hh ⊢
      obtain ⟨a, b, c⟩ := mem_handle_event ctx event _ _ h hh
      refine ⟨a, b, key b, Or.inl ⟨hm, ?_⟩⟩
      rcases c with c | c | c
      · cases hs : ctx.hovered_container_stack.getLast? with
        | none =>
          rw [hs] at c
          exact Or.inr c
        | some top =>
          rw [hs] at c
          rw [c]
          exact Or.inl (List.mem_of_getLast?_eq_some hs)
      · exact Or.inr c
      · exact Or.inl c
    · rw [if_neg hm] at hh ⊢
      by_cases hk : (event.type &&& (KEYDOWN ||| KEYUP ||| KEYPRESS)) ≠ 0
      · rw [if_pos hk] at hh ⊢
        dsimp only at hh ⊢
        obtain ⟨a, b, c⟩ := mem_handle_event ctx event _ _ h hh
        refine ⟨a, b, key b, Or.inr ⟨not_not.mp hm, hk, ?_⟩⟩
        rcases c with c | c | c
        · exact Or.inl c
        · exact Or.inr (Or.inr c)
        · exact Or.inr (Or.inl c)
      · rw [if_neg hk] at hh
        cases hh

/-- C35, at `handlers_context`: the third handler called for the buffered key-down event
is the one of the scope 5, which is the focused identity. -/
theorem handler_called_only_in_scope_witness :
    (handlers_third_called.container_id = 5 ∧ handlers_dispatch.1.type = KEYDOWN)
    ∧ ((handlers_third_called ∈ handlers_context.global_event_handlers
        ∨ handlers_third_called ∈ handlers_context.event_handlers)
      ∧ (handlers_third_called.type &&& handlers_dispatch.1.type) ≠ 0
      ∧ (∀ k : Nat, handlers_dispatch.1.type = 2 ^ k →
          handlers_third_called.type &&& handlers_dispatch.1.type = handlers_dispatch.1.type)
      ∧ (((handlers_dispatch.1.type &&& (MOUSEDOWN ||| MOUSEUP ||| MOUSEMOVE)) ≠ 0
            ∧ (handlers_third_called.container_id ∈ handlers_context.hovered_container_stack
                ∨ handlers_third_called.container_id = 0))
        ∨ ((handlers_dispatch.1.type &&& (MOUSEDOWN ||| MOUSEUP ||| MOUSEMOVE)) = 0
            ∧ (handlers_dispatch.1.type &&& (KEYDOWN ||| KEYUP ||| KEYPRESS)) ≠ 0
            ∧ (handlers_third_called.container_id
                  = (if handlers_context.focus ≠ 0 then handlers_context.focus
                      else handlers_context.last_focus)
                ∨ handlers_third_called.container_id ∈ handlers_context.focus_stack
                ∨ handlers_third_called.container_id = 0)))) :=
  ⟨⟨by decide, by decide⟩,
    handler_called_only_in_scope handlers_context handlers_dispatch handlers_third_called
      (List.getElem?_mem (some_getD_of_isSome _ _ (by decide)))
      (List.getElem?_mem (some_getD_of_isSome _ _ (by decide)))⟩

/-! ### Text box -/

/-- The loop of the backspace block stops below the length it is entered with, on the
first byte from the end that is not a continuation byte `10xxxxxx`, or on the first byte of
the text. -/
theorem backspace_len_spec (buf : List uchar) :
    ∀ len : Nat, 0 < len →
      backspace_len buf len < len ∧
      (∀ i, backspace_len buf len < i → i < len → ((buf.getD i 0).val &&& 192) = 128) ∧
      (backspace_len buf len = 0
        ∨ ((buf.getD (backspace_len buf len) 0).val &&& 192) ≠ 128) := by
  intro len
  induction len with
  | zero => intro h; cases h
  | succ n ih =>
    intro _
    unfold backspace_len
    by_cases hc : ((buf.getD n 0).val &&& 192) = 128 ∧ n > 0
    · rw [if_pos hc]
      obtain ⟨a, b, c⟩ := ih hc.2
      refine ⟨by omega, ?_, c⟩
      intro i hi1 hi2
      by_cases hin : i < n
      · exact b i hi1 hin
      · have : i = n := by omega
        rw [this]
        exact hc.1
    · rw [if_neg hc]
      refine ⟨by omega, ?_, ?_⟩
      · intro i hi1 hi2
        omega
      · by_cases h0 : n = 0
        · exact Or.inl h0
        · right
          intro hk
          exact hc ⟨hk, by omega⟩

/-- The input block appends the first `min(bufsz - len - 1, length of the input text)`
bytes of the input text, none when that number is not positive. -/
theorem textbox_input_text (buf : List uchar) (bufsz : Int) (input_text : List uchar) :
    (textbox_input buf bufsz input_text).2
      = buf ++ input_text.take
          (mu_min (bufsz - (buf.length : Int) - 1) (input_text.length : Int)).toNat := by
  unfold textbox_input
  dsimp only
  split
  · rfl
  · rename_i hn
    have : (mu_min (bufsz - (buf.length : Int) - 1) (input_text.length : Int)).toNat = 0 := by
      apply Int.toNat_eq_zero.mpr
      omega
    rw [this]
    simp

theorem textbox_input_length (buf : List uchar) (bufsz : Int) (input_text : List uchar)
    (hlen : (buf.length : Int) ≤ bufsz - 1) :
    ((textbox_input buf bufsz input_text).2.length : Int)
      = buf.length + mu_min (bufsz - (buf.length : Int) - 1) (input_text.length : Int)
    ∧ ((textbox_input buf bufsz input_text).2.length : Int) ≤ bufsz - 1 := by
  rw [textbox_input_text]
  have hmin : 0 ≤ mu_min (bufsz - (buf.length : Int) - 1) (input_text.length : Int)
      ∧ mu_min (bufsz - (buf.length : Int) - 1) (input_text.length : Int) ≤ input_text.length
      ∧ mu_min (bufsz - (buf.length : Int) - 1) (input_text.length : Int)
          ≤ bufsz - (buf.length : Int) - 1 := by
    unfold mu_min
    split <;> omega
  have hl : (input_text.take
      (mu_min (bufsz - (buf.length : Int) - 1) (input_text.length : Int)).toNat).length
      = (mu_min (bufsz - (buf.length : Int) - 1) (input_text.length : Int)).toNat := by
    rw [List.length_take]
    omega
  rw [List.length_append, hl]
  omega

/-- The backspace block: without a Backspace edge, or on the empty text, the text is kept;
otherwise it is cut at the position the loop stops at. -/
theorem textbox_backspace_text (key_pressed : Nat) (s : Nat × List uchar) :
    (¬ (has_flag key_pressed MU_KEY_BACKSPACE = true ∧ s.2 ≠ []) →
      (textbox_backspace key_pressed s).2 = s.2) ∧
    (has_flag key_pressed MU_KEY_BACKSPACE = true → s.2 ≠ [] →
      ∃ k, k < s.2.length ∧ (textbox_backspace key_pressed s).2 = s.2.take k ∧
        ((textbox_backspace key_pressed s).2.length = k) ∧
        (∀ i, k < i → i < s.2.length → ((s.2.getD i 0).val &&& 192) = 128) ∧
        (k = 0 ∨ ((s.2.getD k 0).val &&& 192) ≠ 128)) := by
  unfold textbox_backspace
  constructor
  · intro hn
    have : ¬ (has_flag key_pressed MU_KEY_BACKSPACE = true ∧ s.2.length > 0) := by
      intro k
      exact hn ⟨k.1, List.ne_nil_of_length_pos k.2⟩
    rw [if_neg this]
  · intro hb hne
    have hpos : s.2.length > 0 := List.length_pos.mpr hne
    rw [if_pos ⟨hb, hpos⟩]
    obtain ⟨a, b, c⟩ := backspace_len_spec s.2 s.2.length hpos
    refine ⟨backspace_len s.2 s.2.length, a, rfl, ?_, b, c⟩
    simp only [List.length_take]
    omega

theorem textbox_backspace_length (key_pressed : Nat) (s : Nat × List uchar) :
    (textbox_backspace key_pressed s).2.length ≤ s.2.length := by
  unfold textbox_backspace
  split
  · simp only [List.length_take]
    omega
  · exact Nat.le_refl _

/-- The text `mu_textbox_raw` leaves in the buffer is the one its edit block computes on
the context `mu_update_control` returned. -/
theorem mu_textbox_raw_text (ctx : mu_Context) (buf : List uchar) (bufsz : Int) (id : Nat)
    (r : mu_Rect) (opt res : Nat) (buf2 : List uchar) (ctx2 : mu_Context)
    (h : mu_textbox_raw ctx buf bufsz id r opt = some (res, buf2, ctx2)) :
    ∃ ctx1, mu_update_control ctx id r (opt ||| MU_OPT_HOLDFOCUS) = some ctx1 ∧
      buf2 = (textbox_edit ctx1 buf bufsz id).2.1 := by
  unfold mu_textbox_raw at h
  split at h
  · cases h
  · rename_i ctx1 h1
    dsimp only at h
    split at h
    · cases h
    · simp only [Option.some.injEq, Prod.mk.injEq] at h
      exact ⟨ctx1, h1, h.2.1.symm⟩

theorem textbox_edit_text (ctx : mu_Context) (buf : List uchar) (bufsz : Int) (id : Nat) :
    (textbox_edit ctx buf bufsz id).2.1 =
      if ctx.focus = id then
        (textbox_backspace ctx.key_pressed (textbox_input buf bufsz ctx.input_text)).2
      else buf := by
  unfold textbox_edit
  split
  · dsimp only
    split <;> rfl
  · rfl

theorem mu_draw_text_some (c : mu_Context) (font font_size : Int) (str : List uchar)
    (pos : mu_Vec2) (tw : Int → Int → List uchar → Int) (th : Int → Int → Int)
    (htw : c.text_width = some tw) (hth : c.text_height = some th)
    (hclip : c.clip_stack ≠ []) : mu_draw_text c font font_size str pos = some () := by
  obtain ⟨last, hl⟩ := get_clip_rect_some c hclip
  unfold mu_draw_text mu_check_clip
  simp only [htw, hth, hl]
  split_ifs <;> rfl

theorem push_clip_rect_some (c : mu_Context) (rect : mu_Rect) (hclip : c.clip_stack ≠ []) :
    ∃ c1, mu_push_clip_rect c rect = some c1 ∧ c1.text_width = c.text_width ∧
      c1.text_height = c.text_height ∧ c1.clip_stack ≠ [] ∧ mu_pop_clip_rect c1 = some c := by
  obtain ⟨last, hl⟩ := get_clip_rect_some c hclip
  unfold mu_push_clip_rect
  rw [hl]
  refine ⟨_, rfl, rfl, rfl, ?_, ?_⟩
  · simp [push]
  · unfold mu_pop_clip_rect pop push
    simp

theorem mu_draw_control_text_some (c : mu_Context) (str : List uchar) (rect : mu_Rect)
    (opt : Nat) (tw : Int → Int → List uchar → Int) (th : Int → Int → Int)
    (htw : c.text_width = some tw) (hth : c.text_height = some th)
    (hclip : c.clip_stack ≠ []) : ∃ c2, mu_draw_control_text c str rect opt = some c2 := by
  obtain ⟨c1, hp, a, b, d, e⟩ := push_clip_rect_some c rect hclip
  unfold mu_draw_control_text
  simp only [htw, hth, hp]
  rw [mu_draw_text_some c1 _ _ _ _ tw th (a.trans htw) (b.trans hth) d]
  exact ⟨c, e⟩

/-- The part `draw` of `mu_textbox_raw` returns when the clip stack is not empty and both
text callbacks are installed. -/
theorem textbox_draw_some (c : mu_Context) (buf : List uchar) (id : Nat) (r : mu_Rect)
    (opt : Nat) (tw : Int → Int → List uchar → Int) (th : Int → Int → Int)
    (htw : c.text_width = some tw) (hth : c.text_height = some th)
    (hclip : c.clip_stack ≠ []) : ∃ c2, textbox_draw c buf id r opt = some c2 := by
  have hframe : mu_draw_control_frame c id r MU_COLOR_BASE opt = some () := by
    unfold mu_draw_control_frame
    split
    · rfl
    · exact default_draw_frame_some c r _ hclip
  unfold textbox_draw
  simp only [hframe]
  by_cases hf : c.focus = id
  · obtain ⟨c1, hp, a, b, d, e⟩ := push_clip_rect_some c r hclip
    obtain ⟨last, hl⟩ := get_clip_rect_some c1 d
    have hr : ∀ rr : mu_Rect, mu_draw_rect c1 rr = some () := by
      intro rr
      unfold mu_draw_rect
      rw [hl]
    simp only [if_pos hf, htw, hth, hp]
    rw [mu_draw_text_some c1 _ _ _ _ tw th (a.trans htw) (b.trans hth) d]
    simp only [hr, e]
    rw [draw_focus_some c id r hclip]
    exact ⟨c, rfl⟩
  · simp only [if_neg hf]
    obtain ⟨c2, h2⟩ := mu_draw_control_text_some c buf r opt tw th htw hth hclip
    have e : c2 = c := mu_draw_control_text_eq c c2 buf r opt h2
    subst e
    simp only [h2]
    rw [draw_focus_some c2 id r hclip]
    exact ⟨c2, rfl⟩

/-- The function `mu_textbox_raw` returns when the clip stack is not empty and both text
callbacks are installed. -/
theorem mu_textbox_raw_some (ctx : mu_Context) (buf : List uchar) (bufsz : Int) (id : Nat)
    (r : mu_Rect) (opt : Nat) (tw : Int → Int → List uchar → Int) (th : Int → Int → Int)
    (htw : ctx.text_width = some tw) (hth : ctx.text_height = some th)
    (hclip : ctx.clip_stack ≠ []) :
    ∃ res buf2 ctx2, mu_textbox_raw ctx buf bufsz id r opt = some (res, buf2, ctx2) := by
  obtain ⟨c1, h1⟩ := update_control_some ctx id r (opt ||| MU_OPT_HOLDFOCUS) hclip
  have f1 := update_control_frame ctx c1 id r _ h1
  unfold only_focus_changed at f1
  have k1 : c1.text_width = some tw ∧ c1.text_height = some th ∧ c1.clip_stack ≠ [] := by
    rw [f1]
    exact ⟨htw, hth, hclip⟩
  have k2 : (textbox_edit c1 buf bufsz id).2.2.text_width = some tw
      ∧ (textbox_edit c1 buf bufsz id).2.2.text_height = some th
      ∧ (textbox_edit c1 buf bufsz id).2.2.clip_stack ≠ [] := by
    have hs := only_focus_changed_set_focus c1 0
    unfold only_focus_changed at hs
    unfold textbox_edit
    split
    · dsimp only
      split
      · dsimp only
        rw [hs]
        exact k1
      · exact k1
    · exact k1
  obtain ⟨c2, h2⟩ := textbox_draw_some _ (textbox_edit c1 buf bufsz id).2.1 id r opt tw th
    k2.1 k2.2.1 k2.2.2
  unfold mu_textbox_raw
  simp only [h1, h2]
  exact ⟨_, _, _, rfl⟩

/-- The text a call of `mu_textbox_raw` that returns leaves in the buffer. -/
theorem textbox_text_after (ctx : mu_Context) (buf : List uchar) (bufsz : Int) (id : Nat)
    (r : mu_Rect) (opt res : Nat) (buf2 : List uchar) (ctx2 : mu_Context)
    (hlen : (buf.length : Int) ≤ bufsz - 1)
    (h : mu_textbox_raw ctx buf bufsz id r opt = some (res, buf2, ctx2)) :
    (buf2.length : Int) ≤ bufsz - 1 ∧
    ∃ ctx1, mu_update_control ctx id r (opt ||| MU_OPT_HOLDFOCUS) = some ctx1 ∧
      (ctx1.focus ≠ id → buf2 = buf) ∧
      (ctx1.focus = id →
        ∃ typed : List uchar,
          typed = buf ++ ctx1.input_text.take
            (mu_min (bufsz - (buf.length : Int) - 1) (ctx1.input_text.length : Int)).toNat ∧
          (typed.length : Int)
            = buf.length + mu_min (bufsz - (buf.length : Int) - 1) (ctx1.input_text.length : Int) ∧
          (¬ (has_flag ctx1.key_pressed MU_KEY_BACKSPACE = true ∧ typed ≠ []) → buf2 = typed) ∧
          (has_flag ctx1.key_pressed MU_KEY_BACKSPACE = true → typed ≠ [] →
            ∃ k, k < typed.length ∧ buf2 = typed.take k ∧ buf2.length = k ∧
              (∀ i, k < i → i < typed.length → ((typed.getD i 0).val &&& 192) = 128) ∧
              (k = 0 ∨ ((typed.getD k 0).val &&& 192) ≠ 128))) := by
  obtain ⟨ctx1, h1, e⟩ := mu_textbox_raw_text ctx buf bufsz id r opt res buf2 ctx2 h
  rw [textbox_edit_text] at e
  have hin := textbox_input_length buf bufsz ctx1.input_text hlen
  have hbk := textbox_backspace_length ctx1.key_pressed (textbox_input buf bufsz ctx1.input_text)
  have hbt := textbox_backspace_text ctx1.key_pressed (textbox_input buf bufsz ctx1.input_text)
  have htx := textbox_input_text buf bufsz ctx1.input_text
  constructor
  · rw [e]
    split
    · omega
    · exact hlen
  · refine ⟨ctx1, h1, ?_, ?_⟩
    · intro hf
      rw [e, if_neg hf]
    · intro hf
      rw [if_pos hf] at e
      refine ⟨(textbox_input buf bufsz ctx1.input_text).2, htx, hin.1, ?_, ?_⟩
      · intro hn
        rw [e]
        exact hbt.1 hn
      · intro hb hne
        rw [e]
        exact hbt.2 hb hne

/-- C39: `mu_textbox_raw` never overflows the caller's buffer. For every `bufsz >= 1` and
text of length at most `bufsz - 1`, the call returns when the clip stack is not empty and
both text callbacks are installed, and whenever it returns the text has length at most
`bufsz - 1`. When the text box does not hold focus after `mu_update_control` the text is
unchanged; when it does, exactly `min(bufsz - len - 1, length of the input text)` bytes of
the input text are appended, and a Backspace edge on a non-empty text then cuts it at a
position `k` below its length: the bytes dropped after the first are continuation bytes
`10xxxxxx`, and the first byte dropped is not one, unless the text is exhausted. -/
theorem textbox_never_overflows (ctx : mu_Context) (buf : List uchar) (bufsz : Int) (id : Nat)
    (r : mu_Rect) (opt : Nat) (_hsz : 1 ≤ bufsz) (hlen : (buf.length : Int) ≤ bufsz - 1) :
    (ctx.clip_stack ≠ [] → ctx.text_width.isSome = true → ctx.text_height.isSome = true →
      ∃ res buf2 ctx2, mu_textbox_raw ctx buf bufsz id r opt = some (res, buf2, ctx2)) ∧
    ∀ (res : Nat) (buf2 : List uchar) (ctx2 : mu_Context),
      mu_textbox_raw ctx buf bufsz id r opt = some (res, buf2, ctx2) →
      (buf2.length : Int) ≤ bufsz - 1 ∧
      ∃ ctx1, mu_update_control ctx id r (opt ||| MU_OPT_HOLDFOCUS) = some ctx1 ∧
        (ctx1.focus ≠ id → buf2 = buf) ∧
        (ctx1.focus = id →
          ∃ typed : List uchar,
            typed = buf ++ ctx1.input_text.take
              (mu_min (bufsz - (buf.length : Int) - 1) (ctx1.input_text.length : Int)).toNat ∧
            (typed.length : Int)
              = buf.length
                + mu_min (bufsz - (buf.length : Int) - 1) (ctx1.input_text.length : Int) ∧
            (¬ (has_flag ctx1.key_pressed MU_KEY_BACKSPACE = true ∧ typed ≠ []) →
              buf2 = typed) ∧
            (has_flag ctx1.key_pressed MU_KEY_BACKSPACE = true → typed ≠ [] →
              ∃ k, k < typed.length ∧ buf2 = typed.take k ∧ buf2.length = k ∧
                (∀ i, k < i → i < typed.length → ((typed.getD i 0).val &&& 192) = 128) ∧
                (k = 0 ∨ ((typed.getD k 0).val &&& 192) ≠ 128))) := by
  constructor
  · intro hclip htw hth
    obtain ⟨tw, e1⟩ := Option.isSome_iff_exists.mp htw
    obtain ⟨th, e2⟩ := Option.isSome_iff_exists.mp hth
    exact mu_textbox_raw_some ctx buf bufsz id r opt tw th e1 e2 hclip
  · intro res buf2 ctx2 h
    exact textbox_text_after ctx buf bufsz id r opt res buf2 ctx2 hlen h

/-- C39, at `typing_context`: the text `a` in a buffer of 8 bytes, the input `é!` and a
Backspace edge leave `aé`. -/
theorem textbox_never_overflows_witness :
    Option.map (fun x => x.2.1) (mu_textbox_raw typing_context [97] 8 9 (mu_rect 0 0 50 20) 0)
      = some [97, 195, 169]
    ∧ (((mu_textbox_raw typing_context [97] 8 9 (mu_rect 0 0 50 20) 0).getD
        (0, [], typing_context)).2.1.length : Int) ≤ 8 - 1
    ∧ ∃ res buf2 ctx2,
        mu_textbox_raw typing_context [97] 8 9 (mu_rect 0 0 50 20) 0 = some (res, buf2, ctx2) :=
  ⟨by decide,
    ((textbox_never_overflows typing_context [97] 8 9 (mu_rect 0 0 50 20) 0
      (by decide) (by decide)).2 _ _ _
      (some_getD_of_isSome (mu_textbox_raw typing_context [97] 8 9 (mu_rect 0 0 50 20) 0)
        (0, [], typing_context) (by decide))).1,
    (textbox_never_overflows typing_context [97] 8 9 (mu_rect 0 0 50 20) 0
      (by decide) (by decide)).1 (by decide) (by decide) (by decide)⟩

/-! ### Translation of the layout body -/

theorem mu_layout_next_on (ctx : mu_Context) (layout : mu_Layout)
    (hl : mu_get_layout ctx = some layout) :
    mu_layout_next ctx =
      some ((layout_next_on ctx.style layout).1,
        { set_layout ctx (layout_next_on ctx.style layout).2 with
          last_rect := (layout_next_on ctx.style layout).1 }) := by
  unfold mu_layout_next layout_next_on regular_cell
  rw [hl]
  dsimp only
  split_ifs <;> rfl

theorem layout_row_shift (l : mu_Layout) (bx by_ : Int) (m : mu_Vec2) (items : Int)
    (widths : Option (List Int)) (height : Int) :
    layout_row (shift_layout l bx by_ m) items widths height
      = Option.map (fun k => shift_layout k bx by_ m) (layout_row l items widths height) := by
  unfold layout_row
  cases widths with
  | none => rfl
  | some ws =>
    dsimp only
    split_ifs <;> rfl

theorem layout_next_cell_shift (style : mu_Style) (l : mu_Layout) (bx by_ : Int) (m : mu_Vec2) :
    layout_next_cell style (shift_layout l bx by_ m)
      = ((layout_next_cell style l).1, shift_layout (layout_next_cell style l).2 bx by_ m) := by
  obtain ⟨body, next, position, size, max, widths, items, item_index, next_row, next_type,
    next_size, indent⟩ := l
  by_cases h : item_index = items
  · cases next_size with
    | none => simp [layout_next_cell, shift_layout, layout_row, h]
    | some ns => simp [layout_next_cell, shift_layout, layout_row, h]
  · cases next_size with
    | none => simp [layout_next_cell, shift_layout, layout_row, h]
    | some ns => simp [layout_next_cell, shift_layout, layout_row, h]

theorem layout_next_tail_shift (style : mu_Style) (l : mu_Layout) (bx by_ : Int) (m : mu_Vec2)
    (res : mu_Rect) :
    (layout_next_tail style l res).1 = move_rect l.body.x l.body.y res ∧
    (layout_next_tail style (shift_layout l bx by_ m) res).1 = move_rect bx by_ res ∧
    (layout_next_tail style (shift_layout l bx by_ m) res).2
      = shift_layout (layout_next_tail style l res).2 bx by_
          (mu_vec2 (mu_max m.x (res.x + bx + res.w)) (mu_max m.y (res.y + by_ + res.h))) ∧
    (layout_next_tail style l res).2.max
      = mu_vec2 (mu_max l.max.x (res.x + l.body.x + res.w))
          (mu_max l.max.y (res.y + l.body.y + res.h)) ∧
    (layout_next_tail style l res).2.body = l.body ∧
    (layout_next_tail style l res).2.next_type = l.next_type :=
  ⟨rfl, rfl, rfl, rfl, rfl, rfl⟩

theorem layout_next_cell_keeps (style : mu_Style) (l : mu_Layout) :
    (layout_next_cell style l).2.body = l.body ∧ (layout_next_cell style l).2.max = l.max ∧
      (layout_next_cell style l).2.next_type = l.next_type := by
  obtain ⟨body, next, position, size, max, widths, items, item_index, next_row, next_type,
    next_size, indent⟩ := l
  by_cases h : item_index = items <;> cases next_size <;>
    simp [layout_next_cell, layout_row, h]

/-- One call of `mu_layout_next` that does not consume an absolute rect, on a frame and on
the frame with its body origin moved: the same rect relative to the body origin. -/
theorem layout_next_on_shift (style : mu_Style) (l : mu_Layout) (bx by_ : Int) (m : mu_Vec2)
    (hna : l.next_type ≠ ABSOLUTE) :
    ∃ res : mu_Rect,
      (layout_next_on style l).1 = move_rect l.body.x l.body.y res ∧
      (layout_next_on style (shift_layout l bx by_ m)).1 = move_rect bx by_ res ∧
      (layout_next_on style (shift_layout l bx by_ m)).2
        = shift_layout (layout_next_on style l).2 bx by_
            (mu_vec2 (mu_max m.x (res.x + bx + res.w)) (mu_max m.y (res.y + by_ + res.h))) ∧
      (layout_next_on style l).2.max
        = mu_vec2 (mu_max l.max.x (res.x + l.body.x + res.w))
            (mu_max l.max.y (res.y + l.body.y + res.h)) ∧
      (layout_next_on style l).2.body = l.body ∧
      (layout_next_on style l).2.next_type = 0 := by
  have hna' : (shift_layout l bx by_ m).next_type ≠ ABSOLUTE := hna
  by_cases h0 : l.next_type ≠ 0
  · have h0' : (shift_layout l bx by_ m).next_type ≠ 0 := h0
    unfold layout_next_on
    rw [if_pos h0, if_neg hna, if_pos h0', if_neg hna']
    exact ⟨l.next, rfl, rfl, rfl, rfl, rfl, rfl⟩
  · have h0' : ¬ (shift_layout l bx by_ m).next_type ≠ 0 := h0
    obtain ⟨kb, km, kt⟩ := layout_next_cell_keeps style l
    obtain ⟨t1, t2, t3, t4, t5, t6⟩ := layout_next_tail_shift style (layout_next_cell style l).2
      bx by_ m (layout_next_cell style l).1
    unfold layout_next_on
    rw [if_neg h0, if_neg h0']
    unfold regular_cell
    rw [layout_next_cell_shift]
    refine ⟨(layout_next_cell style l).1, ?_, t2, t3, ?_, ?_, ?_⟩
    · rw [t1, kb]
    · rw [t4, kb, km]
    · rw [t5, kb]
    · rw [t6, kt]
      exact not_not.mp h0

theorem layout_row_keeps (l k : mu_Layout) (items : Int) (widths : Option (List Int))
    (height : Int) (h : layout_row l items widths height = some k) :
    k.body = l.body ∧ k.max = l.max ∧ k.next_type = l.next_type := by
  unfold layout_row at h
  cases widths with
  | none =>
    simp only [Option.some.injEq] at h
    rw [← h]
    exact ⟨rfl, rfl, rfl⟩
  | some ws =>
    dsimp only at h
    split_ifs at h
    simp only [Option.some.injEq] at h
    rw [← h]
    exact ⟨rfl, rfl, rfl⟩

theorem mu_max_mu_max_add (M a c b : Int) :
    mu_max (mu_max M (a + b)) (c + b) = mu_max M (mu_max a c + b) := by
  unfold mu_max
  split_ifs <;> omega

theorem move_rect_move_rect (bx by_ bx2 by2 : Int) (res : mu_Rect) :
    move_rect bx2 by2 res = move_rect (bx2 - bx) (by2 - by_) (move_rect bx by_ res) := by
  obtain ⟨x, y, w, h⟩ := res
  simp only [move_rect, mu_Rect.mk.injEq, and_true]
  constructor <;> omega
/-- A run of `mu_layout_row` and non-absolute `mu_layout_next` calls on a frame and on the
frame with its body origin moved from `(bx, by_)` to `(bx2, by2)`: the rects differ by the
difference of the origins, the frames stay the same but for the body origin and `max`, and
`max` stays the running maximum, above `M`, of the same extent relative to each origin. -/
theorem layout_calls_shift (bx by_ bx2 by2 : Int) (M : mu_Vec2) (ops : List LayoutOp) :
    ∀ (c c' : mu_Context) (l : mu_Layout) (m' : mu_Vec2) (rx ry : Int) (rs : List mu_Rect)
      (c2 : mu_Context),
      (∀ op ∈ ops, row_or_next op = true) → c'.style = c.style →
      mu_get_layout c = some l → mu_get_layout c' = some (shift_layout l bx2 by2 m') →
      l.body.x = bx → l.body.y = by_ → l.next_type ≠ ABSOLUTE →
      l.max = mu_vec2 (mu_max M.x (rx + bx)) (mu_max M.y (ry + by_)) →
      m' = mu_vec2 (mu_max M.x (rx + bx2)) (mu_max M.y (ry + by2)) →
      layout_calls c ops = some (rs, c2) →
      ∃ (c2' : mu_Context) (l2 : mu_Layout) (m2 : mu_Vec2) (rx2 ry2 : Int),
        layout_calls c' ops = some (rs.map (move_rect (bx2 - bx) (by2 - by_)), c2') ∧
        mu_get_layout c2 = some l2 ∧ mu_get_layout c2' = some (shift_layout l2 bx2 by2 m2) ∧
        l2.body.x = bx ∧ l2.body.y = by_ ∧
        l2.max = mu_vec2 (mu_max M.x (rx2 + bx)) (mu_max M.y (ry2 + by_)) ∧
        m2 = mu_vec2 (mu_max M.x (rx2 + bx2)) (mu_max M.y (ry2 + by2)) := by
  induction ops with
  | nil =>
    intro c c' l m' rx ry rs c2 _ _ hl hl' hbx hby _ hm hm' hrun
    simp only [layout_calls, Option.some.injEq, Prod.mk.injEq] at hrun
    obtain ⟨e1, e2⟩ := hrun
    subst e1 e2
    exact ⟨c', l, m', rx, ry, rfl, hl, hl', hbx, hby, hm, hm'⟩
  | cons op rest ih =>
    intro c c' l m' rx ry rs c2 hops hst hl hl' hbx hby hna hm hm' hrun
    have hrest : ∀ op ∈ rest, row_or_next op = true :=
      fun o ho => hops o (List.mem_cons_of_mem _ ho)
    have hop : row_or_next op = true := hops op (List.mem_cons_self _ _)
    cases op with
    | row items widths height =>
      simp only [layout_calls, run_layout_op] at hrun ⊢
      unfold mu_layout_row at hrun ⊢
      simp only [hl] at hrun
      simp only [hl', layout_row_shift]
      cases hk : layout_row l items widths height with
      | none => simp only [hk] at hrun; cases hrun
      | some k =>
        simp only [hk] at hrun
        simp only [hk, Option.map_some']
        obtain ⟨kb, km, kt⟩ := layout_row_keeps l k items widths height hk
        exact ih (set_layout c k) (set_layout c' (shift_layout k bx2 by2 m')) k m' rx ry rs c2
          hrest hst (get_layout_set_layout c k) (get_layout_set_layout c' _)
          (by rw [kb]; exact hbx) (by rw [kb]; exact hby) (by rw [kt]; exact hna)
          (by rw [km]; exact hm) hm' hrun
    | next =>
      simp only [layout_calls] at hrun ⊢
      rw [mu_layout_next_on c l hl] at hrun
      rw [mu_layout_next_on c' _ hl', hst]
      obtain ⟨res, r1, r2, r3, r4, r5, r6⟩ := layout_next_on_shift c.style l bx2 by2 m' hna
      dsimp only at hrun ⊢
      cases hr : layout_calls
          { set_layout c (layout_next_on c.style l).2 with
            last_rect := (layout_next_on c.style l).1 } rest with
      | none => simp only [hr] at hrun; cases hrun
      | some p =>
        obtain ⟨rs1, c3⟩ := p
        simp only [hr, Option.some.injEq, Prod.mk.injEq] at hrun
        obtain ⟨e1, e2⟩ := hrun
        subst e1 e2
        have hl2' : mu_get_layout
            { set_layout c' (layout_next_on c.style (shift_layout l bx2 by2 m')).2 with
              last_rect := (layout_next_on c.style (shift_layout l bx2 by2 m')).1 }
            = some (shift_layout (layout_next_on c.style l).2 bx2 by2
                (mu_vec2 (mu_max m'.x (res.x + bx2 + res.w))
                  (mu_max m'.y (res.y + by2 + res.h)))) := by
          rw [get_layout_set_layout_last_rect, r3]
        obtain ⟨c2', l2, m2, rx2, ry2, g1, g2, g3, g4, g5, g6, g7⟩ :=
          ih
            { set_layout c (layout_next_on c.style l).2 with
              last_rect := (layout_next_on c.style l).1 }
            { set_layout c' (layout_next_on c.style (shift_layout l bx2 by2 m')).2 with
              last_rect := (layout_next_on c.style (shift_layout l bx2 by2 m')).1 }
            (layout_next_on c.style l).2
            (mu_vec2 (mu_max m'.x (res.x + bx2 + res.w)) (mu_max m'.y (res.y + by2 + res.h)))
            (mu_max rx (res.x + res.w))
            (mu_max ry (res.y + res.h)) rs1 c3 hrest hst
            (get_layout_set_layout_last_rect c _ _) hl2'
            (by rw [r5]; exact hbx) (by rw [r5]; exact hby) (by rw [r6]; decide)
            (by
              rw [r4, hm, hbx, hby]
              simp only [mu_vec2]
              rw [← mu_max_mu_max_add, ← mu_max_mu_max_add]
              congr 2 <;> omega)
            (by
              rw [hm']
              simp only [mu_vec2]
              rw [← mu_max_mu_max_add, ← mu_max_mu_max_add]
              congr 2 <;> omega)
            hr
        refine ⟨c2', l2, m2, rx2, ry2, ?_, g2, g3, g4, g5, g6, g7⟩
        rw [g1]
        rw [r1, r2, hbx, hby, List.map_cons, ← move_rect_move_rect]
    | width w => cases hop
    | height h => cases hop
    | set_next r relative => cases hop
    | set_next_size size => cases hop
theorem mu_max_eq_of_lt (M a : Int) (h : M < mu_max M a) : mu_max M a = a := by
  unfold mu_max at h ⊢
  split_ifs at h ⊢
  · omega
  · rfl

/-- C37: layout is translation-equivariant in the body origin. For two layout frames that
differ only in `body.x` and `body.y`, under the same style, the same sequence of
`mu_layout_row` and non-absolute `mu_layout_next` calls that returns on the first returns
on the second; the rects returned differ by exactly the difference of the origins, the
frames afterwards have the same cursor, `next_row` and `item_index` (they differ only in
the body origin and in `max`), and when `max` was raised above its starting value in both
frames, `max - body`, from which `pop_container` computes the content size, is the same in
both. -/
theorem layout_translation_equivariant (c c' : mu_Context) (l : mu_Layout) (bx2 by2 : Int)
    (ops : List LayoutOp) (rs : List mu_Rect) (c2 : mu_Context)
    (hst : c'.style = c.style) (hl : mu_get_layout c = some l)
    (hl' : mu_get_layout c' = some { l with body := { l.body with x := bx2, y := by2 } })
    (hops : ∀ op ∈ ops, row_or_next op = true) (hna : l.next_type ≠ ABSOLUTE)
    (hrun : layout_calls c ops = some (rs, c2)) :
    ∃ (c2' : mu_Context) (l2 l2' : mu_Layout),
      layout_calls c' ops
        = some (rs.map (move_rect (bx2 - l.body.x) (by2 - l.body.y)), c2') ∧
      mu_get_layout c2 = some l2 ∧ mu_get_layout c2' = some l2' ∧
      l2'.position = l2.position ∧ l2'.next_row = l2.next_row ∧
      l2'.item_index = l2.item_index ∧
      l2' = { l2 with body := { l2.body with x := bx2, y := by2 }, max := l2'.max } ∧
      (l.max.x < l2.max.x → l.max.x < l2'.max.x →
        l2'.max.x - l2'.body.x = l2.max.x - l2.body.x) ∧
      (l.max.y < l2.max.y → l.max.y < l2'.max.y →
        l2'.max.y - l2'.body.y = l2.max.y - l2.body.y) := by
  have hm : l.max = mu_vec2 (mu_max l.max.x (l.max.x - mu_max l.body.x bx2 + l.body.x))
      (mu_max l.max.y (l.max.y - mu_max l.body.y by2 + l.body.y)) := by
    obtain ⟨mx, my⟩ := l.max
    simp only [mu_vec2, mu_Vec2.mk.injEq]
    unfold mu_max
    constructor <;> split_ifs <;> omega
  have hm' : l.max = mu_vec2 (mu_max l.max.x (l.max.x - mu_max l.body.x bx2 + bx2))
      (mu_max l.max.y (l.max.y - mu_max l.body.y by2 + by2)) := by
    obtain ⟨mx, my⟩ := l.max
    simp only [mu_vec2, mu_Vec2.mk.injEq]
    unfold mu_max
    constructor <;> split_ifs <;> omega
  have hl2 : mu_get_layout c' = some (shift_layout l bx2 by2 l.max) := hl'
  obtain ⟨c2', l2, m2, rx2, ry2, g1, g2, g3, g4, g5, g6, g7⟩ :=
    layout_calls_shift l.body.x l.body.y bx2 by2 l.max ops c c' l l.max
      (l.max.x - mu_max l.body.x bx2) (l.max.y - mu_max l.body.y by2) rs c2
      hops hst hl hl2 rfl rfl hna hm hm' hrun
  refine ⟨c2', l2, shift_layout l2 bx2 by2 m2, g1, g2, g3, rfl, rfl, rfl, rfl, ?_, ?_⟩
  · intro h1 h2
    have e1 : l2.max.x = mu_max l.max.x (rx2 + l.body.x) := by rw [g6]; rfl
    have e2 : (shift_layout l2 bx2 by2 m2).max.x = mu_max l.max.x (rx2 + bx2) := by
      rw [g7]; rfl
    rw [e1] at h1
    rw [e2] at h2
    have k1 := mu_max_eq_of_lt _ _ h1
    have k2 := mu_max_eq_of_lt _ _ h2
    rw [e2, e1, k1, k2, g4]
    show rx2 + bx2 - bx2 = rx2 + l.body.x - l.body.x
    omega
  · intro h1 h2
    have e1 : l2.max.y = mu_max l.max.y (ry2 + l.body.y) := by rw [g6]; rfl
    have e2 : (shift_layout l2 bx2 by2 m2).max.y = mu_max l.max.y (ry2 + by2) := by
      rw [g7]; rfl
    rw [e1] at h1
    rw [e2] at h2
    have k1 := mu_max_eq_of_lt _ _ h1
    have k2 := mu_max_eq_of_lt _ _ h2
    rw [e2, e1, k1, k2, g5]
    show ry2 + by2 - by2 = ry2 + l.body.y - l.body.y
    omega

/-- C37, at the body (0,0,300,400) without scroll and scrolled by (10,20), for a row of two
cells and three calls of `mu_layout_next`. -/
theorem layout_translation_equivariant_witness :
    (Option.map Prod.fst (layout_calls layout_context row_and_three_nexts)
        = some [mu_rect 10 10 30 24, mu_rect 60 10 220 24, mu_rect 10 54 30 24]
      ∧ Option.map Prod.fst (layout_calls scrolled_layout_context row_and_three_nexts)
        = some [mu_rect 0 (-10) 30 24, mu_rect 50 (-10) 220 24, mu_rect 0 34 30 24])
    ∧ ∃ (c2' : mu_Context) (l2 l2' : mu_Layout),
        layout_calls scrolled_layout_context row_and_three_nexts
          = some (((layout_calls layout_context row_and_three_nexts).getD
                ([], layout_context)).1.map
              (move_rect (-10 - (top_layout layout_context).body.x)
                (-20 - (top_layout layout_context).body.y)), c2') ∧
        mu_get_layout ((layout_calls layout_context row_and_three_nexts).getD
          ([], layout_context)).2 = some l2 ∧
        mu_get_layout c2' = some l2' ∧
        l2'.position = l2.position ∧ l2'.next_row = l2.next_row ∧
        l2'.item_index = l2.item_index :=
  ⟨⟨by decide, by decide⟩,
    Exists.imp (fun _ => Exists.imp (fun _ => Exists.imp (fun _ k =>
        ⟨k.1, k.2.1, k.2.2.1, k.2.2.2.1, k.2.2.2.2.1, k.2.2.2.2.2.1⟩)))
      (layout_translation_equivariant layout_context scrolled_layout_context
        (top_layout layout_context) (-10) (-20) row_and_three_nexts _ _
        (by decide) (by decide) (by decide) (by decide) (by decide)
        (some_getD_of_isSome (layout_calls layout_context row_and_three_nexts)
          ([], layout_context) (by decide)))⟩

/-! ### Balance of the four four_stacks -/

theorem stacks_of_only_focus_changed (c c2 : mu_Context) (h : only_focus_changed c c2) :
    four_stacks c2 = four_stacks c := by
  unfold only_focus_changed at h
  rw [h]
  rfl

theorem stacks_update_control (c c2 : mu_Context) (id : Nat) (rect : mu_Rect) (opt : Nat)
    (h : mu_update_control c id rect opt = some c2) : four_stacks c2 = four_stacks c :=
  stacks_of_only_focus_changed c c2 (update_control_frame c c2 id rect opt h)

theorem push_clip_rect_eq (c c1 : mu_Context) (r : mu_Rect)
    (h : mu_push_clip_rect c r = some c1) :
    ∃ x, c1 = { c with clip_stack := c.clip_stack ++ [x] } := by
  unfold mu_push_clip_rect at h
  split at h
  · cases h
  · simp only [Option.some.injEq] at h
    subst h
    exact ⟨_, rfl⟩

theorem pop_clip_rect_eq (c c1 : mu_Context) (h : mu_pop_clip_rect c = some c1) :
    c1 = { c with clip_stack := c.clip_stack.dropLast } := by
  unfold mu_pop_clip_rect pop at h
  split at h
  · cases h
  · rename_i stk hs
    split at hs
    · cases hs
    · simp only [Option.some.injEq] at hs h
      subst hs h
      rfl

theorem stacks_scrollbar (c c2 : mu_Context) (cnt : Nat) (b : mu_Rect) (cs : mu_Vec2)
    (axis : Nat) (h : scrollbar c cnt b cs axis = some c2) : four_stacks c2 = four_stacks c := by
  unfold scrollbar at h
  dsimp only at h
  split at h
  · simp only [Option.some.injEq] at h
    subst h
    rfl
  · split at h
    · cases h
    · rename_i c1 h1
      have e0 := stacks_update_control _ c1 _ _ _ h1
      have e1 : four_stacks c1 = four_stacks c := e0
      split at h
      · cases h
      · split at h
        · cases h
        · split at h
          · cases h
          · rename_i over _
            split at h
            · cases h
            · simp only [Option.some.injEq] at h
              subst h
              split_ifs <;> exact e1

theorem stacks_scrollbars (c c2 : mu_Context) (cnt : Nat) (body body2 : mu_Rect)
    (h : scrollbars c cnt body = some (body2, c2)) : four_stacks c2 = four_stacks c := by
  unfold scrollbars at h
  dsimp only at h
  split at h
  · cases h
  · rename_i c1 h1
    split at h
    · cases h
    · rename_i c3 h3
      split at h
      · cases h
      · rename_i c4 h4
        split at h
        · cases h
        · rename_i c5 h5
          simp only [Option.some.injEq, Prod.mk.injEq] at h
          obtain ⟨_, h6⟩ := h
          subst h6
          obtain ⟨x, e1⟩ := push_clip_rect_eq c c1 _ h1
          have e5 := pop_clip_rect_eq c4 c5 h5
          have e4 : four_stacks c4 = four_stacks c1 :=
            (stacks_scrollbar c3 c4 _ _ _ _ h4).trans (stacks_scrollbar c1 c3 _ _ _ _ h3)
          rw [e1] at e4
          simp only [four_stacks, Prod.mk.injEq] at e4
          obtain ⟨a1, a2, a3, a4⟩ := e4
          rw [e5]
          simp only [four_stacks, Prod.mk.injEq]
          refine ⟨a1, ?_, a3, a4⟩
          rw [a2]
          simp

theorem stacks_layout_row (c c2 : mu_Context) (items : Int) (widths : Option (List Int))
    (height : Int) (h : mu_layout_row c items widths height = some c2) :
    c2 = { c with layout_stack := c2.layout_stack } ∧
      ∃ l, c2.layout_stack = c.layout_stack.dropLast ++ [l] := by
  unfold mu_layout_row at h
  split at h
  · cases h
  · split at h
    · cases h
    · simp only [Option.some.injEq] at h
      subst h
      exact ⟨rfl, _, rfl⟩

theorem stacks_push_layout (c c2 : mu_Context) (body : mu_Rect) (scroll : mu_Vec2)
    (h : push_layout c body scroll = some c2) :
    ∃ l, four_stacks c2 = (c.container_stack, c.clip_stack, c.id_stack, c.layout_stack ++ [l]) := by
  unfold push_layout at h
  dsimp only at h
  have e0 := stacks_layout_row _ c2 _ _ _ h
  obtain ⟨e1, l, e2⟩ := e0
  refine ⟨l, ?_⟩
  rw [e1]
  simp only [four_stacks, Prod.mk.injEq, true_and]
  rw [e2]
  simp [push]

theorem stacks_push_container_body (c c2 : mu_Context) (cnt : Nat) (body : mu_Rect) (opt : Nat)
    (h : push_container_body c cnt body opt = some c2) :
    ∃ l, four_stacks c2 = (c.container_stack, c.clip_stack, c.id_stack, c.layout_stack ++ [l]) := by
  unfold push_container_body at h
  split at h
  · cases h
  · rename_i body1 c1 h1
    have e1 : four_stacks c1 = four_stacks c := by
      split at h1
      · simp only [Option.some.injEq, Prod.mk.injEq] at h1
        rw [← h1.2]
      · exact stacks_scrollbars c c1 cnt body body1 h1
    split at h
    · cases h
    · rename_i c3 h3
      dsimp only at h
      split at h
      · cases h
      · simp only [Option.some.injEq] at h
        subst h
        obtain ⟨l, e3⟩ := stacks_push_layout c1 c3 _ _ h3
        simp only [four_stacks, Prod.mk.injEq] at e1
        obtain ⟨a1, a2, a3, a4⟩ := e1
        rw [a1, a2, a3, a4] at e3
        refine ⟨l, ?_⟩
        split_ifs <;> exact e3

theorem stacks_window_title (c c2 : mu_Context) (cnt : Nat) (title : List uchar)
    (titlerect body body2 : mu_Rect) (opt : Nat)
    (h : window_title c cnt title titlerect body opt = some (body2, c2)) :
    four_stacks c2 = four_stacks c := by
  unfold window_title at h
  dsimp only at h
  split at h
  · cases h
  · rename_i c1 h1
    split at h
    · cases h
    · rename_i c3 h3
      split at h
      · cases h
      · simp only [Option.some.injEq, Prod.mk.injEq] at h
        obtain ⟨_, h4⟩ := h
        subst h4
        have e0 := stacks_update_control _ c1 _ _ _ h1
        have e1 : four_stacks c1 = four_stacks c := e0
        have e3 : c3 = c1 := mu_draw_control_text_eq c1 c3 _ _ _ h3
        subst e3
        split_ifs <;> exact e1

theorem stacks_window_close (c c2 : mu_Context) (cnt : Nat) (titlerect : mu_Rect) (opt : Nat)
    (h : window_close c cnt titlerect opt = some c2) : four_stacks c2 = four_stacks c := by
  unfold window_close at h
  dsimp only at h
  split at h
  · cases h
  · split at h
    · cases h
    · rename_i c1 h1
      split at h
      · cases h
      · simp only [Option.some.injEq] at h
        subst h
        have e0 := stacks_update_control _ c1 _ _ _ h1
        have e1 : four_stacks c1 = four_stacks c := e0
        split_ifs <;> exact e1

theorem stacks_window_resize (c c2 : mu_Context) (cnt : Nat) (rect body body2 : mu_Rect)
    (opt : Nat) (h : window_resize c cnt rect body opt = some (body2, c2)) :
    four_stacks c2 = four_stacks c := by
  unfold window_resize at h
  dsimp only at h
  split at h
  · cases h
  · split at h
    · cases h
    · rename_i c1 h1
      split at h
      · cases h
      · split at h
        · cases h
        · simp only [Option.some.injEq, Prod.mk.injEq] at h
          obtain ⟨_, h4⟩ := h
          subst h4
          have e0 := stacks_update_control _ c1 _ _ _ h1
          have e1 : four_stacks c1 = four_stacks c := e0
          split_ifs <;> exact e1

theorem stacks_get_container (c c2 : mu_Context) (id opt : Nat) (r : Option Nat)
    (h : get_container c id opt = some (r, c2)) : four_stacks c2 = four_stacks c := by
  unfold get_container at h
  dsimp only at h
  split at h
  · simp only [Option.some.injEq, Prod.mk.injEq] at h
    obtain ⟨_, h2⟩ := h
    subst h2
    split_ifs <;> rfl
  · split at h
    · simp only [Option.some.injEq, Prod.mk.injEq] at h
      rw [← h.2]
    · split at h
      · cases h
      · simp only [Option.some.injEq, Prod.mk.injEq] at h
        obtain ⟨_, h2⟩ := h
        subst h2
        rfl

theorem stacks_begin_root_container (c : mu_Context) (cnt : Nat) :
    four_stacks (begin_root_container c cnt)
      = (c.container_stack ++ [cnt], c.clip_stack ++ [unclipped_rect], c.id_stack,
          c.layout_stack) := by
  unfold begin_root_container
  dsimp only
  split_ifs <;> rfl

/-- The function `mu_begin_window_ex` past the early return: it returns `MU_RES_ACTIVE`
and has pushed one container, two clip rectangles, one identity and one layout frame. -/
theorem stacks_begin_window_open (c c2 : mu_Context) (cnt id : Nat) (title : List uchar)
    (rect : mu_Rect) (opt res : Nat)
    (h : begin_window_open c cnt id title rect opt = some (res, c2)) :
    res = MU_RES_ACTIVE ∧
    ∃ x l, four_stacks c2 = (c.container_stack ++ [cnt], c.clip_stack ++ [unclipped_rect, x],
      c.id_stack ++ [id], c.layout_stack ++ [l]) := by
  unfold begin_window_open at h
  dsimp only at h
  have e3 : four_stacks (begin_root_container
      (if (get_cnt (mu_push_id c id) cnt).rect.w = 0 ∨ has_flag opt MU_OPT_FIXED_SIZE = true then
        set_cnt (mu_push_id c id) cnt (fun k => { k with rect := rect })
      else mu_push_id c id) cnt)
      = (c.container_stack ++ [cnt], c.clip_stack ++ [unclipped_rect], c.id_stack ++ [id],
          c.layout_stack) := by
    rw [stacks_begin_root_container]
    split_ifs <;> rfl
  split at h
  · cases h
  · split at h
    · cases h
    · rename_i body1 c5 h5
      have e5 : four_stacks c5
          = (c.container_stack ++ [cnt], c.clip_stack ++ [unclipped_rect], c.id_stack ++ [id],
              c.layout_stack) := by
        split at h5
        · simp only [Option.some.injEq, Prod.mk.injEq] at h5
          rw [← h5.2]
          exact e3
        · split at h5
          · cases h5
          · split at h5
            · cases h5
            · rename_i bodyt c4 h4
              have e4 := stacks_window_title _ c4 _ _ _ _ _ _ h4
              split at h5
              · simp only [Option.some.injEq, Prod.mk.injEq] at h5
                rw [← h5.2, e4]
                exact e3
              · split at h5
                · cases h5
                · rename_i c6 h6
                  simp only [Option.some.injEq, Prod.mk.injEq] at h5
                  rw [← h5.2, stacks_window_close c4 c6 _ _ _ h6, e4]
                  exact e3
      split at h
      · cases h
      · rename_i body2 c6 h6
        have e6 : four_stacks c6
            = (c.container_stack ++ [cnt], c.clip_stack ++ [unclipped_rect], c.id_stack ++ [id],
                c.layout_stack) := by
          split at h6
          · simp only [Option.some.injEq, Prod.mk.injEq] at h6
            rw [← h6.2]
            exact e5
          · rw [stacks_window_resize c5 c6 _ _ _ _ _ h6]
            exact e5
        split at h
        · cases h
        · rename_i c7 h7
          obtain ⟨l, e7⟩ := stacks_push_container_body c6 c7 _ _ _ h7
          simp only [four_stacks, Prod.mk.injEq] at e6
          obtain ⟨a1, a2, a3, a4⟩ := e6
          rw [a1, a2, a3, a4] at e7
          split at h
          · cases h
          · rename_i layout _
            split at h
            · cases h
            · rename_i c10 h10
              simp only [Option.some.injEq, Prod.mk.injEq] at h
              obtain ⟨hres, h11⟩ := h
              subst h11
              refine ⟨hres.symm, ?_⟩
              obtain ⟨x, e10⟩ := push_clip_rect_eq _ c10 _ h10
              refine ⟨x, l, ?_⟩
              rw [e10]
              have e9 : four_stacks
                  (if has_flag opt MU_OPT_POPUP = true ∧
                      (if has_flag opt MU_OPT_AUTOSIZE = true then
                        set_cnt c7 cnt (fun k => { k with
                          rect := { k.rect with
                            w := k.content_size.x + (k.rect.w - layout.body.w)
                            h := k.content_size.y + (k.rect.h - layout.body.h) } })
                      else c7).mouse_pressed ≠ 0 ∧
                      (if has_flag opt MU_OPT_AUTOSIZE = true then
                        set_cnt c7 cnt (fun k => { k with
                          rect := { k.rect with
                            w := k.content_size.x + (k.rect.w - layout.body.w)
                            h := k.content_size.y + (k.rect.h - layout.body.h) } })
                      else c7).hover_root ≠ some cnt then
                    set_cnt
                      (if has_flag opt MU_OPT_AUTOSIZE = true then
                        set_cnt c7 cnt (fun k => { k with
                          rect := { k.rect with
                            w := k.content_size.x + (k.rect.w - layout.body.w)
                            h := k.content_size.y + (k.rect.h - layout.body.h) } })
                      else c7) cnt (fun k => { k with open_ := 0 })
                  else
                    (if has_flag opt MU_OPT_AUTOSIZE = true then
                      set_cnt c7 cnt (fun k => { k with
                        rect := { k.rect with
                          w := k.content_size.x + (k.rect.w - layout.body.w)
                          h := k.content_size.y + (k.rect.h - layout.body.h) } })
                    else c7)) = four_stacks c7 := by
                split_ifs <;> rfl
              rw [e7] at e9
              simp only [four_stacks, Prod.mk.injEq] at e9 ⊢
              obtain ⟨b1, b2, b3, b4⟩ := e9
              refine ⟨b1, ?_, b3, b4⟩
              rw [b2]
              simp

theorem stacks_begin_window_ex (c c2 : mu_Context) (title : List uchar) (rect : mu_Rect)
    (opt res : Nat) (h : mu_begin_window_ex c title rect opt = some (res, c2)) :
    (res = 0 ∧ four_stacks c2 = four_stacks c) ∨
    (res = MU_RES_ACTIVE ∧
      ∃ cnt id x l, four_stacks c2 = (c.container_stack ++ [cnt],
        c.clip_stack ++ [unclipped_rect, x], c.id_stack ++ [id], c.layout_stack ++ [l])) := by
  unfold mu_begin_window_ex at h
  dsimp only at h
  split at h
  · cases h
  · rename_i c1 h1
    simp only [Option.some.injEq, Prod.mk.injEq] at h
    left
    refine ⟨h.1.symm, ?_⟩
    rw [← h.2]
    have e0 := stacks_get_container _ c1 _ _ _ h1
    exact e0
  · rename_i cnt c1 h1
    have e0 := stacks_get_container _ c1 _ _ _ h1
    have e1 : four_stacks c1 = four_stacks c := e0
    split at h
    · simp only [Option.some.injEq, Prod.mk.injEq] at h
      left
      refine ⟨h.1.symm, ?_⟩
      rw [← h.2]
      exact e1
    · right
      obtain ⟨hres, x, l, e2⟩ := stacks_begin_window_open c1 c2 _ _ _ _ _ _ h
      simp only [four_stacks, Prod.mk.injEq] at e1
      obtain ⟨a1, a2, a3, a4⟩ := e1
      rw [a1, a2, a3, a4] at e2
      exact ⟨hres, cnt, _, x, l, e2⟩

/-- The layout stack a balanced body leaves: the frames it found under a top frame. -/
theorem balanced_layout_stack (s ls : List mu_Layout) (l : mu_Layout)
    (h1 : s.dropLast = (ls ++ [l]).dropLast) (h2 : s.length = (ls ++ [l]).length) :
    ∃ l2, s = ls ++ [l2] := by
  have hne : s ≠ [] := by
    intro e
    rw [e] at h2
    simp at h2
  refine ⟨s.getLast hne, ?_⟩
  have e := List.dropLast_append_getLast hne
  rw [h1] at e
  simp only [List.dropLast_concat] at e
  exact e.symm

/-- The function `pop_container` on a context with a container, a layout frame and an
identity on top of their stacks: it returns and pops the three. -/
theorem pop_container_pops (c : mu_Context) (cs : List Nat) (cnt : Nat) (ids : List Nat)
    (id : Nat) (ls : List mu_Layout) (l : mu_Layout)
    (hc : c.container_stack = cs ++ [cnt]) (hi : c.id_stack = ids ++ [id])
    (hl : c.layout_stack = ls ++ [l]) :
    ∃ c2, pop_container c = some c2 ∧ four_stacks c2 = (cs, c.clip_stack, ids, ls) := by
  have k1 : mu_get_current_container c = some cnt := by
    unfold mu_get_current_container
    rw [hc]
    simp
  have k2 : mu_get_layout c = some l := by
    unfold mu_get_layout
    rw [hl]
    simp
  have k3 : c.id_stack.getLast? = some id := by
    rw [hi]
    simp
  rw [pop_container_content_size c cnt l id k1 k2 k3]
  refine ⟨_, rfl, ?_⟩
  simp only [four_stacks, Prod.mk.injEq]
  rw [hc, hi, hl]
  refine ⟨by simp, rfl, by simp, by simp⟩

theorem pop_clip_rect_pops (c : mu_Context) (clip : List mu_Rect) (x : mu_Rect)
    (h : c.clip_stack = clip ++ [x]) :
    mu_pop_clip_rect c = some { c with clip_stack := clip } := by
  unfold mu_pop_clip_rect pop
  rw [h]
  simp

/-- The function `mu_end_window` on a context with a container, two clip rectangles, an
identity and a layout frame on top of the stacks: it returns and pops them. -/
theorem end_window_pops (c : mu_Context) (cs : List Nat) (cnt : Nat) (clip : List mu_Rect)
    (a b : mu_Rect) (ids : List Nat) (id : Nat) (ls : List mu_Layout) (l : mu_Layout)
    (h : four_stacks c = (cs ++ [cnt], clip ++ [a, b], ids ++ [id], ls ++ [l])) :
    ∃ c2, mu_end_window c = some c2 ∧ four_stacks c2 = (cs, clip, ids, ls) := by
  simp only [four_stacks, Prod.mk.injEq] at h
  obtain ⟨h1, h2, h3, h4⟩ := h
  have hclip : c.clip_stack = (clip ++ [a]) ++ [b] := by
    rw [h2]
    simp
  have p1 := pop_clip_rect_pops c (clip ++ [a]) b hclip
  have p2 := pop_clip_rect_pops { c with clip_stack := clip ++ [a] } clip a rfl
  have k1 : mu_get_current_container { c with clip_stack := clip ++ [a] } = some cnt := by
    unfold mu_get_current_container
    show c.container_stack.getLast? = some cnt
    rw [h1]
    simp
  obtain ⟨c2, p3, e3⟩ := pop_container_pops { c with clip_stack := clip } cs cnt ids id ls l
    h1 h3 h4
  refine ⟨c2, ?_, e3⟩
  unfold mu_end_window
  rw [p1]
  dsimp only
  unfold end_root_container
  rw [k1]
  dsimp only
  rw [p2]
  exact p3

/-- The function `mu_end_panel` on a context with a container, a clip rectangle, an
identity and a layout frame on top of the stacks: it returns and pops them. -/
theorem end_panel_pops (c : mu_Context) (cs : List Nat) (cnt : Nat) (clip : List mu_Rect)
    (a : mu_Rect) (ids : List Nat) (id : Nat) (ls : List mu_Layout) (l : mu_Layout)
    (h : four_stacks c = (cs ++ [cnt], clip ++ [a], ids ++ [id], ls ++ [l])) :
    ∃ c2, mu_end_panel c = some c2 ∧ four_stacks c2 = (cs, clip, ids, ls) := by
  simp only [four_stacks, Prod.mk.injEq] at h
  obtain ⟨h1, h2, h3, h4⟩ := h
  have p1 := pop_clip_rect_pops c clip a h2
  obtain ⟨c2, p3, e3⟩ := pop_container_pops { c with clip_stack := clip } cs cnt ids id ls l
    h1 h3 h4
  refine ⟨c2, ?_, e3⟩
  unfold mu_end_panel
  rw [p1]
  exact p3

theorem style_get_container (c c2 : mu_Context) (id opt : Nat) (r : Option Nat)
    (h : get_container c id opt = some (r, c2)) : c2.style = c.style := by
  unfold get_container at h
  dsimp only at h
  split at h
  · simp only [Option.some.injEq, Prod.mk.injEq] at h
    obtain ⟨_, h2⟩ := h
    subst h2
    split_ifs <;> rfl
  · split at h
    · simp only [Option.some.injEq, Prod.mk.injEq] at h
      rw [← h.2]
    · split at h
      · cases h
      · simp only [Option.some.injEq, Prod.mk.injEq] at h
        obtain ⟨_, h2⟩ := h
        subst h2
        rfl

/-- The function `mu_begin_panel_ex`, when it returns, has taken a cell from the frame on
top of the layout stack with `mu_layout_next`, and has pushed one container, one clip
rectangle, one identity and one layout frame. -/
theorem stacks_begin_panel_ex (c c2 : mu_Context) (name : List uchar) (opt : Nat)
    (h : mu_begin_panel_ex c name opt = some c2) :
    ∃ cnt x l lt, mu_get_layout c = some lt ∧
      four_stacks c2 = (c.container_stack ++ [cnt], c.clip_stack ++ [x],
        c.id_stack ++ [(mu_get_id c name).1],
        (c.layout_stack.dropLast ++ [(layout_next_on c.style lt).2]) ++ [l]) := by
  unfold mu_begin_panel_ex at h
  dsimp only at h
  split at h
  · cases h
  · cases h
  · rename_i cnt c1 h1
    have e0 := stacks_get_container _ c1 _ _ _ h1
    have s0 := style_get_container _ c1 _ _ _ h1
    have e1 : four_stacks c1 = (c.container_stack, c.clip_stack,
        c.id_stack ++ [(mu_get_id c name).1], c.layout_stack) := e0
    have s1 : c1.style = c.style := s0
    simp only [four_stacks, Prod.mk.injEq] at e1
    obtain ⟨a1, a2, a3, a4⟩ := e1
    split at h
    · cases h
    · rename_i r c3 h3
      cases hlt : mu_get_layout c1 with
      | none =>
        unfold mu_layout_next at h3
        rw [hlt] at h3
        cases h3
      | some lt =>
        have hn := mu_layout_next_on c1 lt hlt
        rw [hn] at h3
        simp only [Option.some.injEq, Prod.mk.injEq] at h3
        obtain ⟨_, hc3⟩ := h3
        have hlt0 : mu_get_layout c = some lt := by
          unfold mu_get_layout at hlt ⊢
          rw [← a4]
          exact hlt
        split at h
        · cases h
        · split at h
          · cases h
          · rename_i c6 h6
            obtain ⟨l, e6⟩ := stacks_push_container_body _ c6 _ _ _ h6
            obtain ⟨x, e7⟩ := push_clip_rect_eq c6 c2 _ h
            refine ⟨cnt, x, l, lt, hlt0, ?_⟩
            rw [e7]
            simp only [four_stacks, Prod.mk.injEq] at e6 ⊢
            obtain ⟨b1, b2, b3, b4⟩ := e6
            rw [b1, b2, b3, b4, ← hc3]
            simp only [set_cnt, set_layout, push]
            rw [a1, a2, a3, a4, s1]
            simp

theorem balanced_body_stacks (c2 c3 : mu_Context) (cs : List Nat) (clip : List mu_Rect)
    (ids : List Nat) (ls : List mu_Layout) (l : mu_Layout)
    (h2 : four_stacks c2 = (cs, clip, ids, ls ++ [l])) (hb : balanced_body c2 c3) :
    ∃ l3, four_stacks c3 = (cs, clip, ids, ls ++ [l3]) := by
  simp only [four_stacks, Prod.mk.injEq] at h2
  obtain ⟨a1, a2, a3, a4⟩ := h2
  obtain ⟨b1, b2, b3, b4, b5⟩ := hb
  rw [a4] at b4 b5
  obtain ⟨l3, e⟩ := balanced_layout_stack c3.layout_stack ls l b4 b5
  refine ⟨l3, ?_⟩
  simp only [four_stacks, Prod.mk.injEq]
  exact ⟨b1.trans a1, b2.trans a2, b3.trans a3, e⟩

theorem balanced_body_refl (c : mu_Context) : balanced_body c c := ⟨rfl, rfl, rfl, rfl, rfl⟩

/-- C38 (refuted as stated). Inside the window `w` of `window_context` a panel `p` is begun
and ended at once: the container, clip and identity stacks are as before, but the layout
stack is not. Its only frame, the frame of the window, had the cursor (0,0), `item_index`
0 and `next_row` 0 before the panel; after it the cursor is (68,0), `item_index` is 1 and
`next_row` is 44, because `mu_begin_panel_ex` took the rect of the panel from that frame
with `mu_layout_next`. -/
theorem panel_advances_parent_frame :
    Option.map (fun c => (c.container_stack, c.clip_stack, c.id_stack))
        (Option.bind (mu_begin_panel_ex window_context [112] 0) mu_end_panel)
      = some (window_context.container_stack, window_context.clip_stack,
          window_context.id_stack)
    ∧ Option.map (fun c => decide (c.layout_stack = window_context.layout_stack))
        (Option.bind (mu_begin_panel_ex window_context [112] 0) mu_end_panel) = some false
    ∧ window_context.layout_stack.map (fun l => (l.position, l.item_index, l.next_row))
      = [(mu_vec2 0 0, 0, 0)]
    ∧ Option.map (fun c => c.layout_stack.map (fun l => (l.position, l.item_index, l.next_row)))
        (Option.bind (mu_begin_panel_ex window_context [112] 0) mu_end_panel)
      = some [(mu_vec2 68 0, 1, 44)] := by
  refine ⟨by decide, by decide, by decide, by decide⟩

/-- C38 (amended): container begin and end calls keep the four stacks balanced. When
`mu_begin_window_ex` returns 0 the container, clip, identity and layout stacks are
unchanged; when it returns `MU_RES_ACTIVE`, a balanced body followed by `mu_end_window`
restores all four stacks to their contents before the begin call. For `mu_begin_panel_ex`
with `mu_end_panel` the container, clip and identity stacks are restored to their contents,
and the layout stack to the frames it held with the top frame as `mu_layout_next` left it
when the panel took its rect from it. -/
theorem container_stacks_balanced (ctx : mu_Context) (title : List uchar) (rect : mu_Rect)
    (opt res : Nat) (c2 : mu_Context)
    (h : mu_begin_window_ex ctx title rect opt = some (res, c2)) :
    (res = 0 ∨ res = MU_RES_ACTIVE) ∧
    (res = 0 → four_stacks c2 = four_stacks ctx) ∧
    (res = MU_RES_ACTIVE → ∀ c3, balanced_body c2 c3 →
      ∃ c4, mu_end_window c3 = some c4 ∧ four_stacks c4 = four_stacks ctx) ∧
    (∀ (name : List uchar) (popt : Nat) (p2 : mu_Context),
      mu_begin_panel_ex ctx name popt = some p2 → ∀ p3, balanced_body p2 p3 →
        ∃ p4 lt, mu_end_panel p3 = some p4 ∧ mu_get_layout ctx = some lt ∧
          four_stacks p4 = (ctx.container_stack, ctx.clip_stack, ctx.id_stack,
            ctx.layout_stack.dropLast ++ [(layout_next_on ctx.style lt).2])) := by
  have hact : MU_RES_ACTIVE ≠ 0 := by decide
  refine ⟨?_, ?_, ?_, ?_⟩
  · rcases stacks_begin_window_ex ctx c2 title rect opt res h with k | k
    · exact Or.inl k.1
    · exact Or.inr k.1
  · intro h0
    rcases stacks_begin_window_ex ctx c2 title rect opt res h with k | k
    · exact k.2
    · exact absurd (k.1.symm.trans h0) hact
  · intro h1 c3 hb
    rcases stacks_begin_window_ex ctx c2 title rect opt res h with k | k
    · exact absurd (h1.symm.trans k.1) hact
    · obtain ⟨_, cnt, id, x, l, e⟩ := k
      obtain ⟨l3, e3⟩ := balanced_body_stacks c2 c3 _ _ _ _ _ e hb
      exact end_window_pops c3 _ cnt _ unclipped_rect x _ id _ l3 e3
  · intro name popt p2 hp p3 hb
    obtain ⟨cnt, x, l, lt, hlt, e⟩ := stacks_begin_panel_ex ctx p2 name popt hp
    obtain ⟨l3, e3⟩ := balanced_body_stacks p2 p3 _ _ _ _ _ e hb
    obtain ⟨p4, hp4, e4⟩ := end_panel_pops p3 _ cnt _ x _ _ _ l3 e3
    exact ⟨p4, lt, hp4, hlt, e4⟩

/-- C38, at `window_context`: a window `x` begun inside it returns `MU_RES_ACTIVE`, and
`mu_end_window` right after it restores the four stacks. -/
theorem container_stacks_balanced_witness :
    Option.map Prod.fst (mu_begin_window_ex window_context [120] (mu_rect 10 10 50 50) 0)
      = some MU_RES_ACTIVE
    ∧ ∃ c4, mu_end_window
          ((mu_begin_window_ex window_context [120] (mu_rect 10 10 50 50) 0).getD
            (0, window_context)).2 = some c4
        ∧ four_stacks c4 = four_stacks window_context :=
  ⟨by decide,
    (container_stacks_balanced window_context [120] (mu_rect 10 10 50 50) 0 _ _
      (some_getD_of_isSome
        (mu_begin_window_ex window_context [120] (mu_rect 10 10 50 50) 0)
        (0, window_context) (by decide))).2.2.1 (by decide) _ (balanced_body_refl _)⟩

/-- C28 (counterexample on storage an earlier context left behind): the constructor behind
`mu_init` writes neither `containers` nor `container_pool`, so on `stale_storage` the fresh
context has `last_zindex` 0 and a container with the z-index 5. After a first frame with the
windows `a` and `b` in which `b` is brought to the front, `b` has the z-index 2 and `a`,
found in the pool by its identity, still has 5, above `last_zindex` 2; `mu_end` leaves the
root list `[1, 0]`, the window `b` first and not last. On storage that reads as zero the same
calls give the z-indexes 1 and 3 and the root list `[0, 1]`, the window `b` last. -/
theorem zorder_broken_on_stale_storage :
    ((mu_init stale_storage).last_zindex = 0
      ∧ ((mu_init stale_storage).containers.take 2).map (fun c => c.zindex) = [5, 0])
    ∧ (run_apis (mu_init stale_storage) front_b_calls).map
        (fun c => (c.root_list, c.last_zindex, (c.containers.take 2).map (fun k => k.zindex)))
      = some ([0, 1], 2, [5, 2])
    ∧ ((run_apis (mu_init stale_storage) front_b_calls).bind mu_end).map
        (fun c => (c.root_list, c.last_zindex, (c.containers.take 2).map (fun k => k.zindex)))
      = some ([1, 0], 2, [5, 2])
    ∧ ((run_apis (mu_init zeroed_storage) front_b_calls).bind mu_end).map
        (fun c => (c.root_list, c.last_zindex, (c.containers.take 2).map (fun k => k.zindex)))
      = some ([0, 1], 3, [1, 3]) := by
  refine ⟨by decide, by decide, by decide, by decide⟩

set_option maxRecDepth 4096 in
/-- C35 (the code deviates): the window `q` (identity 4094444124) is declared before the
window `p` (identity 4111221743), each with a key-down handler of its scope. The widget 1002
of `p` is clicked and holds focus, with the focus stack `[p]`; then the widget 1001 of `q`
is pressed and takes focus, with the focus stack `[q]` and `last_focus` 1002; 1001 is not
declared in the next frame, so `mu_end` clears `focus`. At the `mu_end` of the frame with
the key-down event the key target is `last_focus`, the widget 1002 of `p`, and the focus
stack is still `[q]`: the handler of `q` is called and the handler of `p` is not. -/
theorem key_handler_of_stale_scope :
    (mu_get_id fresh_context [113]).1 = 4094444124
    ∧ (mu_get_id fresh_context [112]).1 = 4111221743
    ∧ (run_apis fresh_context (stale_scope_calls.take 33)).map
        (fun c => (c.focus, c.last_focus, c.focus_stack)) = some (1002, 0, [4111221743])
    ∧ (run_apis fresh_context (stale_scope_calls.take 73)).map
        (fun c => (c.focus, c.last_focus, c.focus_stack)) = some (1001, 1002, [4094444124])
    ∧ (run_apis fresh_context stale_scope_calls).map
        (fun c => (c.focus, c.last_focus, c.focus_stack)) = some (0, 1002, [4094444124])
    ∧ (run_apis fresh_context stale_scope_calls).map
        (fun c => c.event_handlers.map (fun h => (h.container_id, h.type)))
        = some [(4094444124, KEYDOWN), (4111221743, KEYDOWN)]
    ∧ (run_apis fresh_context stale_scope_calls).map called_scopes
        = some [(KEYDOWN, [4094444124])] := by
  refine ⟨by decide, by decide, by decide, by decide, by decide, by decide, by decide⟩

end Microui
